import Mathlib

/-! # R-FLOV router: power-gating state machine, handshakes and fly-over step

A shallow embedding of `RFLOVRouter` (booksim2/src/routers/rflov_router.cpp).

Conventions of the embedding.

* A member function becomes a function from the router record to
  `Option RouterState`; `none` stands for an aborted call: a failed `assert`,
  an access past the end of a `std::vector`, a division by zero, or a
  `resize` with a negative length.
* C++ `int` is `Int` (unbounded: the counters of the source are far from the
  limits of `int`), `/` and `%` are `Int.tdiv` and `Int.tmod`, which round
  towards zero as C++ does.
* `std::vector` is `List`, `std::map<int, T>` is a list of pairs kept in key
  order, `std::set<int>` is a sorted list without repetition, `std::deque` and
  `std::queue` are lists with the front at the head.
* The globals `gK` and `gNodes` are passed in a `Globals` record and
  `GetSimTime()` is passed as the argument `now`.
-/

namespace RFLOV

/-! ## Data model -/

/-- Modelled from the spec: the enumeration `ePowerState` is declared in
router.hpp, which is not among the sources; the spec names its four values. -/
inductive ePowerState where
  | power_on
  | draining
  | power_off
  | wakeup
  deriving DecidableEq, Repr, Inhabited

/-- Modelled from the spec: the enumeration `VC::eVCState` is declared in
vc.hpp, which is not among the sources; the spec names its four values. -/
inductive eVCState where
  | idle
  | routing
  | vc_alloc
  | active
  deriving DecidableEq, Repr, Inhabited

/-- The globals `gK` (side of the mesh) and `gNodes` (number of routers). -/
structure Globals where
  gK : Int
  gNodes : Int
  deriving DecidableEq, Repr

/-- Record `Handshake` of handshake.hh. `new_state` is an `int` in the
source, holding an `ePowerState` or the negative reset value; here it is
`some st` or `none`. The fields `src_state` and `logical_neighbor` are never
read or written by the router and are left out. -/
structure Handshake where
  new_state : Option ePowerState
  drain_done : Bool
  wakeup : Bool
  id : Int
  hid : Int
  deriving DecidableEq, Repr

/-- Modelled from the spec: `Handshake::New` and `Handshake::Reset` are
defined in handshake.cpp, which is not among the sources. A fresh handshake
carries no state, no drain_done and no wakeup, and its `id` is negative (the
router asserts `id >= 0` once it has filled it in). -/
def Handshake.New : Handshake :=
  { new_state := none, drain_done := false, wakeup := false, id := -1, hid := -1 }

/-- Modelled from the spec: `OutputSet::sSetElement` (outputset.hpp, not among
the sources), a candidate of a route set: an output port with a range of VCs
and a priority. -/
structure SetElement where
  vc_start : Int
  vc_end : Int
  pri : Int
  output_port : Int
  deriving DecidableEq, Repr

/-- Modelled from the spec: class `Flit` is declared in flit.hpp, which is not
among the sources; these are the fields of the spec's data model that the
embedded code reads or writes (the class `cl`, the destination `dest`, the
hop counter `hops` and the lookahead route set `la_route_set`, as the list of
its candidates, among them). The type tag and the `watch` flag are left out:
the statements under `f->watch` only print, and the type is read only on the
way to `assert(0)`. -/
structure Flit where
  id : Int
  pid : Int
  vc : Int
  head : Bool
  tail : Bool
  flov_hops : Int
  rtime : Int
  cl : Int := 0
  dest : Int := -1
  hops : Int := 0
  la_route_set : List SetElement := []
  deriving DecidableEq, Repr

/-- Modelled from the spec: class `Credit` (credit.hpp, not among the
sources) carries the set of freed VC indices, `set<int> vc`. -/
structure Credit where
  vc : List Int
  deriving DecidableEq, Repr

/-- Calls that change a downstream `BufferState`. -/
inductive BufCall where
  | TakeBuffer (vc : Int) (tag : Int)
  | ReturnBuffer (vc : Int)
  | SendingFlit (f : Flit)
  | ProcessCredit (c : Credit)
  | ClearCredits
  | FullCredits
  deriving DecidableEq, Repr

/-- Modelled from the spec: class `BufferState` is declared in
buffer_state.hpp, which is not among the sources. The record keeps what the
object reports when a member of the router starts to run and the calls that
were made on it, oldest first: `avail[vc]` is the value of `AvailableFor(vc)`,
`taken` lists the VCs for which `IsAvailableFor` is false, `full` those for
which `IsFullFor` is true, and `occupied` those for which `IsEmptyFor` is
false. -/
structure BufferState where
  avail : List Int
  calls : List BufCall
  taken : List Int := []
  full : List Int := []
  occupied : List Int := []
  deriving DecidableEq, Repr

/-- The value of `dest_buf->AvailableFor(vc)`. -/
def BufferState.AvailableFor (b : BufferState) (vc : Nat) : Option Int :=
  b.avail[vc]?

/-- The value of `dest_buf->IsAvailableFor(vc)`. -/
def BufferState.IsAvailableFor (b : BufferState) (vc : Int) : Bool :=
  !decide (vc ∈ b.taken)

/-- The value of `dest_buf->IsFullFor(vc)`. -/
def BufferState.IsFullFor (b : BufferState) (vc : Int) : Bool :=
  decide (vc ∈ b.full)

/-- The value of `dest_buf->IsEmptyFor(vc)`. -/
def BufferState.IsEmptyFor (b : BufferState) (vc : Int) : Bool :=
  !decide (vc ∈ b.occupied)

/-- Record a call made on a downstream buffer state. -/
def BufferState.call (b : BufferState) (c : BufCall) : BufferState :=
  { b with calls := b.calls ++ [c] }

/-- Modelled from the spec: the per-VC record of `Buffer` (buffer.hpp and
vc.hpp, not among the sources): the VC state, the output port and output VC
assigned by VC allocation (`-1` when none), the candidates of the route
set (`GetRouteSet(vc)->GetSet()`) in the order in which the set is iterated
(`ClearRouteSet` leaves the empty list; `SetRouteSet` and `Route` store a
route set and leave the VC without output port and output VC, which is what
the assertions of source lines 1397-1398 and 1515-1517 say of a VC in state
vc_alloc), and the flits that wait in the VC, front first: `AddFlit` appends,
`RemoveFlit` takes the front, `FrontFlit` is the first element and `Empty`
tells whether there is none. -/
structure VC where
  state : eVCState
  output_port : Int
  output_vc : Int
  route_set : List SetElement := []
  flits : List Flit := []
  deriving DecidableEq, Repr

/-- An input buffer: one record per VC. -/
abbrev Buffer := List VC

/-- An entry of `_crossbar_flits`: `(time, (flit, (input, expanded_output)))`. -/
structure CrossbarItem where
  time : Int
  flit : Flit
  input : Int
  expanded_output : Int
  deriving DecidableEq, Repr

/-- An entry of `_route_vcs`: `(time, (input, vc))`. -/
structure RouteItem where
  time : Int
  input : Nat
  vc : Nat
  deriving DecidableEq, Repr

/-- An entry of `_vc_alloc_vcs`, `_sw_alloc_vcs` or `_sw_hold_vcs`:
`(time, ((input, vc), output))`. -/
structure AllocItem where
  time : Int
  input : Nat
  vc : Nat
  output : Int
  deriving DecidableEq, Repr

/-- An entry of `_proc_credits`: `(time, (credit, output))`. -/
structure CreditItem where
  time : Int
  credit : Credit
  output : Nat
  deriving DecidableEq, Repr

/-- The members of `RFLOVRouter` (and of its bases `IQRouter` and `Router`)
that the power-gating code reads or writes. `output_sinks[o]` is the id of the
router returned by `_output_channels[o]->GetSink()`, or `none` for a channel
without sink router. -/
structure RouterState where
  id : Int
  inputs : Nat
  outputs : Nat
  vcs : Nat
  power_state : ePowerState
  outstanding_requests : Int
  wakeup_signal : Bool
  router_state : Bool
  idle_timer : Int
  drain_timer : Int
  off_timer : Int
  wakeup_timer : Int
  drain_threshold : Int
  bet_threshold : Int
  wakeup_threshold : Int
  drain_tags : List Bool
  drain_done_sent : List Bool
  neighbor_states : List ePowerState
  req_hids : List Int
  resp_hids : List Int
  drain_counter : Int
  drain_timeout_counter : Int
  off_counter : Int
  power_off_cycles : Int
  total_power_off_cycles : Int
  drain_time_q : List Int
  max_drain_time : Int
  min_drain_time : Int
  proc_handshakes : List (Nat × Handshake)
  out_queue_handshakes : List (Nat × Handshake)
  handshake_buffer : List (List Handshake)
  credit_counter : List (List Int)
  next_buf : List BufferState
  buf : List Buffer
  in_queue_flits : List (Nat × Flit)
  crossbar_flits : List CrossbarItem
  route_vcs : List RouteItem
  vc_alloc_vcs : List AllocItem
  sw_hold_vcs : List AllocItem
  sw_alloc_vcs : List AllocItem
  output_buffer : List (List Flit)
  proc_credits : List CreditItem
  out_queue_credits : List (Nat × Credit)
  credit_buffer : List (List Credit)
  active : Bool
  output_sinks : List (Option Int)
  output_speedup : Int
  switch_hold_vc : List Int
  switch_hold_in : List Int
  switch_hold_out : List Int
  vc_rr_offset : List Int

/-! ## Containers -/

/-- Assignment `v[i] = x` on a vector; past the end it aborts. -/
def vecSet {α : Type} (v : List α) (i : Nat) (x : α) : Option (List α) :=
  if i < v.length then some (v.set i x) else none

/-- Lookup in a `std::map`. -/
def mapFind {α : Type} (k : Nat) : List (Nat × α) → Option α
  | [] => none
  | (k', v) :: m => if k' = k then some v else mapFind k m

/-- Whether a key is in a `std::map` (`count(k) != 0`). -/
def mapHas {α : Type} (k : Nat) (m : List (Nat × α)) : Bool :=
  (mapFind k m).isSome

/-- Insertion at the place that keeps the keys in order. -/
def mapPut {α : Type} (k : Nat) (v : α) : List (Nat × α) → List (Nat × α)
  | [] => [(k, v)]
  | (k', v') :: m => if k < k' then (k, v) :: (k', v') :: m else (k', v') :: mapPut k v m

/-- Member `insert(make_pair(k, v))` of `std::map`: a key that is present
keeps its value. -/
def mapInsert {α : Type} (k : Nat) (v : α) (m : List (Nat × α)) : List (Nat × α) :=
  if mapHas k m then m else mapPut k v m

/-- Update through `m[k]->field = ...` of the value stored under `k`. -/
def mapUpdate {α : Type} (k : Nat) (f : α → α) (m : List (Nat × α)) : List (Nat × α) :=
  m.map (fun e => if e.1 = k then (e.1, f e.2) else e)

/-- Member `insert(x)` of `std::set<int>`. -/
def setInsert (x : Int) : List Int → List Int
  | [] => [x]
  | y :: s => if x < y then x :: y :: s else if x = y then y :: s else y :: setInsert x s

/-! ## Topology predicates -/

/-- C++ `a % b`; division by zero aborts. -/
def cmod (a b : Int) : Option Int :=
  if b = 0 then none else some (Int.tmod a b)

/-- C++ `a / b`; division by zero aborts. -/
def cdiv (a b : Int) : Option Int :=
  if b = 0 then none else some (Int.tdiv a b)

/-- Port `out` leaves the mesh: the value of
`(out == 0 && _id % gK == gK-1) || (out == 1 && _id % gK == 0) ||
 (out == 2 && _id / gK == gK-1) || (out == 3 && _id / gK == 0)`
for `gK != 0`. -/
def isBoundary (g : Globals) (id : Int) (out : Nat) : Bool :=
  (out == 0 && Int.tmod id g.gK == g.gK - 1) || (out == 1 && Int.tmod id g.gK == 0) ||
  (out == 2 && Int.tdiv id g.gK == g.gK - 1) || (out == 3 && Int.tdiv id g.gK == 0)

/-- The opposite port of `i` leaves the mesh: the value of
`(i == 0 && _id % gK == 0) || (i == 1 && _id % gK == gK-1) ||
 (i == 2 && _id / gK == 0) || (i == 3 && _id / gK == gK-1)`
for `gK != 0`. -/
def isOppBoundary (g : Globals) (id : Int) (i : Nat) : Bool :=
  (i == 0 && Int.tmod id g.gK == 0) || (i == 1 && Int.tmod id g.gK == g.gK - 1) ||
  (i == 2 && Int.tdiv id g.gK == 0) || (i == 3 && Int.tdiv id g.gK == g.gK - 1)

/-- Evaluation of the boundary condition as the source writes it: `&&` and
`||` evaluate from the left and stop early, so for a port in 0..3 exactly one
`%` or `/` is computed, and none for any other port. -/
def boundary (g : Globals) (id : Int) (out : Nat) : Option Bool :=
  if out = 0 then (cmod id g.gK).map (fun r => r == g.gK - 1)
  else if out = 1 then (cmod id g.gK).map (fun r => r == 0)
  else if out = 2 then (cdiv id g.gK).map (fun r => r == g.gK - 1)
  else if out = 3 then (cdiv id g.gK).map (fun r => r == 0)
  else some false

/-- Evaluation of the mirrored condition of the credit snapshot and of the
credit relay. -/
def oppBoundary (g : Globals) (id : Int) (i : Nat) : Option Bool :=
  if i = 0 then (cmod id g.gK).map (fun r => r == 0)
  else if i = 1 then (cmod id g.gK).map (fun r => r == g.gK - 1)
  else if i = 2 then (cdiv id g.gK).map (fun r => r == 0)
  else if i = 3 then (cdiv id g.gK).map (fun r => r == g.gK - 1)
  else some false

/-- The port a fly-over leaves by: `if (p % 2) --p; else ++p;`. -/
def opposite (p : Nat) : Nat :=
  if p % 2 = 1 then p - 1 else p + 1

/-! ## PowerStateEvaluate -/

/-- The four statements that put a state announcement on port `out`:
`_out_queue_handshakes.insert(make_pair(out, Handshake::New()))`, then
`new_state = st`, `id = _id` and `hid = ++_req_hids[out]` on the stored
handshake. -/
def announceOn (id : Int) (st : ePowerState) (out : Nat) (hids : List Int)
    (oq : List (Nat × Handshake)) : Option (List Int × List (Nat × Handshake)) :=
  match hids[out]? with
  | none => none
  | some r =>
    let oq1 := mapInsert out Handshake.New oq
    some (hids.set out (r + 1),
      mapUpdate out (fun h => { h with new_state := some st, id := id, hid := r + 1 }) oq1)

/-- The loop `for (int out = 0; out < 4; ++out)` that announces the state
`st`, run over the ports of the list. With `skipEdge` the body starts with the
boundary test followed by `continue`; with `tagEdge` that branch first sets
`_drain_tags[out] = true`. The loop works on `_drain_tags`, `_req_hids` and
`_out_queue_handshakes`. -/
def announce (g : Globals) (id : Int) (st : ePowerState) (skipEdge tagEdge : Bool) :
    List Nat → List Bool → List Int → List (Nat × Handshake) →
    Option (List Bool × List Int × List (Nat × Handshake))
  | [], tags, hids, oq => some (tags, hids, oq)
  | out :: rest, tags, hids, oq =>
    match (if skipEdge then boundary g id out else some false) with
    | none => none
    | some true =>
      if tagEdge then
        match vecSet tags out true with
        | none => none
        | some tags1 => announce g id st skipEdge tagEdge rest tags1 hids oq
      else announce g id st skipEdge tagEdge rest tags hids oq
    | some false =>
      match announceOn id st out hids oq with
      | none => none
      | some (hids1, oq1) => announce g id st skipEdge tagEdge rest tags hids1 oq1

/-- The neighbor scan of case `power_on` (source lines 88-102); the result is
`(neighbor_draining, neighbor_off)`. -/
def scanPowerOn (g : Globals) (id : Int) (ns : List ePowerState) :
    List Nat → Option (Bool × Bool)
  | [] => some (false, false)
  | out :: rest =>
    match ns[out]? with
    | none => none
    | some st =>
      if st = ePowerState.draining then some (true, false)
      else if st = ePowerState.power_off ∨ st = ePowerState.wakeup then
        match boundary g id out with
        | none => none
        | some true => scanPowerOn g id ns rest
        | some false => some (false, true)
      else scanPowerOn g id ns rest

/-- The value of `(out == 1 && (_id % gK != 0)) || (out == 3 && (_id / gK != 0))`. -/
def offSide (g : Globals) (id : Int) (out : Nat) : Option Bool :=
  if out = 1 then (cmod id g.gK).map (fun r => r != 0)
  else if out = 3 then (cdiv id g.gK).map (fun r => r != 0)
  else some false

/-- The neighbor scan of case `draining` (source lines 132-147); the result
is `(neighbor_draining, neighbor_off_wakeup)`. -/
def scanDraining (g : Globals) (id : Int) (ns : List ePowerState) :
    List Nat → Option (Bool × Bool)
  | [] => some (false, false)
  | out :: rest =>
    match ns[out]? with
    | none => none
    | some st =>
      if st = ePowerState.draining ∧ (out = 1 ∨ out = 3) then some (true, false)
      else if st = ePowerState.wakeup then some (false, true)
      else if st = ePowerState.power_off then
        match offSide g id out with
        | none => none
        | some true => some (false, true)
        | some false => scanDraining g id ns rest
      else scanDraining g id ns rest

/-- The conjunction `_drain_tags[0] && _drain_tags[1] && _drain_tags[2] &&
_drain_tags[3]`, read from the left up to the first false tag. -/
def tagsAll (tags : List Bool) : List Nat → Option Bool
  | [] => some true
  | i :: rest =>
    match tags[i]? with
    | none => none
    | some false => some false
    | some true => tagsAll tags rest

/-- The inner loop of the drain test: `false` at the first VC that is not
idle (the `break`), `true` when every VC is idle. -/
def vcsIdle (cur_buf : Buffer) : List Nat → Option Bool
  | [] => some true
  | vc :: rest =>
    match cur_buf[vc]? with
    | none => none
    | some v => if v.state ≠ eVCState.idle then some false else vcsIdle cur_buf rest

/-- The loop over `in_port` of the drain test (source lines 152-161), with
`drain_done` as accumulator. -/
def buffersDrained (buf : List Buffer) (vcs : Nat) (output_buffer : List (List Flit)) :
    List Nat → Bool → Option Bool
  | [], drain_done => some drain_done
  | in_port :: rest, drain_done =>
    match buf[in_port]? with
    | none => none
    | some cur_buf =>
      match vcsIdle cur_buf (List.range vcs) with
      | none => none
      | some idle =>
        match output_buffer[in_port]? with
        | none => none
        | some q =>
          buffersDrained buf vcs output_buffer rest (drain_done && idle && q.isEmpty)

/-- The inner loop `assert(cur_buf->GetState(vc) == VC::idle)`. -/
def assertVCsIdle (cur_buf : Buffer) : List Nat → Option Unit
  | [] => some ()
  | vc :: rest =>
    match cur_buf[vc]? with
    | none => none
    | some v => if v.state = eVCState.idle then assertVCsIdle cur_buf rest else none

/-- The loops of cases `power_off` and `wakeup` asserting that every input VC
is idle. -/
def assertBuffersIdle (buf : List Buffer) (vcs : Nat) : List Nat → Option Unit
  | [] => some ()
  | in_port :: rest =>
    match buf[in_port]? with
    | none => none
    | some cur_buf =>
      match assertVCsIdle cur_buf (List.range vcs) with
      | none => none
      | some _ => assertBuffersIdle buf vcs rest

/-- The inner loop of the credit snapshot: `_credit_counter[i][vc] =
dest_buf->AvailableFor(vc)` after `assert(credit_count >= 0)`. -/
def snapshotVCs (dest_buf : BufferState) (i : Nat) :
    List Nat → List (List Int) → Option (List (List Int))
  | [], cc => some cc
  | vc :: rest, cc =>
    match dest_buf.AvailableFor vc with
    | none => none
    | some credit_count =>
      if credit_count < 0 then none
      else
        match cc[i]? with
        | none => none
        | some row =>
          match vecSet row vc credit_count with
          | none => none
          | some row1 => snapshotVCs dest_buf i rest (cc.set i row1)

/-- The credit snapshot taken on the way to `power_off` (source lines
193-203). -/
def snapshot (g : Globals) (id : Int) (next_buf : List BufferState) (vcs : Nat) :
    List Nat → List (List Int) → Option (List (List Int))
  | [], cc => some cc
  | i :: rest, cc =>
    match oppBoundary g id i with
    | none => none
    | some true => snapshot g id next_buf vcs rest cc
    | some false =>
      match next_buf[i]? with
      | none => none
      | some dest_buf =>
        match snapshotVCs dest_buf i (List.range vcs) cc with
        | none => none
        | some cc1 => snapshot g id next_buf vcs rest cc1

/-- The drain-time statistics: `_drain_time_q.push_back(_drain_timer)` and the
updates of `_max_drain_time` and `_min_drain_time`. -/
def recordDrainTime (s : RouterState) (t : Int) : RouterState :=
  { s with
    drain_time_q := s.drain_time_q ++ [t]
    max_drain_time := if s.max_drain_time < t then t else s.max_drain_time
    min_drain_time := if s.min_drain_time > t ∨ s.min_drain_time = -1 then t
                      else s.min_drain_time }

/-- Case `power_on` of the switch (source lines 78-127). -/
def evalPowerOn (g : Globals) (s : RouterState) : Option RouterState :=
  let s1 : RouterState := { s with drain_tags := List.replicate 4 false }
  let s2 : RouterState := if s1.outstanding_requests ≠ 0 then { s1 with idle_timer := 0 } else s1
  if s2.wakeup_signal = true then
    some { s2 with wakeup_signal := false, idle_timer := 0 }
  else if s2.router_state = false then
    if s2.outstanding_requests ≠ 0 then none
    else
      match scanPowerOn g s2.id s2.neighbor_states [0, 1, 2, 3] with
      | none => none
      | some (neighbor_draining, neighbor_off) =>
        if !neighbor_draining && !neighbor_off then
          if s2.out_queue_handshakes.isEmpty = false then none
          else
            match announce g s2.id ePowerState.draining true true [0, 1, 2, 3]
                (List.replicate 4 false) s2.req_hids s2.out_queue_handshakes with
            | none => none
            | some (tags, hids, oq) =>
              some { s2 with
                power_state := ePowerState.draining
                idle_timer := 0
                drain_timer := 0
                drain_counter := s2.drain_counter + 1
                drain_tags := tags
                req_hids := hids
                out_queue_handshakes := oq }
        else some { s2 with idle_timer := 0 }
  else some s2

/-- Case `draining` of the switch (source lines 129-248). -/
def evalDraining (g : Globals) (s : RouterState) : Option RouterState :=
  if s.outstanding_requests ≠ 0 then none
  else
    let s1 : RouterState := { s with drain_timer := s.drain_timer + 1 }
    match scanDraining g s1.id s1.neighbor_states [0, 1, 2, 3] with
    | none => none
    | some (neighbor_draining, neighbor_off_wakeup) =>
      match tagsAll s1.drain_tags [0, 1, 2, 3] with
      | none => none
      | some tags_set =>
        match buffersDrained s1.buf s1.vcs s1.output_buffer (List.range s1.inputs)
            (tags_set && s1.in_queue_flits.isEmpty && s1.crossbar_flits.isEmpty) with
        | none => none
        | some drain_done =>
          if s1.wakeup_signal = true then
            if s1.out_queue_handshakes.isEmpty = false then none
            else
              match announce g s1.id ePowerState.power_on true false [0, 1, 2, 3]
                  (List.replicate 4 false) s1.req_hids s1.out_queue_handshakes with
              | none => none
              | some (tags, hids, oq) =>
                some { s1 with
                  wakeup_signal := false
                  power_state := ePowerState.power_on
                  drain_tags := tags
                  idle_timer := 0
                  drain_timer := 0
                  req_hids := hids
                  out_queue_handshakes := oq }
          else if neighbor_draining || neighbor_off_wakeup then
            if s1.inputs = 0 then none
            else if s1.out_queue_handshakes.isEmpty = false then none
            else
              match announce g s1.id ePowerState.power_on false false [0, 1, 2, 3]
                  (List.replicate (s1.inputs - 1) false) s1.req_hids
                  s1.out_queue_handshakes with
              | none => none
              | some (tags, hids, oq) =>
                some { s1 with
                  power_state := ePowerState.power_on
                  drain_tags := tags
                  req_hids := hids
                  out_queue_handshakes := oq
                  idle_timer := 0
                  drain_timer := 0 }
          else if drain_done then
            match snapshot g s1.id s1.next_buf s1.vcs [0, 1, 2, 3] s1.credit_counter with
            | none => none
            | some cc =>
              if s1.out_queue_handshakes.isEmpty = false then none
              else
                match announce g s1.id ePowerState.power_off true false [0, 1, 2, 3]
                    (List.replicate 4 false) s1.req_hids s1.out_queue_handshakes with
                | none => none
                | some (tags, hids, oq) =>
                  some { recordDrainTime s1 s1.drain_timer with
                    credit_counter := cc
                    power_state := ePowerState.power_off
                    drain_tags := tags
                    off_timer := 0
                    req_hids := hids
                    out_queue_handshakes := oq
                    drain_timer := 0 }
          else if s1.drain_timer > s1.drain_threshold then
            if s1.out_queue_handshakes.isEmpty = false then none
            else
              match announce g s1.id ePowerState.power_on true false [0, 1, 2, 3]
                  (List.replicate 4 false) s1.req_hids s1.out_queue_handshakes with
              | none => none
              | some (tags, hids, oq) =>
                some { recordDrainTime s1 s1.drain_timer with
                  power_state := ePowerState.power_on
                  drain_tags := tags
                  idle_timer := 0
                  req_hids := hids
                  out_queue_handshakes := oq
                  drain_timeout_counter := s1.drain_timeout_counter + 1
                  drain_timer := 0 }
          else some s1

/-- Case `power_off` of the switch (source lines 250-286). -/
def evalPowerOff (g : Globals) (s : RouterState) : Option RouterState :=
  let s1 : RouterState := { s with drain_tags := List.replicate 4 false }
  match assertBuffersIdle s1.buf s1.vcs (List.range s1.inputs) with
  | none => none
  | some _ =>
    let s2 : RouterState := { s1 with
      power_off_cycles := s1.power_off_cycles + 1
      total_power_off_cycles := s1.total_power_off_cycles + 1 }
    if s2.router_state = true then
      let s3 : RouterState := { s2 with off_timer := s2.off_timer + 1 }
      if s3.off_timer ≥ s3.bet_threshold then
        if s3.out_queue_handshakes.isEmpty = false then none
        else
          match announce g s3.id ePowerState.wakeup true true [0, 1, 2, 3]
              (List.replicate 4 false) s3.req_hids s3.out_queue_handshakes with
          | none => none
          | some (tags, hids, oq) =>
            some { s3 with
              wakeup_signal := false
              power_state := ePowerState.wakeup
              wakeup_timer := 0
              off_timer := 0
              off_counter := s3.off_counter + 1
              drain_tags := tags
              req_hids := hids
              out_queue_handshakes := oq }
      else some s3
    else some s2

/-- Case `wakeup` of the switch (source lines 288-315). -/
def evalWakeup (g : Globals) (s : RouterState) : Option RouterState :=
  match assertBuffersIdle s.buf s.vcs (List.range s.inputs) with
  | none => none
  | some _ =>
    match tagsAll s.drain_tags [0, 1, 2, 3] with
    | none => none
    | some tags_set =>
      let drain_done := tags_set && s.in_queue_flits.isEmpty
      let s1 : RouterState := { s with wakeup_timer := s.wakeup_timer + 1 }
      if drain_done = true ∧ s1.wakeup_timer ≥ s1.wakeup_threshold then
        if s1.out_queue_handshakes.isEmpty = false then none
        else
          match announce g s1.id ePowerState.power_on false false [0, 1, 2, 3]
              (List.replicate 4 false) s1.req_hids s1.out_queue_handshakes with
          | none => none
          | some (tags, hids, oq) =>
            some { s1 with
              wakeup_signal := false
              wakeup_timer := 0
              idle_timer := 0
              power_state := ePowerState.power_on
              drain_tags := tags
              req_hids := hids
              out_queue_handshakes := oq }
      else some s1

/-- Member `RFLOVRouter::PowerStateEvaluate` (source lines 66-322). The
`default:` branch of the switch cannot be reached: the four cases cover
`ePowerState`. -/
def PowerStateEvaluate (g : Globals) (s : RouterState) : Option RouterState :=
  if s.outstanding_requests ≠ 0 ∧ s.power_state ≠ ePowerState.power_on then none
  else if s.id ≥ g.gNodes - g.gK ∧ s.power_state ≠ ePowerState.power_on then none
  else
    match s.power_state with
    | ePowerState.power_on => evalPowerOn g s
    | ePowerState.draining => evalDraining g s
    | ePowerState.power_off => evalPowerOff g s
    | ePowerState.wakeup => evalWakeup g s

/-! ## Fly-over step and output queuing -/

/-- Modelled from the spec: `Credit::New` (credit.cpp, not among the sources)
returns a credit with an empty VC set. -/
def Credit.New : Credit :=
  { vc := [] }

/-- The flit loop of `_RFlovStep` (source lines 1615-1652) over the entries of
`_in_queue_flits`; it works on `_next_buf` and `_output_buffer`. The flit is
pushed by pointer and its `flov_hops` is incremented afterwards, so the queued
flit carries the incremented count. -/
def flovFlits (inputs vcs : Nat) :
    List (Nat × Flit) → List BufferState → List (List Flit) →
    Option (List BufferState × List (List Flit))
  | [], nb, ob => some (nb, ob)
  | (input, f) :: rest, nb, ob =>
    if ¬ input < 4 then none
    else if ¬ (0 ≤ f.vc ∧ f.vc < (vcs : Int)) then none
    else
      let output := opposite input
      if ¬ output < 4 then none
      else
        match nb[output]? with
        | none => none
        | some dest_buf =>
          let d1 := if f.head then
              dest_buf.call (BufCall.TakeBuffer f.vc ((vcs : Int) * (inputs : Int)))
            else dest_buf
          let d2 := d1.call (BufCall.SendingFlit f)
          match ob[output]? with
          | none => none
          | some q =>
            flovFlits inputs vcs rest (nb.set output d2)
              (ob.set output (q ++ [{ f with flov_hops := f.flov_hops + 1 }]))

/-- The loop that copies the VCs of a relayed credit into
`_out_queue_credits[input]->vc` (source lines 1704-1713). -/
def relayVCs (vcs : Nat) : List Int → List Int → Option (List Int)
  | [], acc => some acc
  | vc :: rest, acc =>
    if ¬ (0 ≤ vc ∧ vc < (vcs : Int)) then none
    else relayVCs vcs rest (setInsert vc acc)

/-- The credit loop of `_RFlovStep` (source lines 1656-1718); it works on
`_proc_credits`, `_next_buf` and `_out_queue_credits`. -/
def flovCredits (g : Globals) (now : Int) (id : Int) (outputs vcs : Nat) :
    List CreditItem → List BufferState → List (Nat × Credit) →
    Option (List CreditItem × List BufferState × List (Nat × Credit))
  | [], nb, oqc => some ([], nb, oqc)
  | item :: rest, nb, oqc =>
    if now < item.time then some (item :: rest, nb, oqc)
    else if ¬ item.output < outputs then none
    else
      match nb[item.output]? with
      | none => none
      | some dest_buf =>
        let nb1 := nb.set item.output (dest_buf.call (BufCall.ProcessCredit item.credit))
        match oppBoundary g id item.output with
        | none => none
        | some edge =>
          if item.output < 4 ∧ edge = false then
            let input := opposite item.output
            if ¬ input < 4 then none
            else
              let oqc1 := mapInsert input Credit.New oqc
              match mapFind input oqc1 with
              | none => none
              | some c =>
                match relayVCs vcs item.credit.vc c.vc with
                | none => none
                | some vcs1 =>
                  flovCredits g now id outputs vcs rest nb1
                    (mapUpdate input (fun _ => { vc := vcs1 }) oqc1)
          else flovCredits g now id outputs vcs rest nb1 oqc

/-- The inner loop of the credit replay (source lines 1726-1737) for input
`inp` and output `out`; it works on `_credit_counter` and
`_out_queue_credits`. -/
def replayVCs (inp out : Nat) :
    List Nat → List (List Int) → List (Nat × Credit) →
    Option (List (List Int) × List (Nat × Credit))
  | [], cc, oqc => some (cc, oqc)
  | vc :: rest, cc, oqc =>
    match cc[out]? with
    | none => none
    | some row =>
      match row[vc]? with
      | none => none
      | some n =>
        if n > 0 then
          if ¬ inp < 4 then none
          else
            let oqc1 := mapInsert inp Credit.New oqc
            match mapFind inp oqc1 with
            | none => none
            | some c =>
              if (vc : Int) ∈ c.vc then replayVCs inp out rest cc oqc1
              else
                replayVCs inp out rest (cc.set out (row.set vc (n - 1)))
                  (mapUpdate inp (fun c1 => { vc := setInsert (vc : Int) c1.vc }) oqc1)
        else replayVCs inp out rest cc oqc

/-- The credit replay of `_RFlovStep` (source lines 1720-1738). -/
def replay (vcs : Nat) :
    List Nat → List (List Int) → List (Nat × Credit) →
    Option (List (List Int) × List (Nat × Credit))
  | [], cc, oqc => some (cc, oqc)
  | inp :: rest, cc, oqc =>
    match replayVCs inp (opposite inp) (List.range vcs) cc oqc with
    | none => none
    | some (cc1, oqc1) => replay vcs rest cc1 oqc1

/-- Member `RFLOVRouter::_RFlovStep` (source lines 1604-1739). -/
def _RFlovStep (g : Globals) (now : Int) (s : RouterState) : Option RouterState :=
  if ¬ (s.power_state = ePowerState.power_off ∨ s.power_state = ePowerState.wakeup) then none
  else if s.route_vcs.isEmpty = false then none
  else if s.vc_alloc_vcs.isEmpty = false then none
  else if s.sw_hold_vcs.isEmpty = false then none
  else if s.sw_alloc_vcs.isEmpty = false then none
  else if s.crossbar_flits.isEmpty = false then none
  else if s.power_state = ePowerState.power_off ∧ s.off_timer = 1 ∧
      s.in_queue_flits.isEmpty = false then none
  else
    match flovFlits s.inputs s.vcs s.in_queue_flits s.next_buf s.output_buffer with
    | none => none
    | some (nb, ob) =>
      match flovCredits g now s.id s.outputs s.vcs s.proc_credits nb s.out_queue_credits with
      | none => none
      | some (pc, nb1, oqc) =>
        match replay s.vcs [0, 1, 2, 3] s.credit_counter oqc with
        | none => none
        | some (cc, oqc1) =>
          some { s with
            next_buf := nb1
            output_buffer := ob
            in_queue_flits := []
            proc_credits := pc
            credit_counter := cc
            out_queue_credits := oqc1 }

/-- The credit loop of `_OutputQueuing` (source lines 1547-1559). -/
def queueCredits (inputs : Nat) : List (Nat × Credit) → List (List Credit) →
    Option (List (List Credit))
  | [], cb => some cb
  | (input, c) :: rest, cb =>
    if ¬ input < inputs then none
    else if c.vc.isEmpty then none
    else
      match cb[input]? with
      | none => none
      | some q => queueCredits inputs rest (cb.set input (q ++ [c]))

/-- The handshake loop of `_OutputQueuing` (source lines 1563-1575). -/
def queueHandshakes : List (Nat × Handshake) → List (List Handshake) →
    Option (List (List Handshake))
  | [], hb => some hb
  | (output, h) :: rest, hb =>
    if ¬ output < 4 then none
    else if ¬ ((h.new_state.isSome ∨ h.drain_done = true ∨ h.wakeup = true) ∧ h.id ≥ 0) then none
    else
      match hb[output]? with
      | none => none
      | some q => queueHandshakes rest (hb.set output (q ++ [h]))

/-- Member `RFLOVRouter::_OutputQueuing` (source lines 1545-1578). -/
def _OutputQueuing (s : RouterState) : Option RouterState :=
  match queueCredits s.inputs s.out_queue_credits s.credit_buffer with
  | none => none
  | some cb =>
    match queueHandshakes s.out_queue_handshakes s.handshake_buffer with
    | none => none
    | some hb =>
      some { s with
        credit_buffer := cb
        out_queue_credits := []
        handshake_buffer := hb
        out_queue_handshakes := [] }

/-! ## Handshake engine -/

/-- The first half of the loop body of `_HandshakeEvaluate` (source lines
1751-1772): the state that the neighbor on port `output` announces. -/
def noteNeighborState (s : RouterState) (output : Nat) (h : Handshake) : Option RouterState :=
  if h.new_state = some ePowerState.power_off then
    match s.neighbor_states[output]? with
    | none => none
    | some st =>
      if st ≠ ePowerState.draining then none
      else
        match s.drain_done_sent[output]? with
        | none => none
        | some sent =>
          if sent = false then none
          else
            match s.next_buf[output]? with
            | none => none
            | some dest_buf =>
              some { s with
                drain_done_sent := s.drain_done_sent.set output false
                next_buf := s.next_buf.set output (dest_buf.call BufCall.ClearCredits)
                neighbor_states := s.neighbor_states.set output ePowerState.power_off }
  else if h.new_state = some ePowerState.power_on then
    match s.neighbor_states[output]? with
    | none => none
    | some st =>
      if st = ePowerState.wakeup then
        match vecSet s.drain_done_sent output false with
        | none => none
        | some sent =>
          match s.next_buf[output]? with
          | none => none
          | some dest_buf =>
            some { s with
              drain_done_sent := sent
              next_buf := s.next_buf.set output (dest_buf.call BufCall.FullCredits)
              neighbor_states := s.neighbor_states.set output ePowerState.power_on }
      else if st = ePowerState.draining then
        match vecSet s.drain_done_sent output false with
        | none => none
        | some sent =>
          some { s with
            drain_done_sent := sent
            neighbor_states := s.neighbor_states.set output ePowerState.power_on }
      else some s
  else
    match h.new_state with
    | some ePowerState.draining =>
      match vecSet s.drain_done_sent output false with
      | none => none
      | some sent =>
        match vecSet s.neighbor_states output ePowerState.draining with
        | none => none
        | some ns => some { s with drain_done_sent := sent, neighbor_states := ns }
    | some ePowerState.wakeup =>
      match vecSet s.drain_done_sent output false with
      | none => none
      | some sent =>
        match vecSet s.neighbor_states output ePowerState.wakeup with
        | none => none
        | some ns => some { s with drain_done_sent := sent, neighbor_states := ns }
    | _ => some s

/-- The second half of the loop body of `_HandshakeEvaluate` (source lines
1774-1781): the acknowledgement, or else the request id to echo. -/
def noteDrainDone (s : RouterState) (input : Nat) (h : Handshake) : Option RouterState :=
  if h.drain_done = true then
    if s.power_state = ePowerState.power_off then none
    else
      match s.req_hids[input]? with
      | none => none
      | some r =>
        if h.hid = r ∧ (s.power_state = ePowerState.draining ∨
            s.power_state = ePowerState.wakeup) then
          match vecSet s.drain_tags input true with
          | none => none
          | some tags => some { s with drain_tags := tags }
        else some s
  else
    match vecSet s.resp_hids input h.hid with
    | none => none
    | some hids => some { s with resp_hids := hids }

/-- The loop body of `_HandshakeEvaluate` for the handshake `h` received on
port `input` (source lines 1743-1783). -/
def handshakeEvaluateOne (s : RouterState) (input : Nat) (h : Handshake) :
    Option RouterState :=
  if ¬ input < 4 then none
  else
    match noteNeighborState s input h with
    | none => none
    | some s1 => noteDrainDone s1 input h

/-- The loop of `_HandshakeEvaluate` over `_proc_handshakes`, front first. -/
def handshakeEvaluateLoop : List (Nat × Handshake) → RouterState → Option RouterState
  | [], s => some s
  | (input, h) :: rest, s =>
    match handshakeEvaluateOne s input h with
    | none => none
    | some s1 => handshakeEvaluateLoop rest { s1 with proc_handshakes := rest }

/-- Member `RFLOVRouter::_HandshakeEvaluate` (source lines 1741-1786). -/
def _HandshakeEvaluate (s : RouterState) : Option RouterState :=
  handshakeEvaluateLoop s.proc_handshakes s

/-- The loop over `vc` of `_HandshakeResponse` (source lines 1802-1808):
`true` when a VC of the buffer is active with output port `out_port`. -/
def activeTowards (cur_buf : Buffer) (out_port : Nat) : List Nat → Option Bool
  | [] => some false
  | vc :: rest =>
    match cur_buf[vc]? with
    | none => none
    | some v =>
      if v.output_port = (out_port : Int) ∧ v.state = eVCState.active then some true
      else activeTowards cur_buf out_port rest

/-- The loop `for (int i = 1; i < _inputs; ++i)` of `_HandshakeResponse`
(source lines 1799-1809) over the offsets of the list, with `drain_done` as
accumulator; the input port looked at is `(out_port + i) % _inputs`. -/
def inputsDrained (buf : List Buffer) (inputs vcs : Nat) (out_port : Nat) :
    List Nat → Bool → Option Bool
  | [], drain_done => some drain_done
  | i :: rest, drain_done =>
    match buf[(out_port + i) % inputs]? with
    | none => none
    | some cur_buf =>
      match activeTowards cur_buf out_port (List.range vcs) with
      | none => none
      | some found => inputsDrained buf inputs vcs out_port rest (drain_done && !found)

/-- The loop over `_crossbar_flits` of `_HandshakeResponse` (source lines
1812-1823): `false` at the first flit bound for `out_port`. -/
def crossbarDrained (now : Int) (output_speedup : Int) (outputs : Nat) (out_port : Nat) :
    List CrossbarItem → Option Bool
  | [] => some true
  | item :: rest =>
    if ¬ item.time ≤ now then none
    else
      match cdiv item.expanded_output output_speedup with
      | none => none
      | some output =>
        if ¬ (0 ≤ output ∧ output < (outputs : Int)) then none
        else if output = (out_port : Int) then some false
        else crossbarDrained now output_speedup outputs out_port rest

/-- The three tests of `_HandshakeResponse` for `out_port` (source lines
1796-1826); the crossbar and the output buffer are looked at only while
`drain_done` still holds. -/
def responseReady (now : Int) (s : RouterState) (out_port : Nat) : Option Bool :=
  match inputsDrained s.buf s.inputs s.vcs out_port (List.range' 1 (s.inputs - 1)) true with
  | none => none
  | some clear_vcs =>
    if clear_vcs = false then some false
    else
      match crossbarDrained now s.output_speedup s.outputs out_port s.crossbar_flits with
      | none => none
      | some clear_xbar =>
        if clear_xbar = false then some false
        else
          match s.output_buffer[out_port]? with
          | none => none
          | some q => some q.isEmpty

/-- The body of the loop of `_HandshakeResponse` for `out_port` (source lines
1792-1843). -/
def respondOn (now : Int) (s : RouterState) (out_port : Nat) : Option RouterState :=
  match s.neighbor_states[out_port]? with
  | none => none
  | some st =>
    if (st = ePowerState.draining ∨ st = ePowerState.wakeup) ∧
        (s.power_state ≠ ePowerState.draining ∨ s.power_state ≠ ePowerState.wakeup) then
      match s.drain_done_sent[out_port]? with
      | none => none
      | some sent =>
        if sent = true then some s
        else
          match responseReady now s out_port with
          | none => none
          | some drain_done =>
            if drain_done = true then
              match s.output_sinks[out_port]? with
              | none => none
              | some none => none
              | some (some _) =>
                match s.resp_hids[out_port]? with
                | none => none
                | some hid =>
                  some { s with
                    out_queue_handshakes :=
                      mapUpdate out_port
                        (fun h => { h with drain_done := true, id := s.id, hid := hid })
                        (mapInsert out_port Handshake.New s.out_queue_handshakes)
                    drain_done_sent := s.drain_done_sent.set out_port true }
            else some s
    else some s

/-- The loop `for (int out_port = 0; out_port < 4; ++out_port)` of
`_HandshakeResponse`. -/
def respondLoop (now : Int) : List Nat → RouterState → Option RouterState
  | [], s => some s
  | out_port :: rest, s =>
    match respondOn now s out_port with
    | none => none
    | some s1 => respondLoop now rest s1

/-- Member `RFLOVRouter::_HandshakeResponse` (source lines 1788-1845). -/
def _HandshakeResponse (now : Int) (s : RouterState) : Option RouterState :=
  if ¬ (s.power_state = ePowerState.power_on ∨ s.power_state = ePowerState.draining) then none
  else respondLoop now [0, 1, 2, 3] s

/-- Member `RFLOVRouter::_InternalStep` (source lines 327-405). The branch of
a gated router (lines 330-335) and the branch of an inactive router (lines
338-345) are embedded in full. Of the branch of an active router, the
pipeline stages from `_InputQueuing` to `_SwitchUpdate` (lines 347-390) are
the argument `pipeline`, which leaves the value of `activity` in the field
`active`; what follows them (lines 392-401) is embedded. -/
def _InternalStep (pipeline : RouterState → Option RouterState) (g : Globals) (now : Int)
    (s : RouterState) : Option RouterState :=
  if s.power_state = ePowerState.power_off ∨ s.power_state = ePowerState.wakeup then
    match _RFlovStep g now s with
    | none => none
    | some s1 =>
      match _OutputQueuing s1 with
      | none => none
      | some s2 => if s2.out_queue_handshakes.isEmpty = false then none else some s2
  else if s.active = false then
    match _HandshakeResponse now s with
    | none => none
    | some s1 =>
      match _OutputQueuing s1 with
      | none => none
      | some s2 => if s2.out_queue_handshakes.isEmpty = false then none else some s2
  else
    match pipeline s with
    | none => none
    | some s1 =>
      match _HandshakeResponse now s1 with
      | none => none
      | some s2 =>
        match _OutputQueuing { s2 with active := s2.active || !s2.route_vcs.isEmpty } with
        | none => none
        | some s3 => if s3.out_queue_handshakes.isEmpty = false then none else some s3

/-! ## Predicates used in the statements -/

/-- The value of `_buf[in_port]->GetState(vc)`. -/
def GetState (s : RouterState) (in_port vc : Nat) : Option eVCState :=
  (s.buf[in_port]?).bind (fun b => (b[vc]?).map VC.state)

/-- Every VC of every input buffer is idle. -/
def AllInputVCsIdle (s : RouterState) : Prop :=
  ∀ in_port < s.inputs, ∀ vc < s.vcs, GetState s in_port vc = some eVCState.idle

/-- Every output buffer is empty. -/
def OutputBuffersEmpty (s : RouterState) : Prop :=
  ∀ o < s.outputs, s.output_buffer[o]? = some []

/-- All four drain tags are set. -/
def AllDrainTags (s : RouterState) : Prop :=
  ∀ p < 4, s.drain_tags[p]? = some true

/-- The edges of the power-gating state machine. -/
def PowerEdge (a b : ePowerState) : Prop :=
  (a = ePowerState.power_on ∧ b = ePowerState.draining) ∨
  (a = ePowerState.draining ∧ b = ePowerState.power_on) ∨
  (a = ePowerState.draining ∧ b = ePowerState.power_off) ∨
  (a = ePowerState.power_off ∧ b = ePowerState.wakeup) ∨
  (a = ePowerState.wakeup ∧ b = ePowerState.power_on)

/-- The revert condition of a draining router on account of its neighbors: the
neighbor on port 1 or 3 is draining, or some neighbor wakes up, or the neighbor
on a port 1 or 3 that is not a boundary is off. -/
def AdversarialNeighbor (g : Globals) (s : RouterState) : Prop :=
  s.neighbor_states[1]? = some ePowerState.draining ∨
  s.neighbor_states[3]? = some ePowerState.draining ∨
  (∃ p < 4, s.neighbor_states[p]? = some ePowerState.wakeup) ∨
  (isBoundary g s.id 1 = false ∧ s.neighbor_states[1]? = some ePowerState.power_off) ∨
  (isBoundary g s.id 3 = false ∧ s.neighbor_states[3]? = some ePowerState.power_off)

/-- Some neighbor on a port that is not a boundary is recorded as draining,
off or waking up. -/
def InnerNeighborGated (g : Globals) (s : RouterState) : Prop :=
  ∃ p < 4, isBoundary g s.id p = false ∧
    (s.neighbor_states[p]? = some ePowerState.draining ∨
     s.neighbor_states[p]? = some ePowerState.power_off ∨
     s.neighbor_states[p]? = some ePowerState.wakeup)

/-- The condition under which the source gives up a drain attempt in
`power_on`: some neighbor (on any port) is recorded as draining, or a neighbor
on a port that is not a boundary is recorded as off or waking up. -/
def DrainBlocked (g : Globals) (s : RouterState) : Prop :=
  ∃ p < 4, s.neighbor_states[p]? = some ePowerState.draining ∨
    (isBoundary g s.id p = false ∧
      (s.neighbor_states[p]? = some ePowerState.power_off ∨
       s.neighbor_states[p]? = some ePowerState.wakeup))

/-- The drain of a draining router is complete. -/
def DrainComplete (s : RouterState) : Prop :=
  AllDrainTags s ∧ s.in_queue_flits = [] ∧ s.crossbar_flits = [] ∧
  AllInputVCsIdle s ∧ OutputBuffersEmpty s

/-- The handshake queued for port `p` announces state `st` for router `id`
with request id `hid`. -/
def Announces (oq : List (Nat × Handshake)) (p : Nat) (st : ePowerState) (id hid : Int) :
    Prop :=
  ∃ h, mapFind p oq = some h ∧ h.new_state = some st ∧ h.id = id ∧ h.hid = hid

/-- The sizes of the vectors as the constructors of the router set them up,
for a mesh router (as many inputs as outputs, the four mesh ports among
them), and a mesh of a side that is not zero. -/
def WellSized (g : Globals) (s : RouterState) : Prop :=
  g.gK ≠ 0 ∧ s.neighbor_states.length = 4 ∧ s.req_hids.length = 4 ∧
  s.drain_tags.length = 4 ∧ s.inputs = s.outputs ∧ 4 ≤ s.outputs ∧
  s.buf.length = s.inputs ∧ (∀ b ∈ s.buf, b.length = s.vcs) ∧
  s.output_buffer.length = s.outputs ∧ s.next_buf.length = s.outputs ∧
  (∀ b ∈ s.next_buf, b.avail.length = s.vcs ∧ ∀ a ∈ b.avail, 0 ≤ a) ∧
  s.credit_counter.length = s.outputs ∧ (∀ r ∈ s.credit_counter, r.length = s.vcs)

instance (g : Globals) (s : RouterState) : Decidable (WellSized g s) := by
  unfold WellSized; infer_instance

instance (s : RouterState) : Decidable (AllInputVCsIdle s) := by
  unfold AllInputVCsIdle; infer_instance

instance (s : RouterState) : Decidable (OutputBuffersEmpty s) := by
  unfold OutputBuffersEmpty; infer_instance

instance (s : RouterState) : Decidable (AllDrainTags s) := by
  unfold AllDrainTags; infer_instance

instance (a b : ePowerState) : Decidable (PowerEdge a b) := by
  unfold PowerEdge; infer_instance

instance (g : Globals) (s : RouterState) : Decidable (AdversarialNeighbor g s) := by
  unfold AdversarialNeighbor; infer_instance

instance (g : Globals) (s : RouterState) : Decidable (InnerNeighborGated g s) := by
  unfold InnerNeighborGated; infer_instance

instance (g : Globals) (s : RouterState) : Decidable (DrainBlocked g s) := by
  unfold DrainBlocked; infer_instance

instance (s : RouterState) : Decidable (DrainComplete s) := by
  unfold DrainComplete; infer_instance

/-- The state of a gated router that the source asserts: every input VC idle,
no crossbar flit, no entry on `_route_vcs`, `_vc_alloc_vcs`, `_sw_alloc_vcs`. -/
def Quiescent (s : RouterState) : Prop :=
  AllInputVCsIdle s ∧ s.crossbar_flits = [] ∧ s.route_vcs = [] ∧
  s.vc_alloc_vcs = [] ∧ s.sw_alloc_vcs = []

instance (s : RouterState) : Decidable (Quiescent s) := by
  unfold Quiescent; infer_instance

/-- What one pass of the announcing loop leaves in `_out_queue_handshakes` for
port `p`, whose request id was `r`: nothing when the port is skipped
(`skipped`), else a fresh handshake with the three fields filled in. -/
def sentOn (id : Int) (st : ePowerState) (skipped : Bool) (p : Nat) (r : Int) :
    List (Nat × Handshake) :=
  if skipped then []
  else [(p, { Handshake.New with new_state := some st, id := id, hid := r + 1 })]

/-- What one pass of the announcing loop over the ports 0..3 leaves in
`_out_queue_handshakes`, starting from an empty map, when the request ids
were `r0 .. r3`. -/
def sentAll (g : Globals) (id : Int) (st : ePowerState) (skipEdge : Bool)
    (r0 r1 r2 r3 : Int) : List (Nat × Handshake) :=
  sentOn id st (skipEdge && isBoundary g id 0) 0 r0 ++
  sentOn id st (skipEdge && isBoundary g id 1) 1 r1 ++
  sentOn id st (skipEdge && isBoundary g id 2) 2 r2 ++
  sentOn id st (skipEdge && isBoundary g id 3) 3 r3

/-- The request ids after one pass of the announcing loop over the ports
0..3. -/
def hidsNext (g : Globals) (id : Int) (skipEdge : Bool) (r0 r1 r2 r3 : Int) : List Int :=
  [if (skipEdge && isBoundary g id 0) = true then r0 else r0 + 1,
   if (skipEdge && isBoundary g id 1) = true then r1 else r1 + 1,
   if (skipEdge && isBoundary g id 2) = true then r2 else r2 + 1,
   if (skipEdge && isBoundary g id 3) = true then r3 else r3 + 1]

/-- The ports for which `_out_queue_handshakes` holds a handshake, in key
order. -/
def queuedPorts (s : RouterState) : List Nat :=
  s.out_queue_handshakes.map Prod.fst

/-- The vectors of `_credit_counter`: `n` rows of `m` entries. -/
def RowsSized (cc : List (List Int)) (n m : Nat) : Prop :=
  cc.length = n ∧ ∀ r ∈ cc, r.length = m

/-- The second state has the input VCs, the crossbar and the work-lists of
the first. -/
def SamePipeline (s s' : RouterState) : Prop :=
  s'.inputs = s.inputs ∧ s'.vcs = s.vcs ∧ s'.buf = s.buf ∧
  s'.crossbar_flits = s.crossbar_flits ∧ s'.route_vcs = s.route_vcs ∧
  s'.vc_alloc_vcs = s.vc_alloc_vcs ∧ s'.sw_hold_vcs = s.sw_hold_vcs ∧
  s'.sw_alloc_vcs = s.sw_alloc_vcs

/-- The router is gated: off or waking up. -/
def Gated (s : RouterState) : Prop :=
  s.power_state = ePowerState.power_off ∨ s.power_state = ePowerState.wakeup

instance (s : RouterState) : Decidable (Gated s) := by
  unfold Gated; infer_instance

/-- A pipeline argument for `_InternalStep` for the calls in which the
pipeline stages are not run (gated or inactive router). -/
def noPipeline (_ : RouterState) : Option RouterState :=
  none

/-! ## Predicates of the handshake statements -/

/-- The condition under which a received handshake sets a drain tag: it
carries drain_done, its hid is the request id of the port, and the router is
draining or waking up. -/
def AckMatches (s : RouterState) (p : Nat) (h : Handshake) : Prop :=
  h.drain_done = true ∧ s.req_hids[p]? = some h.hid ∧
    (s.power_state = ePowerState.draining ∨ s.power_state = ePowerState.wakeup)

instance (s : RouterState) (p : Nat) (h : Handshake) : Decidable (AckMatches s p h) := by
  unfold AckMatches; infer_instance

/-- The states that a router reaches from a state with all drain tags false
by calls of `PowerStateEvaluate`, by the processing of received handshakes in
`_HandshakeEvaluate`, and by the other members, which write neither
`_drain_tags`, `_power_state`, `_id` nor `_req_hids`. The list is a history
variable: the ports on which a drain_done whose hid equalled `req_hids[p]` was
received while the router was draining or waking up, since it entered its
current power state. -/
inductive Reachable (g : Globals) : RouterState → List Nat → Prop where
  | init (s : RouterState) (h : ∀ p : Nat, s.drain_tags[p]? ≠ some true) : Reachable g s []
  | evaluate (s s' : RouterState) (acked : List Nat) (hr : Reachable g s acked)
      (h : PowerStateEvaluate g s = some s') :
      Reachable g s' (if s'.power_state = s.power_state then acked else [])
  | handshake (s s' : RouterState) (acked : List Nat) (p : Nat) (hs : Handshake)
      (hr : Reachable g s acked) (h : handshakeEvaluateOne s p hs = some s') :
      Reachable g s' (if AckMatches s p hs then p :: acked else acked)
  | other (s s' : RouterState) (acked : List Nat) (hr : Reachable g s acked)
      (h1 : s'.drain_tags = s.drain_tags) (h2 : s'.power_state = s.power_state)
      (h3 : s'.id = s.id) (h4 : s'.req_hids = s.req_hids) : Reachable g s' acked

/-- The value of `_buf[in_port]->GetOutputPort(vc)`. -/
def GetOutputPort (s : RouterState) (in_port vc : Nat) : Option Int :=
  (s.buf[in_port]?).bind (fun b => (b[vc]?).map VC.output_port)

/-- Some VC of input port `in_port` is active with output port `p`. -/
def RoutedTo (s : RouterState) (in_port p : Nat) : Prop :=
  ∃ vc < s.vcs, GetOutputPort s in_port vc = some (p : Int) ∧
    GetState s in_port vc = some eVCState.active

/-- Some flit on the crossbar is destined to output `p`. -/
def CrossbarTo (s : RouterState) (p : Nat) : Prop :=
  ∃ item ∈ s.crossbar_flits, Int.tdiv item.expanded_output s.output_speedup = (p : Int)

/-- The condition for a drain_done on port `p` in the words of the spec: the
neighbor on `p` is draining or waking up, no drain_done was sent yet, no VC of
any input port is active with output port `p`, no crossbar flit is destined to
`p`, and output buffer `p` is empty. -/
def ResponseDueSpec (s : RouterState) (p : Nat) : Prop :=
  (s.neighbor_states[p]? = some ePowerState.draining ∨
    s.neighbor_states[p]? = some ePowerState.wakeup) ∧
  s.drain_done_sent[p]? = some false ∧
  (∀ in_port < s.inputs, ¬ RoutedTo s in_port p) ∧
  ¬ CrossbarTo s p ∧ s.output_buffer[p]? = some []

/-- The condition for a drain_done on port `p` that the source tests: as
`ResponseDueSpec`, but the VCs of input port `p` itself are not looked at. -/
def ResponseDue (s : RouterState) (p : Nat) : Prop :=
  (s.neighbor_states[p]? = some ePowerState.draining ∨
    s.neighbor_states[p]? = some ePowerState.wakeup) ∧
  s.drain_done_sent[p]? = some false ∧
  (∀ in_port < s.inputs, in_port ≠ p → ¬ RoutedTo s in_port p) ∧
  ¬ CrossbarTo s p ∧ s.output_buffer[p]? = some []

/-- What `_HandshakeResponse` relies on: the sizes of the vectors as the
constructors set them up, a sink router behind each of the four mesh ports,
and crossbar entries that pass the assertions of the scan (due by `now`, with
an output of the router). -/
def ResponseSized (now : Int) (s : RouterState) : Prop :=
  4 ≤ s.inputs ∧ 4 ≤ s.outputs ∧ s.buf.length = s.inputs ∧
  (∀ b ∈ s.buf, b.length = s.vcs) ∧
  s.neighbor_states.length = 4 ∧ s.drain_done_sent.length = 4 ∧ s.resp_hids.length = 4 ∧
  s.output_buffer.length = s.outputs ∧ s.output_speedup ≠ 0 ∧
  (∀ item ∈ s.crossbar_flits, item.time ≤ now ∧
    0 ≤ Int.tdiv item.expanded_output s.output_speedup ∧
    Int.tdiv item.expanded_output s.output_speedup < (s.outputs : Int)) ∧
  (∀ p < 4, ((s.output_sinks[p]?).join).isSome = true)

instance (s : RouterState) (in_port p : Nat) : Decidable (RoutedTo s in_port p) := by
  unfold RoutedTo; infer_instance

instance (s : RouterState) (p : Nat) : Decidable (CrossbarTo s p) := by
  unfold CrossbarTo; infer_instance

instance (s : RouterState) (p : Nat) : Decidable (ResponseDueSpec s p) := by
  unfold ResponseDueSpec; infer_instance

instance (s : RouterState) (p : Nat) : Decidable (ResponseDue s p) := by
  unfold ResponseDue; infer_instance

instance (now : Int) (s : RouterState) : Decidable (ResponseSized now s) := by
  unfold ResponseSized; infer_instance

/-- The drain_done handshake is queued on port `p` and recorded as sent: the
handshake carries the response id of the port and the id of the router. -/
def Responded (s s' : RouterState) (p : Nat) : Prop :=
  s'.drain_done_sent[p]? = some true ∧
  ∃ h, mapFind p s'.out_queue_handshakes = some h ∧ h.drain_done = true ∧
    s.resp_hids[p]? = some h.hid ∧ h.id = s.id

/-- Nothing changed for port `p`: neither its entry of `_drain_done_sent` nor
what `_out_queue_handshakes` holds for it. -/
def Unanswered (s s' : RouterState) (p : Nat) : Prop :=
  s'.drain_done_sent[p]? = s.drain_done_sent[p]? ∧
  mapFind p s'.out_queue_handshakes = mapFind p s.out_queue_handshakes

/-- The second state differs from the first in `_out_queue_handshakes` and
`_drain_done_sent` at most. -/
def SameButResponses (s s' : RouterState) : Prop :=
  s' = { s with
    out_queue_handshakes := s'.out_queue_handshakes
    drain_done_sent := s'.drain_done_sent }

/-- A handshake as PowerStateEvaluate queues it: a power state in
`new_state`, neither drain_done nor wakeup. -/
def StateOnly (h : Handshake) : Prop :=
  h.new_state.isSome = true ∧ h.drain_done = false ∧ h.wakeup = false

/-- The handshake carries a power state in `new_state` or drain_done (or
both), and no wakeup. -/
def CarriesField (h : Handshake) : Prop :=
  (h.new_state.isSome = true ∨ h.drain_done = true) ∧ h.wakeup = false

/-- The reading of the spec: exactly one of `new_state` and drain_done is
meaningful. -/
def ExactlyOneField (h : Handshake) : Prop :=
  (h.new_state.isSome = true ∧ h.drain_done = false) ∨
  (h.new_state.isSome = false ∧ h.drain_done = true)

instance (h : Handshake) : Decidable (StateOnly h) := by
  unfold StateOnly; infer_instance

instance (h : Handshake) : Decidable (CarriesField h) := by
  unfold CarriesField; infer_instance

instance (h : Handshake) : Decidable (ExactlyOneField h) := by
  unfold ExactlyOneField; infer_instance

/-- Between two calls of PowerStateEvaluate the other members of the router
leave `_power_state`, `_drain_timer` and `_drain_threshold` as they are: the
first state is the one a call returned, the second the one the next call
starts from. -/
def SameDrainClock (a e : RouterState) : Prop :=
  e.power_state = a.power_state ∧ e.drain_timer = a.drain_timer ∧
  e.drain_threshold = a.drain_threshold

instance (a e : RouterState) : Decidable (SameDrainClock a e) := by
  unfold SameDrainClock; infer_instance

/-- A run with one call of PowerStateEvaluate per cycle: for each cycle, in
order, the state the call starts from and the state it returns. -/
def DrainRun (g : Globals) : List (RouterState × RouterState) → Prop
  | [] => True
  | [c] => PowerStateEvaluate g c.1 = some c.2
  | c :: d :: rest =>
    PowerStateEvaluate g c.1 = some c.2 ∧ SameDrainClock c.2 d.1 ∧ DrainRun g (d :: rest)

/-! ## Switch allocation: the loop body for a granted entry -/

/-- The configuration of the pipeline, members of the base `IQRouter`:
`vc_allocator` tells whether `_vc_allocator` is set (it is null under
piggyback VC allocation), `speculative` is `_speculative`, `input_speedup` is
`_input_speedup`, `hold_switch_for_packet`, `vc_prioritize_empty`,
`output_buffer_size`, `classes` and `routing_delay` are the members of these
names. Modelled from the spec: `lookahead` stands for the routing function
`_rf`, which is not among the sources, as it is called for lookahead routing:
`lookahead router output f` is the route set it gives the flit `f` for the
sink router `router` of the output `output`. The embedding is of a router
without NOQ (`_noq` false): `_UpdateNOQ` is not among the sources. -/
structure AllocConfig where
  vc_allocator : Bool
  speculative : Bool
  input_speedup : Int
  hold_switch_for_packet : Bool := false
  vc_prioritize_empty : Bool := false
  output_buffer_size : Int := -1
  classes : Int := 1
  routing_delay : Int := 1
  lookahead : Int → Nat → Flit → List SetElement := fun _ _ _ => []

/-- The test that computes `back_to_route` on the grant path of
`_SWAllocUpdate` (source lines 1214-1222; the same test stands in
`_VCAllocUpdate`, lines 696-704): the sink router of the output is no memory
controller and is recorded as draining or waking up. -/
def backToRoute (g : Globals) (s : RouterState) (output : Nat) : Option Bool :=
  match s.output_sinks[output]? with
  | none => none
  | some none => some false
  | some (some router) =>
    if router ≥ g.gNodes - g.gK then some false
    else
      match s.neighbor_states[output]? with
      | none => none
      | some st => some (decide (st = ePowerState.draining ∨ st = ePowerState.wakeup))

/-- The statement `_vc_alloc_vcs.erase(...)` of the loop at source lines
1232-1238: the first entry for `(input, vc)` is removed. -/
def eraseFirst (input vc : Nat) : List AllocItem → List AllocItem
  | [] => []
  | item :: rest =>
    if item.input = input ∧ item.vc = vc then rest else item :: eraseFirst input vc rest

/-- The value of `x[i]` for a vector of ints and an int index; none when the
index is outside the vector. -/
def intAt (l : List Int) (i : Int) : Option Int :=
  if i < 0 then none else l[i.toNat]?

/-- The value of `numeric_limits<int>::min()` for the 32-bit `int`. -/
def INT_MIN : Int := -2147483648

/-- Modelled from the spec: `RoundRobinArbiter::Supersedes` (roundrobin_arb.hpp,
not among the sources), the round-robin tie-break of the allocators: a request
at position `input1` with priority `pri1` supersedes one at `input2` with
priority `pri2` when its priority is higher, or equal with `input1` coming
first from `offset` on among `size` positions. It is called with
`size = _vcs`, which is not zero at the call. -/
def Supersedes (input1 pri1 input2 pri2 offset size : Int) : Bool :=
  decide (pri1 > pri2) ||
    (decide (pri1 = pri2) &&
      decide (Int.tmod (input1 - offset + size) size < Int.tmod (input2 - offset + size) size))

/-- The values of `out_vc` in the loop `for(out_vc = vc_start; out_vc <= vc_end;
++out_vc)`. -/
def vcRange (vc_start vc_end : Int) : List Int :=
  (List.range (vc_end - vc_start + 1).toNat).map (fun k => vc_start + (k : Int))

/-- The inner loop of the scan of piggyback VC allocation (source lines
1165-1186) over the output VCs of one candidate with priority `pri`; the pair
is `(match_vc, match_prio)`. -/
def piggybackRange (cfg : AllocConfig) (dest_buf : BufferState) (pri vc_offset vcs : Int) :
    List Int → Int × Int → Option (Int × Int)
  | [], m => some m
  | out_vc :: rest, m =>
    if ¬ (0 ≤ out_vc ∧ out_vc < vcs) then none
    else if (cfg.vc_prioritize_empty && !dest_buf.IsEmptyFor out_vc) = true ∧ ¬ pri ≥ 0 then none
    else
      let vc_prio : Int :=
        if (cfg.vc_prioritize_empty && !dest_buf.IsEmptyFor out_vc) = true then pri + INT_MIN
        else pri
      if dest_buf.IsAvailableFor out_vc = true ∧ dest_buf.IsFullFor out_vc = false ∧
          (m.1 < 0 ∨ Supersedes out_vc vc_prio m.1 m.2 vc_offset vcs = true) then
        piggybackRange cfg dest_buf pri vc_offset vcs rest (out_vc, vc_prio)
      else piggybackRange cfg dest_buf pri vc_offset vcs rest m

/-- The scan of the route set under piggyback VC allocation (source lines
1145-1188): the candidates for the output `output` are looked at in the order
of the set, each with its own range of VCs (the range of a router without
NOQ); the pair is `(match_vc, match_prio)`. -/
def piggybackScan (cfg : AllocConfig) (dest_buf : BufferState) (output vc_offset vcs : Int) :
    List SetElement → Int × Int → Option (Int × Int)
  | [], m => some m
  | e :: rest, m =>
    if e.output_port = output then
      if ¬ (0 ≤ e.vc_start ∧ e.vc_start < vcs) then none
      else if ¬ (0 ≤ e.vc_end ∧ e.vc_end < vcs) then none
      else if ¬ e.vc_end ≥ e.vc_start then none
      else
        match piggybackRange cfg dest_buf e.pri vc_offset vcs (vcRange e.vc_start e.vc_end) m with
        | none => none
        | some m1 => piggybackScan cfg dest_buf output vc_offset vcs rest m1
    else piggybackScan cfg dest_buf output vc_offset vcs rest m

/-- Piggyback VC allocation in `_SWAllocUpdate` (source lines 1130-1189 and
1202) for the front flit `f` of a VC in state vc_alloc with the route set
`route_set`, granted the output `output`, whose downstream state is
`dest_buf`: the value of `match_vc` after `assert(match_vc >= 0)` and the
vector `_vc_rr_offset` after the statement of line 1202. -/
def piggybackVC (cfg : AllocConfig) (s : RouterState) (f : Flit) (output : Int)
    (dest_buf : BufferState) (route_set : List SetElement) : Option (Int × List Int) :=
  if f.head = false then none
  else if ¬ (0 ≤ f.cl ∧ f.cl < cfg.classes) then none
  else
    match intAt s.vc_rr_offset (output * cfg.classes + f.cl) with
    | none => none
    | some vc_offset =>
      match piggybackScan cfg dest_buf output vc_offset (s.vcs : Int) route_set (-1, INT_MIN) with
      | none => none
      | some m =>
        if ¬ m.1 ≥ 0 then none
        else
          match cmod (m.1 + 1) (s.vcs : Int) with
          | none => none
          | some next =>
            some (m.1, s.vc_rr_offset.set (output * cfg.classes + f.cl).toNat next)

/-- The flit `f` as it leaves the input buffer in `_SWAllocUpdate` (source
lines 1273-1309) and in `_SWHoldUpdate` (lines 929-965): the hop counter is
incremented and the VC is the output VC `match_vc`; without routing delay a
head flit is given its lookahead route set, that of the routing function for
the sink router of the output, or the empty set when the output has no sink
router. -/
def sentFlit (cfg : AllocConfig) (s : RouterState) (output : Nat) (f : Flit) (match_vc : Int) :
    Option Flit :=
  let f1 : Flit := { f with hops := f.hops + 1, vc := match_vc }
  if cfg.routing_delay = 0 ∧ f.head = true then
    match s.output_sinks[output]? with
    | none => none
    | some none => some { f1 with la_route_set := [] }
    | some (some router) => some { f1 with la_route_set := cfg.lookahead router output f1 }
  else some f1

/-- The hand-over of the front flit `f` of the input VC `v` to the crossbar in
`_SWAllocUpdate`, with the bookkeeping of the input VC and the `pop_front`
that ends the loop body (source lines 1253-1382 and 1534). `waiting` are the
flits behind `f`, `match_vc` is the output VC, `dest_buf` the downstream state
of the output `output`, and `rr` the vector `_vc_rr_offset`; `v`, `dest_buf`
and `rr` are as the statements before the hand-over left them. -/
def swAllocSend (cfg : AllocConfig) (input vc : Nat) (expanded_input expanded_output : Int)
    (output : Nat) (cur_buf : Buffer) (v : VC) (f : Flit) (waiting : List Flit)
    (dest_buf : BufferState) (match_vc : Int) (rr : List Int) (s : RouterState) :
    Option RouterState :=
  if ¬ (0 ≤ match_vc ∧ match_vc < (s.vcs : Int)) then none
  else
    match sentFlit cfg s output f match_vc with
    | none => none
    | some f1 =>
      let nb1 := s.next_buf.set output (dest_buf.call (BufCall.SendingFlit f1))
      let xb1 := s.crossbar_flits ++
        [({ time := -1, flit := f1, input := expanded_input,
            expanded_output := expanded_output } : CrossbarItem)]
      let oqc1 := mapUpdate input (fun c => { vc := setInsert (vc : Int) c.vc })
        (mapInsert input Credit.New s.out_queue_credits)
      match waiting with
      | [] =>
        some { s with
          vc_rr_offset := rr
          next_buf := nb1
          crossbar_flits := xb1
          out_queue_credits := oqc1
          buf := s.buf.set input
            (cur_buf.set vc
              { v with flits := [], state := if f.tail = true then eVCState.idle else v.state })
          sw_alloc_vcs := s.sw_alloc_vcs.tail }
      | nf :: _ =>
        if nf.vc ≠ (vc : Int) then none
        else if f.tail = true then
          if nf.head = false then none
          else if cfg.routing_delay ≠ 0 then
            some { s with
              vc_rr_offset := rr
              next_buf := nb1
              crossbar_flits := xb1
              out_queue_credits := oqc1
              buf := s.buf.set input
                (cur_buf.set vc { v with flits := waiting, state := eVCState.routing })
              route_vcs := s.route_vcs ++ [{ time := -1, input := input, vc := vc }]
              sw_alloc_vcs := s.sw_alloc_vcs.tail }
          else
            some { s with
              vc_rr_offset := rr
              next_buf := nb1
              crossbar_flits := xb1
              out_queue_credits := oqc1
              buf := s.buf.set input
                (cur_buf.set vc
                  { v with
                    flits := waiting
                    route_set := nf.la_route_set, output_port := -1, output_vc := -1
                    state := eVCState.vc_alloc })
              vc_alloc_vcs :=
                if cfg.vc_allocator = true then
                  s.vc_alloc_vcs ++ [{ time := -1, input := input, vc := vc, output := -1 }]
                else s.vc_alloc_vcs
              sw_alloc_vcs :=
                if cfg.speculative = true then
                  List.tail (s.sw_alloc_vcs ++
                    [({ time := -1, input := input, vc := vc, output := -1 } : AllocItem)])
                else s.sw_alloc_vcs.tail }
        else if cfg.hold_switch_for_packet = true then
          some { s with
            vc_rr_offset := rr
            next_buf := nb1
            crossbar_flits := xb1
            out_queue_credits := oqc1
            buf := s.buf.set input (cur_buf.set vc { v with flits := waiting })
            switch_hold_vc := s.switch_hold_vc.set expanded_input.toNat (vc : Int)
            switch_hold_in := s.switch_hold_in.set expanded_input.toNat expanded_output
            switch_hold_out := s.switch_hold_out.set expanded_output.toNat expanded_input
            sw_hold_vcs :=
              s.sw_hold_vcs ++ [{ time := -1, input := input, vc := vc, output := -1 }]
            sw_alloc_vcs := s.sw_alloc_vcs.tail }
        else
          some { s with
            vc_rr_offset := rr
            next_buf := nb1
            crossbar_flits := xb1
            out_queue_credits := oqc1
            buf := s.buf.set input (cur_buf.set vc { v with flits := waiting })
            sw_alloc_vcs :=
              List.tail (s.sw_alloc_vcs ++
                [({ time := -1, input := input, vc := vc, output := -1 } : AllocItem)]) }

/-- The branch `if(expanded_output >= 0)` of the loop body of
`_SWAllocUpdate` (source lines 1114-1382, with the `pop_front` of line 1534)
for the input VC `v` at `(input, vc)` with the front flit `f` and the flits
`waiting` behind it. The assertions at the head of the loop body are in
`swAllocGrant`. -/
def swGrantBranch (g : Globals) (cfg : AllocConfig) (input vc : Nat) (expanded_output : Int)
    (cur_buf : Buffer) (v : VC) (f : Flit) (waiting : List Flit) (s : RouterState) :
    Option RouterState :=
  match cmod (vc : Int) cfg.input_speedup with
  | none => none
  | some lane =>
    let expanded_input : Int := (input : Int) * cfg.input_speedup + lane
    match intAt s.switch_hold_vc expanded_input, intAt s.switch_hold_in expanded_input,
      intAt s.switch_hold_out expanded_output with
    | some held_vc, some held_in, some held_out =>
      if ¬ held_vc < 0 then none
      else if ¬ held_in < 0 then none
      else if ¬ held_out < 0 then none
      else
        match cdiv expanded_output s.output_speedup with
        | none => none
        | some out =>
          if ¬ (0 ≤ out ∧ out < (s.outputs : Int)) then none
          else
            let output : Nat := out.toNat
            match s.next_buf[output]? with
            | none => none
            | some dest_buf =>
              if cfg.vc_allocator = false ∧ v.state = eVCState.vc_alloc then
                match piggybackVC cfg s f out dest_buf v.route_set with
                | none => none
                | some m =>
                  swAllocSend cfg input vc expanded_input expanded_output output cur_buf
                    { v with state := eVCState.active, output_port := out, output_vc := m.1 }
                    f waiting
                    (dest_buf.call
                      (BufCall.TakeBuffer m.1 ((input : Int) * (s.vcs : Int) + (vc : Int))))
                    m.1 m.2 s
              else if ¬ v.output_port = out then none
              else
                match (if f.head then backToRoute g s output else some false) with
                | none => none
                | some true =>
                  if v.state = eVCState.vc_alloc then
                    if cfg.speculative = false then none
                    else
                      some { s with
                        vc_alloc_vcs := eraseFirst input vc s.vc_alloc_vcs
                        buf := s.buf.set input
                          (cur_buf.set vc { v with route_set := [], state := eVCState.routing })
                        route_vcs := s.route_vcs ++ [{ time := -1, input := input, vc := vc }]
                        sw_alloc_vcs := s.sw_alloc_vcs.tail }
                  else
                    some { s with
                      next_buf := s.next_buf.set output
                        (dest_buf.call (BufCall.ReturnBuffer v.output_vc))
                      buf := s.buf.set input
                        (cur_buf.set vc { v with route_set := [], state := eVCState.routing })
                      route_vcs := s.route_vcs ++ [{ time := -1, input := input, vc := vc }]
                      sw_alloc_vcs := s.sw_alloc_vcs.tail }
                | some false =>
                  swAllocSend cfg input vc expanded_input expanded_output output cur_buf v
                    f waiting dest_buf v.output_vc s.vc_rr_offset s
    | _, _, _ => none

/-- The loop body of `RFLOVRouter::_SWAllocUpdate` for a granted entry
`(time, ((input, vc), expanded_output))` at the front of `_sw_alloc_vcs`
(source lines 1088-1382 and 1534), at cycle `now`: the assertions at the head
of the body, then the branch `if(expanded_output >= 0)`. The result is none
where an assertion fails or a vector is indexed outside its range, and for an
entry without grant, whose branch is `swAllocNoGrant`. -/
def swAllocGrant (g : Globals) (cfg : AllocConfig) (now time : Int) (input vc : Nat)
    (expanded_output : Int) (s : RouterState) : Option RouterState :=
  if now ≠ time then none
  else if ¬ input < s.inputs then none
  else if ¬ vc < s.vcs then none
  else
    match s.buf[input]? with
    | none => none
    | some cur_buf =>
      match cur_buf[vc]? with
      | none => none
      | some v =>
        match v.flits with
        | [] => none
        | f :: waiting =>
          if ¬ (v.state = eVCState.active ∨
              (cfg.speculative = true ∧ v.state = eVCState.vc_alloc)) then none
          else if f.vc ≠ (vc : Int) then none
          else if expanded_output < 0 then none
          else swGrantBranch g cfg input vc expanded_output cur_buf v f waiting s

/-- The calls of `TakeBuffer` recorded on the downstream state of output
`p`. -/
def takenOn (s : RouterState) (p : Nat) : List BufCall :=
  match s.next_buf[p]? with
  | none => []
  | some b => b.calls.filter (fun c => match c with
    | BufCall.TakeBuffer _ _ => true
    | _ => false)

/-- The value of `_credit_counter[p][v]`. -/
def counterAt (cc : List (List Int)) (p v : Nat) : Option Int :=
  (cc[p]?).bind (fun row => row[v]?)

/-- The value of `_next_buf[p]->AvailableFor(v)`. -/
def availableAt (s : RouterState) (p v : Nat) : Option Int :=
  (s.next_buf[p]?).bind (fun b => b.AvailableFor v)

/-- The flits of `_in_queue_flits` that a fly-over hands to output `o`, in
the order of the map, as they stand in the output buffer: `flov_hops` is one
more, every other field is as it arrived. -/
def flownTo (flits : List (Nat × Flit)) (o : Nat) : List Flit :=
  (flits.filter (fun e => opposite e.1 = o)).map
    (fun e => { e.2 with flov_hops := e.2.flov_hops + 1 })

/-- What the flit loop of `_RFlovStep` asserts of the waiting flits and
indexes: input ports 0..3, VCs of the router, and a downstream state and an
output buffer for each of the four ports. -/
def FlitsRelayable (s : RouterState) : Prop :=
  (∀ e ∈ s.in_queue_flits, e.1 < 4 ∧ 0 ≤ e.2.vc ∧ e.2.vc < (s.vcs : Int)) ∧
  4 ≤ s.next_buf.length ∧ 4 ≤ s.output_buffer.length

instance (s : RouterState) : Decidable (FlitsRelayable s) := by
  unfold FlitsRelayable; infer_instance

/-- The VCs of the credit pending for input port `q` in
`_out_queue_credits`; none when no credit is pending for `q`. -/
def pendingVCs (oqc : List (Nat × Credit)) (q : Nat) : List Int :=
  match mapFind q oqc with
  | none => []
  | some c => c.vc

/-- The set of VCs after `insert(v)` for each VC of the list, in order. -/
def insertAll (vcs : List Int) (acc : List Int) : List Int :=
  vcs.foldl (fun a v => setInsert v a) acc

/-- What `_RFlovStep` asserts and indexes: a gated router with empty
work-lists and crossbar, no flit waiting in the first cycle after power-off,
flits and credits that name ports and VCs of the router, a mesh of a side that
is not zero, and vectors of the sizes the constructors give them. -/
def FlovReady (g : Globals) (s : RouterState) : Prop :=
  (s.power_state = ePowerState.power_off ∨ s.power_state = ePowerState.wakeup) ∧
  s.route_vcs = [] ∧ s.vc_alloc_vcs = [] ∧ s.sw_hold_vcs = [] ∧ s.sw_alloc_vcs = [] ∧
  s.crossbar_flits = [] ∧
  ¬ (s.power_state = ePowerState.power_off ∧ s.off_timer = 1 ∧ s.in_queue_flits ≠ []) ∧
  FlitsRelayable s ∧ g.gK ≠ 0 ∧ 4 ≤ s.outputs ∧ s.next_buf.length = s.outputs ∧
  (∀ item ∈ s.proc_credits, item.output < s.outputs ∧
    ∀ v ∈ item.credit.vc, 0 ≤ v ∧ v < (s.vcs : Int)) ∧
  RowsSized s.credit_counter s.outputs s.vcs

instance (cc : List (List Int)) (n m : Nat) : Decidable (RowsSized cc n m) := by
  unfold RowsSized; infer_instance

instance (g : Globals) (s : RouterState) : Decidable (FlovReady g s) := by
  unfold FlovReady; infer_instance

/-- Whether `_credit_counter[p][v] > 0`. -/
def positiveAt (cc : List (List Int)) (p v : Nat) : Bool :=
  match counterAt cc p v with
  | some k => decide (0 < k)
  | none => false

/-! ## VC allocation, and switch allocation for an entry without grant -/

/-- The loop that removes the entries for `(input, vc)` from a work-list
without leaving the loop (source lines 725-733 and 812-821): after
`erase(begin() + i)` the index is incremented all the same, so the entry that
follows an erased one is not looked at. -/
def eraseSkipping (input vc : Nat) : List AllocItem → List AllocItem
  | [] => []
  | item :: rest =>
    if item.input = input ∧ item.vc = vc then
      match rest with
      | [] => []
      | next :: rest1 => next :: eraseSkipping input vc rest1
    else item :: eraseSkipping input vc rest

/-- The scan of the copy `setlist` of the route set (source lines 781-804 in
`_VCAllocUpdate`, 1405-1428 in `_SWAllocUpdate`). `delete_route` is declared
before the loop and only ever set to true; an element is erased from the copy
when `delete_route` is set. The result is what is left of `setlist`. -/
def scanRouteSet (g : Globals) (s : RouterState) :
    List SetElement → Bool → List SetElement → Option (List SetElement)
  | [], _, kept => some kept
  | e :: rest, delete_route, kept =>
    if ¬ (0 ≤ e.output_port ∧ e.output_port < (s.outputs : Int)) then none
    else
      match backToRoute g s e.output_port.toNat with
      | none => none
      | some blocked =>
        if (delete_route || blocked) = true then
          scanRouteSet g s rest (delete_route || blocked) kept
        else scanRouteSet g s rest (delete_route || blocked) (kept ++ [e])

/-- The branch `if(output_and_vc >= 0)` of the loop body of
`RFLOVRouter::_VCAllocUpdate` with the `pop_front` that ends the body (source
lines 688-757 and 846), for the entry `(input, vc, output_and_vc)` at the
front of `_vc_alloc_vcs`. The assertions at the head of the loop body are in
`vcAllocGrant`. -/
def vcGrantBranch (g : Globals) (cfg : AllocConfig) (input vc : Nat) (output_and_vc : Int)
    (s : RouterState) : Option RouterState :=
  if cfg.vc_allocator = false then none
  else
    match cdiv output_and_vc (s.vcs : Int), cmod output_and_vc (s.vcs : Int) with
    | some match_output, some match_vc =>
      if ¬ (0 ≤ match_output ∧ match_output < (s.outputs : Int)) then none
      else if ¬ (0 ≤ match_vc ∧ match_vc < (s.vcs : Int)) then none
      else
        match s.buf[input]? with
        | none => none
        | some cur_buf =>
          match cur_buf[vc]? with
          | none => none
          | some v =>
            match backToRoute g s match_output.toNat with
            | none => none
            | some false =>
              match s.next_buf[match_output.toNat]? with
              | none => none
              | some dest_buf =>
                if dest_buf.IsAvailableFor match_vc = false then none
                else
                some { s with
                  next_buf := s.next_buf.set match_output.toNat
                    (dest_buf.call
                      (BufCall.TakeBuffer match_vc ((input : Int) * (s.vcs : Int) + (vc : Int))))
                  buf := s.buf.set input
                    (cur_buf.set vc
                      { v with
                        output_port := match_output, output_vc := match_vc
                        state := eVCState.active })
                  sw_alloc_vcs :=
                    if cfg.speculative = false then
                      s.sw_alloc_vcs ++ [{ time := -1, input := input, vc := vc, output := -1 }]
                    else s.sw_alloc_vcs
                  vc_alloc_vcs := s.vc_alloc_vcs.tail }
            | some true =>
              some { s with
                buf := s.buf.set input
                  (cur_buf.set vc { v with route_set := [], state := eVCState.routing })
                route_vcs := s.route_vcs ++ [{ time := -1, input := input, vc := vc }]
                sw_alloc_vcs :=
                  if cfg.speculative = true then eraseSkipping input vc s.sw_alloc_vcs
                  else s.sw_alloc_vcs
                vc_alloc_vcs := s.vc_alloc_vcs.tail }
    | _, _ => none

/-- The branch of the loop body of `RFLOVRouter::_VCAllocUpdate` for an entry
without grant (`output_and_vc < 0`), with the `pop_front` that ends the body
(source lines 757-847), for the entry `(input, vc)` at the front of
`_vc_alloc_vcs`. The flit `f` is `cur_buf->FrontFlit(vc)`. The assertions at
the head of the loop body are in `vcAllocNoGrant`. -/
def vcNoGrantBranch (g : Globals) (cfg : AllocConfig) (now : Int) (f : Flit) (input vc : Nat)
    (s : RouterState) : Option RouterState :=
  if cfg.vc_allocator = false then none
  else
    match s.buf[input]? with
    | none => none
    | some cur_buf =>
      match cur_buf[vc]? with
      | none => none
      | some v =>
        match scanRouteSet g s v.route_set false [] with
        | none => none
        | some setlist =>
          if setlist.isEmpty = true then
            some { s with
              buf := s.buf.set input
                (cur_buf.set vc { v with route_set := [], state := eVCState.routing })
              route_vcs := s.route_vcs ++ [{ time := -1, input := input, vc := vc }]
              sw_alloc_vcs :=
                if cfg.speculative = true then eraseSkipping input vc s.sw_alloc_vcs
                else s.sw_alloc_vcs
              vc_alloc_vcs := s.vc_alloc_vcs.tail }
          else if now - f.rtime = 300 then
            some { s with
              buf := s.buf.set input (cur_buf.set vc { v with state := eVCState.routing })
              route_vcs := s.route_vcs ++ [{ time := -1, input := input, vc := vc }]
              sw_alloc_vcs :=
                if cfg.speculative = true then eraseFirst input vc s.sw_alloc_vcs
                else s.sw_alloc_vcs
              vc_alloc_vcs := s.vc_alloc_vcs.tail }
          else
            some { s with
              vc_alloc_vcs :=
                List.tail (s.vc_alloc_vcs ++
                  [({ time := -1, input := input, vc := vc, output := -1 } : AllocItem)]) }

/-- The end of the branch without grant of `_SWAllocUpdate` (source lines
1496-1535): the timeout of a head flit, or else the re-entry on
`_sw_alloc_vcs`, then the `pop_front` that ends the loop body. -/
def swAllocTimeout (now : Int) (f : Flit) (input vc : Nat) (cur_buf : Buffer) (v : VC)
    (s : RouterState) : Option RouterState :=
  if now - f.rtime = 300 ∧ f.head = true then
    if ¬ input < s.inputs then none
    else if ¬ vc < s.vcs then none
    else if v.state = eVCState.active then
      if ¬ (0 ≤ v.output_port ∧ v.output_port < (s.outputs : Int)) then none
      else if ¬ (0 ≤ v.output_vc ∧ v.output_vc < (s.vcs : Int)) then none
      else
        match s.next_buf[v.output_port.toNat]? with
        | none => none
        | some dest_buf =>
          some { s with
            next_buf := s.next_buf.set v.output_port.toNat
              (dest_buf.call (BufCall.ReturnBuffer v.output_vc))
            route_vcs := s.route_vcs ++ [{ time := -1, input := input, vc := vc }]
            buf := s.buf.set input (cur_buf.set vc { v with state := eVCState.routing })
            sw_alloc_vcs := s.sw_alloc_vcs.tail }
    else if v.state ≠ eVCState.vc_alloc then none
    else if v.output_port ≠ -1 then none
    else if v.output_vc ≠ -1 then none
    else
      some { s with
        vc_alloc_vcs := eraseFirst input vc s.vc_alloc_vcs
        route_vcs := s.route_vcs ++ [{ time := -1, input := input, vc := vc }]
        buf := s.buf.set input (cur_buf.set vc { v with state := eVCState.routing })
        sw_alloc_vcs := s.sw_alloc_vcs.tail }
  else
    some { s with
      sw_alloc_vcs :=
        List.tail (s.sw_alloc_vcs ++
          [({ time := -1, input := input, vc := vc, output := -1 } : AllocItem)]) }

/-- The branch of the loop body of `RFLOVRouter::_SWAllocUpdate` for an entry
without grant (`expanded_output < 0`), with the `pop_front` that ends the body
(source lines 1383-1535), for the entry `(input, vc)` at the front of
`_sw_alloc_vcs`. The flit `f` is `cur_buf->FrontFlit(vc)`. The assertions at
the head of the loop body are in `swAllocNoGrant`. -/
def swNoGrantBranch (g : Globals) (cfg : AllocConfig) (now : Int) (f : Flit) (input vc : Nat)
    (s : RouterState) : Option RouterState :=
  match s.buf[input]? with
  | none => none
  | some cur_buf =>
    match cur_buf[vc]? with
    | none => none
    | some v =>
      if f.head = false then swAllocTimeout now f input vc cur_buf v s
      else if v.state = eVCState.vc_alloc then
        if cfg.speculative = false then none
        else if v.output_port ≠ -1 then none
        else if v.output_vc ≠ -1 then none
        else
          match scanRouteSet g s v.route_set false [] with
          | none => none
          | some setlist =>
            if setlist.isEmpty = true then
              some { s with
                vc_alloc_vcs := eraseFirst input vc s.vc_alloc_vcs
                buf := s.buf.set input
                  (cur_buf.set vc { v with route_set := [], state := eVCState.routing })
                route_vcs := s.route_vcs ++ [{ time := -1, input := input, vc := vc }]
                sw_alloc_vcs := s.sw_alloc_vcs.tail }
            else swAllocTimeout now f input vc cur_buf v s
      else if v.state ≠ eVCState.active then none
      else if ¬ (0 ≤ v.output_port ∧ v.output_port < (s.outputs : Int)) then none
      else if ¬ (0 ≤ v.output_vc ∧ v.output_vc < (s.vcs : Int)) then none
      else
        match backToRoute g s v.output_port.toNat with
        | none => none
        | some true =>
          match s.next_buf[v.output_port.toNat]? with
          | none => none
          | some dest_buf =>
            some { s with
              next_buf := s.next_buf.set v.output_port.toNat
                (dest_buf.call (BufCall.ReturnBuffer v.output_vc))
              buf := s.buf.set input
                (cur_buf.set vc { v with route_set := [], state := eVCState.routing })
              route_vcs := s.route_vcs ++ [{ time := -1, input := input, vc := vc }]
              sw_alloc_vcs := s.sw_alloc_vcs.tail }
        | some false => swAllocTimeout now f input vc cur_buf v s


/-- The loop body of `RFLOVRouter::_VCAllocUpdate` for a granted entry
`(time, ((input, vc), output_and_vc))` at the front of `_vc_alloc_vcs` (source
lines 660-757 and 846), at cycle `now`: the assertions at the head of the
body, then the branch `if(output_and_vc >= 0)`. The result is none where an
assertion fails or a vector is indexed outside its range, and for an entry
without grant, whose branch is `vcAllocNoGrant`. -/
def vcAllocGrant (g : Globals) (cfg : AllocConfig) (now time : Int) (input vc : Nat)
    (output_and_vc : Int) (s : RouterState) : Option RouterState :=
  if cfg.vc_allocator = false then none
  else if now ≠ time then none
  else if ¬ input < s.inputs then none
  else if ¬ vc < s.vcs then none
  else if output_and_vc = -1 then none
  else
    match s.buf[input]? with
    | none => none
    | some cur_buf =>
      match cur_buf[vc]? with
      | none => none
      | some v =>
        match v.flits with
        | [] => none
        | f :: _ =>
          if v.state ≠ eVCState.vc_alloc then none
          else if f.vc ≠ (vc : Int) then none
          else if f.head = false then none
          else if output_and_vc < 0 then none
          else vcGrantBranch g cfg input vc output_and_vc s

/-- The loop body of `RFLOVRouter::_VCAllocUpdate` for an entry without grant
at the front of `_vc_alloc_vcs` (source lines 660-686 and 757-847), at cycle
`now`: the assertions at the head of the body, then the branch for
`output_and_vc < 0` with the front flit of the VC. The result is none where an
assertion fails or a vector is indexed outside its range, and for a granted
entry, whose branch is `vcAllocGrant`. -/
def vcAllocNoGrant (g : Globals) (cfg : AllocConfig) (now time : Int) (input vc : Nat)
    (output_and_vc : Int) (s : RouterState) : Option RouterState :=
  if cfg.vc_allocator = false then none
  else if now ≠ time then none
  else if ¬ input < s.inputs then none
  else if ¬ vc < s.vcs then none
  else if output_and_vc = -1 then none
  else
    match s.buf[input]? with
    | none => none
    | some cur_buf =>
      match cur_buf[vc]? with
      | none => none
      | some v =>
        match v.flits with
        | [] => none
        | f :: _ =>
          if v.state ≠ eVCState.vc_alloc then none
          else if f.vc ≠ (vc : Int) then none
          else if f.head = false then none
          else if 0 ≤ output_and_vc then none
          else vcNoGrantBranch g cfg now f input vc s

/-- The loop body of `RFLOVRouter::_SWAllocUpdate` for an entry without grant
at the front of `_sw_alloc_vcs` (source lines 1088-1112 and 1383-1535), at
cycle `now`: the assertions at the head of the body, then the branch for
`expanded_output < 0` with the front flit of the VC. The result is none where
an assertion fails or a vector is indexed outside its range, and for a granted
entry, whose branch is `swAllocGrant`. -/
def swAllocNoGrant (g : Globals) (cfg : AllocConfig) (now time : Int) (input vc : Nat)
    (expanded_output : Int) (s : RouterState) : Option RouterState :=
  if now ≠ time then none
  else if ¬ input < s.inputs then none
  else if ¬ vc < s.vcs then none
  else
    match s.buf[input]? with
    | none => none
    | some cur_buf =>
      match cur_buf[vc]? with
      | none => none
      | some v =>
        match v.flits with
        | [] => none
        | f :: _ =>
          if ¬ (v.state = eVCState.active ∨
              (cfg.speculative = true ∧ v.state = eVCState.vc_alloc)) then none
          else if f.vc ≠ (vc : Int) then none
          else if 0 ≤ expanded_output then none
          else swNoGrantBranch g cfg now f input vc s

/-! ## The other stages that fill the work-lists -/

/-- The body of the flit loop of `RFLOVRouter::_InputQueuing` (source lines
443-520) for the entry `(input, f)` of `_in_queue_flits`, at cycle `now`. The
flit is stamped with `rtime` and added to its VC; `FrontFlit(vc) == f` and
`GetOccupancy(vc) == 1` after `AddFlit` say that the VC was empty before. With
a routing delay the idle VC that takes a head flit goes to route computation;
without, it is given the lookahead route set of the flit and goes to VC
allocation. -/
def inputQueuingFlit (cfg : AllocConfig) (now : Int) (input : Nat) (f : Flit)
    (s : RouterState) : Option RouterState :=
  if ¬ input < s.inputs then none
  else if ¬ (0 ≤ f.vc ∧ f.vc < (s.vcs : Int)) then none
  else
    let vc : Nat := f.vc.toNat
    match s.buf[input]? with
    | none => none
    | some cur_buf =>
      match cur_buf[vc]? with
      | none => none
      | some v =>
        let v1 : VC := { v with flits := v.flits ++ [{ f with rtime := now }] }
        if v.state = eVCState.idle then
          if v.flits ≠ [] then none
          else if f.head = false then none
          else
            match cmod (vc : Int) cfg.input_speedup with
            | none => none
            | some lane =>
              match intAt s.switch_hold_vc ((input : Int) * cfg.input_speedup + lane) with
              | none => none
              | some held_vc =>
                if held_vc = (vc : Int) then none
                else if cfg.routing_delay ≠ 0 then
                  some { s with
                    buf := s.buf.set input
                      (cur_buf.set vc { v1 with state := eVCState.routing })
                    route_vcs := s.route_vcs ++ [{ time := -1, input := input, vc := vc }] }
                else
                  some { s with
                    buf := s.buf.set input
                      (cur_buf.set vc
                        { v1 with
                          route_set := f.la_route_set, output_port := -1, output_vc := -1
                          state := eVCState.vc_alloc })
                    sw_alloc_vcs :=
                      if cfg.speculative = true then
                        s.sw_alloc_vcs ++ [{ time := -1, input := input, vc := vc, output := -1 }]
                      else s.sw_alloc_vcs
                    vc_alloc_vcs :=
                      if cfg.vc_allocator = true then
                        s.vc_alloc_vcs ++ [{ time := -1, input := input, vc := vc, output := -1 }]
                      else s.vc_alloc_vcs }
        else if v.state = eVCState.active ∧ v.flits = [] then
          match cmod (vc : Int) cfg.input_speedup with
          | none => none
          | some lane =>
            match intAt s.switch_hold_vc ((input : Int) * cfg.input_speedup + lane) with
            | none => none
            | some held_vc =>
              if held_vc = (vc : Int) then
                some { s with
                  buf := s.buf.set input (cur_buf.set vc v1)
                  sw_hold_vcs := s.sw_hold_vcs ++
                    [{ time := -1, input := input, vc := vc, output := -1 }] }
              else
                some { s with
                  buf := s.buf.set input (cur_buf.set vc v1)
                  sw_alloc_vcs := s.sw_alloc_vcs ++
                    [{ time := -1, input := input, vc := vc, output := -1 }] }
        else some { s with buf := s.buf.set input (cur_buf.set vc v1) }

/-- The check of the destination in `_RouteUpdate` (source lines 605-630):
whether the assertions pass. With a single candidate whose sink router is the
destination of the flit, the neighbor behind the candidate has to be recorded
as power_on, or `assert(0)` is reached. -/
def routeDestCheck (s : RouterState) (f : Flit) (route_set : List SetElement) : Bool :=
  if f.dest ≠ s.id then
    match route_set with
    | [e] =>
      if ¬ (0 ≤ e.output_port ∧ e.output_port < (s.outputs : Int)) then false
      else
        match s.output_sinks[e.output_port.toNat]? with
        | none => false
        | some none => false
        | some (some router) =>
          if f.dest = router then
            match s.neighbor_states[e.output_port.toNat]? with
            | none => false
            | some st => decide (st = ePowerState.power_on)
          else true
    | _ => true
  else true

/-- The loop body of `RFLOVRouter::_RouteUpdate` (source lines 575-639, under
the `assert(_routing_delay)` of line 565) for the entry `(time, (input, vc))`
at the front of `_route_vcs`, at cycle `now`. Modelled from the spec: the
routing function `_rf` and `Buffer::Route` are not among the sources;
`route_set` is the set of candidates that the routing function produces for
the head flit, and `Route` leaves the VC with this route set and without
output port and output VC (`-1`), which is what the assertions of source lines
1397-1398 and 1515-1517 say of a VC in state vc_alloc. -/
def routeUpdate (cfg : AllocConfig) (now time : Int) (input vc : Nat)
    (route_set : List SetElement) (s : RouterState) : Option RouterState :=
  if cfg.routing_delay = 0 then none
  else if now ≠ time then none
  else if ¬ input < s.inputs then none
  else if ¬ vc < s.vcs then none
  else
    match s.buf[input]? with
    | none => none
    | some cur_buf =>
      match cur_buf[vc]? with
      | none => none
      | some v =>
        match v.flits with
        | [] => none
        | f :: waiting =>
          if v.state ≠ eVCState.routing then none
          else if f.vc ≠ (vc : Int) then none
          else if f.head = false then none
          else if routeDestCheck s f route_set = false then none
          else
            some { s with
              buf := s.buf.set input
                (cur_buf.set vc
                  { v with
                    route_set := route_set, output_port := -1, output_vc := -1
                    state := eVCState.vc_alloc
                    flits := { f with rtime := now } :: waiting })
              sw_alloc_vcs :=
                if cfg.speculative = true then
                  s.sw_alloc_vcs ++ [{ time := -1, input := input, vc := vc, output := -1 }]
                else s.sw_alloc_vcs
              vc_alloc_vcs :=
                if cfg.vc_allocator = true then
                  s.vc_alloc_vcs ++ [{ time := -1, input := input, vc := vc, output := -1 }]
                else s.vc_alloc_vcs
              route_vcs := s.route_vcs.tail }

/-- The hand-over of the front flit `f` of the input VC `v` to the crossbar in
`_SWHoldUpdate`, with the bookkeeping of the input VC and the `pop_front` that
ends the loop body (source lines 920-1046 and 1069). `waiting` are the flits
behind `f`, and `dest_buf` is the downstream state of the output `output`. -/
def swHoldSend (cfg : AllocConfig) (now : Int) (input vc : Nat)
    (expanded_input expanded_output : Int)
    (output : Nat) (cur_buf : Buffer) (v : VC) (f : Flit) (waiting : List Flit)
    (dest_buf : BufferState) (s : RouterState) : Option RouterState :=
  match sentFlit cfg s output f v.output_vc with
  | none => none
  | some f1 =>
    let nb1 := s.next_buf.set output (dest_buf.call (BufCall.SendingFlit f1))
    let xb1 := s.crossbar_flits ++
      [({ time := -1, flit := f1, input := expanded_input,
          expanded_output := expanded_output } : CrossbarItem)]
    let oqc1 := mapUpdate input (fun c => { vc := setInsert (vc : Int) c.vc })
      (mapInsert input Credit.New s.out_queue_credits)
    match waiting with
    | [] =>
      some { s with
        next_buf := nb1
        crossbar_flits := xb1
        out_queue_credits := oqc1
        switch_hold_vc := s.switch_hold_vc.set expanded_input.toNat (-1)
        switch_hold_in := s.switch_hold_in.set expanded_input.toNat (-1)
        switch_hold_out := s.switch_hold_out.set expanded_output.toNat (-1)
        buf := s.buf.set input
          (cur_buf.set vc
            { v with flits := [], state := if f.tail = true then eVCState.idle else v.state })
        sw_hold_vcs := s.sw_hold_vcs.tail }
    | nf :: later =>
      if nf.vc ≠ (vc : Int) then none
      else if f.tail = true then
        if nf.head = false then none
        else if cfg.routing_delay ≠ 0 then
          some { s with
            next_buf := nb1
            crossbar_flits := xb1
            out_queue_credits := oqc1
            switch_hold_vc := s.switch_hold_vc.set expanded_input.toNat (-1)
            switch_hold_in := s.switch_hold_in.set expanded_input.toNat (-1)
            switch_hold_out := s.switch_hold_out.set expanded_output.toNat (-1)
            buf := s.buf.set input
              (cur_buf.set vc
                { v with flits := { nf with rtime := now } :: later, state := eVCState.routing })
            route_vcs := s.route_vcs ++ [{ time := -1, input := input, vc := vc }]
            sw_hold_vcs := s.sw_hold_vcs.tail }
        else
          some { s with
            next_buf := nb1
            crossbar_flits := xb1
            out_queue_credits := oqc1
            switch_hold_vc := s.switch_hold_vc.set expanded_input.toNat (-1)
            switch_hold_in := s.switch_hold_in.set expanded_input.toNat (-1)
            switch_hold_out := s.switch_hold_out.set expanded_output.toNat (-1)
            buf := s.buf.set input
              (cur_buf.set vc
                { v with
                  flits := waiting
                  route_set := nf.la_route_set, output_port := -1, output_vc := -1
                  state := eVCState.vc_alloc })
            sw_alloc_vcs :=
              if cfg.speculative = true then
                s.sw_alloc_vcs ++ [{ time := -1, input := input, vc := vc, output := -1 }]
              else s.sw_alloc_vcs
            vc_alloc_vcs :=
              if cfg.vc_allocator = true then
                s.vc_alloc_vcs ++ [{ time := -1, input := input, vc := vc, output := -1 }]
              else s.vc_alloc_vcs
            sw_hold_vcs := s.sw_hold_vcs.tail }
      else
        some { s with
          next_buf := nb1
          crossbar_flits := xb1
          out_queue_credits := oqc1
          buf := s.buf.set input (cur_buf.set vc { v with flits := waiting })
          sw_hold_vcs :=
            List.tail (s.sw_hold_vcs ++
              [({ time := -1, input := input, vc := vc, output := -1 } : AllocItem)]) }

/-- The branch of the loop body of `_SWHoldUpdate` for an entry with a grant
and room in the output buffer (source lines 899-1046 and 1069): the assertions
on the held connection and on the output of the VC, then the hand-over of the
front flit. `held_in` is `_switch_hold_in[expanded_input]`. -/
def swHoldGrant (cfg : AllocConfig) (now : Int) (input vc : Nat)
    (expanded_input expanded_output held_in : Int)
    (cur_buf : Buffer) (v : VC) (f : Flit) (waiting : List Flit) (s : RouterState) :
    Option RouterState :=
  if held_in ≠ expanded_output then none
  else
    match intAt s.switch_hold_out expanded_output, cdiv expanded_output s.output_speedup with
    | some held_out, some out =>
      if held_out ≠ expanded_input then none
      else if ¬ (0 ≤ out ∧ out < (s.outputs : Int)) then none
      else if v.output_port ≠ out then none
      else if ¬ (0 ≤ v.output_vc ∧ v.output_vc < (s.vcs : Int)) then none
      else
        match s.next_buf[out.toNat]? with
        | none => none
        | some dest_buf =>
          swHoldSend cfg now input vc expanded_input expanded_output out.toNat cur_buf v f
            waiting dest_buf s
    | _, _ => none

/-- The branch of the loop body of `_SWHoldUpdate` for an entry without grant
or without room in the output buffer (source lines 1047-1069): the held
connection is cancelled and the entry goes to `_sw_alloc_vcs`. `stall_full`
and `stall_reserved` are the constants STALL_BUFFER_FULL and
STALL_BUFFER_RESERVED of the base class, whose values the sources do not
give; `held_in` is `_switch_hold_in[expanded_input]`. -/
def swHoldCancel (stall_full stall_reserved : Int) (input vc : Nat)
    (expanded_input expanded_output held_in : Int) (s : RouterState) : Option RouterState :=
  if ¬ (expanded_output = stall_full ∨ expanded_output = stall_reserved ∨
      0 ≤ expanded_output) then none
  else if ¬ held_in ≥ 0 then none
  else if ¬ held_in.toNat < s.switch_hold_out.length then none
  else
    some { s with
      switch_hold_vc := s.switch_hold_vc.set expanded_input.toNat (-1)
      switch_hold_in := s.switch_hold_in.set expanded_input.toNat (-1)
      switch_hold_out := s.switch_hold_out.set held_in.toNat (-1)
      sw_alloc_vcs := s.sw_alloc_vcs ++
        [{ time := -1, input := input, vc := vc, output := -1 }]
      sw_hold_vcs := s.sw_hold_vcs.tail }

/-- The test of source line 897: the entry has a grant, and the output
buffer of the granted output has room (`_output_buffer_size` is -1 for a
buffer without bound; a negative size compares as a large unsigned number). -/
def swHoldRoom (cfg : AllocConfig) (s : RouterState) (expanded_output : Int) : Option Bool :=
  if expanded_output < 0 then some false
  else if cfg.output_buffer_size = -1 then some true
  else
    match s.output_buffer[expanded_output.toNat]? with
    | none => none
    | some q =>
      some (decide (cfg.output_buffer_size < 0 ∨ (q.length : Int) < cfg.output_buffer_size))

/-- The loop body of `RFLOVRouter::_SWHoldUpdate` (source lines 867-1069) for
the entry `(time, ((input, vc), expanded_output))` at the front of
`_sw_hold_vcs`, at cycle `now`: the assertions at the head of the body, the
test of line 897 on the grant and the room in the output buffer, and the
branch it selects. -/
def swHoldUpdate (cfg : AllocConfig) (stall_full stall_reserved : Int) (now time : Int)
    (input vc : Nat) (expanded_output : Int) (s : RouterState) : Option RouterState :=
  if cfg.hold_switch_for_packet = false then none
  else if now ≠ time then none
  else if ¬ input < s.inputs then none
  else if ¬ vc < s.vcs then none
  else if expanded_output = -1 then none
  else
    match s.buf[input]? with
    | none => none
    | some cur_buf =>
      match cur_buf[vc]? with
      | none => none
      | some v =>
        match v.flits with
        | [] => none
        | f :: waiting =>
          if v.state ≠ eVCState.active then none
          else if f.vc ≠ (vc : Int) then none
          else
            match cmod (vc : Int) cfg.input_speedup with
            | none => none
            | some lane =>
              let expanded_input : Int := (input : Int) * cfg.input_speedup + lane
              match intAt s.switch_hold_vc expanded_input,
                intAt s.switch_hold_in expanded_input with
              | some held_vc, some held_in =>
                if held_vc ≠ (vc : Int) then none
                else
                  match swHoldRoom cfg s expanded_output with
                  | none => none
                  | some true =>
                    swHoldGrant cfg now input vc expanded_input expanded_output held_in cur_buf
                      v f waiting s
                  | some false =>
                    swHoldCancel stall_full stall_reserved input vc expanded_input
                      expanded_output held_in s
              | _, _ => none

/-! ## One pass of the loop of a stage -/

/-- One pass of the loop of `_RouteUpdate` (source lines 567-640): the entry
at the front of `_route_vcs` is processed. The result is none also where the
loop ends (empty list, or the `break` of line 573). -/
def routeUpdateBody (cfg : AllocConfig) (now : Int) (route_set : List SetElement)
    (s : RouterState) : Option RouterState :=
  match s.route_vcs with
  | [] => none
  | item :: _ =>
    if item.time < 0 ∨ now < item.time then none
    else routeUpdate cfg now item.time item.input item.vc route_set s

/-- One pass of the loop of `_VCAllocUpdate` (source lines 652-847): the
entry at the front of `_vc_alloc_vcs` is processed. The result is none also
where the loop ends (empty list, or the `break` of line 658). -/
def vcAllocUpdateBody (g : Globals) (cfg : AllocConfig) (now : Int) (s : RouterState) :
    Option RouterState :=
  match s.vc_alloc_vcs with
  | [] => none
  | item :: _ =>
    if item.time < 0 ∨ now < item.time then none
    else if 0 ≤ item.output then
      vcAllocGrant g cfg now item.time item.input item.vc item.output s
    else vcAllocNoGrant g cfg now item.time item.input item.vc item.output s

/-- One pass of the loop of `_SWHoldUpdate` (source lines 859-1070): the
entry at the front of `_sw_hold_vcs` is processed. The result is none also
where the loop ends (empty list, or the `break` of line 865). -/
def swHoldUpdateBody (cfg : AllocConfig) (stall_full stall_reserved : Int) (now : Int)
    (s : RouterState) : Option RouterState :=
  match s.sw_hold_vcs with
  | [] => none
  | item :: _ =>
    if item.time < 0 then none
    else swHoldUpdate cfg stall_full stall_reserved now item.time item.input item.vc
      item.output s

/-- One pass of the loop of `_SWAllocUpdate` (source lines 1080-1535): the
entry at the front of `_sw_alloc_vcs` is processed. The result is none also
where the loop ends (empty list, or the `break` of line 1086). -/
def swAllocUpdateBody (g : Globals) (cfg : AllocConfig) (now : Int) (s : RouterState) :
    Option RouterState :=
  match s.sw_alloc_vcs with
  | [] => none
  | item :: _ =>
    if item.time < 0 ∨ now < item.time then none
    else if 0 ≤ item.output then
      swAllocGrant g cfg now item.time item.input item.vc item.output s
    else swAllocNoGrant g cfg now item.time item.input item.vc item.output s

/-! ## The work-lists and the states of the input VCs -/

/-- The number of entries for `(input, vc)` on `_route_vcs`. -/
def onRoute (input vc : Nat) (l : List RouteItem) : Nat :=
  (l.map (fun e => (e.input, e.vc))).count (input, vc)

/-- The number of entries for `(input, vc)` on one of the work-lists
`_vc_alloc_vcs`, `_sw_alloc_vcs` and `_sw_hold_vcs`. -/
def onList (input vc : Nat) (l : List AllocItem) : Nat :=
  (l.map (fun e => (e.input, e.vc))).count (input, vc)

/-- The record of the VC `vc` of the input buffer `input`. -/
def getVC (s : RouterState) (input vc : Nat) : Option VC :=
  (s.buf[input]?).bind (fun b => b[vc]?)

/-- What the state of an input VC says of its entries on the work-lists:
`r`, `va`, `sa` and `h` are the numbers of its entries on `_route_vcs`,
`_vc_alloc_vcs`, `_sw_alloc_vcs` and `_sw_hold_vcs`. An idle VC has none; a VC
in state routing has one entry at most, on `_route_vcs`; a VC in state
vc_alloc has no output port yet and one entry at most on each of the two
allocation lists, none on `_sw_alloc_vcs` without speculation and none on
`_vc_alloc_vcs` without a VC allocator; an active VC has one entry at most, on
`_sw_alloc_vcs` or `_sw_hold_vcs`, and none while it holds no flit. -/
def VCTracked (cfg : AllocConfig) (v : VC) (r va sa h : Nat) : Prop :=
  (v.state = eVCState.idle → r = 0 ∧ va = 0 ∧ sa = 0 ∧ h = 0) ∧
  (v.state = eVCState.routing → r ≤ 1 ∧ va = 0 ∧ sa = 0 ∧ h = 0) ∧
  (v.state = eVCState.vc_alloc →
    r = 0 ∧ va ≤ 1 ∧ sa ≤ 1 ∧ h = 0 ∧ (cfg.speculative = false → sa = 0) ∧
    (cfg.vc_allocator = false → va = 0) ∧ v.output_port = -1) ∧
  (v.state = eVCState.active →
    r = 0 ∧ va = 0 ∧ sa + h ≤ 1 ∧ (v.flits = [] → sa = 0 ∧ h = 0))

/-- The entries of the work-lists for `(input, vc)` are those that the state
of the VC allows: either there is none, or `(input, vc)` names a VC of the
router and `VCTracked` holds of it. -/
def KeyTracked (cfg : AllocConfig) (s : RouterState) (input vc : Nat) : Prop :=
  (onRoute input vc s.route_vcs = 0 ∧ onList input vc s.vc_alloc_vcs = 0 ∧
    onList input vc s.sw_alloc_vcs = 0 ∧ onList input vc s.sw_hold_vcs = 0) ∨
  (input < s.inputs ∧ vc < s.vcs ∧
    ∃ v, getVC s input vc = some v ∧
      VCTracked cfg v (onRoute input vc s.route_vcs) (onList input vc s.vc_alloc_vcs)
        (onList input vc s.sw_alloc_vcs) (onList input vc s.sw_hold_vcs))

/-- The bookkeeping of the pipeline: the work-lists track the input VCs. -/
def PipeTracked (cfg : AllocConfig) (s : RouterState) : Prop :=
  ∀ input vc, KeyTracked cfg s input vc

/-- The second state has the input buffers of the first, and its work-lists
name the same input VCs in the same order; the times and the grants of the
entries may differ. -/
def SameTracks (s s' : RouterState) : Prop :=
  s'.inputs = s.inputs ∧ s'.vcs = s.vcs ∧ s'.buf = s.buf ∧
  s'.route_vcs.map (fun e => (e.input, e.vc)) = s.route_vcs.map (fun e => (e.input, e.vc)) ∧
  s'.vc_alloc_vcs.map (fun e => (e.input, e.vc)) =
    s.vc_alloc_vcs.map (fun e => (e.input, e.vc)) ∧
  s'.sw_alloc_vcs.map (fun e => (e.input, e.vc)) =
    s.sw_alloc_vcs.map (fun e => (e.input, e.vc)) ∧
  s'.sw_hold_vcs.map (fun e => (e.input, e.vc)) =
    s.sw_hold_vcs.map (fun e => (e.input, e.vc))

/-- The states of a router from its construction on, as far as the input
buffers and the work-lists of the pipeline go. The router is constructed with
empty work-lists. The members that write the input buffers or add and remove
entries of the work-lists are `_InputQueuing`, `_RouteUpdate`,
`_VCAllocUpdate`, `_SWHoldUpdate` and `_SWAllocUpdate`, each of which is a
loop of the pass embedded here. Every other member (the evaluate stages of
the base class, which stamp the entries with a time and a grant, among them)
leaves the input buffers as they are and the work-lists with the same input
VCs in the same order. -/
inductive PipeReachable (g : Globals) (cfg : AllocConfig) : RouterState → Prop where
  | init (s : RouterState)
      (h : s.route_vcs = [] ∧ s.vc_alloc_vcs = [] ∧ s.sw_hold_vcs = [] ∧ s.sw_alloc_vcs = []) :
      PipeReachable g cfg s
  | queue (s s' : RouterState) (now : Int) (input : Nat) (f : Flit)
      (hr : PipeReachable g cfg s) (h : inputQueuingFlit cfg now input f s = some s') :
      PipeReachable g cfg s'
  | route (s s' : RouterState) (now : Int) (route_set : List SetElement)
      (hr : PipeReachable g cfg s) (h : routeUpdateBody cfg now route_set s = some s') :
      PipeReachable g cfg s'
  | vcAlloc (s s' : RouterState) (now : Int)
      (hr : PipeReachable g cfg s) (h : vcAllocUpdateBody g cfg now s = some s') :
      PipeReachable g cfg s'
  | swHold (s s' : RouterState) (stall_full stall_reserved now : Int)
      (hr : PipeReachable g cfg s)
      (h : swHoldUpdateBody cfg stall_full stall_reserved now s = some s') :
      PipeReachable g cfg s'
  | swAlloc (s s' : RouterState) (now : Int)
      (hr : PipeReachable g cfg s) (h : swAllocUpdateBody g cfg now s = some s') :
      PipeReachable g cfg s'
  | other (s s' : RouterState) (hr : PipeReachable g cfg s) (h : SameTracks s s') :
      PipeReachable g cfg s'

/-- The test of the retarget checks in the words of the spec: the output has
a sink router that is no memory controller (its id is below N - K) and is
recorded as draining or waking up. -/
def Ineligible (g : Globals) (s : RouterState) (p : Nat) : Prop :=
  ∃ router, s.output_sinks[p]? = some (some router) ∧ router < g.gNodes - g.gK ∧
    (s.neighbor_states[p]? = some ePowerState.draining ∨
      s.neighbor_states[p]? = some ePowerState.wakeup)

/-- The input VC was sent back to route computation: it is in state routing
and `(input, vc)` was appended to `_route_vcs`. -/
def Retargeted (s s' : RouterState) (input vc : Nat) : Prop :=
  GetState s' input vc = some eVCState.routing ∧
  s'.route_vcs = s.route_vcs ++ [{ time := -1, input := input, vc := vc }]

/-- No entry of the work-list is for `(input, vc)`. -/
def NoEntry (input vc : Nat) (l : List AllocItem) : Prop :=
  ∀ item ∈ l, ¬ (item.input = input ∧ item.vc = vc)

instance (input vc : Nat) (l : List AllocItem) : Decidable (NoEntry input vc l) := by
  unfold NoEntry; infer_instance

/-- The work-list after the entry `(input, vc)` was entered again with time
-1 and without grant, and the front entry was popped. -/
def requeued (input vc : Nat) (l : List AllocItem) : List AllocItem :=
  List.tail (l ++ [({ time := -1, input := input, vc := vc, output := -1 } : AllocItem)])

/-- The path without grant of `_VCAllocUpdate` gets past its retarget check:
the scan of the route set leaves a candidate. -/
def KeptInVA (g : Globals) (s : RouterState) (v : VC) : Prop :=
  ∃ setlist, scanRouteSet g s v.route_set false [] = some setlist ∧ setlist ≠ []

/-- The path without grant of `_SWAllocUpdate` gets past its retarget check
with every assertion on the way to the end of the timeout satisfied: either
the VC is in state vc_alloc under speculation, without output, and the scan of
its route set leaves a candidate; or it is active, with an output port and an
output VC in range, and the test on the neighbor behind the output is
false. -/
def KeptInSA (g : Globals) (cfg : AllocConfig) (s : RouterState) (v : VC) : Prop :=
  (v.state = eVCState.vc_alloc ∧ cfg.speculative = true ∧ v.output_port = -1 ∧
    v.output_vc = -1 ∧ KeptInVA g s v) ∨
  (v.state = eVCState.active ∧ (0 ≤ v.output_port ∧ v.output_port < (s.outputs : Int)) ∧
    (0 ≤ v.output_vc ∧ v.output_vc < (s.vcs : Int)) ∧
    v.output_port.toNat < s.next_buf.length ∧
    backToRoute g s v.output_port.toNat = some false)

/-- What the timeout makes of the entry `(input, vc)` taken from the front of
the work-list `stage`, `other` being the work-list of the other allocation
stage. At `now - rtime = 300` the VC is sent back to route computation, the
entry leaves `stage` and the first entry for `(input, vc)` is erased from
`other`; at any other time the input buffers, `_route_vcs` and `other` stay
as they are and the entry goes to the back of `stage` with time -1. -/
def TimeoutOutcome (now : Int) (f : Flit) (input vc : Nat) (s s' : RouterState)
    (stage other : RouterState → List AllocItem) : Prop :=
  (now - f.rtime = 300 →
    Retargeted s s' input vc ∧ stage s' = (stage s).tail ∧
    other s' = eraseFirst input vc (other s)) ∧
  (now - f.rtime ≠ 300 →
    s'.buf = s.buf ∧ s'.route_vcs = s.route_vcs ∧
    stage s' = requeued input vc (stage s) ∧ other s' = other s)

/-! ## Predicates of the statements on revert, request ids and returned buffers -/

/-- The value of `neighbor_draining || neighbor_off_wakeup` after the neighbor
scan of case `draining` (source lines 132-147), the condition of the revert at
source line 179. -/
def neighborRevert (g : Globals) (s : RouterState) : Option Bool :=
  (scanDraining g s.id s.neighbor_states [0, 1, 2, 3]).map (fun r => r.1 || r.2)

/-- What a pass of the announcing loop does for port `p`: either it puts a
handshake on the port, which carries a state and the request id of the port
after the increment by one, or it leaves the request id and the queue entry of
the port as they were. -/
def HidStep (hids hids' : List Int) (oq oq' : List (Nat × Handshake)) (p : Nat) : Prop :=
  (∃ r hs, hids[p]? = some r ∧ hids'[p]? = some (r + 1) ∧ mapFind p oq' = some hs ∧
    hs.hid = r + 1 ∧ hs.new_state.isSome = true) ∨
  (hids'[p]? = hids[p]? ∧ mapFind p oq' = mapFind p oq)

/-- The calls of `TakeBuffer` recorded on the downstream state of port `p` in
a vector of downstream states. -/
def takenIn (nb : List BufferState) (p : Nat) : List BufCall :=
  match nb[p]? with
  | none => []
  | some b => b.calls.filter (fun c => match c with
    | BufCall.TakeBuffer _ _ => true
    | _ => false)

/-- The calls of `TakeBuffer` that the flit loop of `_RFlovStep` makes on the
downstream state of port `o` (source lines 1639-1641): one for each head flit
that leaves by `o`, in order, with the VC of the flit and the owner tag
`_vcs * _inputs`. -/
def flovTakes (inputs vcs : Nat) (flits : List (Nat × Flit)) (o : Nat) : List BufCall :=
  (flits.filter (fun e => decide (opposite e.1 = o) && e.2.head)).map
    (fun e => BufCall.TakeBuffer e.2.vc ((vcs : Int) * (inputs : Int)))

/-- The states of a router from its construction on, as far as
`_credit_counter` goes. The constructor fills the counters with zeros (source
lines 37-40); PowerStateEvaluate and `_RFlovStep` are the members that write
them (lines 201 and 1733); every other member leaves `_credit_counter` and
`_id` as they are. -/
inductive CounterReachable (g : Globals) : RouterState → Prop where
  | init (s : RouterState)
      (h : s.credit_counter = List.replicate s.outputs (List.replicate s.vcs 0)) :
      CounterReachable g s
  | evaluate (s s' : RouterState) (hr : CounterReachable g s)
      (h : PowerStateEvaluate g s = some s') : CounterReachable g s'
  | flyover (s s' : RouterState) (now : Int) (hr : CounterReachable g s)
      (h : _RFlovStep g now s = some s') : CounterReachable g s'
  | other (s s' : RouterState) (hr : CounterReachable g s)
      (h1 : s'.credit_counter = s.credit_counter) (h2 : s'.id = s.id) : CounterReachable g s'

/-- The counters of every output port in 0..3 whose opposite port leaves the
mesh are zero. -/
def ZeroTowardsEdge (g : Globals) (s : RouterState) : Prop :=
  ∀ i < 4, isBoundary g s.id (opposite i) = true →
    ∀ v k, counterAt s.credit_counter i v = some k → k = 0

/-- The call `ReturnBuffer(match_vc)` was made once on the downstream state of
the output port assigned to the VC, and no other call on any downstream
state. -/
def ReturnedBuffer (s s' : RouterState) (v : VC) : Prop :=
  ∃ dest_buf, s.next_buf[v.output_port.toNat]? = some dest_buf ∧
    s'.next_buf = s.next_buf.set v.output_port.toNat
      (dest_buf.call (BufCall.ReturnBuffer v.output_vc))

/-- The calls of `ReturnBuffer` recorded on the downstream state of output
`p`. -/
def returnedOn (s : RouterState) (p : Nat) : List BufCall :=
  match s.next_buf[p]? with
  | none => []
  | some b => b.calls.filter (fun c => match c with
    | BufCall.ReturnBuffer _ => true
    | _ => false)

/-- The outcome of a step of VC or switch allocation for the downstream
states, in the words of the spec: when the step sends the input VC back to
route computation, `ReturnBuffer` is called once if the VC was active and no
downstream state is touched if the VC was in state vc_alloc. -/
def ReversesTake (s s' : RouterState) (input vc : Nat) (v : VC) : Prop :=
  Retargeted s s' input vc →
    (v.state = eVCState.active → ReturnedBuffer s s' v) ∧
    (v.state = eVCState.vc_alloc → s'.next_buf = s.next_buf)

/-- The value of `_buf[in_port]->GetRouteSet(vc)->GetSet()`. -/
def GetRouteSet (s : RouterState) (in_port vc : Nat) : Option (List SetElement) :=
  (s.buf[in_port]?).bind (fun b => (b[vc]?).map VC.route_set)

/-- The work-list holds one entry for `(input, vc)` at most. -/
def AtMostOneEntry (input vc : Nat) (l : List AllocItem) : Prop :=
  l.countP (fun e => decide (e.input = input ∧ e.vc = vc)) ≤ 1

instance (input vc : Nat) (l : List AllocItem) : Decidable (AtMostOneEntry input vc l) := by
  unfold AtMostOneEntry; infer_instance

/-- The power cycle of the neighbor on port `p` as the router sees it, the
six steps in order with nothing in between: the announcement of draining is
processed, `_HandshakeResponse` runs, the announcements of power_off and of
wakeup are processed, `_HandshakeResponse` runs again, and the announcement of
power_on is processed. -/
def neighborCycle (now1 now2 : Int) (p : Nat) (hdr hoff hwk hon : Handshake)
    (s : RouterState) : Option RouterState :=
  (handshakeEvaluateOne s p hdr).bind fun s1 =>
  (_HandshakeResponse now1 s1).bind fun s2 =>
  (handshakeEvaluateOne s2 p hoff).bind fun s3 =>
  (handshakeEvaluateOne s3 p hwk).bind fun s4 =>
  (_HandshakeResponse now2 s4).bind fun s5 =>
  handshakeEvaluateOne s5 p hon

/-- Nothing of the router is on its way to output `p`: no VC of another input
port is active with output port `p`, no crossbar flit is destined to `p`, and
output buffer `p` is empty. -/
def ClearTowards (s : RouterState) (p : Nat) : Prop :=
  (∀ in_port < s.inputs, in_port ≠ p → ¬ RoutedTo s in_port p) ∧
  ¬ CrossbarTo s p ∧ s.output_buffer[p]? = some []

instance (s : RouterState) (p : Nat) : Decidable (ClearTowards s p) := by
  unfold ClearTowards; infer_instance

/-! ## Predicates of the statements on the members of the handshake engine and the credit relay -/

/-- No boundary port of the router records a draining neighbor. A draining
announcement is never queued for a boundary port (source lines 111-116), and
the port of a neighbor that faces a boundary port of this router is a boundary
port of that neighbor, so no such handshake arrives. -/
def BoundaryQuiet (g : Globals) (s : RouterState) : Prop :=
  ∀ p < 4, isBoundary g s.id p = true → s.neighbor_states[p]? ≠ some ePowerState.draining

instance (g : Globals) (s : RouterState) : Decidable (BoundaryQuiet g s) := by
  unfold BoundaryQuiet; infer_instance

/-- The drain tags after the handshakes of the list were processed in order,
in the words of the spec: a handshake that carries drain_done with the request
id of its port, received while the router is draining or waking up, sets the
tag of its port; any other handshake leaves the tags alone. -/
def tagsAfter (s : RouterState) : List (Nat × Handshake) → List Bool → List Bool
  | [], tags => tags
  | (p, h) :: rest, tags =>
    tagsAfter s rest (if AckMatches s p h then tags.set p true else tags)

/-- The response ids after the handshakes of the list were processed in
order: a handshake without drain_done stores its hid for its port; a
handshake with drain_done stores nothing. -/
def hidsAfter : List (Nat × Handshake) → List Int → List Int
  | [], hids => hids
  | (p, h) :: rest, hids =>
    hidsAfter rest (if h.drain_done = false then hids.set p h.hid else hids)

/-- The credits that the credit loop of `_RFlovStep` takes from
`_proc_credits` at cycle `now`: the entries from the front on that are due;
the loop stops at the first entry that is not due. -/
def dueCredits (now : Int) (items : List CreditItem) : List CreditItem :=
  items.takeWhile (fun item => decide (¬ now < item.time))

/-- The entries of `_proc_credits` that the credit loop leaves, from the first
one that is not due. -/
def laterCredits (now : Int) (items : List CreditItem) : List CreditItem :=
  items.dropWhile (fun item => decide (¬ now < item.time))

/-- The calls of `ProcessCredit` for the credits of the list that are for
output `o`, in order. -/
def creditCalls (items : List CreditItem) (o : Nat) : List BufCall :=
  (items.filter (fun item => decide (item.output = o))).map
    (fun item => BufCall.ProcessCredit item.credit)

/-- VC `x` is carried by a credit of the list for the output opposite to
input port `q`, and `q` is one of the four mesh ports and no fabric boundary
of the router: the credit is relayed upstream on `q`. -/
def RelayedOn (g : Globals) (id : Int) (items : List CreditItem) (q : Nat) (x : Int) : Prop :=
  q < 4 ∧ isBoundary g id q = false ∧
    ∃ item ∈ items, item.output = opposite q ∧ x ∈ item.credit.vc

/-! ## Concrete routers of a 4x4 mesh -/

/-- The globals of a 4x4 mesh. -/
def mesh4 : Globals :=
  { gK := 4, gNodes := 16 }

/-- Router 5 of the 4x4 mesh (an inner router) right after construction:
powered on, idle, five ports with two VCs each. -/
def router5 : RouterState :=
  { id := 5, inputs := 5, outputs := 5, vcs := 2
    power_state := ePowerState.power_on
    outstanding_requests := 0
    wakeup_signal := false
    router_state := false
    idle_timer := 0, drain_timer := 0, off_timer := 0, wakeup_timer := 0
    drain_threshold := 2, bet_threshold := 1, wakeup_threshold := 1
    drain_tags := [false, false, false, false]
    drain_done_sent := [false, false, false, false]
    neighbor_states := List.replicate 4 ePowerState.power_on
    req_hids := [0, 0, 0, 0]
    resp_hids := [0, 0, 0, 0]
    drain_counter := 0, drain_timeout_counter := 0, off_counter := 0
    power_off_cycles := 0, total_power_off_cycles := 0
    drain_time_q := [], max_drain_time := 0, min_drain_time := -1
    proc_handshakes := []
    out_queue_handshakes := []
    handshake_buffer := [[], [], [], []]
    credit_counter := List.replicate 5 [0, 0]
    next_buf := List.replicate 5 { avail := [4, 4], calls := [] }
    buf := List.replicate 5
      (List.replicate 2 { state := eVCState.idle, output_port := -1, output_vc := -1 })
    in_queue_flits := []
    crossbar_flits := []
    route_vcs := [], vc_alloc_vcs := [], sw_hold_vcs := [], sw_alloc_vcs := []
    output_buffer := [[], [], [], [], []]
    proc_credits := []
    out_queue_credits := []
    credit_buffer := [[], [], [], [], []]
    active := false
    output_sinks := [some 6, some 4, some 9, some 1, none]
    output_speedup := 1
    switch_hold_vc := List.replicate 5 (-1)
    switch_hold_in := List.replicate 5 (-1)
    switch_hold_out := List.replicate 5 (-1)
    vc_rr_offset := List.replicate 5 0 }

/-- Router 5 while draining, one cycle in, with every neighbor's drain-done
received and nothing left in its buffers. -/
def router5Drained : RouterState :=
  { router5 with
    power_state := ePowerState.draining
    drain_tags := [true, true, true, true]
    drain_timer := 1
    drain_counter := 1 }

/-- Router 5 while draining, when the neighbor on port 3 (router 1) has
started to drain as well. -/
def router5Contended : RouterState :=
  { router5 with
    power_state := ePowerState.draining
    drain_counter := 1
    neighbor_states :=
      [ePowerState.power_on, ePowerState.power_on, ePowerState.power_on, ePowerState.draining] }

/-- Router 5 while draining, with no acknowledgement yet and a drain timer
that has reached the threshold. -/
def router5Late : RouterState :=
  { router5 with
    power_state := ePowerState.draining
    drain_counter := 1
    drain_timer := 2 }

/-- Router 5 while draining, with no acknowledgement yet, first cycle. -/
def router5Waiting : RouterState :=
  { router5 with
    power_state := ePowerState.draining
    drain_counter := 1 }

/-- Router 5 while draining, when local traffic demand has raised its
wakeup signal. -/
def router5Waking : RouterState :=
  { router5 with
    power_state := ePowerState.draining
    drain_counter := 1
    wakeup_signal := true }

/-- Router 5 after the call of PowerStateEvaluate that starts its drain. -/
def router5Draining : RouterState :=
  { router5 with
    power_state := ePowerState.draining
    drain_counter := 1
    req_hids := [1, 1, 1, 1]
    out_queue_handshakes :=
      [(0, { Handshake.New with new_state := some ePowerState.draining, id := 5, hid := 1 }),
       (1, { Handshake.New with new_state := some ePowerState.draining, id := 5, hid := 1 }),
       (2, { Handshake.New with new_state := some ePowerState.draining, id := 5, hid := 1 }),
       (3, { Handshake.New with new_state := some ePowerState.draining, id := 5, hid := 1 })] }

/-- Router 5 powered on with a request outstanding and traffic demand. -/
def router5Busy : RouterState :=
  { router5 with outstanding_requests := 1, router_state := true }

/-- Router 5 after the call of PowerStateEvaluate that completes the drain
of `router5Drained`: off, with the credit snapshot of its four mesh ports. -/
def router5Off : RouterState :=
  { router5 with
    power_state := ePowerState.power_off
    drain_counter := 1
    drain_time_q := [2]
    max_drain_time := 2
    min_drain_time := 2
    credit_counter := [[4, 4], [4, 4], [4, 4], [4, 4], [0, 0]]
    req_hids := [1, 1, 1, 1]
    out_queue_handshakes :=
      [(0, { Handshake.New with new_state := some ePowerState.power_off, id := 5, hid := 1 }),
       (1, { Handshake.New with new_state := some ePowerState.power_off, id := 5, hid := 1 }),
       (2, { Handshake.New with new_state := some ePowerState.power_off, id := 5, hid := 1 }),
       (3, { Handshake.New with new_state := some ePowerState.power_off, id := 5, hid := 1 })] }

/-- A single-flit packet on VC 0, on its way from router 4 to router 6. -/
def flit46 : Flit :=
  { id := 7, pid := 3, vc := 0, head := true, tail := true, flov_hops := 0, rtime := 0,
    dest := 6 }

/-- Router 5 off, with the flit from router 4 arrived on input port 1
(scenario S2). -/
def router5FlyOver : RouterState :=
  { router5 with
    power_state := ePowerState.power_off
    drain_counter := 1
    off_timer := 0
    in_queue_flits := [(1, flit46)] }

/-- Router 5 after `_InternalStep` on `router5FlyOver`: the flit waits in
output buffer 0 with one fly-over hop, and the downstream state of port 0 has
seen `TakeBuffer(0, vcs * inputs)` and `SendingFlit`. -/
def router5Relayed : RouterState :=
  { router5FlyOver with
    in_queue_flits := []
    next_buf :=
      [{ avail := [4, 4],
         calls := [BufCall.TakeBuffer 0 10, BufCall.SendingFlit flit46] },
       { avail := [4, 4], calls := [] }, { avail := [4, 4], calls := [] },
       { avail := [4, 4], calls := [] }, { avail := [4, 4], calls := [] }]
    output_buffer := [[{ flit46 with flov_hops := 1 }], [], [], [], []] }

/-- Router 5 off after one more call of PowerStateEvaluate on
`router5FlyOver` (no traffic demand): only the off-cycle counters move. -/
def router5StillOff : RouterState :=
  { router5FlyOver with
    power_off_cycles := 1
    total_power_off_cycles := 1 }

/-- Router 0 of the 4x4 mesh: a corner router, ports 1 and 3 are boundary
ports. -/
def router0 : RouterState :=
  { router5 with id := 0 }

/-- Router 0 while draining, when local traffic demand has raised its wakeup
signal. -/
def router0Waking : RouterState :=
  { router0 with
    power_state := ePowerState.draining
    drain_counter := 1
    wakeup_signal := true }

/-- Router 0 while draining, when its neighbor on port 0 wakes up. -/
def router0Contended : RouterState :=
  { router0 with
    power_state := ePowerState.draining
    drain_counter := 1
    neighbor_states :=
      [ePowerState.wakeup, ePowerState.power_on, ePowerState.power_on, ePowerState.power_on] }

/-- Router 13 of the 4x4 mesh: a router of the bottom (memory-controller)
row, `13 >= gNodes - gK`. -/
def router13 : RouterState :=
  { router5 with id := 13 }

/-- Router 5 off, with traffic demand (`router_state` true). -/
def router5Demanded : RouterState :=
  { router5 with
    power_state := ePowerState.power_off
    drain_counter := 1
    router_state := true }

/-- Router 5 waking up, with the acknowledgement of every neighbor received. -/
def router5Awake : RouterState :=
  { router5 with
    power_state := ePowerState.wakeup
    drain_counter := 1
    off_counter := 1
    router_state := true
    drain_tags := [true, true, true, true] }

/-- Router 5 draining, its announcement sent (request id 1 on every port),
waiting for the acknowledgements. -/
def router5Asking : RouterState :=
  { router5Draining with out_queue_handshakes := [] }

/-- The drain-done of router 6 that answers request 1. -/
def ackFrom6 : Handshake :=
  { Handshake.New with drain_done := true, id := 6, hid := 1 }

/-- Router 5 after `ackFrom6` arrived on port 0. -/
def router5Acked : RouterState :=
  { router5Asking with drain_tags := [true, false, false, false] }

/-- Router 5 powered on next to a draining router 6 (port 0) to which it has
sent drain-done. -/
def router5By6Draining : RouterState :=
  { router5 with
    neighbor_states :=
      [ePowerState.draining, ePowerState.power_on, ePowerState.power_on, ePowerState.power_on]
    drain_done_sent := [true, false, false, false]
    resp_hids := [1, 0, 0, 0] }

/-- The announcement of router 6 that it is off. -/
def offFrom6 : Handshake :=
  { Handshake.New with new_state := some ePowerState.power_off, id := 6, hid := 2 }

/-- Router 5 after `offFrom6` arrived on port 0. -/
def router5By6Off : RouterState :=
  { router5By6Draining with
    neighbor_states :=
      [ePowerState.power_off, ePowerState.power_on, ePowerState.power_on, ePowerState.power_on]
    drain_done_sent := [false, false, false, false]
    resp_hids := [2, 0, 0, 0]
    next_buf :=
      [{ avail := [4, 4], calls := [BufCall.ClearCredits] },
       { avail := [4, 4], calls := [] }, { avail := [4, 4], calls := [] },
       { avail := [4, 4], calls := [] }, { avail := [4, 4], calls := [] }] }

/-- Router 5 powered on next to a router 6 that wakes up and to which it has
sent drain-done. -/
def router5By6Waking : RouterState :=
  { router5 with
    neighbor_states :=
      [ePowerState.wakeup, ePowerState.power_on, ePowerState.power_on, ePowerState.power_on]
    drain_done_sent := [true, false, false, false]
    resp_hids := [3, 0, 0, 0] }

/-- The announcement of router 6 that it is on. -/
def onFrom6 : Handshake :=
  { Handshake.New with new_state := some ePowerState.power_on, id := 6, hid := 4 }

/-- Router 5 after `onFrom6` arrived on port 0 from the waking router 6. -/
def router5By6Woken : RouterState :=
  { router5By6Waking with
    neighbor_states := List.replicate 4 ePowerState.power_on
    drain_done_sent := [false, false, false, false]
    resp_hids := [4, 0, 0, 0]
    next_buf :=
      [{ avail := [4, 4], calls := [BufCall.FullCredits] },
       { avail := [4, 4], calls := [] }, { avail := [4, 4], calls := [] },
       { avail := [4, 4], calls := [] }, { avail := [4, 4], calls := [] }] }

/-- Router 5 after `onFrom6` arrived on port 0 from the draining router 6. -/
def router5By6Reverted : RouterState :=
  { router5By6Draining with
    neighbor_states := List.replicate 4 ePowerState.power_on
    drain_done_sent := [false, false, false, false]
    resp_hids := [4, 0, 0, 0] }


/-- Router 5 powered on, when router 6 (port 0) has announced its drain with
request id 1 and nothing of router 5 is bound for port 0. -/
def router5Heard : RouterState :=
  { router5 with
    neighbor_states :=
      [ePowerState.draining, ePowerState.power_on, ePowerState.power_on, ePowerState.power_on]
    resp_hids := [1, 0, 0, 0] }

/-- As `router5Heard`, with VC 0 of input port 0 active and routed to output
port 0. -/
def router5UTurn : RouterState :=
  { router5Heard with
    buf :=
      [[{ state := eVCState.active, output_port := 0, output_vc := 0 },
        { state := eVCState.idle, output_port := -1, output_vc := -1 }],
       List.replicate 2 { state := eVCState.idle, output_port := -1, output_vc := -1 },
       List.replicate 2 { state := eVCState.idle, output_port := -1, output_vc := -1 },
       List.replicate 2 { state := eVCState.idle, output_port := -1, output_vc := -1 },
       List.replicate 2 { state := eVCState.idle, output_port := -1, output_vc := -1 }] }

/-- What `_HandshakeResponse` makes of `router5UTurn`: the drain-done for
router 6 is queued on port 0. -/
def router5UTurnAnswered : RouterState :=
  { router5UTurn with
    out_queue_handshakes := [(0, { Handshake.New with drain_done := true, id := 5, hid := 1 })]
    drain_done_sent := [true, false, false, false] }

/-- Router 5 draining (request id 1 sent on every port) when router 1, its
neighbor on port 3, has announced a drain of its own with request id 1. -/
def router5Rival : RouterState :=
  { router5 with
    power_state := ePowerState.draining
    drain_counter := 1
    req_hids := [1, 1, 1, 1]
    resp_hids := [0, 0, 0, 1]
    neighbor_states :=
      [ePowerState.power_on, ePowerState.power_on, ePowerState.power_on, ePowerState.draining] }

/-- Router 5 after the call of PowerStateEvaluate on `router5Rival`: back in
power_on, with the announcement queued on every port. -/
def router5Reverting : RouterState :=
  { router5Rival with
    power_state := ePowerState.power_on
    req_hids := [2, 2, 2, 2]
    out_queue_handshakes :=
      [(0, { Handshake.New with new_state := some ePowerState.power_on, id := 5, hid := 2 }),
       (1, { Handshake.New with new_state := some ePowerState.power_on, id := 5, hid := 2 }),
       (2, { Handshake.New with new_state := some ePowerState.power_on, id := 5, hid := 2 }),
       (3, { Handshake.New with new_state := some ePowerState.power_on, id := 5, hid := 2 })] }

/-- The handshake that leaves router 5 on port 3 in that cycle: the
announcement of power_on, marked as drain-done for request 1 of router 1. -/
def revertAndAck : Handshake :=
  { new_state := some ePowerState.power_on, drain_done := true, wakeup := false, id := 5,
    hid := 1 }

/-- Router 5 after `_InternalStep` on `router5Reverting`. -/
def router5RevertSent : RouterState :=
  { router5Reverting with
    out_queue_handshakes := []
    drain_done_sent := [false, false, false, true]
    handshake_buffer :=
      [[{ Handshake.New with new_state := some ePowerState.power_on, id := 5, hid := 2 }],
       [{ Handshake.New with new_state := some ePowerState.power_on, id := 5, hid := 2 }],
       [{ Handshake.New with new_state := some ePowerState.power_on, id := 5, hid := 2 }],
       [revertAndAck]] }

/-- Router 5 after `_InternalStep` on `router5Draining`: the four
announcements are in the handshake buffers. -/
def router5Announced : RouterState :=
  { router5Draining with
    out_queue_handshakes := []
    handshake_buffer :=
      [[{ Handshake.New with new_state := some ePowerState.draining, id := 5, hid := 1 }],
       [{ Handshake.New with new_state := some ePowerState.draining, id := 5, hid := 1 }],
       [{ Handshake.New with new_state := some ePowerState.draining, id := 5, hid := 1 }],
       [{ Handshake.New with new_state := some ePowerState.draining, id := 5, hid := 1 }]] }

/-- Router 5 draining, one cycle after the start of its drain. -/
def router5Drain1 : RouterState :=
  { router5Asking with drain_timer := 1 }

/-- Router 5 draining, two cycles after the start of its drain. -/
def router5Drain2 : RouterState :=
  { router5Asking with drain_timer := 2 }

/-- As `router5Drain2`, once the acknowledgements of the four neighbors have
arrived. -/
def router5Drain2Acked : RouterState :=
  { router5Drain2 with drain_tags := [true, true, true, true] }

/-- Router 5 after the call of PowerStateEvaluate on `router5Drain2Acked`:
off, with a drain time of three cycles recorded. -/
def router5Off3 : RouterState :=
  { router5Off with
    drain_time_q := [3]
    max_drain_time := 3
    min_drain_time := 3
    req_hids := [2, 2, 2, 2]
    out_queue_handshakes :=
      [(0, { Handshake.New with new_state := some ePowerState.power_off, id := 5, hid := 2 }),
       (1, { Handshake.New with new_state := some ePowerState.power_off, id := 5, hid := 2 }),
       (2, { Handshake.New with new_state := some ePowerState.power_off, id := 5, hid := 2 }),
       (3, { Handshake.New with new_state := some ePowerState.power_off, id := 5, hid := 2 })] }

/-- The cycles between the start of the drain of router 5 and the call that
turns it off: the calls of the first and of the second cycle after the start. -/
def drainRun5Mid : List (RouterState × RouterState) :=
  [(router5Asking, router5Drain1), (router5Drain1, router5Drain2)]

/-- A drain-done from router 6 that answers a request router 5 never made
(request id 7). -/
def staleAckFrom6 : Handshake :=
  { Handshake.New with drain_done := true, id := 6, hid := 7 }

/-- The announcement of router 6 that it starts to drain, request id 1. -/
def drainFrom6 : Handshake :=
  { Handshake.New with new_state := some ePowerState.draining, id := 6, hid := 1 }

/-- Router 4 of the 4x4 mesh (west edge: port 1 is a boundary port, its
channel wraps around to router 7 and is not used) while draining, one cycle
in, with every drain tag set and nothing left in its buffers. -/
def router4Drained : RouterState :=
  { router5Drained with id := 4, output_sinks := [some 5, some 7, some 8, some 0, none] }

/-- Router 4 after the call of PowerStateEvaluate that completes the drain of
`router4Drained`: off, with the credit snapshot of the ports 1, 2 and 3 only. -/
def router4Off : RouterState :=
  { router4Drained with
    power_state := ePowerState.power_off
    drain_tags := [false, false, false, false]
    drain_timer := 0
    drain_time_q := [2]
    max_drain_time := 2
    min_drain_time := 2
    credit_counter := [[0, 0], [4, 4], [4, 4], [4, 4], [0, 0]]
    req_hids := [1, 0, 1, 1]
    out_queue_handshakes :=
      [(0, { Handshake.New with new_state := some ePowerState.power_off, id := 4, hid := 1 }),
       (2, { Handshake.New with new_state := some ePowerState.power_off, id := 4, hid := 1 }),
       (3, { Handshake.New with new_state := some ePowerState.power_off, id := 4, hid := 1 })] }

/-- A credit for VC 0 that arrived for output port 0, due at cycle 0. -/
def creditFor0 : CreditItem :=
  { time := 0, credit := { vc := [0] }, output := 0 }

/-- Router 5 off, with one credit of VC 0 of output port 0 still to be
replayed upstream (`credit_counter[0][0] = 1`). -/
def router5Owing : RouterState :=
  { router5 with
    power_state := ePowerState.power_off
    drain_counter := 1
    off_timer := 2
    credit_counter := [[1, 0], [0, 0], [0, 0], [0, 0], [0, 0]] }

/-- As `router5Owing`, in a cycle in which a credit for VC 0 of output port 0
arrives from downstream as well. -/
def router5Replaying : RouterState :=
  { router5Owing with proc_credits := [creditFor0] }

/-- Router 5 after `_RFlovStep` on `router5Replaying`: the credit from
downstream is relayed to input port 1, and the counter is as it was. -/
def router5Replayed : RouterState :=
  { router5Replaying with
    proc_credits := []
    next_buf :=
      [{ avail := [4, 4], calls := [BufCall.ProcessCredit { vc := [0] }] },
       { avail := [4, 4], calls := [] }, { avail := [4, 4], calls := [] },
       { avail := [4, 4], calls := [] }, { avail := [4, 4], calls := [] }]
    out_queue_credits := [(1, { vc := [0] })] }

/-- The head flit of a packet on VC 0, on its way from router 4 to router 9
(by router 5 and its output 2), routed at cycle 0. -/
def flit49 : Flit :=
  { id := 9, pid := 4, vc := 0, head := true, tail := false, flov_hops := 0, rtime := 0,
    dest := 9 }

/-- The head flit of a packet on VC 0, on its way from router 4 to router 10,
for which router 5 has the two productive outputs 0 and 2; routed at
cycle 0. -/
def flit410 : Flit :=
  { id := 11, pid := 5, vc := 0, head := true, tail := false, flov_hops := 0, rtime := 0,
    dest := 10 }

/-- A separate VC allocator, no speculation, no input speedup. -/
def separate : AllocConfig :=
  { vc_allocator := true, speculative := false, input_speedup := 1 }

/-- A candidate of a route set: output port `p` with both VCs and priority
`pri`. -/
def candidate (p pri : Int) : SetElement :=
  { vc_start := 0, vc_end := 1, pri := pri, output_port := p }

/-- Router 5 next to the draining router 6 (port 0), with the head flit of
the packet from router 4 to router 6 waiting for a VC: VC 0 of input port 1
is in state vc_alloc with the route set `{0}`, and its entry is at the front
of `_vc_alloc_vcs`, with VC 0 of output 0 granted. -/
def router5Allocating : RouterState :=
  { router5Heard with
    active := true
    buf :=
      [List.replicate 2 { state := eVCState.idle, output_port := -1, output_vc := -1 },
       [{ state := eVCState.vc_alloc, output_port := -1, output_vc := -1,
          route_set := [candidate 0 0], flits := [flit46] },
        { state := eVCState.idle, output_port := -1, output_vc := -1 }],
       List.replicate 2 { state := eVCState.idle, output_port := -1, output_vc := -1 },
       List.replicate 2 { state := eVCState.idle, output_port := -1, output_vc := -1 },
       List.replicate 2 { state := eVCState.idle, output_port := -1, output_vc := -1 }]
    vc_alloc_vcs := [{ time := 5, input := 1, vc := 0, output := 0 }] }

/-- Router 5 after the grant path of `_VCAllocUpdate` on `router5Allocating`:
the VC is back in state routing, its route set cleared, and `(1, 0)` is on
`_route_vcs`. -/
def router5Rerouted : RouterState :=
  { router5Allocating with
    buf :=
      [List.replicate 2 { state := eVCState.idle, output_port := -1, output_vc := -1 },
       [{ state := eVCState.routing, output_port := -1, output_vc := -1, flits := [flit46] },
        { state := eVCState.idle, output_port := -1, output_vc := -1 }],
       List.replicate 2 { state := eVCState.idle, output_port := -1, output_vc := -1 },
       List.replicate 2 { state := eVCState.idle, output_port := -1, output_vc := -1 },
       List.replicate 2 { state := eVCState.idle, output_port := -1, output_vc := -1 }]
    route_vcs := [{ time := -1, input := 1, vc := 0 }]
    vc_alloc_vcs := [] }

/-- Router 5 next to the draining router 6 (port 0), all other neighbors on.
The head flit in VC 0 of input port 1 has two candidates, output 0 (towards
router 6) with priority 1 and output 2 (towards router 9) with priority 0,
iterated in this order; its entry is at the front of `_vc_alloc_vcs` without a
grant. -/
def router5TwoWays : RouterState :=
  { router5Heard with
    active := true
    buf :=
      [List.replicate 2 { state := eVCState.idle, output_port := -1, output_vc := -1 },
       [{ state := eVCState.vc_alloc, output_port := -1, output_vc := -1,
          route_set := [candidate 0 1, candidate 2 0], flits := [flit410] },
        { state := eVCState.idle, output_port := -1, output_vc := -1 }],
       List.replicate 2 { state := eVCState.idle, output_port := -1, output_vc := -1 },
       List.replicate 2 { state := eVCState.idle, output_port := -1, output_vc := -1 },
       List.replicate 2 { state := eVCState.idle, output_port := -1, output_vc := -1 }]
    vc_alloc_vcs := [{ time := 5, input := 1, vc := 0, output := -2 }] }

/-- Router 5 after the path without grant of `_VCAllocUpdate` on
`router5TwoWays`: the VC is back in state routing with its route set
cleared. -/
def router5TwoWaysBounced : RouterState :=
  { router5TwoWays with
    buf :=
      [List.replicate 2 { state := eVCState.idle, output_port := -1, output_vc := -1 },
       [{ state := eVCState.routing, output_port := -1, output_vc := -1, flits := [flit410] },
        { state := eVCState.idle, output_port := -1, output_vc := -1 }],
       List.replicate 2 { state := eVCState.idle, output_port := -1, output_vc := -1 },
       List.replicate 2 { state := eVCState.idle, output_port := -1, output_vc := -1 },
       List.replicate 2 { state := eVCState.idle, output_port := -1, output_vc := -1 }]
    route_vcs := [{ time := -1, input := 1, vc := 0 }]
    vc_alloc_vcs := [] }

/-- Separate allocators with speculative switch allocation. -/
def speculating : AllocConfig :=
  { vc_allocator := true, speculative := true, input_speedup := 1 }

/-- Router 5 under speculation, with a head flit waiting in VC 0 of input
port 1 for output 2 (towards router 9, which is on): the VC is in state
vc_alloc and has an entry without grant on both work-lists. -/
def router5OnBothLists : RouterState :=
  { router5Heard with
    active := true
    buf :=
      [List.replicate 2 { state := eVCState.idle, output_port := -1, output_vc := -1 },
       [{ state := eVCState.vc_alloc, output_port := -1, output_vc := -1,
          route_set := [candidate 2 0], flits := [flit49] },
        { state := eVCState.idle, output_port := -1, output_vc := -1 }],
       List.replicate 2 { state := eVCState.idle, output_port := -1, output_vc := -1 },
       List.replicate 2 { state := eVCState.idle, output_port := -1, output_vc := -1 },
       List.replicate 2 { state := eVCState.idle, output_port := -1, output_vc := -1 }]
    vc_alloc_vcs := [{ time := 300, input := 1, vc := 0, output := -2 }]
    sw_alloc_vcs := [{ time := 300, input := 1, vc := 0, output := -2 }] }

/-- Router 5 with separate allocators at cycle 301. The head flit in VC 0 of
input port 1 was routed at cycle 0 and won VC 0 of output 2 at cycle 300; the
VC is active and its entry is at the front of `_sw_alloc_vcs` without a
grant. -/
def router5Stuck : RouterState :=
  { router5Heard with
    active := true
    buf :=
      [List.replicate 2 { state := eVCState.idle, output_port := -1, output_vc := -1 },
       [{ state := eVCState.active, output_port := 2, output_vc := 0,
          route_set := [candidate 2 0], flits := [flit49] },
        { state := eVCState.idle, output_port := -1, output_vc := -1 }],
       List.replicate 2 { state := eVCState.idle, output_port := -1, output_vc := -1 },
       List.replicate 2 { state := eVCState.idle, output_port := -1, output_vc := -1 },
       List.replicate 2 { state := eVCState.idle, output_port := -1, output_vc := -1 }]
    sw_alloc_vcs := [{ time := 301, input := 1, vc := 0, output := -2 }] }

/-- Router 5 after the path without grant of `_SWAllocUpdate` on
`router5Stuck` at cycle 301: nothing but the time of the entry has changed. -/
def router5StillStuck : RouterState :=
  { router5Stuck with
    sw_alloc_vcs := [{ time := -1, input := 1, vc := 0, output := -1 }] }

/-- Router 1 of the 4x4 mesh (top row: port 3 is a boundary port) draining,
when router 5, its neighbor on port 2, has announced a drain of its own. -/
def router1Rival : RouterState :=
  { router5 with
    id := 1
    power_state := ePowerState.draining
    drain_counter := 1
    drain_tags := [false, false, false, true]
    req_hids := [1, 1, 1, 0]
    resp_hids := [0, 0, 1, 0]
    output_sinks := [some 2, some 0, some 5, none, none]
    neighbor_states :=
      [ePowerState.power_on, ePowerState.power_on, ePowerState.draining, ePowerState.power_on] }

/-- A router built with six inputs and outputs (the four mesh ports and two
local ports) at the place of router 5, draining, when the router on its port
3 has announced a drain of its own. -/
def router5Wide : RouterState :=
  { router5Rival with
    inputs := 6, outputs := 6
    credit_counter := List.replicate 6 [0, 0]
    next_buf := List.replicate 6 { avail := [4, 4], calls := [] }
    buf := List.replicate 6
      (List.replicate 2 { state := eVCState.idle, output_port := -1, output_vc := -1 })
    output_buffer := [[], [], [], [], [], []]
    credit_buffer := [[], [], [], [], [], []]
    output_sinks := [some 6, some 4, some 9, some 1, none, none] }

/-- The router `router5Wide` after the call of PowerStateEvaluate: back in
power_on, with five drain tags. -/
def router5WideReverted : RouterState :=
  { router5Wide with
    power_state := ePowerState.power_on
    drain_timer := 0
    drain_tags := [false, false, false, false, false]
    req_hids := [2, 2, 2, 2]
    out_queue_handshakes :=
      [(0, { Handshake.New with new_state := some ePowerState.power_on, id := 5, hid := 2 }),
       (1, { Handshake.New with new_state := some ePowerState.power_on, id := 5, hid := 2 }),
       (2, { Handshake.New with new_state := some ePowerState.power_on, id := 5, hid := 2 }),
       (3, { Handshake.New with new_state := some ePowerState.power_on, id := 5, hid := 2 })] }

/-- Router 5 under speculation next to the draining router 6 (port 0): the
head flit of the packet from router 4 to router 6 waits in VC 0 of input port
1, in state vc_alloc, with its entry at the front of `_vc_alloc_vcs`, granted
VC 0 of output 0, and its speculative entry on `_sw_alloc_vcs`. -/
def router5Speculating : RouterState :=
  { router5Allocating with
    sw_alloc_vcs := [{ time := 5, input := 1, vc := 0, output := -2 }] }

/-- Router 5 next to the draining router 6 (port 0), with VC 0 of input port
1 active for VC 0 of output 0: VC allocation has taken the downstream buffer
(owner tag 1 * 2 + 0), and the entry of the VC is at the front of
`_sw_alloc_vcs` without a grant. -/
def router5Committed : RouterState :=
  { router5Heard with
    active := true
    buf :=
      [List.replicate 2 { state := eVCState.idle, output_port := -1, output_vc := -1 },
       [{ state := eVCState.active, output_port := 0, output_vc := 0,
          route_set := [candidate 0 0], flits := [flit46] },
        { state := eVCState.idle, output_port := -1, output_vc := -1 }],
       List.replicate 2 { state := eVCState.idle, output_port := -1, output_vc := -1 },
       List.replicate 2 { state := eVCState.idle, output_port := -1, output_vc := -1 },
       List.replicate 2 { state := eVCState.idle, output_port := -1, output_vc := -1 }]
    next_buf :=
      [{ avail := [4, 4], calls := [BufCall.TakeBuffer 0 2], taken := [0] },
       { avail := [4, 4], calls := [] }, { avail := [4, 4], calls := [] },
       { avail := [4, 4], calls := [] }, { avail := [4, 4], calls := [] }]
    sw_alloc_vcs := [{ time := 7, input := 1, vc := 0, output := -2 }] }

/-- Router 5 after the path without grant of `_SWAllocUpdate` on
`router5Committed`: the downstream buffer is returned and the VC is back in
state routing. -/
def router5Released : RouterState :=
  { router5Committed with
    buf :=
      [List.replicate 2 { state := eVCState.idle, output_port := -1, output_vc := -1 },
       [{ state := eVCState.routing, output_port := 0, output_vc := 0, flits := [flit46] },
        { state := eVCState.idle, output_port := -1, output_vc := -1 }],
       List.replicate 2 { state := eVCState.idle, output_port := -1, output_vc := -1 },
       List.replicate 2 { state := eVCState.idle, output_port := -1, output_vc := -1 },
       List.replicate 2 { state := eVCState.idle, output_port := -1, output_vc := -1 }]
    next_buf :=
      [{ avail := [4, 4], calls := [BufCall.TakeBuffer 0 2, BufCall.ReturnBuffer 0],
         taken := [0] },
       { avail := [4, 4], calls := [] }, { avail := [4, 4], calls := [] },
       { avail := [4, 4], calls := [] }, { avail := [4, 4], calls := [] }]
    route_vcs := [{ time := -1, input := 1, vc := 0 }]
    sw_alloc_vcs := [] }

/-- The announcement of router 6 that it wakes up, request id 3. -/
def wakeFrom6 : Handshake :=
  { Handshake.New with new_state := some ePowerState.wakeup, id := 6, hid := 3 }

/-- Router 5 after the power cycle of router 6 (port 0), announced by
`drainFrom6`, `offFrom6`, `wakeFrom6` and `onFrom6`: the credits of port 0
were cleared and filled again, the last request id of router 6 is recorded,
and the drain-done of router 5 is queued on port 0. -/
def router5AfterCycle : RouterState :=
  { router5 with
    resp_hids := [4, 0, 0, 0]
    next_buf :=
      [{ avail := [4, 4], calls := [BufCall.ClearCredits, BufCall.FullCredits] },
       { avail := [4, 4], calls := [] }, { avail := [4, 4], calls := [] },
       { avail := [4, 4], calls := [] }, { avail := [4, 4], calls := [] }]
    out_queue_handshakes := [(0, { Handshake.New with drain_done := true, id := 5, hid := 3 })] }

/-- Router 5 draining, with a stale drain-done (hid 7) and then the
drain-done that answers request 1, both received on port 0, waiting in
`_proc_handshakes`. -/
def router5AckWaiting : RouterState :=
  { router5Asking with proc_handshakes := [(0, staleAckFrom6), (0, ackFrom6)] }

/-- Router 5 draining, with the stale drain-done (hid 7) received on port 0
waiting in `_proc_handshakes`. -/
def router5StaleWaiting : RouterState :=
  { router5Asking with proc_handshakes := [(0, staleAckFrom6)] }

/-- Router 5 with the announcement of router 6 that it drains waiting in
`_proc_handshakes`. -/
def router5Hearing : RouterState :=
  { router5 with proc_handshakes := [(0, drainFrom6)] }

/-- Router 5 right after construction, when `_InputQueuing` at cycle 0 has
put the single-flit packet for router 6 into VC 0 of input port 1: the VC is
in state routing and entered on `_route_vcs`. -/
def router5Arrived46 : RouterState :=
  { router5 with
    buf :=
      [List.replicate 2 { state := eVCState.idle, output_port := -1, output_vc := -1 },
       [{ state := eVCState.routing, output_port := -1, output_vc := -1, flits := [flit46] },
        { state := eVCState.idle, output_port := -1, output_vc := -1 }],
       List.replicate 2 { state := eVCState.idle, output_port := -1, output_vc := -1 },
       List.replicate 2 { state := eVCState.idle, output_port := -1, output_vc := -1 },
       List.replicate 2 { state := eVCState.idle, output_port := -1, output_vc := -1 }]
    route_vcs := [{ time := -1, input := 1, vc := 0 }] }

/-- The router `router5Arrived46` after `_RouteUpdate` at cycle 0 under
speculation with a separate VC allocator, the routing function having given
the candidate output 0: the VC is in state vc_alloc and entered on both
allocation lists. -/
def router5Routed46 : RouterState :=
  { router5 with
    buf :=
      [List.replicate 2 { state := eVCState.idle, output_port := -1, output_vc := -1 },
       [{ state := eVCState.vc_alloc, output_port := -1, output_vc := -1,
          route_set := [candidate 0 0], flits := [flit46] },
        { state := eVCState.idle, output_port := -1, output_vc := -1 }],
       List.replicate 2 { state := eVCState.idle, output_port := -1, output_vc := -1 },
       List.replicate 2 { state := eVCState.idle, output_port := -1, output_vc := -1 },
       List.replicate 2 { state := eVCState.idle, output_port := -1, output_vc := -1 }]
    vc_alloc_vcs := [{ time := -1, input := 1, vc := 0, output := -1 }]
    sw_alloc_vcs := [{ time := -1, input := 1, vc := 0, output := -1 }] }

/-- Router 5 right after construction, when `_InputQueuing` at cycle 0 has
put the head flit of the packet for router 9 into VC 0 of input port 1. -/
def router5Arrived49 : RouterState :=
  { router5 with
    buf :=
      [List.replicate 2 { state := eVCState.idle, output_port := -1, output_vc := -1 },
       [{ state := eVCState.routing, output_port := -1, output_vc := -1, flits := [flit49] },
        { state := eVCState.idle, output_port := -1, output_vc := -1 }],
       List.replicate 2 { state := eVCState.idle, output_port := -1, output_vc := -1 },
       List.replicate 2 { state := eVCState.idle, output_port := -1, output_vc := -1 },
       List.replicate 2 { state := eVCState.idle, output_port := -1, output_vc := -1 }]
    route_vcs := [{ time := -1, input := 1, vc := 0 }] }

/-- The router `router5Arrived49` after `_RouteUpdate` at cycle 0 under
speculation with a separate VC allocator, the routing function having given
the candidate output 2. -/
def router5Routed49 : RouterState :=
  { router5 with
    buf :=
      [List.replicate 2 { state := eVCState.idle, output_port := -1, output_vc := -1 },
       [{ state := eVCState.vc_alloc, output_port := -1, output_vc := -1,
          route_set := [candidate 2 0], flits := [flit49] },
        { state := eVCState.idle, output_port := -1, output_vc := -1 }],
       List.replicate 2 { state := eVCState.idle, output_port := -1, output_vc := -1 },
       List.replicate 2 { state := eVCState.idle, output_port := -1, output_vc := -1 },
       List.replicate 2 { state := eVCState.idle, output_port := -1, output_vc := -1 }]
    vc_alloc_vcs := [{ time := -1, input := 1, vc := 0, output := -1 }]
    sw_alloc_vcs := [{ time := -1, input := 1, vc := 0, output := -1 }] }

/-- As `router5Committed`, with the entry of the VC granted output 0 by
switch allocation. -/
def router5Overtaken : RouterState :=
  { router5Committed with
    sw_alloc_vcs := [{ time := 7, input := 1, vc := 0, output := 0 }] }

end RFLOV

/-! ## Lemmas on the topology predicates and the neighbor scans -/

namespace RFLOV

theorem boundary_eq (g : Globals) (id : Int) (out : Nat) (hK : g.gK ≠ 0) :
    boundary g id out = some (isBoundary g id out) := by
  unfold boundary isBoundary cmod cdiv
  by_cases h0 : out = 0
  · subst h0; simp [hK]
  by_cases h1 : out = 1
  · subst h1; simp [hK]
  by_cases h2 : out = 2
  · subst h2; simp [hK]
  by_cases h3 : out = 3
  · subst h3; simp [hK]
  simp [h0, h1, h2, h3]

theorem oppBoundary_eq (g : Globals) (id : Int) (i : Nat) (hK : g.gK ≠ 0) :
    oppBoundary g id i = some (isOppBoundary g id i) := by
  unfold oppBoundary isOppBoundary cmod cdiv
  by_cases h0 : i = 0
  · subst h0; simp [hK]
  by_cases h1 : i = 1
  · subst h1; simp [hK]
  by_cases h2 : i = 2
  · subst h2; simp [hK]
  by_cases h3 : i = 3
  · subst h3; simp [hK]
  simp [h0, h1, h2, h3]

theorem offSide_eq (g : Globals) (id : Int) (out : Nat) (hK : g.gK ≠ 0) :
    offSide g id out = some ((out == 1 || out == 3) && !isBoundary g id out) := by
  unfold offSide isBoundary cmod cdiv
  by_cases h1 : out = 1
  · subst h1; simp [hK, bne]
  by_cases h3 : out = 3
  · subst h3; simp [hK, bne]
  simp [h1, h3]

theorem scanPowerOn_spec (g : Globals) (id : Int) (ns : List ePowerState) (hK : g.gK ≠ 0)
    (ports : List Nat) (hlen : ∀ p ∈ ports, p < ns.length) :
    ∃ nd noff, scanPowerOn g id ns ports = some (nd, noff) ∧
      ((nd = true ∨ noff = true) ↔
        ∃ p ∈ ports, ns[p]? = some ePowerState.draining ∨
          (isBoundary g id p = false ∧
            (ns[p]? = some ePowerState.power_off ∨ ns[p]? = some ePowerState.wakeup))) := by
  induction ports with
  | nil => exact ⟨false, false, rfl, by simp⟩
  | cons out rest ih =>
    have hout : out < ns.length := hlen out (List.mem_cons_self _ _)
    obtain ⟨nd, noff, hscan, hiff⟩ := ih (fun p hp => hlen p (List.mem_cons_of_mem _ hp))
    have hget : ns[out]? = some ns[out] := List.getElem?_eq_getElem hout
    rw [List.exists_mem_cons_iff, ← hiff]
    unfold scanPowerOn
    rw [hget, boundary_eq g id out hK]
    cases hst : ns[out] <;> cases hb : isBoundary g id out <;>
      simp [hscan] <;> cases nd <;> cases noff <;> simp

theorem scanDraining_spec (g : Globals) (id : Int) (ns : List ePowerState) (hK : g.gK ≠ 0)
    (ports : List Nat) (hlen : ∀ p ∈ ports, p < ns.length) :
    ∃ nd noff, scanDraining g id ns ports = some (nd, noff) ∧
      ((nd = true ∨ noff = true) ↔
        ∃ p ∈ ports, (ns[p]? = some ePowerState.draining ∧ (p = 1 ∨ p = 3)) ∨
          ns[p]? = some ePowerState.wakeup ∨
          (ns[p]? = some ePowerState.power_off ∧ (p = 1 ∨ p = 3) ∧
            isBoundary g id p = false)) := by
  induction ports with
  | nil => exact ⟨false, false, rfl, by simp⟩
  | cons out rest ih =>
    have hout : out < ns.length := hlen out (List.mem_cons_self _ _)
    obtain ⟨nd, noff, hscan, hiff⟩ := ih (fun p hp => hlen p (List.mem_cons_of_mem _ hp))
    have hget : ns[out]? = some ns[out] := List.getElem?_eq_getElem hout
    rw [List.exists_mem_cons_iff, ← hiff]
    unfold scanDraining
    rw [hget, offSide_eq g id out hK]
    have hdec : (out == 1 || out == 3) = decide (out = 1 ∨ out = 3) := by
      by_cases h1 : out = 1 <;> by_cases h3 : out = 3 <;> simp [h1, h3]
    rw [hdec]
    cases hst : ns[out] <;> cases hb : isBoundary g id out <;>
      by_cases h13 : (out = 1 ∨ out = 3) <;>
      simp [hscan, h13] <;> cases nd <;> cases noff <;> simp

/-! ## Lemmas on the drain test -/

theorem tagsAll_four (t0 t1 t2 t3 : Bool) :
    tagsAll [t0, t1, t2, t3] [0, 1, 2, 3] = some (t0 && t1 && t2 && t3) := by
  cases t0 <;> cases t1 <;> cases t2 <;> cases t3 <;> rfl

theorem allDrainTags_four (s : RouterState) (t0 t1 t2 t3 : Bool)
    (h : s.drain_tags = [t0, t1, t2, t3]) :
    AllDrainTags s ↔ (t0 && t1 && t2 && t3) = true := by
  unfold AllDrainTags
  rw [h]
  constructor
  · intro hall
    have h0 := hall 0 (by decide)
    have h1 := hall 1 (by decide)
    have h2 := hall 2 (by decide)
    have h3 := hall 3 (by decide)
    simp at h0 h1 h2 h3
    simp [h0, h1, h2, h3]
  · intro hall p hp
    simp at hall
    obtain ⟨⟨⟨h0, h1⟩, h2⟩, h3⟩ := hall
    interval_cases p <;> simp [h0, h1, h2, h3]

theorem vcsIdle_true (b : Buffer) (l : List Nat) (h : vcsIdle b l = some true) :
    ∀ vc ∈ l, (b[vc]?).map VC.state = some eVCState.idle := by
  induction l with
  | nil => simp
  | cons vc rest ih =>
    unfold vcsIdle at h
    cases hb : b[vc]? with
    | none => simp [hb] at h
    | some v =>
      simp only [hb] at h
      by_cases hv : v.state = eVCState.idle
      · simp only [hv, ne_eq, not_true_eq_false, if_false] at h
        intro x hx
        rcases List.mem_cons.mp hx with rfl | hx
        · simp [hb, hv]
        · exact ih h x hx
      · simp [hv] at h

theorem vcsIdle_spec (b : Buffer) (l : List Nat) (hlen : ∀ vc ∈ l, vc < b.length) :
    ∃ r, vcsIdle b l = some r ∧
      (r = true ↔ ∀ vc ∈ l, (b[vc]?).map VC.state = some eVCState.idle) := by
  induction l with
  | nil => exact ⟨true, rfl, by simp⟩
  | cons vc rest ih =>
    obtain ⟨r, hr, hiff⟩ := ih (fun x hx => hlen x (List.mem_cons_of_mem _ hx))
    have hvc : vc < b.length := hlen vc (List.mem_cons_self _ _)
    have hget : b[vc]? = some b[vc] := List.getElem?_eq_getElem hvc
    unfold vcsIdle
    rw [hget]
    by_cases hv : b[vc].state = eVCState.idle
    · refine ⟨r, by simp [hv, hr], ?_⟩
      rw [hiff]
      simp [hget, hv]
    · refine ⟨false, by simp [hv], ?_⟩
      simp [hget, hv]

theorem getState_idle_iff (s : RouterState) (i : Nat) (b : Buffer) (hb : s.buf[i]? = some b) :
    (∀ vc ∈ List.range s.vcs, (b[vc]?).map VC.state = some eVCState.idle) ↔
      ∀ vc < s.vcs, GetState s i vc = some eVCState.idle := by
  unfold GetState
  simp [hb]

theorem buffersDrained_true (s : RouterState) (ports : List Nat) (dd : Bool)
    (h : buffersDrained s.buf s.vcs s.output_buffer ports dd = some true) :
    dd = true ∧ ∀ i ∈ ports,
      (∀ vc < s.vcs, GetState s i vc = some eVCState.idle) ∧ s.output_buffer[i]? = some [] := by
  induction ports generalizing dd with
  | nil =>
    unfold buffersDrained at h
    simp at h
    simp [h]
  | cons i rest ih =>
    unfold buffersDrained at h
    cases hb : s.buf[i]? with
    | none => simp [hb] at h
    | some b =>
      simp only [hb] at h
      cases hidle : vcsIdle b (List.range s.vcs) with
      | none => simp [hidle] at h
      | some idle =>
        simp only [hidle] at h
        cases hq : s.output_buffer[i]? with
        | none => simp [hq] at h
        | some q =>
          simp only [hq] at h
          obtain ⟨hacc, hrest⟩ := ih _ h
          simp only [Bool.and_eq_true, List.isEmpty_iff] at hacc
          obtain ⟨⟨hdd, hi⟩, hqe⟩ := hacc
          refine ⟨hdd, ?_⟩
          intro x hx
          rcases List.mem_cons.mp hx with rfl | hx
          · subst hi
            exact ⟨(getState_idle_iff s x b hb).mp (vcsIdle_true b _ hidle), by rw [hq, hqe]⟩
          · exact hrest x hx

theorem buffersDrained_spec (s : RouterState) (ports : List Nat) (dd : Bool)
    (hbuf : ∀ i ∈ ports, i < s.buf.length ∧ i < s.output_buffer.length)
    (hvcs : ∀ b ∈ s.buf, b.length = s.vcs) :
    ∃ r, buffersDrained s.buf s.vcs s.output_buffer ports dd = some r ∧
      (r = true ↔ dd = true ∧ ∀ i ∈ ports,
        (∀ vc < s.vcs, GetState s i vc = some eVCState.idle) ∧
        s.output_buffer[i]? = some []) := by
  induction ports generalizing dd with
  | nil => exact ⟨dd, rfl, by simp⟩
  | cons i rest ih =>
    obtain ⟨hib, hio⟩ := hbuf i (List.mem_cons_self _ _)
    have hgb : s.buf[i]? = some s.buf[i] := List.getElem?_eq_getElem hib
    have hgo : s.output_buffer[i]? = some s.output_buffer[i] := List.getElem?_eq_getElem hio
    have hbl : (s.buf[i]).length = s.vcs := hvcs _ (List.getElem_mem hib)
    obtain ⟨idle, hidle, hidleiff⟩ := vcsIdle_spec s.buf[i] (List.range s.vcs)
      (fun vc hvc => by rw [hbl]; exact List.mem_range.mp hvc)
    obtain ⟨r, hr, hiff⟩ := ih (dd && idle && (s.output_buffer[i]).isEmpty)
      (fun x hx => hbuf x (List.mem_cons_of_mem _ hx))
    refine ⟨r, ?_, ?_⟩
    · unfold buffersDrained
      simp only [hgb, hidle, hgo, hr]
    · rw [hiff, List.forall_mem_cons, ← getState_idle_iff s i _ hgb, ← hidleiff, hgo]
      simp only [Bool.and_eq_true, List.isEmpty_iff, Option.some.injEq]
      tauto

/-! ## Lemmas on the announcing loop -/

theorem announce_four (g : Globals) (id : Int) (st : ePowerState) (skipEdge tagEdge : Bool)
    (hK : g.gK ≠ 0) (t0 t1 t2 t3 : Bool) (r0 r1 r2 r3 : Int) :
    announce g id st skipEdge tagEdge [0, 1, 2, 3] [t0, t1, t2, t3] [r0, r1, r2, r3] [] =
      some ([t0 || (skipEdge && tagEdge && isBoundary g id 0),
             t1 || (skipEdge && tagEdge && isBoundary g id 1),
             t2 || (skipEdge && tagEdge && isBoundary g id 2),
             t3 || (skipEdge && tagEdge && isBoundary g id 3)],
            hidsNext g id skipEdge r0 r1 r2 r3, sentAll g id st skipEdge r0 r1 r2 r3) := by
  simp only [announce, boundary_eq g id _ hK, hidsNext, sentAll]
  cases skipEdge <;> cases tagEdge <;>
    cases isBoundary g id 0 <;> cases isBoundary g id 1 <;>
    cases isBoundary g id 2 <;> cases isBoundary g id 3 <;>
    simp [announceOn, mapInsert, mapHas, mapFind, mapPut, mapUpdate, vecSet, sentOn]

theorem announce_all (g : Globals) (id : Int) (st : ePowerState) (tags : List Bool)
    (r0 r1 r2 r3 : Int) :
    announce g id st false false [0, 1, 2, 3] tags [r0, r1, r2, r3] [] =
      some (tags, hidsNext g id false r0 r1 r2 r3, sentAll g id st false r0 r1 r2 r3) := by
  simp [announce, announceOn, mapInsert, mapHas, mapFind, mapPut, mapUpdate, sentOn,
    hidsNext, sentAll]

theorem mapFind_sent (id : Int) (st : ePowerState) (e0 e1 e2 e3 : Bool) (r0 r1 r2 r3 : Int)
    (p : Nat) :
    mapFind p (sentOn id st e0 0 r0 ++ sentOn id st e1 1 r1 ++
        sentOn id st e2 2 r2 ++ sentOn id st e3 3 r3) =
      if p = 0 then (if e0 = true then none else
          some { Handshake.New with new_state := some st, id := id, hid := r0 + 1 })
      else if p = 1 then (if e1 = true then none else
          some { Handshake.New with new_state := some st, id := id, hid := r1 + 1 })
      else if p = 2 then (if e2 = true then none else
          some { Handshake.New with new_state := some st, id := id, hid := r2 + 1 })
      else if p = 3 then (if e3 = true then none else
          some { Handshake.New with new_state := some st, id := id, hid := r3 + 1 })
      else none := by
  by_cases h0 : p = 0
  · subst h0; cases e0 <;> cases e1 <;> cases e2 <;> cases e3 <;> simp [sentOn, mapFind]
  by_cases h1 : p = 1
  · subst h1; cases e0 <;> cases e1 <;> cases e2 <;> cases e3 <;> simp [sentOn, mapFind]
  by_cases h2 : p = 2
  · subst h2; cases e0 <;> cases e1 <;> cases e2 <;> cases e3 <;> simp [sentOn, mapFind]
  by_cases h3 : p = 3
  · subst h3; cases e0 <;> cases e1 <;> cases e2 <;> cases e3 <;> simp [sentOn, mapFind]
  have h0' : ¬ 0 = p := fun h => h0 h.symm
  have h1' : ¬ 1 = p := fun h => h1 h.symm
  have h2' : ¬ 2 = p := fun h => h2 h.symm
  have h3' : ¬ 3 = p := fun h => h3 h.symm
  cases e0 <;> cases e1 <;> cases e2 <;> cases e3 <;>
    simp [sentOn, mapFind, h0, h1, h2, h3, h0', h1', h2', h3']

theorem length_four {α : Type} (l : List α) (h : l.length = 4) :
    ∃ a b c d, l = [a, b, c, d] := by
  match l, h with
  | [a, b, c, d], _ => exact ⟨a, b, c, d, rfl⟩

/-! ## Lemmas on the credit snapshot -/

theorem rowsSized_set (cc : List (List Int)) (n m i : Nat) (row : List Int)
    (hcc : RowsSized cc n m) (hrow : row.length = m) : RowsSized (cc.set i row) n m := by
  obtain ⟨hlen, hrows⟩ := hcc
  refine ⟨by simp [hlen], ?_⟩
  intro r hr
  rcases List.mem_or_eq_of_mem_set hr with h | h
  · exact hrows r h
  · rw [h]; exact hrow

theorem snapshotVCs_total (dest_buf : BufferState) (i n m : Nat) (l : List Nat)
    (hi : i < n) (hl : ∀ vc ∈ l, vc < m) (hav : dest_buf.avail.length = m)
    (hnn : ∀ a ∈ dest_buf.avail, 0 ≤ a) (cc : List (List Int)) (hcc : RowsSized cc n m) :
    ∃ cc1, snapshotVCs dest_buf i l cc = some cc1 ∧ RowsSized cc1 n m := by
  induction l generalizing cc with
  | nil => exact ⟨cc, rfl, hcc⟩
  | cons vc rest ih =>
    have hvc : vc < m := hl vc (List.mem_cons_self _ _)
    have hva : vc < dest_buf.avail.length := by rw [hav]; exact hvc
    have hget : dest_buf.avail[vc]? = some dest_buf.avail[vc] := List.getElem?_eq_getElem hva
    have hpos : ¬ dest_buf.avail[vc] < 0 := not_lt.mpr (hnn _ (List.getElem_mem hva))
    have hic : i < cc.length := by rw [hcc.1]; exact hi
    have hrow : cc[i]? = some cc[i] := List.getElem?_eq_getElem hic
    have hrl : (cc[i]).length = m := hcc.2 _ (List.getElem_mem hic)
    have hvr : vc < (cc[i]).length := by rw [hrl]; exact hvc
    obtain ⟨cc1, h1, h2⟩ := ih (fun x hx => hl x (List.mem_cons_of_mem _ hx))
      (cc.set i ((cc[i]).set vc dest_buf.avail[vc]))
      (rowsSized_set cc n m i _ hcc (by simp [hrl]))
    refine ⟨cc1, ?_, h2⟩
    unfold snapshotVCs
    simp only [BufferState.AvailableFor, hget, hpos, if_false, hrow, vecSet, hvr, if_true]
    exact h1

theorem snapshot_total (g : Globals) (id : Int) (next_buf : List BufferState) (vcs : Nat)
    (hK : g.gK ≠ 0) (n : Nat)
    (ports : List Nat) (hp : ∀ i ∈ ports, i < next_buf.length ∧ i < n)
    (hnb : ∀ b ∈ next_buf, b.avail.length = vcs ∧ ∀ a ∈ b.avail, 0 ≤ a)
    (cc : List (List Int)) (hcc : RowsSized cc n vcs) :
    ∃ cc1, snapshot g id next_buf vcs ports cc = some cc1 ∧ RowsSized cc1 n vcs := by
  induction ports generalizing cc with
  | nil => exact ⟨cc, rfl, hcc⟩
  | cons i rest ih =>
    obtain ⟨hin, hi⟩ := hp i (List.mem_cons_self _ _)
    have hget : next_buf[i]? = some next_buf[i] := List.getElem?_eq_getElem hin
    obtain ⟨hav, hnn⟩ := hnb _ (List.getElem_mem hin)
    unfold snapshot
    rw [oppBoundary_eq g id i hK]
    cases isOppBoundary g id i with
    | true => exact ih (fun x hx => hp x (List.mem_cons_of_mem _ hx)) cc hcc
    | false =>
      obtain ⟨cc1, h1, h2⟩ := snapshotVCs_total next_buf[i] i n vcs (List.range vcs) hi
        (fun vc hvc => List.mem_range.mp hvc) hav hnn cc hcc
      obtain ⟨cc2, h3, h4⟩ := ih (fun x hx => hp x (List.mem_cons_of_mem _ hx)) cc1 h2
      exact ⟨cc2, by simp only [hget, h1, h3], h4⟩

end RFLOV

namespace RFLOV

/-! ## Lemmas on the four ports -/

theorem exists_lt_four (P : Nat → Prop) : (∃ p < 4, P p) ↔ P 0 ∨ P 1 ∨ P 2 ∨ P 3 := by
  constructor
  · rintro ⟨p, hp, h⟩
    interval_cases p
    · exact Or.inl h
    · exact Or.inr (Or.inl h)
    · exact Or.inr (Or.inr (Or.inl h))
    · exact Or.inr (Or.inr (Or.inr h))
  · rintro (h | h | h | h)
    · exact ⟨0, by decide, h⟩
    · exact ⟨1, by decide, h⟩
    · exact ⟨2, by decide, h⟩
    · exact ⟨3, by decide, h⟩

theorem exists_mem_four (P : Nat → Prop) :
    (∃ p ∈ [0, 1, 2, 3], P p) ↔ P 0 ∨ P 1 ∨ P 2 ∨ P 3 := by
  simp

theorem adversarial_iff (g : Globals) (s : RouterState) :
    AdversarialNeighbor g s ↔
      ∃ p ∈ [0, 1, 2, 3],
        (s.neighbor_states[p]? = some ePowerState.draining ∧ (p = 1 ∨ p = 3)) ∨
        s.neighbor_states[p]? = some ePowerState.wakeup ∨
        (s.neighbor_states[p]? = some ePowerState.power_off ∧ (p = 1 ∨ p = 3) ∧
          isBoundary g s.id p = false) := by
  unfold AdversarialNeighbor
  rw [exists_mem_four, exists_lt_four]
  simp only [zero_ne_one, OfNat.zero_ne_ofNat, or_self, and_false, false_and, or_false,
    true_or, and_true, true_and, OfNat.ofNat_ne_one, or_true, false_or,
    OfNat.one_ne_ofNat, Nat.reduceEqDiff]
  tauto

theorem drainBlocked_iff (g : Globals) (s : RouterState) :
    DrainBlocked g s ↔
      ∃ p ∈ [0, 1, 2, 3], s.neighbor_states[p]? = some ePowerState.draining ∨
        (isBoundary g s.id p = false ∧
          (s.neighbor_states[p]? = some ePowerState.power_off ∨
           s.neighbor_states[p]? = some ePowerState.wakeup)) := by
  unfold DrainBlocked
  rw [exists_mem_four, exists_lt_four]

theorem sent_ports (g : Globals) (id : Int) (st : ePowerState) (skipEdge : Bool)
    (r0 r1 r2 r3 : Int) (p : Nat) :
    (p < 4 ∧ (skipEdge && isBoundary g id p) = false →
      ∃ r, [r0, r1, r2, r3][p]? = some r ∧
        Announces (sentAll g id st skipEdge r0 r1 r2 r3) p st id (r + 1)) ∧
    (¬ (p < 4 ∧ (skipEdge && isBoundary g id p) = false) →
      mapFind p (sentAll g id st skipEdge r0 r1 r2 r3) = none) := by
  unfold Announces sentAll
  rw [mapFind_sent]
  by_cases h0 : p = 0
  · subst h0; cases h : (skipEdge && isBoundary g id 0) <;> simp [h, Handshake.New]
  by_cases h1 : p = 1
  · subst h1; cases h : (skipEdge && isBoundary g id 1) <;> simp [h, Handshake.New]
  by_cases h2 : p = 2
  · subst h2; cases h : (skipEdge && isBoundary g id 2) <;> simp [h, Handshake.New]
  by_cases h3 : p = 3
  · subst h3; cases h : (skipEdge && isBoundary g id 3) <;> simp [h, Handshake.New]
  have hp : ¬ p < 4 := by omega
  simp [h0, h1, h2, h3, hp]

theorem sent_keys (g : Globals) (id : Int) (st : ePowerState) (skipEdge : Bool)
    (r0 r1 r2 r3 : Int) :
    (sentAll g id st skipEdge r0 r1 r2 r3).map Prod.fst =
      [0, 1, 2, 3].filter (fun p => !(skipEdge && isBoundary g id p)) := by
  unfold sentAll
  cases skipEdge <;> cases h0 : isBoundary g id 0 <;> cases h1 : isBoundary g id 1 <;>
    cases h2 : isBoundary g id 2 <;> cases h3 : isBoundary g id 3 <;>
    simp [sentOn, List.filter, h0, h1, h2, h3]

/-! ## Closed forms of the cases of PowerStateEvaluate -/

theorem pse_draining (g : Globals) (s : RouterState)
    (hps : s.power_state = ePowerState.draining) (hreq : s.outstanding_requests = 0)
    (hid : s.id < g.gNodes - g.gK) : PowerStateEvaluate g s = evalDraining g s := by
  unfold PowerStateEvaluate
  have h2 : ¬ s.id ≥ g.gNodes - g.gK := not_le.mpr hid
  simp [hps, hreq, h2]

theorem pse_power_on (g : Globals) (s : RouterState)
    (hps : s.power_state = ePowerState.power_on) : PowerStateEvaluate g s = evalPowerOn g s := by
  unfold PowerStateEvaluate
  simp [hps]

theorem evalDraining_eval (g : Globals) (s : RouterState) (hwf : WellSized g s)
    (hreq : s.outstanding_requests = 0) (hq : s.out_queue_handshakes = []) :
    ∃ r0 r1 r2 r3 cc, s.req_hids = [r0, r1, r2, r3] ∧ RowsSized cc s.outputs s.vcs ∧
      evalDraining g s = some
        (if s.wakeup_signal = true then
          { s with
            drain_timer := 0
            wakeup_signal := false
            power_state := ePowerState.power_on
            drain_tags := List.replicate 4 false
            idle_timer := 0
            req_hids := hidsNext g s.id true r0 r1 r2 r3
            out_queue_handshakes := sentAll g s.id ePowerState.power_on true r0 r1 r2 r3 }
        else if AdversarialNeighbor g s then
          { s with
            drain_timer := 0
            power_state := ePowerState.power_on
            drain_tags := List.replicate (s.inputs - 1) false
            idle_timer := 0
            req_hids := hidsNext g s.id false r0 r1 r2 r3
            out_queue_handshakes := sentAll g s.id ePowerState.power_on false r0 r1 r2 r3 }
        else if DrainComplete s then
          { recordDrainTime s (s.drain_timer + 1) with
            drain_timer := 0
            credit_counter := cc
            power_state := ePowerState.power_off
            drain_tags := List.replicate 4 false
            off_timer := 0
            req_hids := hidsNext g s.id true r0 r1 r2 r3
            out_queue_handshakes := sentAll g s.id ePowerState.power_off true r0 r1 r2 r3 }
        else if s.drain_timer + 1 > s.drain_threshold then
          { recordDrainTime s (s.drain_timer + 1) with
            drain_timer := 0
            power_state := ePowerState.power_on
            drain_tags := List.replicate 4 false
            idle_timer := 0
            drain_timeout_counter := s.drain_timeout_counter + 1
            req_hids := hidsNext g s.id true r0 r1 r2 r3
            out_queue_handshakes := sentAll g s.id ePowerState.power_on true r0 r1 r2 r3 }
        else { s with drain_timer := s.drain_timer + 1 }) := by
  obtain ⟨hK, hns, hrh, hdt, hio, h4, hbuf, hvcs, hob, hnb, hav, hcc, hccr⟩ := hwf
  obtain ⟨r0, r1, r2, r3, hr⟩ := length_four _ hrh
  obtain ⟨t0, t1, t2, t3, ht⟩ := length_four _ hdt
  obtain ⟨nd, noff, hscan, hscaniff⟩ := scanDraining_spec g s.id s.neighbor_states hK
    [0, 1, 2, 3] (by intro p hp; rw [hns]; simp at hp; omega)
  rw [← adversarial_iff] at hscaniff
  obtain ⟨dd, hdd, hddiff⟩ := buffersDrained_spec s (List.range s.inputs)
    ((t0 && t1 && t2 && t3) && s.in_queue_flits.isEmpty && s.crossbar_flits.isEmpty)
    (by
      intro i hi
      have hi' : i < s.inputs := List.mem_range.mp hi
      exact ⟨by omega, by omega⟩)
    hvcs
  obtain ⟨cc, hsnap, hccs⟩ := snapshot_total g s.id s.next_buf s.vcs hK
    s.outputs [0, 1, 2, 3]
    (by intro i hi; simp at hi; exact ⟨by omega, by omega⟩)
    hav s.credit_counter ⟨hcc, hccr⟩
  have hcomplete : dd = true ↔ DrainComplete s := by
    rw [hddiff]
    unfold DrainComplete
    rw [allDrainTags_four s t0 t1 t2 t3 ht]
    unfold AllInputVCsIdle OutputBuffersEmpty
    simp only [Bool.and_eq_true, List.isEmpty_iff, List.mem_range, GetState, ← hio]
    constructor
    · rintro ⟨⟨⟨ht, hin⟩, hcb⟩, hall⟩
      exact ⟨ht, hin, hcb, fun i hi => (hall i hi).1, fun i hi => (hall i hi).2⟩
    · rintro ⟨ht, hin, hcb, hidle, hout⟩
      exact ⟨⟨⟨ht, hin⟩, hcb⟩, fun i hi => ⟨hidle i hi, hout i hi⟩⟩
  have hin0 : s.inputs ≠ 0 := by omega
  refine ⟨r0, r1, r2, r3, cc, hr, hccs, ?_⟩
  unfold evalDraining
  simp only [hreq, ne_eq, not_true_eq_false, if_false, hscan, ht, tagsAll_four, hdd, hq,
    List.isEmpty_nil, Bool.true_eq_false, hr, hin0, hsnap]
  by_cases hw : s.wakeup_signal = true
  · simp [hw, announce_four g s.id _ true false hK, List.replicate]
  · have hws : s.wakeup_signal = false := by simpa using hw
    by_cases hadv : AdversarialNeighbor g s
    · have hnn : (nd || noff) = true := by
        simpa using hscaniff.mpr hadv
      simp [hws, hadv, hnn, announce_all]
    · have hnn : (nd || noff) = false := by
        cases hnd : nd <;> cases hno : noff <;> simp_all
      by_cases hdc : DrainComplete s
      · have hddt : dd = true := hcomplete.mpr hdc
        simp [hws, hadv, hnn, hdc, hddt, announce_four g s.id _ true false hK, List.replicate,
          recordDrainTime, hreq]
      · have hddf : dd = false := by
          cases hd : dd
          · rfl
          · exact absurd (hcomplete.mp hd) hdc
        by_cases ht : s.drain_timer + 1 > s.drain_threshold
        · simp [hws, hadv, hnn, hdc, hddf, ht, announce_four g s.id _ true false hK,
            List.replicate, recordDrainTime, hreq]
        · simp [hws, hadv, hnn, hdc, hddf, ht]

theorem evalPowerOn_eval (g : Globals) (s : RouterState) (hK : g.gK ≠ 0)
    (hns : s.neighbor_states.length = 4) (hrh : s.req_hids.length = 4)
    (hreq : s.outstanding_requests = 0) (hq : s.out_queue_handshakes = []) :
    ∃ r0 r1 r2 r3, s.req_hids = [r0, r1, r2, r3] ∧
      evalPowerOn g s = some
        (if s.wakeup_signal = true then
          { s with
            drain_tags := List.replicate 4 false
            wakeup_signal := false
            idle_timer := 0 }
        else if s.router_state = false then
          if DrainBlocked g s then
            { s with drain_tags := List.replicate 4 false, idle_timer := 0 }
          else
            { s with
              power_state := ePowerState.draining
              idle_timer := 0
              drain_timer := 0
              drain_counter := s.drain_counter + 1
              drain_tags := [isBoundary g s.id 0, isBoundary g s.id 1, isBoundary g s.id 2,
                isBoundary g s.id 3]
              req_hids := hidsNext g s.id true r0 r1 r2 r3
              out_queue_handshakes := sentAll g s.id ePowerState.draining true r0 r1 r2 r3 }
        else { s with drain_tags := List.replicate 4 false }) := by
  obtain ⟨r0, r1, r2, r3, hr⟩ := length_four _ hrh
  obtain ⟨nd, noff, hscan, hscaniff⟩ := scanPowerOn_spec g s.id s.neighbor_states hK
    [0, 1, 2, 3] (by intro p hp; rw [hns]; simp at hp; omega)
  rw [← drainBlocked_iff] at hscaniff
  refine ⟨r0, r1, r2, r3, hr, ?_⟩
  unfold evalPowerOn
  simp only [hreq, ne_eq, not_true_eq_false, if_false, hscan, hq, List.isEmpty_nil,
    Bool.true_eq_false, hr]
  by_cases hw : s.wakeup_signal = true
  · simp [hw]
  · have hws : s.wakeup_signal = false := by simpa using hw
    by_cases hrs : s.router_state = false
    · by_cases hblk : DrainBlocked g s
      · have hnn : (!nd && !noff) = false := by
          rcases hscaniff.mpr hblk with h | h <;> simp [h]
        simp [hws, hrs, hblk, hnn, hreq]
      · have hnn : (!nd && !noff) = true := by
          cases hnd : nd <;> cases hno : noff <;> simp_all
        simp [hws, hrs, hblk, hnn, announce_four g s.id _ true true hK, List.replicate, hreq]
    · simp [hws, hrs]

/-! ## The draining case -/

/-- C2. A draining router (well-sized, no outstanding request, not on the
bottom row, empty handshake out-queue, as the assertions of the call demand)
is moved to power_off by PowerStateEvaluate if and only if wakeup_signal is
false, no adversarial-neighbor revert condition holds, and the drain is
complete: all four drain tags set, `_in_queue_flits` and `_crossbar_flits`
empty, every input VC idle, every output buffer empty. Neither drain_timer nor
drain_threshold occurs in the condition. On that transition off_timer is 0 and
the out-queue holds a power_off handshake for exactly the ports that are not
boundary ports. -/
theorem draining_to_power_off_iff (g : Globals) (s : RouterState) (hwf : WellSized g s)
    (hps : s.power_state = ePowerState.draining) (hreq : s.outstanding_requests = 0)
    (hq : s.out_queue_handshakes = []) (hid : s.id < g.gNodes - g.gK) :
    ∃ s', PowerStateEvaluate g s = some s' ∧
      (s'.power_state = ePowerState.power_off ↔
        s.wakeup_signal = false ∧ ¬ AdversarialNeighbor g s ∧ DrainComplete s) ∧
      (s'.power_state = ePowerState.power_off →
        s'.off_timer = 0 ∧
        queuedPorts s' =
          [0, 1, 2, 3].filter (fun p => !isBoundary g s.id p) ∧
        ∀ p < 4, isBoundary g s.id p = false →
          ∃ r, s.req_hids[p]? = some r ∧
            Announces s'.out_queue_handshakes p ePowerState.power_off s.id (r + 1)) := by
  obtain ⟨r0, r1, r2, r3, cc, hr, -, heval⟩ := evalDraining_eval g s hwf hreq hq
  rw [pse_draining g s hps hreq hid, heval]
  refine ⟨_, rfl, ?_, ?_⟩
  · split_ifs with h1 h2 h3 h4
    · simp [h1]
    · simp [h2]
    · simp [h1, h2, h3]
    · simp [h3]
    · simp [h3, hps]
  · split_ifs with h1 h2 h3 h4
    · simp
    · simp
    · intro _
      refine ⟨rfl, ?_, ?_⟩
      · simpa [queuedPorts] using sent_keys g s.id ePowerState.power_off true r0 r1 r2 r3
      · intro p hp hb
        rw [hr]
        exact (sent_ports g s.id ePowerState.power_off true r0 r1 r2 r3 p).1
          ⟨hp, by simp [hb]⟩
    · simp
    · simp [hps]

/-- Witness of C2: router 5 of the 4x4 mesh, drained. -/
theorem draining_to_power_off_iff_witness :
    ∃ s', PowerStateEvaluate mesh4 router5Drained = some s' ∧
      (s'.power_state = ePowerState.power_off ↔
        router5Drained.wakeup_signal = false ∧ ¬ AdversarialNeighbor mesh4 router5Drained ∧
          DrainComplete router5Drained) ∧
      (s'.power_state = ePowerState.power_off →
        s'.off_timer = 0 ∧
        queuedPorts s' =
          [0, 1, 2, 3].filter (fun p => !isBoundary mesh4 router5Drained.id p) ∧
        ∀ p < 4, isBoundary mesh4 router5Drained.id p = false →
          ∃ r, router5Drained.req_hids[p]? = some r ∧
            Announces s'.out_queue_handshakes p ePowerState.power_off router5Drained.id (r + 1)) :=
  draining_to_power_off_iff mesh4 router5Drained (by decide) (by decide) (by decide)
    (by decide) (by decide)

/-- C8. A draining router with wakeup_signal false whose neighbor on port 1
or 3 is draining, or one of whose neighbors is waking up, or whose neighbor on
a port 1 or 3 that is not a boundary is off, is returned to power_on by
PowerStateEvaluate; the out-queue then holds exactly four power_on handshakes,
one for each of the ports 0..3 whether boundary or not, each with the router's
id and the incremented request id of its port; idle_timer and drain_timer are
0 and drain_counter and drain_timeout_counter are unchanged. -/
theorem draining_neighbor_revert (g : Globals) (s : RouterState) (hwf : WellSized g s)
    (hps : s.power_state = ePowerState.draining) (hreq : s.outstanding_requests = 0)
    (hq : s.out_queue_handshakes = []) (hid : s.id < g.gNodes - g.gK)
    (hw : s.wakeup_signal = false) (hadv : AdversarialNeighbor g s) :
    ∃ s', PowerStateEvaluate g s = some s' ∧
      s'.power_state = ePowerState.power_on ∧
      queuedPorts s' = [0, 1, 2, 3] ∧
      (∀ p < 4, ∃ r, s.req_hids[p]? = some r ∧
        Announces s'.out_queue_handshakes p ePowerState.power_on s.id (r + 1)) ∧
      s'.idle_timer = 0 ∧ s'.drain_timer = 0 ∧
      s'.drain_counter = s.drain_counter ∧
      s'.drain_timeout_counter = s.drain_timeout_counter := by
  obtain ⟨r0, r1, r2, r3, cc, hr, -, heval⟩ := evalDraining_eval g s hwf hreq hq
  rw [pse_draining g s hps hreq hid, heval]
  have hw' : ¬ s.wakeup_signal = true := by simp [hw]
  rw [if_neg hw', if_pos hadv]
  refine ⟨_, rfl, rfl, ?_, ?_, rfl, rfl, rfl, rfl⟩
  · simpa [queuedPorts] using sent_keys g s.id ePowerState.power_on false r0 r1 r2 r3
  · intro p hp
    rw [hr]
    exact (sent_ports g s.id ePowerState.power_on false r0 r1 r2 r3 p).1 ⟨hp, by simp⟩

/-- Witness of C8: router 5 draining while router 1, its neighbor on port 3,
is draining too (scenario S4). -/
theorem draining_neighbor_revert_witness :
    ∃ s', PowerStateEvaluate mesh4 router5Contended = some s' ∧
      s'.power_state = ePowerState.power_on ∧
      queuedPorts s' = [0, 1, 2, 3] ∧
      (∀ p < 4, ∃ r, router5Contended.req_hids[p]? = some r ∧
        Announces s'.out_queue_handshakes p ePowerState.power_on router5Contended.id (r + 1)) ∧
      s'.idle_timer = 0 ∧ s'.drain_timer = 0 ∧
      s'.drain_counter = router5Contended.drain_counter ∧
      s'.drain_timeout_counter = router5Contended.drain_timeout_counter :=
  draining_neighbor_revert mesh4 router5Contended (by decide) (by decide) (by decide)
    (by decide) (by decide) (by decide) (by decide)

/-- C10. For a draining router with wakeup_signal false, no adversarial
neighbor and an incomplete drain, PowerStateEvaluate reverts to power_on
exactly when the incremented drain_timer exceeds drain_threshold; it then adds
one to drain_timeout_counter, queues a power_on handshake for each port that
is not a boundary port (and for no other) and resets drain_timer to 0;
otherwise the router stays in draining, drain_timer is the incremented value
and no handshake is queued. -/
theorem draining_timeout (g : Globals) (s : RouterState) (hwf : WellSized g s)
    (hps : s.power_state = ePowerState.draining) (hreq : s.outstanding_requests = 0)
    (hq : s.out_queue_handshakes = []) (hid : s.id < g.gNodes - g.gK)
    (hw : s.wakeup_signal = false) (hadv : ¬ AdversarialNeighbor g s)
    (hdc : ¬ DrainComplete s) :
    ∃ s', PowerStateEvaluate g s = some s' ∧
      (s'.power_state = ePowerState.power_on ↔ s.drain_timer + 1 > s.drain_threshold) ∧
      (s.drain_timer + 1 > s.drain_threshold →
        s'.drain_timeout_counter = s.drain_timeout_counter + 1 ∧
        queuedPorts s' =
          [0, 1, 2, 3].filter (fun p => !isBoundary g s.id p) ∧
        (∀ p < 4, isBoundary g s.id p = false →
          ∃ r, s.req_hids[p]? = some r ∧
            Announces s'.out_queue_handshakes p ePowerState.power_on s.id (r + 1)) ∧
        s'.drain_timer = 0) ∧
      (¬ s.drain_timer + 1 > s.drain_threshold →
        s'.power_state = ePowerState.draining ∧ s'.drain_timer = s.drain_timer + 1 ∧
        s'.out_queue_handshakes = []) := by
  obtain ⟨r0, r1, r2, r3, cc, hr, -, heval⟩ := evalDraining_eval g s hwf hreq hq
  rw [pse_draining g s hps hreq hid, heval]
  have hw' : ¬ s.wakeup_signal = true := by simp [hw]
  rw [if_neg hw', if_neg hadv, if_neg hdc]
  by_cases ht : s.drain_timer + 1 > s.drain_threshold
  · rw [if_pos ht]
    refine ⟨_, rfl, ⟨fun _ => ht, fun _ => rfl⟩, fun _ => ⟨rfl, ?_, ?_, rfl⟩,
      fun h => absurd ht h⟩
    · simpa [queuedPorts] using sent_keys g s.id ePowerState.power_on true r0 r1 r2 r3
    · intro p hp hb
      rw [hr]
      exact (sent_ports g s.id ePowerState.power_on true r0 r1 r2 r3 p).1 ⟨hp, by simp [hb]⟩
  · rw [if_neg ht]
    refine ⟨_, rfl, ⟨fun h => ?_, fun h => absurd h ht⟩, fun h => absurd h ht,
      fun _ => ⟨hps, rfl, hq⟩⟩
    rw [show ({ s with drain_timer := s.drain_timer + 1 } : RouterState).power_state =
      s.power_state from rfl, hps] at h
    exact absurd h (by decide)

/-- Witness of C10: router 5 draining with the timer at the threshold. -/
theorem draining_timeout_witness :
    ∃ s', PowerStateEvaluate mesh4 router5Late = some s' ∧
      (s'.power_state = ePowerState.power_on ↔
        router5Late.drain_timer + 1 > router5Late.drain_threshold) ∧
      (router5Late.drain_timer + 1 > router5Late.drain_threshold →
        s'.drain_timeout_counter = router5Late.drain_timeout_counter + 1 ∧
        queuedPorts s' =
          [0, 1, 2, 3].filter (fun p => !isBoundary mesh4 router5Late.id p) ∧
        (∀ p < 4, isBoundary mesh4 router5Late.id p = false →
          ∃ r, router5Late.req_hids[p]? = some r ∧
            Announces s'.out_queue_handshakes p ePowerState.power_on router5Late.id (r + 1)) ∧
        s'.drain_timer = 0) ∧
      (¬ router5Late.drain_timer + 1 > router5Late.drain_threshold →
        s'.power_state = ePowerState.draining ∧
        s'.drain_timer = router5Late.drain_timer + 1 ∧
        s'.out_queue_handshakes = []) :=
  draining_timeout mesh4 router5Late (by decide) (by decide) (by decide) (by decide)
    (by decide) (by decide) (by decide) (by decide)

/-- C9, as the code has it. For a draining router with wakeup_signal asserted,
PowerStateEvaluate returns it to power_on, clears wakeup_signal and resets
idle_timer and drain_timer; it queues a power_on handshake for each port that
is not a boundary port and for no other port, so for all four ports only at a
router without a boundary port. -/
theorem draining_wakeup_revert (g : Globals) (s : RouterState) (hwf : WellSized g s)
    (hps : s.power_state = ePowerState.draining) (hreq : s.outstanding_requests = 0)
    (hq : s.out_queue_handshakes = []) (hid : s.id < g.gNodes - g.gK)
    (hw : s.wakeup_signal = true) :
    ∃ s', PowerStateEvaluate g s = some s' ∧
      s'.power_state = ePowerState.power_on ∧ s'.wakeup_signal = false ∧
      s'.idle_timer = 0 ∧ s'.drain_timer = 0 ∧
      queuedPorts s' = [0, 1, 2, 3].filter (fun p => !isBoundary g s.id p) ∧
      ∀ p < 4, isBoundary g s.id p = false →
        ∃ r, s.req_hids[p]? = some r ∧
          Announces s'.out_queue_handshakes p ePowerState.power_on s.id (r + 1) := by
  obtain ⟨r0, r1, r2, r3, cc, hr, -, heval⟩ := evalDraining_eval g s hwf hreq hq
  rw [pse_draining g s hps hreq hid, heval, if_pos hw]
  refine ⟨_, rfl, rfl, rfl, rfl, rfl, ?_, ?_⟩
  · simpa [queuedPorts] using sent_keys g s.id ePowerState.power_on true r0 r1 r2 r3
  · intro p hp hb
    rw [hr]
    exact (sent_ports g s.id ePowerState.power_on true r0 r1 r2 r3 p).1 ⟨hp, by simp [hb]⟩

/-- Witness of C9 as amended: router 5, draining, with the wakeup signal. -/
theorem draining_wakeup_revert_witness :
    ∃ s', PowerStateEvaluate mesh4 router5Waking = some s' ∧
      s'.power_state = ePowerState.power_on ∧ s'.wakeup_signal = false ∧
      s'.idle_timer = 0 ∧ s'.drain_timer = 0 ∧
      queuedPorts s' = [0, 1, 2, 3].filter (fun p => !isBoundary mesh4 router5Waking.id p) ∧
      ∀ p < 4, isBoundary mesh4 router5Waking.id p = false →
        ∃ r, router5Waking.req_hids[p]? = some r ∧
          Announces s'.out_queue_handshakes p ePowerState.power_on router5Waking.id (r + 1) :=
  draining_wakeup_revert mesh4 router5Waking (by decide) (by decide) (by decide)
    (by decide) (by decide) (by decide)

/-- Counterexample to C9 as stated: at the corner router 0 of the 4x4 mesh the
revert on wakeup_signal queues power_on handshakes for the ports 0 and 2 only,
while the adversarial-neighbor revert of the same router queues them for all
four ports. -/
theorem draining_wakeup_revert_counterexample :
    router0Waking.power_state = ePowerState.draining ∧
    router0Waking.wakeup_signal = true ∧
    Option.map RouterState.power_state (PowerStateEvaluate mesh4 router0Waking) =
      some ePowerState.power_on ∧
    Option.map queuedPorts (PowerStateEvaluate mesh4 router0Waking) = some [0, 2] ∧
    Option.map queuedPorts (PowerStateEvaluate mesh4 router0Contended) = some [0, 1, 2, 3] := by
  decide

/-! ## The power_on case -/

/-- C7. When PowerStateEvaluate moves a router from power_on to draining, then
for every port p in 0..3: if p is a boundary port, drain_tags[p] is true and no
handshake is queued for p; otherwise drain_tags[p] is false and the handshake
queued for p has new_state = draining, the router's id and hid = old
req_hids[p] + 1. The ports with a queued handshake are exactly the ports in
0..3 that are not boundary ports, each once. drain_timer and idle_timer are 0
and drain_counter has grown by one. -/
theorem drain_start_effects (g : Globals) (s s' : RouterState) (hK : g.gK ≠ 0)
    (hns : s.neighbor_states.length = 4) (hrh : s.req_hids.length = 4)
    (hreq : s.outstanding_requests = 0) (hq : s.out_queue_handshakes = [])
    (hps : s.power_state = ePowerState.power_on)
    (h : PowerStateEvaluate g s = some s')
    (hmove : s'.power_state = ePowerState.draining) :
    (∀ p < 4,
      (isBoundary g s.id p = true →
        s'.drain_tags[p]? = some true ∧ mapFind p s'.out_queue_handshakes = none) ∧
      (isBoundary g s.id p = false →
        s'.drain_tags[p]? = some false ∧
        ∃ r, s.req_hids[p]? = some r ∧
          Announces s'.out_queue_handshakes p ePowerState.draining s.id (r + 1))) ∧
    queuedPorts s' = [0, 1, 2, 3].filter (fun p => !isBoundary g s.id p) ∧
    s'.drain_timer = 0 ∧ s'.idle_timer = 0 ∧ s'.drain_counter = s.drain_counter + 1 := by
  obtain ⟨r0, r1, r2, r3, hr, heval⟩ := evalPowerOn_eval g s hK hns hrh hreq hq
  rw [pse_power_on g s hps, heval] at h
  by_cases hw : s.wakeup_signal = true
  · rw [if_pos hw] at h
    cases h
    simp [hps] at hmove
  · rw [if_neg hw] at h
    by_cases hrs : s.router_state = false
    · rw [if_pos hrs] at h
      by_cases hblk : DrainBlocked g s
      · rw [if_pos hblk] at h
        cases h
        simp [hps] at hmove
      · rw [if_neg hblk] at h
        cases h
        refine ⟨?_, ?_, rfl, rfl, rfl⟩
        · intro p hp
          have hsent := sent_ports g s.id ePowerState.draining true r0 r1 r2 r3 p
          constructor
          · intro hb
            refine ⟨?_, hsent.2 (by simp [hb])⟩
            interval_cases p <;> simp [hb]
          · intro hb
            refine ⟨?_, ?_⟩
            · interval_cases p <;> simp [hb]
            · rw [hr]
              exact hsent.1 ⟨hp, by simp [hb]⟩
        · simpa [queuedPorts] using sent_keys g s.id ePowerState.draining true r0 r1 r2 r3
    · rw [if_neg hrs] at h
      cases h
      simp [hps] at hmove

/-- Witness of C7: the first call on the idle router 5. -/
theorem drain_start_effects_witness :
    (∀ p < 4,
      (isBoundary mesh4 router5.id p = true →
        router5Draining.drain_tags[p]? = some true ∧
        mapFind p router5Draining.out_queue_handshakes = none) ∧
      (isBoundary mesh4 router5.id p = false →
        router5Draining.drain_tags[p]? = some false ∧
        ∃ r, router5.req_hids[p]? = some r ∧
          Announces router5Draining.out_queue_handshakes p ePowerState.draining
            router5.id (r + 1))) ∧
    queuedPorts router5Draining = [0, 1, 2, 3].filter (fun p => !isBoundary mesh4 router5.id p) ∧
    router5Draining.drain_timer = 0 ∧ router5Draining.idle_timer = 0 ∧
    router5Draining.drain_counter = router5.drain_counter + 1 :=
  drain_start_effects mesh4 router5 router5Draining (by decide) (by decide) (by decide)
    (by decide) (by decide) (by decide) (by rfl) (by decide)

/-! ## The edges of the state machine -/

theorem evalPowerOn_edge (g : Globals) (s s' : RouterState) (h : evalPowerOn g s = some s') :
    s'.power_state = s.power_state ∨ s'.power_state = ePowerState.draining := by
  unfold evalPowerOn at h
  simp only [] at h
  repeat' split at h
  all_goals first
    | (cases h; done)
    | (cases h; simp)

theorem evalDraining_edge (g : Globals) (s s' : RouterState) (h : evalDraining g s = some s') :
    s'.power_state = s.power_state ∨ s'.power_state = ePowerState.power_on ∨
      s'.power_state = ePowerState.power_off := by
  unfold evalDraining at h
  simp only [] at h
  repeat' split at h
  all_goals first
    | (cases h; done)
    | (cases h; simp [recordDrainTime])

theorem evalPowerOff_edge (g : Globals) (s s' : RouterState) (h : evalPowerOff g s = some s') :
    s'.power_state = s.power_state ∨ s'.power_state = ePowerState.wakeup := by
  unfold evalPowerOff at h
  simp only [] at h
  repeat' split at h
  all_goals first
    | (cases h; done)
    | (cases h; simp)

theorem evalWakeup_edge (g : Globals) (s s' : RouterState) (h : evalWakeup g s = some s') :
    s'.power_state = s.power_state ∨ s'.power_state = ePowerState.power_on := by
  unfold evalWakeup at h
  simp only [] at h
  repeat' split at h
  all_goals first
    | (cases h; done)
    | (cases h; simp)

/-- C1. A call of PowerStateEvaluate that does not abort leaves power_state
unchanged or changes it along one of the five edges power_on -> draining,
draining -> power_on, draining -> power_off, power_off -> wakeup,
wakeup -> power_on. -/
theorem power_state_moves_along_edges (g : Globals) (s s' : RouterState)
    (h : PowerStateEvaluate g s = some s') :
    s'.power_state = s.power_state ∨ PowerEdge s.power_state s'.power_state := by
  unfold PowerStateEvaluate at h
  split at h
  · cases h
  · split at h
    · cases h
    · split at h
      · rename_i hps
        rcases evalPowerOn_edge g s s' h with h1 | h1
        · exact Or.inl h1
        · exact Or.inr (Or.inl ⟨hps, h1⟩)
      · rename_i hps
        rcases evalDraining_edge g s s' h with h1 | h1 | h1
        · exact Or.inl h1
        · exact Or.inr (Or.inr (Or.inl ⟨hps, h1⟩))
        · exact Or.inr (Or.inr (Or.inr (Or.inl ⟨hps, h1⟩)))
      · rename_i hps
        rcases evalPowerOff_edge g s s' h with h1 | h1
        · exact Or.inl h1
        · exact Or.inr (Or.inr (Or.inr (Or.inr (Or.inl ⟨hps, h1⟩))))
      · rename_i hps
        rcases evalWakeup_edge g s s' h with h1 | h1
        · exact Or.inl h1
        · exact Or.inr (Or.inr (Or.inr (Or.inr (Or.inr ⟨hps, h1⟩))))

/-- Witness of C1: the call that starts the drain of router 5. -/
theorem power_state_moves_along_edges_witness :
    PowerStateEvaluate mesh4 router5 = some router5Draining ∧
    (router5Draining.power_state = router5.power_state ∨
      PowerEdge router5.power_state router5Draining.power_state) :=
  ⟨by rfl, power_state_moves_along_edges mesh4 router5 router5Draining (by rfl)⟩

/-! ## Outstanding requests and the bottom row -/

/-- C4. On a router state with outstanding_requests > 0, PowerStateEvaluate
either aborts on an assertion or returns with power_state = power_on and
idle_timer = 0. It aborts exactly when the router is not in power_on, or
wakeup_signal and router_state are both false. -/
theorem outstanding_requests_keep_power_on (g : Globals) (s : RouterState)
    (hreq : s.outstanding_requests > 0) :
    (PowerStateEvaluate g s = none ∨
      ∃ s', PowerStateEvaluate g s = some s' ∧ s'.power_state = ePowerState.power_on ∧
        s'.idle_timer = 0) ∧
    (PowerStateEvaluate g s = none ↔
      s.power_state ≠ ePowerState.power_on ∨
        (s.wakeup_signal = false ∧ s.router_state = false)) := by
  have hne : s.outstanding_requests ≠ 0 := by omega
  by_cases hps : s.power_state = ePowerState.power_on
  · rw [pse_power_on g s hps]
    unfold evalPowerOn
    by_cases hw : s.wakeup_signal = true
    · simp [hne, hw, hps]
    · have hws : s.wakeup_signal = false := by simpa using hw
      by_cases hrs : s.router_state = true
      · simp [hne, hws, hrs, hps]
      · have hrf : s.router_state = false := by simpa using hrs
        simp [hne, hws, hrf, hps]
  · have hnone : PowerStateEvaluate g s = none := by
      unfold PowerStateEvaluate
      simp [hne, hps]
    exact ⟨Or.inl hnone, by simp [hnone, hps]⟩

/-- Witness of C4: router 5 powered on with one request outstanding. -/
theorem outstanding_requests_keep_power_on_witness :
    router5Busy.outstanding_requests > 0 ∧
    ((PowerStateEvaluate mesh4 router5Busy = none ∨
      ∃ s', PowerStateEvaluate mesh4 router5Busy = some s' ∧
        s'.power_state = ePowerState.power_on ∧ s'.idle_timer = 0) ∧
    (PowerStateEvaluate mesh4 router5Busy = none ↔
      router5Busy.power_state ≠ ePowerState.power_on ∨
        (router5Busy.wakeup_signal = false ∧ router5Busy.router_state = false))) :=
  ⟨by decide, outstanding_requests_keep_power_on mesh4 router5Busy (by decide)⟩

/-- The cases of a router of the bottom row (id >= N - K):
PowerStateEvaluate aborts on its first assertion if the router is not in
power_on; if it is in power_on and router_state is true or wakeup_signal is
asserted, the call returns and leaves it in power_on, whatever the neighbor
states; a call that returns leaves it in power_on unless router_state and
wakeup_signal are both false, the one case in which the router is moved to
draining, because the power_on case does not test the id. -/
theorem bottom_row_cases (g : Globals) (s : RouterState)
    (hrow : s.id ≥ g.gNodes - g.gK) :
    (s.power_state ≠ ePowerState.power_on → PowerStateEvaluate g s = none) ∧
    (s.power_state = ePowerState.power_on →
      (s.router_state = true ∨ s.wakeup_signal = true) →
      ∃ s', PowerStateEvaluate g s = some s' ∧ s'.power_state = ePowerState.power_on) ∧
    (∀ s', PowerStateEvaluate g s = some s' →
      s.power_state = ePowerState.power_on ∧
      (s'.power_state = ePowerState.power_on ∨
        (s'.power_state = ePowerState.draining ∧ s.router_state = false ∧
          s.wakeup_signal = false))) := by
  have hnone : s.power_state ≠ ePowerState.power_on → PowerStateEvaluate g s = none := by
    intro hps
    unfold PowerStateEvaluate
    simp [hrow, hps]
  refine ⟨hnone, ?_, ?_⟩
  · intro hps hdemand
    rw [pse_power_on g s hps]
    unfold evalPowerOn
    by_cases hw : s.wakeup_signal = true
    · by_cases hreq : s.outstanding_requests = 0 <;> simp [hw, hreq, hps]
    · have hws : s.wakeup_signal = false := by simpa using hw
      have hrs : s.router_state = true := by
        rcases hdemand with h | h
        · exact h
        · exact absurd h hw
      by_cases hreq : s.outstanding_requests = 0 <;> simp [hws, hrs, hreq, hps]
  · intro s' h
    by_cases hps : s.power_state = ePowerState.power_on
    · refine ⟨hps, ?_⟩
      rw [pse_power_on g s hps] at h
      rcases evalPowerOn_edge g s s' h with h1 | h1
      · exact Or.inl (h1.trans hps)
      · by_cases hw : s.wakeup_signal = true
        · unfold evalPowerOn at h
          by_cases hreq : s.outstanding_requests = 0 <;> simp [hw, hreq] at h <;>
            (subst h; simp [hps] at h1)
        · have hws : s.wakeup_signal = false := by simpa using hw
          by_cases hrs : s.router_state = true
          · unfold evalPowerOn at h
            by_cases hreq : s.outstanding_requests = 0 <;> simp [hws, hrs, hreq] at h <;>
              (subst h; simp [hps] at h1)
          · exact Or.inr ⟨h1, by simpa using hrs, hws⟩
    · rw [hnone hps] at h
      cases h

/-! ## A gated router is quiescent -/

theorem evalPowerOn_same (g : Globals) (s s' : RouterState) (h : evalPowerOn g s = some s') :
    SamePipeline s s' := by
  unfold evalPowerOn at h
  simp only [] at h
  repeat' split at h
  all_goals first
    | (cases h; done)
    | (cases h; simp [SamePipeline])

theorem evalDraining_same (g : Globals) (s s' : RouterState) (h : evalDraining g s = some s') :
    SamePipeline s s' := by
  unfold evalDraining at h
  simp only [] at h
  repeat' split at h
  all_goals first
    | (cases h; done)
    | (cases h; simp [SamePipeline, recordDrainTime])

theorem evalPowerOff_same (g : Globals) (s s' : RouterState) (h : evalPowerOff g s = some s') :
    SamePipeline s s' := by
  unfold evalPowerOff at h
  simp only [] at h
  repeat' split at h
  all_goals first
    | (cases h; done)
    | (cases h; simp [SamePipeline])

theorem evalWakeup_same (g : Globals) (s s' : RouterState) (h : evalWakeup g s = some s') :
    SamePipeline s s' := by
  unfold evalWakeup at h
  simp only [] at h
  repeat' split at h
  all_goals first
    | (cases h; done)
    | (cases h; simp [SamePipeline])

theorem pse_same (g : Globals) (s s' : RouterState) (h : PowerStateEvaluate g s = some s') :
    SamePipeline s s' := by
  unfold PowerStateEvaluate at h
  split at h
  · cases h
  · split at h
    · cases h
    · split at h
      · exact evalPowerOn_same g s s' h
      · exact evalDraining_same g s s' h
      · exact evalPowerOff_same g s s' h
      · exact evalWakeup_same g s s' h

theorem quiescent_of_same (s s' : RouterState) (hsame : SamePipeline s s')
    (hq : Quiescent s) : Quiescent s' := by
  obtain ⟨hi, hv, hb, hc, hr, hva, -, hsa⟩ := hsame
  obtain ⟨hidle, h1, h2, h3, h4⟩ := hq
  refine ⟨?_, by rw [hc, h1], by rw [hr, h2], by rw [hva, h3], by rw [hsa, h4]⟩
  intro i hi' vc hvc
  have := hidle i (by rw [← hi]; exact hi') vc (by rw [← hv]; exact hvc)
  unfold GetState at this ⊢
  rw [hb]
  exact this

theorem evalDraining_off_drained (g : Globals) (s s' : RouterState)
    (hps : s.power_state = ePowerState.draining) (h : evalDraining g s = some s')
    (hoff : s'.power_state = ePowerState.power_off) :
    ∃ acc, buffersDrained s.buf s.vcs s.output_buffer (List.range s.inputs)
      (acc && s.in_queue_flits.isEmpty && s.crossbar_flits.isEmpty) = some true := by
  unfold evalDraining at h
  simp only [] at h
  repeat' split at h
  all_goals first
    | (cases h; done)
    | (cases h; simp [recordDrainTime, hps] at hoff; done)
    | (subst_vars; exact ⟨_, by assumption⟩)

theorem rflovStep_same (g : Globals) (now : Int) (s s' : RouterState)
    (h : _RFlovStep g now s = some s') :
    SamePipeline s s' ∧ s'.power_state = s.power_state ∧
      s'.out_queue_handshakes = s.out_queue_handshakes := by
  unfold _RFlovStep at h
  repeat' split at h
  all_goals first
    | (cases h; done)
    | (cases h; simp [SamePipeline])

theorem outputQueuing_same (s s' : RouterState) (h : _OutputQueuing s = some s') :
    SamePipeline s s' ∧ s'.power_state = s.power_state := by
  unfold _OutputQueuing at h
  repeat' split at h
  all_goals first
    | (cases h; done)
    | (cases h; simp [SamePipeline])

theorem samePipeline_trans (a b c : RouterState) (h1 : SamePipeline a b)
    (h2 : SamePipeline b c) : SamePipeline a c := by
  obtain ⟨a1, a2, a3, a4, a5, a6, a7, a8⟩ := h1
  obtain ⟨b1, b2, b3, b4, b5, b6, b7, b8⟩ := h2
  exact ⟨b1.trans a1, b2.trans a2, b3.trans a3, b4.trans a4, b5.trans a5, b6.trans a6,
    b7.trans a7, b8.trans a8⟩

/-! ## The wakeup path, the handshake engine and the drain clock -/

theorem assertVCsIdle_of_idle (b : Buffer) (l : List Nat)
    (h : ∀ vc ∈ l, (b[vc]?).map VC.state = some eVCState.idle) :
    assertVCsIdle b l = some () := by
  induction l with
  | nil => rfl
  | cons vc rest ih =>
    have hvc := h vc (List.mem_cons_self _ _)
    unfold assertVCsIdle
    cases hb : b[vc]? with
    | none => simp [hb] at hvc
    | some v =>
      simp only [hb, Option.map_some', Option.some.injEq] at hvc
      simp only [hvc, if_true]
      exact ih (fun x hx => h x (List.mem_cons_of_mem _ hx))

theorem assertBuffersIdle_of_idle (s : RouterState) (ports : List Nat)
    (hbuf : ∀ i ∈ ports, i < s.buf.length)
    (hidle : ∀ i ∈ ports, ∀ vc < s.vcs, GetState s i vc = some eVCState.idle) :
    assertBuffersIdle s.buf s.vcs ports = some () := by
  induction ports with
  | nil => rfl
  | cons i rest ih =>
    have hi := hbuf i (List.mem_cons_self _ _)
    have hget : s.buf[i]? = some s.buf[i] := List.getElem?_eq_getElem hi
    have hvcs := (getState_idle_iff s i _ hget).mpr (hidle i (List.mem_cons_self _ _))
    unfold assertBuffersIdle
    simp only [hget, assertVCsIdle_of_idle _ _ hvcs]
    exact ih (fun x hx => hbuf x (List.mem_cons_of_mem _ hx))
      (fun x hx => hidle x (List.mem_cons_of_mem _ hx))

theorem assertAllIdle (s : RouterState) (hbuf : s.buf.length = s.inputs)
    (hidle : AllInputVCsIdle s) :
    assertBuffersIdle s.buf s.vcs (List.range s.inputs) = some () :=
  assertBuffersIdle_of_idle s _
    (fun i hi => by rw [hbuf]; exact List.mem_range.mp hi)
    (fun i hi => hidle i (List.mem_range.mp hi))

theorem pse_power_off (g : Globals) (s : RouterState)
    (hps : s.power_state = ePowerState.power_off) (hreq : s.outstanding_requests = 0)
    (hid : s.id < g.gNodes - g.gK) : PowerStateEvaluate g s = evalPowerOff g s := by
  unfold PowerStateEvaluate
  have h2 : ¬ s.id ≥ g.gNodes - g.gK := not_le.mpr hid
  simp [hps, hreq, h2]

theorem pse_wakeup (g : Globals) (s : RouterState)
    (hps : s.power_state = ePowerState.wakeup) (hreq : s.outstanding_requests = 0)
    (hid : s.id < g.gNodes - g.gK) : PowerStateEvaluate g s = evalWakeup g s := by
  unfold PowerStateEvaluate
  have h2 : ¬ s.id ≥ g.gNodes - g.gK := not_le.mpr hid
  simp [hps, hreq, h2]

theorem evalPowerOff_eval (g : Globals) (s : RouterState) (hK : g.gK ≠ 0)
    (hrh : s.req_hids.length = 4) (hbuf : s.buf.length = s.inputs)
    (hidle : AllInputVCsIdle s) (hq : s.out_queue_handshakes = []) :
    ∃ r0 r1 r2 r3, s.req_hids = [r0, r1, r2, r3] ∧
      evalPowerOff g s = some
        (if s.router_state = true then
          if s.off_timer + 1 ≥ s.bet_threshold then
            { s with
              power_off_cycles := s.power_off_cycles + 1
              total_power_off_cycles := s.total_power_off_cycles + 1
              wakeup_signal := false
              power_state := ePowerState.wakeup
              wakeup_timer := 0
              off_timer := 0
              off_counter := s.off_counter + 1
              drain_tags := [isBoundary g s.id 0, isBoundary g s.id 1, isBoundary g s.id 2,
                isBoundary g s.id 3]
              req_hids := hidsNext g s.id true r0 r1 r2 r3
              out_queue_handshakes := sentAll g s.id ePowerState.wakeup true r0 r1 r2 r3 }
          else
            { s with
              drain_tags := List.replicate 4 false
              power_off_cycles := s.power_off_cycles + 1
              total_power_off_cycles := s.total_power_off_cycles + 1
              off_timer := s.off_timer + 1 }
        else
          { s with
            drain_tags := List.replicate 4 false
            power_off_cycles := s.power_off_cycles + 1
            total_power_off_cycles := s.total_power_off_cycles + 1 }) := by
  obtain ⟨r0, r1, r2, r3, hr⟩ := length_four _ hrh
  refine ⟨r0, r1, r2, r3, hr, ?_⟩
  unfold evalPowerOff
  simp only [assertAllIdle s hbuf hidle, hq, List.isEmpty_nil, Bool.true_eq_false, hr]
  by_cases hrs : s.router_state = true
  · by_cases ht : s.off_timer + 1 ≥ s.bet_threshold
    · simp [hrs, ht, announce_four g s.id _ true true hK, List.replicate]
    · simp [hrs, ht]
  · simp [hrs]

theorem evalWakeup_eval (g : Globals) (s : RouterState)
    (hrh : s.req_hids.length = 4) (hdt : s.drain_tags.length = 4)
    (hbuf : s.buf.length = s.inputs)
    (hidle : AllInputVCsIdle s) (hq : s.out_queue_handshakes = []) :
    ∃ r0 r1 r2 r3, s.req_hids = [r0, r1, r2, r3] ∧
      evalWakeup g s = some
        (if AllDrainTags s ∧ s.in_queue_flits = [] ∧
            s.wakeup_timer + 1 ≥ s.wakeup_threshold then
          { s with
            wakeup_signal := false
            wakeup_timer := 0
            idle_timer := 0
            power_state := ePowerState.power_on
            drain_tags := List.replicate 4 false
            req_hids := hidsNext g s.id false r0 r1 r2 r3
            out_queue_handshakes := sentAll g s.id ePowerState.power_on false r0 r1 r2 r3 }
        else { s with wakeup_timer := s.wakeup_timer + 1 }) := by
  obtain ⟨r0, r1, r2, r3, hr⟩ := length_four _ hrh
  obtain ⟨t0, t1, t2, t3, ht⟩ := length_four _ hdt
  refine ⟨r0, r1, r2, r3, hr, ?_⟩
  have htags := allDrainTags_four s t0 t1 t2 t3 ht
  unfold evalWakeup
  simp only [assertAllIdle s hbuf hidle, hq, List.isEmpty_nil, Bool.true_eq_false, hr, ht,
    tagsAll_four]
  by_cases hc : AllDrainTags s ∧ s.in_queue_flits = [] ∧
      s.wakeup_timer + 1 ≥ s.wakeup_threshold
  · obtain ⟨h1, h2, h3⟩ := hc
    have h1' := htags.mp h1
    simp [h1, h2, h3, h1', announce_all, List.replicate]
  · rw [if_neg hc]
    have : ¬ (((t0 && t1 && t2 && t3) && s.in_queue_flits.isEmpty) = true ∧
        s.wakeup_timer + 1 ≥ s.wakeup_threshold) := by
      intro ⟨ha, hb⟩
      simp only [Bool.and_eq_true, List.isEmpty_iff] at ha
      apply hc
      refine ⟨htags.mpr ?_, ha.2, hb⟩
      simp [ha.1]
    rw [if_neg this]


/-- C12. For a router in power_off (no outstanding request, not on the bottom
row, every input VC idle and an empty handshake out-queue, as the call
asserts), PowerStateEvaluate changes off_timer only when router_state is true
and moves the router to wakeup if and only if router_state is true and the
incremented off_timer is at least bet_threshold. On that transition
drain_tags[p] is true exactly for the boundary ports p, a wakeup handshake is
queued for exactly the ports that are not boundary ports, and wakeup_timer and
off_timer are 0. In all other cases the state stays power_off, off_timer is
the old value, incremented when router_state is true, and no handshake is
queued. -/
theorem power_off_to_wakeup (g : Globals) (s : RouterState) (hK : g.gK ≠ 0)
    (hrh : s.req_hids.length = 4) (hbuf : s.buf.length = s.inputs)
    (hps : s.power_state = ePowerState.power_off) (hreq : s.outstanding_requests = 0)
    (hid : s.id < g.gNodes - g.gK) (hidle : AllInputVCsIdle s)
    (hq : s.out_queue_handshakes = []) :
    ∃ s', PowerStateEvaluate g s = some s' ∧
      (s'.off_timer ≠ s.off_timer → s.router_state = true) ∧
      (s'.power_state = ePowerState.wakeup ↔
        s.router_state = true ∧ s.off_timer + 1 ≥ s.bet_threshold) ∧
      (s'.power_state = ePowerState.wakeup →
        (∀ p < 4, s'.drain_tags[p]? = some (isBoundary g s.id p)) ∧
        queuedPorts s' = [0, 1, 2, 3].filter (fun p => !isBoundary g s.id p) ∧
        (∀ p < 4, isBoundary g s.id p = false →
          ∃ r, s.req_hids[p]? = some r ∧
            Announces s'.out_queue_handshakes p ePowerState.wakeup s.id (r + 1)) ∧
        s'.wakeup_timer = 0 ∧ s'.off_timer = 0) ∧
      (s'.power_state ≠ ePowerState.wakeup →
        s'.power_state = ePowerState.power_off ∧
        s'.off_timer = (if s.router_state = true then s.off_timer + 1 else s.off_timer) ∧
        s'.out_queue_handshakes = []) := by
  obtain ⟨r0, r1, r2, r3, hr, heval⟩ := evalPowerOff_eval g s hK hrh hbuf hidle hq
  rw [pse_power_off g s hps hreq hid, heval]
  refine ⟨_, rfl, ?_⟩
  by_cases hrs : s.router_state = true
  · rw [if_pos hrs]
    by_cases ht : s.off_timer + 1 ≥ s.bet_threshold
    · rw [if_pos ht]
      refine ⟨fun _ => hrs, ⟨fun _ => ⟨hrs, ht⟩, fun _ => rfl⟩, fun _ => ⟨?_, ?_, ?_, rfl, rfl⟩,
        fun h => absurd rfl h⟩
      · intro p hp
        interval_cases p <;> rfl
      · simpa [queuedPorts] using sent_keys g s.id ePowerState.wakeup true r0 r1 r2 r3
      · intro p hp hb
        rw [hr]
        exact (sent_ports g s.id ePowerState.wakeup true r0 r1 r2 r3 p).1 ⟨hp, by simp [hb]⟩
    · rw [if_neg ht]
      refine ⟨fun _ => hrs, ⟨fun h => ?_, fun h => absurd h.2 ht⟩, fun h => ?_,
        fun _ => ⟨hps, by simp [hrs], hq⟩⟩
      · simp [hps] at h
      · simp [hps] at h
  · rw [if_neg hrs]
    refine ⟨fun h => absurd rfl h, ⟨fun h => ?_, fun h => absurd h.1 hrs⟩, fun h => ?_,
      fun _ => ⟨hps, by simp [hrs], hq⟩⟩
    · simp [hps] at h
    · simp [hps] at h

/-- Witness of C12: router 5 off, with traffic demand. -/
theorem power_off_to_wakeup_witness :
    ∃ s', PowerStateEvaluate mesh4 router5Demanded = some s' ∧
      (s'.off_timer ≠ router5Demanded.off_timer → router5Demanded.router_state = true) ∧
      (s'.power_state = ePowerState.wakeup ↔
        router5Demanded.router_state = true ∧
          router5Demanded.off_timer + 1 ≥ router5Demanded.bet_threshold) ∧
      (s'.power_state = ePowerState.wakeup →
        (∀ p < 4, s'.drain_tags[p]? = some (isBoundary mesh4 router5Demanded.id p)) ∧
        queuedPorts s' =
          [0, 1, 2, 3].filter (fun p => !isBoundary mesh4 router5Demanded.id p) ∧
        (∀ p < 4, isBoundary mesh4 router5Demanded.id p = false →
          ∃ r, router5Demanded.req_hids[p]? = some r ∧
            Announces s'.out_queue_handshakes p ePowerState.wakeup router5Demanded.id
              (r + 1)) ∧
        s'.wakeup_timer = 0 ∧ s'.off_timer = 0) ∧
      (s'.power_state ≠ ePowerState.wakeup →
        s'.power_state = ePowerState.power_off ∧
        s'.off_timer = (if router5Demanded.router_state = true then
          router5Demanded.off_timer + 1 else router5Demanded.off_timer) ∧
        s'.out_queue_handshakes = []) :=
  power_off_to_wakeup mesh4 router5Demanded (by decide) (by decide) (by decide) (by decide)
    (by decide) (by decide) (by decide) (by decide)

/-- C13. For a router in wakeup (no outstanding request, not on the bottom
row, every input VC idle and an empty handshake out-queue, as the call
asserts), PowerStateEvaluate moves it to power_on if and only if all four
drain tags are set, `_in_queue_flits` is empty and the incremented
wakeup_timer is at least wakeup_threshold. On that transition a power_on
handshake is queued for each of the four ports, boundary or not, and
drain_tags and wakeup_signal are cleared. Otherwise the state stays wakeup,
drain_tags are unchanged and no handshake is queued. -/
theorem wakeup_to_power_on (g : Globals) (s : RouterState)
    (hrh : s.req_hids.length = 4) (hdt : s.drain_tags.length = 4)
    (hbuf : s.buf.length = s.inputs)
    (hps : s.power_state = ePowerState.wakeup) (hreq : s.outstanding_requests = 0)
    (hid : s.id < g.gNodes - g.gK) (hidle : AllInputVCsIdle s)
    (hq : s.out_queue_handshakes = []) :
    ∃ s', PowerStateEvaluate g s = some s' ∧
      (s'.power_state = ePowerState.power_on ↔
        AllDrainTags s ∧ s.in_queue_flits = [] ∧
          s.wakeup_timer + 1 ≥ s.wakeup_threshold) ∧
      (s'.power_state = ePowerState.power_on →
        queuedPorts s' = [0, 1, 2, 3] ∧
        (∀ p < 4, ∃ r, s.req_hids[p]? = some r ∧
          Announces s'.out_queue_handshakes p ePowerState.power_on s.id (r + 1)) ∧
        s'.drain_tags = [false, false, false, false] ∧ s'.wakeup_signal = false) ∧
      (s'.power_state ≠ ePowerState.power_on →
        s'.power_state = ePowerState.wakeup ∧ s'.drain_tags = s.drain_tags ∧
        s'.out_queue_handshakes = []) := by
  obtain ⟨r0, r1, r2, r3, hr, heval⟩ := evalWakeup_eval g s hrh hdt hbuf hidle hq
  rw [pse_wakeup g s hps hreq hid, heval]
  refine ⟨_, rfl, ?_⟩
  by_cases hc : AllDrainTags s ∧ s.in_queue_flits = [] ∧
      s.wakeup_timer + 1 ≥ s.wakeup_threshold
  · rw [if_pos hc]
    refine ⟨⟨fun _ => hc, fun _ => rfl⟩, fun _ => ⟨?_, ?_, rfl, rfl⟩, fun h => absurd rfl h⟩
    · simpa [queuedPorts] using sent_keys g s.id ePowerState.power_on false r0 r1 r2 r3
    · intro p hp
      rw [hr]
      exact (sent_ports g s.id ePowerState.power_on false r0 r1 r2 r3 p).1 ⟨hp, by simp⟩
  · rw [if_neg hc]
    refine ⟨⟨fun h => ?_, fun h => absurd h hc⟩, fun h => ?_, fun _ => ⟨hps, rfl, hq⟩⟩
    · simp [hps] at h
    · simp [hps] at h

/-- Witness of C13: router 5 waking up, every acknowledgement received. -/
theorem wakeup_to_power_on_witness :
    ∃ s', PowerStateEvaluate mesh4 router5Awake = some s' ∧
      (s'.power_state = ePowerState.power_on ↔
        AllDrainTags router5Awake ∧ router5Awake.in_queue_flits = [] ∧
          router5Awake.wakeup_timer + 1 ≥ router5Awake.wakeup_threshold) ∧
      (s'.power_state = ePowerState.power_on →
        queuedPorts s' = [0, 1, 2, 3] ∧
        (∀ p < 4, ∃ r, router5Awake.req_hids[p]? = some r ∧
          Announces s'.out_queue_handshakes p ePowerState.power_on router5Awake.id
            (r + 1)) ∧
        s'.drain_tags = [false, false, false, false] ∧ s'.wakeup_signal = false) ∧
      (s'.power_state ≠ ePowerState.power_on →
        s'.power_state = ePowerState.wakeup ∧ s'.drain_tags = router5Awake.drain_tags ∧
        s'.out_queue_handshakes = []) :=
  wakeup_to_power_on mesh4 router5Awake (by decide) (by decide) (by decide) (by decide)
    (by decide) (by decide) (by decide) (by decide)


theorem noteNeighborState_frame (s s1 : RouterState) (p : Nat) (h : Handshake)
    (hev : noteNeighborState s p h = some s1) :
    s1.drain_tags = s.drain_tags ∧ s1.power_state = s.power_state ∧
    s1.req_hids = s.req_hids ∧ s1.id = s.id ∧ s1.resp_hids = s.resp_hids ∧
    s1.out_queue_handshakes = s.out_queue_handshakes := by
  unfold noteNeighborState at hev
  repeat' split at hev
  all_goals first
    | (cases hev; done)
    | (cases hev; simp)

theorem noteDrainDone_frame (s s1 : RouterState) (p : Nat) (h : Handshake)
    (hev : noteDrainDone s p h = some s1) :
    s1.power_state = s.power_state ∧ s1.req_hids = s.req_hids ∧ s1.id = s.id ∧
    s1.neighbor_states = s.neighbor_states ∧ s1.drain_done_sent = s.drain_done_sent ∧
    s1.next_buf = s.next_buf ∧ s1.out_queue_handshakes = s.out_queue_handshakes := by
  unfold noteDrainDone at hev
  repeat' split at hev
  all_goals first
    | (cases hev; done)
    | (cases hev; simp)

theorem noteDrainDone_tags (s s1 : RouterState) (p : Nat) (h : Handshake)
    (hev : noteDrainDone s p h = some s1) :
    s1.drain_tags =
      (if h.drain_done = true ∧ s.req_hids[p]? = some h.hid ∧
          (s.power_state = ePowerState.draining ∨ s.power_state = ePowerState.wakeup) then
        s.drain_tags.set p true
      else s.drain_tags) ∧
    (h.drain_done = true → s.req_hids[p]? = some h.hid →
      (s.power_state = ePowerState.draining ∨ s.power_state = ePowerState.wakeup) →
      p < s.drain_tags.length) := by
  unfold noteDrainDone at hev
  by_cases hdd : h.drain_done = true
  · simp only [hdd, if_true] at hev
    by_cases hoff : s.power_state = ePowerState.power_off
    · simp [hoff] at hev
    · simp only [hoff, if_false] at hev
      cases hr : s.req_hids[p]? with
      | none => simp [hr] at hev
      | some r =>
        simp only [hr] at hev
        by_cases hm : h.hid = r ∧ (s.power_state = ePowerState.draining ∨
            s.power_state = ePowerState.wakeup)
        · rw [if_pos hm] at hev
          unfold vecSet at hev
          by_cases hlt : p < s.drain_tags.length
          · simp only [hlt, if_true] at hev
            cases hev
            simp [hdd, hm.1, hm.2, hlt]
          · simp [hlt] at hev
        · rw [if_neg hm] at hev
          cases hev
          have : ¬ (h.drain_done = true ∧ some r = some h.hid ∧
              (s.power_state = ePowerState.draining ∨
                s.power_state = ePowerState.wakeup)) := by
            rintro ⟨-, h2, h3⟩
            exact hm ⟨(Option.some.inj h2).symm, h3⟩
          refine ⟨by rw [if_neg this], ?_⟩
          intro _ h2 h3
          exact absurd ⟨(Option.some.inj h2).symm, h3⟩ hm
  · have hdf : h.drain_done = false := by simpa using hdd
    simp only [hdf, Bool.false_eq_true, if_false] at hev
    split at hev
    · cases hev
    · cases hev
      simp [hdf]

theorem handshakeEvaluateOne_tags (s s' : RouterState) (p : Nat) (h : Handshake)
    (hev : handshakeEvaluateOne s p h = some s') :
    p < 4 ∧ s'.power_state = s.power_state ∧ s'.id = s.id ∧ s'.req_hids = s.req_hids ∧
    s'.drain_tags = (if AckMatches s p h then s.drain_tags.set p true else s.drain_tags) ∧
    (AckMatches s p h → p < s.drain_tags.length) := by
  unfold handshakeEvaluateOne at hev
  by_cases hp : p < 4
  · simp only [hp, not_true_eq_false, if_false] at hev
    cases h1 : noteNeighborState s p h with
    | none => simp [h1] at hev
    | some s1 =>
      simp only [h1] at hev
      obtain ⟨f1, f2, f3, f4, -, -⟩ := noteNeighborState_frame s s1 p h h1
      obtain ⟨g1, g2, g3, -, -, -, -⟩ := noteDrainDone_frame s1 s' p h hev
      obtain ⟨t1, t2⟩ := noteDrainDone_tags s1 s' p h hev
      unfold AckMatches
      rw [f1, f2, f3] at t1 t2
      exact ⟨hp, g1.trans f2, g3.trans f4, g2.trans f3, t1,
        fun ⟨a, b, c⟩ => t2 a b c⟩
  · simp [hp] at hev

theorem noteNeighborState_off (s s1 : RouterState) (p : Nat) (h : Handshake)
    (hst : h.new_state = some ePowerState.power_off)
    (hev : noteNeighborState s p h = some s1) :
    s.neighbor_states[p]? = some ePowerState.draining ∧ s.drain_done_sent[p]? = some true ∧
    s1.drain_done_sent = s.drain_done_sent.set p false ∧
    s1.neighbor_states = s.neighbor_states.set p ePowerState.power_off ∧
    (∃ b, s.next_buf[p]? = some b ∧
      s1.next_buf = s.next_buf.set p (b.call BufCall.ClearCredits)) := by
  unfold noteNeighborState at hev
  rw [if_pos hst] at hev
  cases hns : s.neighbor_states[p]? with
  | none => simp [hns] at hev
  | some st =>
    simp only [hns] at hev
    by_cases hd : st = ePowerState.draining
    · subst hd
      simp only [ne_eq, not_true_eq_false, if_false] at hev
      cases hdds : s.drain_done_sent[p]? with
      | none => simp [hdds] at hev
      | some sent =>
        simp only [hdds] at hev
        cases sent with
        | false => simp at hev
        | true =>
          simp only [Bool.true_eq_false, if_false] at hev
          cases hnb : s.next_buf[p]? with
          | none => simp [hnb] at hev
          | some b =>
            simp only [hnb] at hev
            cases hev
            exact ⟨rfl, rfl, rfl, rfl, b, rfl, rfl⟩
    · simp [hd] at hev

theorem noteNeighborState_off_total (s : RouterState) (p : Nat) (h : Handshake)
    (hst : h.new_state = some ePowerState.power_off)
    (hns : s.neighbor_states[p]? = some ePowerState.draining)
    (hdds : s.drain_done_sent[p]? = some true) (hnb : p < s.next_buf.length) :
    ∃ s1, noteNeighborState s p h = some s1 ∧ s1.resp_hids = s.resp_hids := by
  unfold noteNeighborState
  rw [if_pos hst]
  simp [hns, hdds, List.getElem?_eq_getElem hnb]

theorem noteNeighborState_on (s s1 : RouterState) (p : Nat) (h : Handshake)
    (hst : h.new_state = some ePowerState.power_on)
    (hev : noteNeighborState s p h = some s1) :
    (s.neighbor_states[p]? = some ePowerState.wakeup →
      s1.drain_done_sent = s.drain_done_sent.set p false ∧ p < s.drain_done_sent.length ∧
      s1.neighbor_states = s.neighbor_states.set p ePowerState.power_on ∧
      (∃ b, s.next_buf[p]? = some b ∧
        s1.next_buf = s.next_buf.set p (b.call BufCall.FullCredits))) ∧
    (s.neighbor_states[p]? = some ePowerState.draining →
      s1.drain_done_sent = s.drain_done_sent.set p false ∧ p < s.drain_done_sent.length ∧
      s1.neighbor_states = s.neighbor_states.set p ePowerState.power_on ∧
      s1.next_buf = s.next_buf) := by
  unfold noteNeighborState at hev
  have hne : ¬ h.new_state = some ePowerState.power_off := by rw [hst]; decide
  rw [if_neg hne, if_pos hst] at hev
  cases hns : s.neighbor_states[p]? with
  | none => simp [hns] at hev
  | some st =>
    simp only [hns] at hev
    by_cases hlt : p < s.drain_done_sent.length
    · cases st with
      | wakeup =>
        simp only [if_true, vecSet, hlt] at hev
        cases hnb : s.next_buf[p]? with
        | none => simp [hnb] at hev
        | some b =>
          simp only [hnb] at hev
          cases hev
          simp [hlt]
      | draining =>
        simp [vecSet, hlt] at hev
        cases hev
        simp [hlt]
      | power_on => simp
      | power_off => simp
    · cases st with
      | wakeup => simp [vecSet, hlt] at hev
      | draining => simp [vecSet, hlt] at hev
      | power_on => simp
      | power_off => simp

theorem noteNeighborState_on_total (s : RouterState) (p : Nat) (h : Handshake)
    (hst : h.new_state = some ePowerState.power_on)
    (hns : p < s.neighbor_states.length) (hdds : p < s.drain_done_sent.length)
    (hnb : p < s.next_buf.length) :
    ∃ s1, noteNeighborState s p h = some s1 ∧ s1.resp_hids = s.resp_hids := by
  unfold noteNeighborState
  have hne : ¬ h.new_state = some ePowerState.power_off := by rw [hst]; decide
  rw [if_neg hne, if_pos hst]
  simp only [List.getElem?_eq_getElem hns, List.getElem?_eq_getElem hnb, vecSet, hdds, if_true]
  cases s.neighbor_states[p] <;> simp

theorem noteDrainDone_echo_total (s : RouterState) (p : Nat) (h : Handshake)
    (hdd : h.drain_done = false) (hrh : p < s.resp_hids.length) :
    ∃ s', noteDrainDone s p h = some s' := by
  unfold noteDrainDone
  simp [hdd, vecSet, hrh]

/-- C18. Processing a handshake with new_state = power_off received on port p
succeeds only if neighbor_states[p] is draining and drain_done_sent[p] is set;
on success drain_done_sent[p] is false, `ClearCredits` has been called on the
downstream state of port p, neighbor_states[p] is power_off, and the entries
of neighbor_states and drain_done_sent for every other port are unchanged.
When the two conditions hold the processing of a handshake without drain_done
does succeed. -/
theorem power_off_handshake (s : RouterState) (p : Nat) (h : Handshake)
    (hst : h.new_state = some ePowerState.power_off) :
    (∀ s', handshakeEvaluateOne s p h = some s' →
      s.neighbor_states[p]? = some ePowerState.draining ∧
      s.drain_done_sent[p]? = some true ∧
      s'.drain_done_sent = s.drain_done_sent.set p false ∧
      s'.neighbor_states = s.neighbor_states.set p ePowerState.power_off ∧
      (∃ b, s.next_buf[p]? = some b ∧
        s'.next_buf = s.next_buf.set p (b.call BufCall.ClearCredits)) ∧
      s'.drain_done_sent[p]? = some false ∧
      s'.neighbor_states[p]? = some ePowerState.power_off ∧
      (∀ q, q ≠ p → s'.neighbor_states[q]? = s.neighbor_states[q]? ∧
        s'.drain_done_sent[q]? = s.drain_done_sent[q]?)) ∧
    (p < 4 → s.neighbor_states[p]? = some ePowerState.draining →
      s.drain_done_sent[p]? = some true → p < s.next_buf.length →
      p < s.resp_hids.length → h.drain_done = false →
      ∃ s', handshakeEvaluateOne s p h = some s') := by
  constructor
  · intro s' hev
    unfold handshakeEvaluateOne at hev
    by_cases hp : p < 4
    · simp only [hp, not_true_eq_false, if_false] at hev
      cases h1 : noteNeighborState s p h with
      | none => simp [h1] at hev
      | some s1 =>
        simp only [h1] at hev
        obtain ⟨a1, a2, a3, a4, b, a5, a6⟩ := noteNeighborState_off s s1 p h hst h1
        obtain ⟨-, -, -, g4, g5, g6, -⟩ := noteDrainDone_frame s1 s' p h hev
        have hl1 : p < s.drain_done_sent.length := by
          rcases Nat.lt_or_ge p s.drain_done_sent.length with hl | hl
          · exact hl
          · rw [List.getElem?_eq_none hl] at a2; cases a2
        have hl2 : p < s.neighbor_states.length := by
          rcases Nat.lt_or_ge p s.neighbor_states.length with hl | hl
          · exact hl
          · rw [List.getElem?_eq_none hl] at a1; cases a1
        refine ⟨a1, a2, g5.trans a3, g4.trans a4, ⟨b, a5, g6.trans a6⟩, ?_, ?_, ?_⟩
        · rw [g5, a3]; simp [hl1]
        · rw [g4, a4]; simp [hl2]
        · intro q hq
          rw [g4, a4, g5, a3]
          have hq' : ¬ p = q := fun e => hq e.symm
          simp [List.getElem?_set, hq']
    · simp [hp] at hev
  · intro hp hns hdds hnb hrh hdd
    obtain ⟨s1, h1, h2⟩ := noteNeighborState_off_total s p h hst hns hdds hnb
    obtain ⟨s', h3⟩ := noteDrainDone_echo_total s1 p h hdd (by rw [h2]; exact hrh)
    exact ⟨s', by unfold handshakeEvaluateOne; simp [hp, h1, h3]⟩

/-- Witness of C18: router 6 announces power_off to router 5. -/
theorem power_off_handshake_witness :
    offFrom6.new_state = some ePowerState.power_off ∧
    handshakeEvaluateOne router5By6Draining 0 offFrom6 = some router5By6Off ∧
    (router5By6Draining.neighbor_states[0]? = some ePowerState.draining ∧
      router5By6Draining.drain_done_sent[0]? = some true ∧
      router5By6Off.drain_done_sent = router5By6Draining.drain_done_sent.set 0 false ∧
      router5By6Off.neighbor_states =
        router5By6Draining.neighbor_states.set 0 ePowerState.power_off ∧
      (∃ b, router5By6Draining.next_buf[0]? = some b ∧
        router5By6Off.next_buf =
          router5By6Draining.next_buf.set 0 (b.call BufCall.ClearCredits)) ∧
      router5By6Off.drain_done_sent[0]? = some false ∧
      router5By6Off.neighbor_states[0]? = some ePowerState.power_off ∧
      (∀ q, q ≠ 0 →
        router5By6Off.neighbor_states[q]? = router5By6Draining.neighbor_states[q]? ∧
        router5By6Off.drain_done_sent[q]? = router5By6Draining.drain_done_sent[q]?)) ∧
    (∃ s', handshakeEvaluateOne router5By6Draining 0 offFrom6 = some s') :=
  ⟨by decide, by rfl,
    (power_off_handshake router5By6Draining 0 offFrom6 (by decide)).1 router5By6Off (by rfl),
    (power_off_handshake router5By6Draining 0 offFrom6 (by decide)).2 (by decide) (by decide)
      (by decide) (by decide) (by decide) (by decide)⟩

/-- C19. Processing a handshake with new_state = power_on received on port p:
if neighbor_states[p] was wakeup, `FullCredits` is called on the downstream
state of port p; if it was draining, the downstream state of port p is left as
it was; in both cases drain_done_sent[p] becomes false and neighbor_states[p]
becomes power_on. With vectors of four ports the processing of a handshake
without drain_done does succeed. -/
theorem power_on_handshake (s : RouterState) (p : Nat) (h : Handshake)
    (hst : h.new_state = some ePowerState.power_on) :
    (∀ s', handshakeEvaluateOne s p h = some s' →
      (s.neighbor_states[p]? = some ePowerState.wakeup →
        (∃ b, s.next_buf[p]? = some b ∧
          s'.next_buf = s.next_buf.set p (b.call BufCall.FullCredits)) ∧
        s'.drain_done_sent[p]? = some false ∧
        s'.neighbor_states[p]? = some ePowerState.power_on) ∧
      (s.neighbor_states[p]? = some ePowerState.draining →
        s'.next_buf = s.next_buf ∧
        s'.drain_done_sent[p]? = some false ∧
        s'.neighbor_states[p]? = some ePowerState.power_on)) ∧
    (p < 4 → p < s.neighbor_states.length → p < s.drain_done_sent.length →
      p < s.next_buf.length → p < s.resp_hids.length → h.drain_done = false →
      ∃ s', handshakeEvaluateOne s p h = some s') := by
  constructor
  · intro s' hev
    unfold handshakeEvaluateOne at hev
    by_cases hp : p < 4
    · simp only [hp, not_true_eq_false, if_false] at hev
      cases h1 : noteNeighborState s p h with
      | none => simp [h1] at hev
      | some s1 =>
        simp only [h1] at hev
        obtain ⟨hw, hd⟩ := noteNeighborState_on s s1 p h hst h1
        obtain ⟨-, -, -, g4, g5, g6, -⟩ := noteDrainDone_frame s1 s' p h hev
        constructor
        · intro hns
          obtain ⟨a1, a2, a3, b, a4, a5⟩ := hw hns
          have hl2 : p < s.neighbor_states.length := by
            rcases Nat.lt_or_ge p s.neighbor_states.length with hl | hl
            · exact hl
            · rw [List.getElem?_eq_none hl] at hns; cases hns
          refine ⟨⟨b, a4, g6.trans a5⟩, ?_, ?_⟩
          · rw [g5, a1]; simp [a2]
          · rw [g4, a3]; simp [hl2]
        · intro hns
          obtain ⟨a1, a2, a3, a4⟩ := hd hns
          have hl2 : p < s.neighbor_states.length := by
            rcases Nat.lt_or_ge p s.neighbor_states.length with hl | hl
            · exact hl
            · rw [List.getElem?_eq_none hl] at hns; cases hns
          refine ⟨g6.trans a4, ?_, ?_⟩
          · rw [g5, a1]; simp [a2]
          · rw [g4, a3]; simp [hl2]
    · simp [hp] at hev
  · intro hp hns hdds hnb hrh hdd
    obtain ⟨s1, h1, h2⟩ := noteNeighborState_on_total s p h hst hns hdds hnb
    obtain ⟨s', h3⟩ := noteDrainDone_echo_total s1 p h hdd (by rw [h2]; exact hrh)
    exact ⟨s', by unfold handshakeEvaluateOne; simp [hp, h1, h3]⟩

/-- Witness of C19: router 6 announces power_on to router 5, once after
waking up and once after giving up its drain. -/
theorem power_on_handshake_witness :
    onFrom6.new_state = some ePowerState.power_on ∧
    handshakeEvaluateOne router5By6Waking 0 onFrom6 = some router5By6Woken ∧
    handshakeEvaluateOne router5By6Draining 0 onFrom6 = some router5By6Reverted ∧
    ((∃ b, router5By6Waking.next_buf[0]? = some b ∧
        router5By6Woken.next_buf =
          router5By6Waking.next_buf.set 0 (b.call BufCall.FullCredits)) ∧
      router5By6Woken.drain_done_sent[0]? = some false ∧
      router5By6Woken.neighbor_states[0]? = some ePowerState.power_on) ∧
    (router5By6Reverted.next_buf = router5By6Draining.next_buf ∧
      router5By6Reverted.drain_done_sent[0]? = some false ∧
      router5By6Reverted.neighbor_states[0]? = some ePowerState.power_on) ∧
    (∃ s', handshakeEvaluateOne router5By6Waking 0 onFrom6 = some s') :=
  ⟨by decide, by rfl, by rfl,
    ((power_on_handshake router5By6Waking 0 onFrom6 (by decide)).1 router5By6Woken
      (by rfl)).1 (by decide),
    ((power_on_handshake router5By6Draining 0 onFrom6 (by decide)).1 router5By6Reverted
      (by rfl)).2 (by decide),
    (power_on_handshake router5By6Waking 0 onFrom6 (by decide)).2 (by decide) (by decide)
      (by decide) (by decide) (by decide) (by decide)⟩

theorem boundary_some (g : Globals) (id : Int) (out : Nat) (b : Bool)
    (h : boundary g id out = some b) : isBoundary g id out = b := by
  by_cases hK : g.gK = 0
  · unfold boundary cmod cdiv at h
    unfold isBoundary
    by_cases h0 : out = 0
    · subst h0; simp [hK] at h
    by_cases h1 : out = 1
    · subst h1; simp [hK] at h
    by_cases h2 : out = 2
    · subst h2; simp [hK] at h
    by_cases h3 : out = 3
    · subst h3; simp [hK] at h
    simp [h0, h1, h2, h3] at h
    simp [h0, h1, h2, h3, h]
  · rw [boundary_eq g id out hK] at h
    exact Option.some.inj h

theorem announce_tags (g : Globals) (id : Int) (st : ePowerState) (skipEdge tagEdge : Bool)
    (ports : List Nat) (tags : List Bool) (hids : List Int) (oq : List (Nat × Handshake))
    (tags' : List Bool) (hids' : List Int) (oq' : List (Nat × Handshake))
    (h : announce g id st skipEdge tagEdge ports tags hids oq = some (tags', hids', oq'))
    (p : Nat) (hp : tags'[p]? = some true) :
    tags[p]? = some true ∨ (tagEdge = true ∧ isBoundary g id p = true) := by
  induction ports generalizing tags hids oq with
  | nil =>
    unfold announce at h
    cases h
    exact Or.inl hp
  | cons out rest ih =>
    unfold announce at h
    split at h
    · cases h
    · rename_i hb
      have hbound : isBoundary g id out = true := by
        cases skipEdge with
        | false => simp at hb
        | true => exact boundary_some g id out true (by simpa using hb)
      split at h
      · rename_i htag
        cases hv : vecSet tags out true with
        | none => simp [hv] at h
        | some tags1 =>
          simp only [hv] at h
          have ht1 : tags1 = tags.set out true := by
            unfold vecSet at hv
            split at hv
            · exact (Option.some.inj hv).symm
            · cases hv
          subst ht1
          rcases ih _ _ _ h with h1 | h1
          · by_cases hpo : out = p
            · subst hpo
              exact Or.inr ⟨htag, hbound⟩
            · rw [List.getElem?_set_ne hpo] at h1
              exact Or.inl h1
          · exact Or.inr h1
      · exact ih _ _ _ h
    · split at h
      · cases h
      · exact ih _ _ _ h

theorem replicate_false_ne (n p : Nat) : (List.replicate n false)[p]? ≠ some true := by
  rw [List.getElem?_replicate]
  split <;> simp

theorem evalPowerOn_tags (g : Globals) (s s' : RouterState) (h : evalPowerOn g s = some s')
    (p : Nat) (hp : s'.drain_tags[p]? = some true) :
    s'.power_state = ePowerState.draining ∧ isBoundary g s.id p = true := by
  unfold evalPowerOn at h
  simp only [] at h
  repeat' split at h
  all_goals first
    | (cases h; done)
    | (cases h; exact absurd hp (replicate_false_ne 4 p))
    | (cases h
       have hann := ‹announce _ _ _ _ _ _ _ _ _ = some _›
       rcases announce_tags _ _ _ _ _ _ _ _ _ _ _ _ hann p hp with h1 | h1
       · exact absurd h1 (replicate_false_ne 4 p)
       · exact ⟨rfl, h1.2⟩)

theorem evalDraining_tags (g : Globals) (s s' : RouterState) (h : evalDraining g s = some s')
    (p : Nat) (hp : s'.drain_tags[p]? = some true) :
    s'.power_state = s.power_state ∧ s.drain_tags[p]? = some true := by
  unfold evalDraining at h
  simp only [] at h
  repeat' split at h
  all_goals first
    | (cases h; done)
    | (cases h; exact ⟨rfl, hp⟩)
    | (cases h
       have hann := ‹announce _ _ _ _ _ _ _ _ _ = some _›
       rcases announce_tags _ _ _ _ _ _ _ _ _ _ _ _ hann p hp with h1 | h1
       · exact absurd h1 (replicate_false_ne _ p)
       · exact absurd h1.1 (by decide))

theorem evalPowerOff_tags (g : Globals) (s s' : RouterState) (h : evalPowerOff g s = some s')
    (p : Nat) (hp : s'.drain_tags[p]? = some true) :
    s'.power_state = ePowerState.wakeup ∧ isBoundary g s.id p = true := by
  unfold evalPowerOff at h
  simp only [] at h
  repeat' split at h
  all_goals first
    | (cases h; done)
    | (cases h; exact absurd hp (replicate_false_ne 4 p))
    | (cases h
       have hann := ‹announce _ _ _ _ _ _ _ _ _ = some _›
       rcases announce_tags _ _ _ _ _ _ _ _ _ _ _ _ hann p hp with h1 | h1
       · exact absurd h1 (replicate_false_ne 4 p)
       · exact ⟨rfl, h1.2⟩)

theorem evalWakeup_tags (g : Globals) (s s' : RouterState) (h : evalWakeup g s = some s')
    (p : Nat) (hp : s'.drain_tags[p]? = some true) :
    s'.power_state = s.power_state ∧ s.drain_tags[p]? = some true := by
  unfold evalWakeup at h
  simp only [] at h
  repeat' split at h
  all_goals first
    | (cases h; done)
    | (cases h; exact ⟨rfl, hp⟩)
    | (cases h
       have hann := ‹announce _ _ _ _ _ _ _ _ _ = some _›
       rcases announce_tags _ _ _ _ _ _ _ _ _ _ _ _ hann p hp with h1 | h1
       · exact absurd h1 (replicate_false_ne _ p)
       · exact absurd h1.1 (by decide))

theorem evalPowerOn_id (g : Globals) (s s' : RouterState) (h : evalPowerOn g s = some s') :
    s'.id = s.id := by
  unfold evalPowerOn at h
  simp only [] at h
  repeat' split at h
  all_goals first
    | (cases h; done)
    | (cases h; rfl)

theorem evalDraining_id (g : Globals) (s s' : RouterState) (h : evalDraining g s = some s') :
    s'.id = s.id := by
  unfold evalDraining at h
  simp only [] at h
  repeat' split at h
  all_goals first
    | (cases h; done)
    | (cases h; rfl)

theorem evalPowerOff_id (g : Globals) (s s' : RouterState) (h : evalPowerOff g s = some s') :
    s'.id = s.id := by
  unfold evalPowerOff at h
  simp only [] at h
  repeat' split at h
  all_goals first
    | (cases h; done)
    | (cases h; rfl)

theorem evalWakeup_id (g : Globals) (s s' : RouterState) (h : evalWakeup g s = some s') :
    s'.id = s.id := by
  unfold evalWakeup at h
  simp only [] at h
  repeat' split at h
  all_goals first
    | (cases h; done)
    | (cases h; rfl)

theorem pse_tags (g : Globals) (s s' : RouterState) (h : PowerStateEvaluate g s = some s') :
    s'.id = s.id ∧
    ∀ p, s'.drain_tags[p]? = some true →
      (s'.power_state = ePowerState.draining ∨ s'.power_state = ePowerState.wakeup) ∧
      (isBoundary g s.id p = true ∨
        (s'.power_state = s.power_state ∧ s.drain_tags[p]? = some true)) := by
  unfold PowerStateEvaluate at h
  split at h
  · cases h
  · split at h
    · cases h
    · split at h
      · refine ⟨evalPowerOn_id g s s' h, fun p hp => ?_⟩
        obtain ⟨h1, h2⟩ := evalPowerOn_tags g s s' h p hp
        exact ⟨Or.inl h1, Or.inl h2⟩
      · rename_i hps
        refine ⟨evalDraining_id g s s' h, fun p hp => ?_⟩
        obtain ⟨h1, h2⟩ := evalDraining_tags g s s' h p hp
        exact ⟨Or.inl (h1.trans hps), Or.inr ⟨h1, h2⟩⟩
      · refine ⟨evalPowerOff_id g s s' h, fun p hp => ?_⟩
        obtain ⟨h1, h2⟩ := evalPowerOff_tags g s s' h p hp
        exact ⟨Or.inr h1, Or.inl h2⟩
      · rename_i hps
        refine ⟨evalWakeup_id g s s' h, fun p hp => ?_⟩
        obtain ⟨h1, h2⟩ := evalWakeup_tags g s s' h p hp
        exact ⟨Or.inr (h1.trans hps), Or.inr ⟨h1, h2⟩⟩

/-- C15. In every state reachable from a state with all drain tags false by
PowerStateEvaluate and the processing of handshakes (and by steps of the other
members, which leave the tags alone), drain_tags[p] is true only if the router
is draining or waking up and either port p is a boundary port of the router or
a drain_done handshake whose hid equalled req_hids[p] was received on port p
since the router entered its current power state. -/
theorem drain_tags_justified (g : Globals) (s : RouterState) (acked : List Nat)
    (hr : Reachable g s acked) (p : Nat) (hp : s.drain_tags[p]? = some true) :
    (s.power_state = ePowerState.draining ∨ s.power_state = ePowerState.wakeup) ∧
    (isBoundary g s.id p = true ∨ p ∈ acked) := by
  induction hr generalizing p with
  | init s h => exact absurd hp (h p)
  | evaluate s s' acked _ h ih =>
    obtain ⟨hid, htags⟩ := pse_tags g s s' h
    obtain ⟨h1, h2⟩ := htags p hp
    refine ⟨h1, ?_⟩
    rcases h2 with h2 | ⟨h2, h3⟩
    · rw [hid]; exact Or.inl h2
    · rw [if_pos h2, hid]
      exact (ih p h3).2
  | handshake s s' acked q hs _ h ih =>
    obtain ⟨-, hps, hid, -, htags, hlen⟩ := handshakeEvaluateOne_tags s s' q hs h
    rw [hps, hid]
    by_cases hm : AckMatches s q hs
    · rw [if_pos hm] at htags ⊢
      by_cases hqp : q = p
      · subst hqp
        exact ⟨hm.2.2, Or.inr (List.mem_cons_self _ _)⟩
      · rw [htags, List.getElem?_set_ne hqp] at hp
        obtain ⟨h1, h2⟩ := ih p hp
        exact ⟨h1, h2.imp id (List.mem_cons_of_mem _)⟩
    · rw [if_neg hm] at htags ⊢
      rw [htags] at hp
      exact ih p hp
  | other s s' acked _ h1 h2 h3 h4 ih =>
    rw [h1] at hp
    rw [h2, h3]
    exact ih p hp

theorem router5_tags_false (p : Nat) : router5.drain_tags[p]? ≠ some true :=
  replicate_false_ne 4 p

theorem router5Acked_reachable : Reachable mesh4 router5Acked [0] := by
  have h0 : Reachable mesh4 router5 [] := Reachable.init router5 router5_tags_false
  have h1 := Reachable.evaluate router5 router5Draining [] h0 (by rfl)
  rw [ite_self] at h1
  have h2 : Reachable mesh4 router5Asking [] :=
    Reachable.other router5Draining router5Asking [] h1 rfl rfl rfl rfl
  have h3 := Reachable.handshake router5Asking router5Acked [] 0 ackFrom6 h2 (by rfl)
  rw [if_pos (by decide)] at h3
  exact h3

/-- Witness of C15: router 5 starts its drain and receives the drain-done of
router 6. -/
theorem drain_tags_justified_witness :
    Reachable mesh4 router5Acked [0] ∧ router5Acked.drain_tags[0]? = some true ∧
    ((router5Acked.power_state = ePowerState.draining ∨
        router5Acked.power_state = ePowerState.wakeup) ∧
      (isBoundary mesh4 router5Acked.id 0 = true ∨ 0 ∈ [0])) :=
  ⟨router5Acked_reachable, by decide,
    drain_tags_justified mesh4 router5Acked [0] router5Acked_reachable 0 (by decide)⟩

theorem cdiv_some (a b : Int) (hb : b ≠ 0) : cdiv a b = some (Int.tdiv a b) := by
  simp [cdiv, hb]

theorem activeTowards_spec (b : Buffer) (p : Nat) (l : List Nat) (hl : ∀ vc ∈ l, vc < b.length) :
    ∃ r, activeTowards b p l = some r ∧
      (r = true ↔ ∃ vc ∈ l, ∃ v, b[vc]? = some v ∧ v.output_port = (p : Int) ∧
        v.state = eVCState.active) := by
  induction l with
  | nil => exact ⟨false, rfl, by simp⟩
  | cons vc rest ih =>
    have hvc := hl vc (List.mem_cons_self _ _)
    obtain ⟨r, hr, hiff⟩ := ih (fun x hx => hl x (List.mem_cons_of_mem _ hx))
    simp only [activeTowards, List.getElem?_eq_getElem hvc]
    by_cases hc : b[vc].output_port = (p : Int) ∧ b[vc].state = eVCState.active
    · rw [if_pos hc]
      exact ⟨true, rfl, fun _ => ⟨vc, List.mem_cons_self _ _, b[vc], List.getElem?_eq_getElem hvc, hc⟩,
        fun _ => rfl⟩
    · rw [if_neg hc]
      refine ⟨r, hr, ?_⟩
      rw [hiff]
      constructor
      · rintro ⟨x, hx, v, h1, h2⟩
        exact ⟨x, List.mem_cons_of_mem _ hx, v, h1, h2⟩
      · rintro ⟨x, hx, v, h1, h2⟩
        rcases List.mem_cons.1 hx with rfl | hx
        · rw [List.getElem?_eq_getElem hvc] at h1
          cases h1
          exact absurd h2 hc
        · exact ⟨x, hx, v, h1, h2⟩

theorem routedTo_iff (s : RouterState) (i p : Nat) (b : Buffer) (hb : s.buf[i]? = some b)
    (hlen : b.length = s.vcs) :
    RoutedTo s i p ↔ ∃ vc ∈ List.range s.vcs, ∃ v, b[vc]? = some v ∧
      v.output_port = (p : Int) ∧ v.state = eVCState.active := by
  unfold RoutedTo GetOutputPort GetState
  rw [hb]
  constructor
  · rintro ⟨vc, hvc, h1, h2⟩
    have hlt : vc < b.length := by omega
    simp only [Option.bind, List.getElem?_eq_getElem hlt, Option.map, Option.some.injEq] at h1 h2
    exact ⟨vc, List.mem_range.2 hvc, b[vc], List.getElem?_eq_getElem hlt, h1, h2⟩
  · rintro ⟨vc, hvc, v, h1, h2, h3⟩
    refine ⟨vc, List.mem_range.1 hvc, ?_, ?_⟩
    · simp [Option.bind, h1, h2]
    · simp [Option.bind, h1, h3]

theorem inputsDrained_spec (s : RouterState) (p : Nat) (hin : 0 < s.inputs)
    (hbuf : s.buf.length = s.inputs) (hvcs : ∀ b ∈ s.buf, b.length = s.vcs)
    (l : List Nat) (acc : Bool) :
    ∃ r, inputsDrained s.buf s.inputs s.vcs p l acc = some r ∧
      (r = true ↔ acc = true ∧ ∀ i ∈ l, ¬ RoutedTo s ((p + i) % s.inputs) p) := by
  induction l generalizing acc with
  | nil => exact ⟨acc, rfl, by simp⟩
  | cons i rest ih =>
    have hlt : (p + i) % s.inputs < s.buf.length := by
      rw [hbuf]; exact Nat.mod_lt _ hin
    have hb := List.getElem?_eq_getElem hlt
    have hlen := hvcs _ (List.getElem_mem hlt)
    obtain ⟨f, hf, hfi⟩ := activeTowards_spec (s.buf[(p + i) % s.inputs]) p (List.range s.vcs)
      (fun vc hvc => by rw [hlen]; exact List.mem_range.1 hvc)
    rw [← routedTo_iff s _ p _ hb hlen] at hfi
    obtain ⟨r, hr, hri⟩ := ih (acc && !f)
    refine ⟨r, ?_, ?_⟩
    · simp only [inputsDrained, hb, hf]
      exact hr
    · rw [hri]
      cases f <;> simp at hfi <;> simp [hfi]

theorem offsets_cover (n p : Nat) (hp : p < n) (P : Nat → Prop) :
    (∀ i ∈ List.range' 1 (n - 1), P ((p + i) % n)) ↔ ∀ j < n, j ≠ p → P j := by
  constructor
  · intro h j hj hne
    rcases Nat.lt_or_gt_of_ne hne with hlt | hgt
    · have := h (j + n - p) (by rw [List.mem_range'_1]; omega)
      have e : p + (j + n - p) = j + n := by omega
      rwa [e, Nat.add_mod_right, Nat.mod_eq_of_lt hj] at this
    · have := h (j - p) (by rw [List.mem_range'_1]; omega)
      have e : p + (j - p) = j := by omega
      rwa [e, Nat.mod_eq_of_lt hj] at this
  · intro h i hi
    rw [List.mem_range'_1] at hi
    apply h _ (Nat.mod_lt _ (by omega))
    by_cases hlt : p + i < n
    · rw [Nat.mod_eq_of_lt hlt]; omega
    · rw [Nat.mod_eq_sub_mod (by omega), Nat.mod_eq_of_lt (by omega)]; omega

theorem crossbarDrained_spec (now sp : Int) (outputs p : Nat) (hsp : sp ≠ 0)
    (xs : List CrossbarItem)
    (hxs : ∀ item ∈ xs, item.time ≤ now ∧ 0 ≤ Int.tdiv item.expanded_output sp ∧
      Int.tdiv item.expanded_output sp < (outputs : Int)) :
    ∃ r, crossbarDrained now sp outputs p xs = some r ∧
      (r = true ↔ ¬ ∃ item ∈ xs, Int.tdiv item.expanded_output sp = (p : Int)) := by
  induction xs with
  | nil => exact ⟨true, rfl, by simp⟩
  | cons item rest ih =>
    obtain ⟨h1, h2, h3⟩ := hxs item (List.mem_cons_self _ _)
    obtain ⟨r, hr, hri⟩ := ih (fun x hx => hxs x (List.mem_cons_of_mem _ hx))
    simp only [crossbarDrained, cdiv_some _ _ hsp]
    rw [if_neg (not_not.2 h1), if_neg (not_not.2 ⟨h2, h3⟩)]
    by_cases hc : Int.tdiv item.expanded_output sp = (p : Int)
    · rw [if_pos hc]
      exact ⟨false, rfl, by simp [hc]⟩
    · rw [if_neg hc]
      exact ⟨r, hr, by rw [hri]; simp [hc]⟩

theorem responseReady_spec (now : Int) (s : RouterState) (p : Nat) (hp : p < 4)
    (hwf : ResponseSized now s) :
    ∃ r, responseReady now s p = some r ∧
      (r = true ↔ (∀ in_port < s.inputs, in_port ≠ p → ¬ RoutedTo s in_port p) ∧
        ¬ CrossbarTo s p ∧ s.output_buffer[p]? = some []) := by
  obtain ⟨hin, hout, hbuf, hvcs, -, -, -, hob, hsp, hxs, -⟩ := hwf
  obtain ⟨r1, hr1, hi1⟩ := inputsDrained_spec s p (by omega) hbuf hvcs
    (List.range' 1 (s.inputs - 1)) true
  rw [offsets_cover s.inputs p (by omega) (fun j => ¬ RoutedTo s j p)] at hi1
  obtain ⟨r2, hr2, hi2⟩ := crossbarDrained_spec now s.output_speedup s.outputs p hsp
    s.crossbar_flits hxs
  have hlt : p < s.output_buffer.length := by omega
  simp only [responseReady, hr1, hr2, List.getElem?_eq_getElem hlt]
  cases r1 with
  | false =>
    refine ⟨false, by simp, ?_⟩
    simp at hi1
    simp only [false_iff, Bool.false_eq_true]
    rintro ⟨h, -⟩
    obtain ⟨j, hj, hne, hr⟩ := hi1
    exact h j hj hne hr
  | true =>
    simp only [true_and, true_iff] at hi1
    cases r2 with
    | false =>
      refine ⟨false, by simp, ?_⟩
      simp only [Bool.false_eq_true, false_iff, not_not] at hi2 ⊢
      rintro ⟨-, h, -⟩
      exact h hi2
    | true =>
      simp only [true_iff] at hi2
      refine ⟨s.output_buffer[p].isEmpty, by simp, ?_⟩
      rw [List.isEmpty_iff]
      constructor
      · intro h
        exact ⟨hi1, hi2, by rw [h]⟩
      · rintro ⟨-, -, h⟩
        exact Option.some.inj h

theorem mapFind_update {α : Type} (q p : Nat) (f : α → α) (m : List (Nat × α)) :
    mapFind q (mapUpdate p f m) = if q = p then (mapFind p m).map f else mapFind q m := by
  induction m with
  | nil => simp [mapUpdate, mapFind]
  | cons e m ih =>
    obtain ⟨k, v⟩ := e
    have hcons : mapUpdate p f ((k, v) :: m) =
        (if k = p then (k, f v) else (k, v)) :: mapUpdate p f m := rfl
    rw [hcons]
    by_cases hk : k = p
    · rw [if_pos hk]
      by_cases hq : q = p
      · have hkq : k = q := by rw [hk, hq]
        simp only [mapFind, if_pos hkq, if_pos hq, if_pos hk, Option.map_some']
      · have hkq : ¬ k = q := by rw [hk]; exact fun h => hq h.symm
        simp only [mapFind, if_neg hkq, if_neg hq]
        rw [ih, if_neg hq]
    · rw [if_neg hk]
      by_cases hq : q = p
      · have hkq : ¬ k = q := by rw [hq]; exact hk
        simp only [mapFind, if_neg hkq, if_pos hq, if_neg hk]
        rw [ih, if_pos hq]
      · by_cases hkq : k = q
        · simp only [mapFind, if_pos hkq, if_neg hq]
        · simp only [mapFind, if_neg hkq, if_neg hq]
          rw [ih, if_neg hq]

theorem mapFind_put_ne {α : Type} (q p : Nat) (v : α) (m : List (Nat × α)) (h : q ≠ p) :
    mapFind q (mapPut p v m) = mapFind q m := by
  induction m with
  | nil =>
    have h' : ¬ p = q := fun e => h e.symm
    simp [mapPut, mapFind, h']
  | cons e m ih =>
    obtain ⟨k, w⟩ := e
    have h' : ¬ p = q := fun e => h e.symm
    simp only [mapPut]
    split
    · simp [mapFind, h']
    · simp only [mapFind, ih]

theorem mapFind_put_self {α : Type} (p : Nat) (v : α) (m : List (Nat × α))
    (h : mapFind p m = none) : mapFind p (mapPut p v m) = some v := by
  induction m with
  | nil => simp [mapPut, mapFind]
  | cons e m ih =>
    obtain ⟨k, w⟩ := e
    simp only [mapFind] at h
    by_cases hk : k = p
    · rw [if_pos hk] at h; cases h
    · rw [if_neg hk] at h
      simp only [mapPut]
      split
      · simp [mapFind]
      · simp only [mapFind, if_neg hk]
        exact ih h

theorem mapFind_insert {α : Type} (q p : Nat) (v : α) (m : List (Nat × α)) :
    mapFind q (mapInsert p v m) =
      if q = p then some ((mapFind p m).getD v) else mapFind q m := by
  unfold mapInsert mapHas
  by_cases hq : q = p
  · subst hq
    rw [if_pos rfl]
    cases hm : mapFind q m with
    | none => simp [mapFind_put_self q v m hm]
    | some w => simp [hm]
  · rw [if_neg hq]
    split
    · rfl
    · exact mapFind_put_ne q p v m hq

theorem respondOn_spec (now : Int) (s : RouterState) (p : Nat) (hp : p < 4)
    (hwf : ResponseSized now s) :
    ∃ s', respondOn now s p = some s' ∧ SameButResponses s s' ∧
      s'.drain_done_sent.length = s.drain_done_sent.length ∧
      (ResponseDue s p → Responded s s' p) ∧ (¬ ResponseDue s p → s' = s) ∧
      ∀ q, q ≠ p → Unanswered s s' q := by
  obtain ⟨r, hr, hri⟩ := responseReady_spec now s p hp hwf
  obtain ⟨-, -, -, -, hns, hsent, hresp, -, -, -, hsink⟩ := hwf
  have h1 : p < s.neighbor_states.length := by omega
  have h2 : p < s.drain_done_sent.length := by omega
  have h3 : p < s.resp_hids.length := by omega
  have h4 := hsink p hp
  have hstay : ∀ q : Nat, Unanswered s s q := fun q => ⟨rfl, rfl⟩
  have hps : s.power_state ≠ ePowerState.draining ∨ s.power_state ≠ ePowerState.wakeup := by
    cases s.power_state <;> simp
  simp only [respondOn, List.getElem?_eq_getElem h1, List.getElem?_eq_getElem h2, hr,
    List.getElem?_eq_getElem h3]
  by_cases hn : s.neighbor_states[p] = ePowerState.draining ∨
      s.neighbor_states[p] = ePowerState.wakeup
  · rw [if_pos ⟨hn, hps⟩]
    by_cases hs : s.drain_done_sent[p] = true
    · rw [if_pos hs]
      refine ⟨s, rfl, rfl, rfl, ?_, fun _ => rfl, fun q _ => hstay q⟩
      intro hdue
      have := hdue.2.1
      rw [List.getElem?_eq_getElem h2, hs] at this
      cases this
    · rw [if_neg hs]
      cases r with
      | true =>
        have hrest := hri.1 rfl
        rw [if_pos rfl]
        cases hsk : s.output_sinks[p]? with
        | none => rw [hsk] at h4; cases h4
        | some o =>
          cases o with
          | none => rw [hsk] at h4; cases h4
          | some sink =>
            simp only []
            refine ⟨_, rfl, rfl, by simp, ?_, ?_, ?_⟩
            · intro _
              refine ⟨by simp [List.getElem?_set, h2], ?_⟩
              simp only [mapFind_update, mapFind_insert, if_true, Option.map_some']
              exact ⟨_, rfl, rfl, List.getElem?_eq_getElem h3, rfl⟩
            · intro hnd
              exfalso
              apply hnd
              refine ⟨?_, ?_, hrest⟩
              · simpa [List.getElem?_eq_getElem h1] using hn
              · simpa [List.getElem?_eq_getElem h2] using hs
            · intro q hq
              refine ⟨?_, ?_⟩
              · simp [List.getElem?_set_ne (Ne.symm hq)]
              · simp only [mapFind_update, mapFind_insert, if_neg hq]
      | false =>
        simp only [Bool.false_eq_true, if_false]
        refine ⟨s, rfl, rfl, rfl, ?_, fun _ => rfl, fun q _ => hstay q⟩
        intro hdue
        have := hri.2 hdue.2.2
        cases this
  · have hn' : ¬ ((s.neighbor_states[p] = ePowerState.draining ∨
        s.neighbor_states[p] = ePowerState.wakeup) ∧
        (s.power_state ≠ ePowerState.draining ∨ s.power_state ≠ ePowerState.wakeup)) :=
      fun h => hn h.1
    rw [if_neg hn']
    refine ⟨s, rfl, rfl, rfl, ?_, fun _ => rfl, fun q _ => hstay q⟩
    intro hdue
    have := hdue.1
    rw [List.getElem?_eq_getElem h1] at this
    simp only [Option.some.injEq] at this
    exact absurd this hn

theorem sameButResponses_fields (s s' : RouterState) (h : SameButResponses s s') :
    s'.neighbor_states = s.neighbor_states ∧ s'.inputs = s.inputs ∧ s'.vcs = s.vcs ∧
    s'.buf = s.buf ∧ s'.crossbar_flits = s.crossbar_flits ∧
    s'.output_speedup = s.output_speedup ∧ s'.output_buffer = s.output_buffer ∧
    s'.outputs = s.outputs ∧ s'.resp_hids = s.resp_hids ∧
    s'.output_sinks = s.output_sinks ∧ s'.id = s.id ∧ s'.power_state = s.power_state := by
  unfold SameButResponses at h
  refine ⟨?_, ?_, ?_, ?_, ?_, ?_, ?_, ?_, ?_, ?_, ?_, ?_⟩ <;> rw [h]

theorem responseDue_congr (s s' : RouterState) (p : Nat) (h : SameButResponses s s')
    (hu : Unanswered s s' p) : ResponseDue s' p ↔ ResponseDue s p := by
  obtain ⟨e1, e2, e3, e4, e5, e6, e7, e8, e9, e10, -, -⟩ := sameButResponses_fields s s' h
  unfold ResponseDue RoutedTo CrossbarTo GetOutputPort GetState
  rw [e1, e2, e3, e4, e5, e6, e7, hu.1]

theorem responseSized_congr (now : Int) (s s' : RouterState) (h : SameButResponses s s')
    (hlen : s'.drain_done_sent.length = s.drain_done_sent.length)
    (hwf : ResponseSized now s) : ResponseSized now s' := by
  obtain ⟨e1, e2, e3, e4, e5, e6, e7, e8, e9, e10, -, -⟩ := sameButResponses_fields s s' h
  unfold ResponseSized at hwf ⊢
  rw [e1, e2, e3, e4, e5, e6, e7, e8, e9, e10, hlen]
  exact hwf

theorem sameButResponses_trans (s s1 s2 : RouterState) (h1 : SameButResponses s s1)
    (h2 : SameButResponses s1 s2) : SameButResponses s s2 := by
  unfold SameButResponses at h1 h2 ⊢
  rw [h1] at h2
  exact h2

theorem respondLoop_spec (now : Int) (l : List Nat) (hl : ∀ p ∈ l, p < 4) (hnd : l.Nodup)
    (s : RouterState) (hwf : ResponseSized now s) :
    ∃ s', respondLoop now l s = some s' ∧ SameButResponses s s' ∧
      s'.drain_done_sent.length = s.drain_done_sent.length ∧
      ∀ p, ((p ∈ l ∧ ResponseDue s p) → Responded s s' p) ∧
        (¬ (p ∈ l ∧ ResponseDue s p) → Unanswered s s' p) := by
  induction l generalizing s with
  | nil =>
    exact ⟨s, rfl, rfl, rfl, fun p => ⟨fun h => absurd h.1 (List.not_mem_nil p),
      fun _ => ⟨rfl, rfl⟩⟩⟩
  | cons q rest ih =>
    obtain ⟨s1, hs1, hsame1, hlen1, hdue1, hnot1, hoth1⟩ :=
      respondOn_spec now s q (hl q (List.mem_cons_self _ _)) hwf
    obtain ⟨s2, hs2, hsame2, hlen2, hall⟩ :=
      ih (fun x hx => hl x (List.mem_cons_of_mem _ hx)) (List.nodup_cons.1 hnd).2 s1
        (responseSized_congr now s s1 hsame1 hlen1 hwf)
    have hq : q ∉ rest := (List.nodup_cons.1 hnd).1
    obtain ⟨-, -, -, -, -, -, -, -, eresp, -, eid, -⟩ := sameButResponses_fields s s1 hsame1
    refine ⟨s2, by simp only [respondLoop, hs1]; exact hs2,
      sameButResponses_trans s s1 s2 hsame1 hsame2, by rw [hlen2, hlen1], ?_⟩
    intro p
    by_cases hpq : p = q
    · subst hpq
      have hun := (hall p).2 (fun h => hq h.1)
      constructor
      · rintro ⟨-, hdue⟩
        obtain ⟨hsent, h, hf, hrest⟩ := hdue1 hdue
        exact ⟨by rw [hun.1]; exact hsent, h, by rw [hun.2]; exact hf, hrest⟩
      · intro hnd'
        have hnd2 : ¬ ResponseDue s p := fun h => hnd' ⟨List.mem_cons_self _ _, h⟩
        have := hnot1 hnd2
        subst this
        exact hun
    · have hun1 := hoth1 p hpq
      have hiff := responseDue_congr s s1 p hsame1 hun1
      constructor
      · rintro ⟨hmem, hdue⟩
        have hmem' : p ∈ rest := by
          rcases List.mem_cons.1 hmem with h | h
          · exact absurd h hpq
          · exact h
        obtain ⟨hsent, h, hf, hd, hr1, hr2⟩ := (hall p).1 ⟨hmem', hiff.2 hdue⟩
        exact ⟨hsent, h, hf, hd, by rw [← eresp]; exact hr1, by rw [← eid]; exact hr2⟩
      · intro hnd'
        have := (hall p).2 (fun h => hnd' ⟨List.mem_cons_of_mem _ h.1, hiff.1 h.2⟩)
        exact ⟨by rw [this.1, hun1.1], by rw [this.2, hun1.2]⟩

/-- C16 (amended). On a router that is on or draining, with vectors of the
sizes the constructors give them, _HandshakeResponse returns, and for every
port p in 0..3 it queues a drain_done handshake on p (with hid = resp_hids[p]
and the id of the router) and sets drain_done_sent[p] if and only if
neighbor_states[p] is draining or wakeup, drain_done_sent[p] was false, no VC
of any input port other than p is active with output port p, no crossbar flit
is destined to output p and output buffer p is empty; for a port where the
condition fails neither drain_done_sent[p] nor the queue entry of p changes,
and no other member of the router changes at all. -/
theorem handshake_response_iff (now : Int) (s : RouterState)
    (hps : s.power_state = ePowerState.power_on ∨ s.power_state = ePowerState.draining)
    (hwf : ResponseSized now s) :
    ∃ s', _HandshakeResponse now s = some s' ∧ SameButResponses s s' ∧
      ∀ p < 4,
        (ResponseDue s p ↔
          (s.drain_done_sent[p]? = some false ∧ s'.drain_done_sent[p]? = some true)) ∧
        (ResponseDue s p → Responded s s' p) ∧
        (¬ ResponseDue s p → Unanswered s s' p) := by
  obtain ⟨s', hs', hsame, -, hall⟩ :=
    respondLoop_spec now [0, 1, 2, 3] (by decide) (by decide) s hwf
  refine ⟨s', ?_, hsame, ?_⟩
  · unfold _HandshakeResponse
    rw [if_neg (not_not.2 hps)]
    exact hs'
  · intro p hp
    have hmem : p ∈ [0, 1, 2, 3] := by
      interval_cases p <;> decide
    refine ⟨⟨fun h => ⟨h.2.1, ((hall p).1 ⟨hmem, h⟩).1⟩, ?_⟩,
      fun h => (hall p).1 ⟨hmem, h⟩, fun h => (hall p).2 (fun h' => h h'.2)⟩
    rintro ⟨h1, h2⟩
    by_contra hnd'
    have := ((hall p).2 (fun h' => hnd' h'.2)).1
    rw [h1, h2] at this
    cases this

/-- Witness of C16: router 5 next to the draining router 6. -/
theorem handshake_response_iff_witness :
    (router5Heard.power_state = ePowerState.power_on ∨
      router5Heard.power_state = ePowerState.draining) ∧
    ResponseSized 0 router5Heard ∧
    ∃ s', _HandshakeResponse 0 router5Heard = some s' ∧ SameButResponses router5Heard s' ∧
      ∀ p < 4,
        (ResponseDue router5Heard p ↔
          (router5Heard.drain_done_sent[p]? = some false ∧
            s'.drain_done_sent[p]? = some true)) ∧
        (ResponseDue router5Heard p → Responded router5Heard s' p) ∧
        (¬ ResponseDue router5Heard p → Unanswered router5Heard s' p) :=
  ⟨by decide, by decide, handshake_response_iff 0 router5Heard (by decide) (by decide)⟩

/-- Counterexample to C16 as stated: VC 0 of input port 0 of router 5 is
active with output port 0, so the condition of the claim fails for port 0,
and _HandshakeResponse still queues the drain_done on port 0 and sets
drain_done_sent[0]. -/
theorem handshake_response_iff_counterexample :
    RoutedTo router5UTurn 0 0 ∧ ¬ ResponseDueSpec router5UTurn 0 ∧
    _HandshakeResponse 0 router5UTurn = some router5UTurnAnswered ∧
    router5UTurn.drain_done_sent[0]? = some false ∧
    router5UTurnAnswered.drain_done_sent[0]? = some true ∧
    mapFind 0 router5UTurnAnswered.out_queue_handshakes =
      some { Handshake.New with drain_done := true, id := 5, hid := 1 } :=
  ⟨by decide, by decide, by rfl, by decide, by decide, by decide⟩

theorem mem_mapPut {α : Type} (k : Nat) (v : α) (m : List (Nat × α)) (e : Nat × α)
    (he : e ∈ mapPut k v m) : e = (k, v) ∨ e ∈ m := by
  induction m with
  | nil => simpa [mapPut] using he
  | cons e0 m ih =>
    obtain ⟨k0, v0⟩ := e0
    simp only [mapPut] at he
    split at he
    · rcases List.mem_cons.1 he with h | h
      · exact Or.inl h
      · exact Or.inr h
    · rcases List.mem_cons.1 he with h | h
      · exact Or.inr (h ▸ List.mem_cons_self _ _)
      · exact (ih h).imp id (List.mem_cons_of_mem _)

theorem mem_mapInsert {α : Type} (k : Nat) (v : α) (m : List (Nat × α)) (e : Nat × α)
    (he : e ∈ mapInsert k v m) : e = (k, v) ∨ e ∈ m := by
  unfold mapInsert at he
  split at he
  · exact Or.inr he
  · exact mem_mapPut k v m e he

theorem mem_update_insert {α : Type} (k : Nat) (f : α → α) (v : α) (m : List (Nat × α))
    (e : Nat × α) (he : e ∈ mapUpdate k f (mapInsert k v m)) :
    e ∈ m ∨ ∃ h0, (h0 = v ∨ (k, h0) ∈ m) ∧ e = (k, f h0) := by
  unfold mapUpdate at he
  obtain ⟨e0, he0, rfl⟩ := List.mem_map.1 he
  obtain ⟨k0, v0⟩ := e0
  by_cases hk : k0 = k
  · subst hk
    simp only [if_true]
    right
    refine ⟨v0, ?_, rfl⟩
    rcases mem_mapInsert k0 v m _ he0 with h | h
    · exact Or.inl (Prod.mk.inj h).2
    · exact Or.inr h
  · simp only [if_neg hk]
    rcases mem_mapInsert k v m _ he0 with h | h
    · exact absurd (Prod.mk.inj h).1 hk
    · exact Or.inl h

theorem announceOn_queue (id : Int) (st : ePowerState) (out : Nat) (hids hids' : List Int)
    (oq oq' : List (Nat × Handshake)) (h : announceOn id st out hids oq = some (hids', oq'))
    (hq : ∀ e ∈ oq, StateOnly e.2) : ∀ e ∈ oq', StateOnly e.2 := by
  unfold announceOn at h
  split at h
  · cases h
  · simp only [Option.some.injEq, Prod.mk.injEq] at h
    obtain ⟨-, rfl⟩ := h
    intro e he
    rcases mem_update_insert _ _ _ _ e he with h1 | ⟨h0, h1, rfl⟩
    · exact hq e h1
    · rcases h1 with rfl | h1
      · exact ⟨rfl, rfl, rfl⟩
      · exact ⟨rfl, (hq _ h1).2.1, (hq _ h1).2.2⟩

theorem announce_queue (g : Globals) (id : Int) (st : ePowerState) (skipEdge tagEdge : Bool)
    (ports : List Nat) (tags : List Bool) (hids : List Int) (oq : List (Nat × Handshake))
    (tags' : List Bool) (hids' : List Int) (oq' : List (Nat × Handshake))
    (h : announce g id st skipEdge tagEdge ports tags hids oq = some (tags', hids', oq'))
    (hq : ∀ e ∈ oq, StateOnly e.2) : ∀ e ∈ oq', StateOnly e.2 := by
  induction ports generalizing tags hids oq with
  | nil =>
    unfold announce at h
    cases h
    exact hq
  | cons out rest ih =>
    unfold announce at h
    repeat' split at h
    all_goals first
      | cases h
      | exact ih _ _ _ h hq
      | (rename_i hon
         exact ih _ _ _ h (announceOn_queue _ _ _ _ _ _ _ hon hq))

theorem evalPowerOn_queue (g : Globals) (s s' : RouterState) (h : evalPowerOn g s = some s')
    (hq : ∀ e ∈ s.out_queue_handshakes, StateOnly e.2) :
    (∀ e ∈ s'.out_queue_handshakes, StateOnly e.2) ∧
      s'.handshake_buffer = s.handshake_buffer := by
  unfold evalPowerOn at h
  simp only [] at h
  repeat' split at h
  all_goals first
    | (cases h; done)
    | (cases h; exact ⟨hq, rfl⟩)
    | (cases h
       have hann := ‹announce _ _ _ _ _ _ _ _ _ = some _›
       exact ⟨announce_queue _ _ _ _ _ _ _ _ _ _ _ _ hann hq, rfl⟩)

theorem evalDraining_queue (g : Globals) (s s' : RouterState)
    (h : evalDraining g s = some s')
    (hq : ∀ e ∈ s.out_queue_handshakes, StateOnly e.2) :
    (∀ e ∈ s'.out_queue_handshakes, StateOnly e.2) ∧
      s'.handshake_buffer = s.handshake_buffer := by
  unfold evalDraining at h
  simp only [] at h
  repeat' split at h
  all_goals first
    | (cases h; done)
    | (cases h; exact ⟨hq, rfl⟩)
    | (cases h
       have hann := ‹announce _ _ _ _ _ _ _ _ _ = some _›
       exact ⟨announce_queue _ _ _ _ _ _ _ _ _ _ _ _ hann hq, rfl⟩)

theorem evalPowerOff_queue (g : Globals) (s s' : RouterState)
    (h : evalPowerOff g s = some s')
    (hq : ∀ e ∈ s.out_queue_handshakes, StateOnly e.2) :
    (∀ e ∈ s'.out_queue_handshakes, StateOnly e.2) ∧
      s'.handshake_buffer = s.handshake_buffer := by
  unfold evalPowerOff at h
  simp only [] at h
  repeat' split at h
  all_goals first
    | (cases h; done)
    | (cases h; exact ⟨hq, rfl⟩)
    | (cases h
       have hann := ‹announce _ _ _ _ _ _ _ _ _ = some _›
       exact ⟨announce_queue _ _ _ _ _ _ _ _ _ _ _ _ hann hq, rfl⟩)

theorem evalWakeup_queue (g : Globals) (s s' : RouterState)
    (h : evalWakeup g s = some s')
    (hq : ∀ e ∈ s.out_queue_handshakes, StateOnly e.2) :
    (∀ e ∈ s'.out_queue_handshakes, StateOnly e.2) ∧
      s'.handshake_buffer = s.handshake_buffer := by
  unfold evalWakeup at h
  simp only [] at h
  repeat' split at h
  all_goals first
    | (cases h; done)
    | (cases h; exact ⟨hq, rfl⟩)
    | (cases h
       have hann := ‹announce _ _ _ _ _ _ _ _ _ = some _›
       exact ⟨announce_queue _ _ _ _ _ _ _ _ _ _ _ _ hann hq, rfl⟩)

theorem pse_queue (g : Globals) (s s' : RouterState) (h : PowerStateEvaluate g s = some s')
    (hq : ∀ e ∈ s.out_queue_handshakes, StateOnly e.2) :
    (∀ e ∈ s'.out_queue_handshakes, StateOnly e.2) ∧
      s'.handshake_buffer = s.handshake_buffer := by
  unfold PowerStateEvaluate at h
  split at h
  · cases h
  · split at h
    · cases h
    · split at h
      · exact evalPowerOn_queue g s s' h hq
      · exact evalDraining_queue g s s' h hq
      · exact evalPowerOff_queue g s s' h hq
      · exact evalWakeup_queue g s s' h hq

theorem stateOnly_carries (h : Handshake) (hs : StateOnly h) : CarriesField h :=
  ⟨Or.inl hs.1, hs.2.2⟩

theorem respondOn_queue (now : Int) (s s' : RouterState) (p : Nat)
    (h : respondOn now s p = some s')
    (hq : ∀ e ∈ s.out_queue_handshakes, CarriesField e.2) :
    (∀ e ∈ s'.out_queue_handshakes, CarriesField e.2) ∧
      s'.handshake_buffer = s.handshake_buffer := by
  unfold respondOn at h
  repeat' split at h
  all_goals first
    | (cases h; done)
    | (cases h; exact ⟨hq, rfl⟩)
    | (cases h
       refine ⟨fun e he => ?_, rfl⟩
       dsimp only at he
       rcases mem_update_insert _ _ _ _ e he with h1 | ⟨h0, h1, rfl⟩
       · exact hq e h1
       · rcases h1 with rfl | h1
         · exact ⟨Or.inr rfl, rfl⟩
         · exact ⟨Or.inr rfl, (hq _ h1).2⟩)

theorem respondLoop_queue (now : Int) (l : List Nat) (s s' : RouterState)
    (h : respondLoop now l s = some s')
    (hq : ∀ e ∈ s.out_queue_handshakes, CarriesField e.2) :
    (∀ e ∈ s'.out_queue_handshakes, CarriesField e.2) ∧
      s'.handshake_buffer = s.handshake_buffer := by
  induction l generalizing s with
  | nil =>
    unfold respondLoop at h
    cases h
    exact ⟨hq, rfl⟩
  | cons p rest ih =>
    unfold respondLoop at h
    split at h
    · cases h
    · rename_i s1 hs1
      obtain ⟨h1, h2⟩ := respondOn_queue now s s1 p hs1 hq
      obtain ⟨h3, h4⟩ := ih s1 h h1
      exact ⟨h3, h4.trans h2⟩

theorem handshakeResponse_queue (now : Int) (s s' : RouterState)
    (h : _HandshakeResponse now s = some s')
    (hq : ∀ e ∈ s.out_queue_handshakes, CarriesField e.2) :
    (∀ e ∈ s'.out_queue_handshakes, CarriesField e.2) ∧
      s'.handshake_buffer = s.handshake_buffer := by
  unfold _HandshakeResponse at h
  split at h
  · cases h
  · exact respondLoop_queue now _ s s' h hq

theorem queueHandshakes_spec (oq : List (Nat × Handshake)) (hb hb' : List (List Handshake))
    (h : queueHandshakes oq hb = some hb') (p : Nat) (q' : List Handshake)
    (hp : hb'[p]? = some q') :
    ∃ q sent, hb[p]? = some q ∧ q' = q ++ sent ∧ ∀ x ∈ sent, (p, x) ∈ oq := by
  induction oq generalizing hb with
  | nil =>
    unfold queueHandshakes at h
    cases h
    exact ⟨q', [], hp, by simp, by simp⟩
  | cons e rest ih =>
    obtain ⟨output, x⟩ := e
    unfold queueHandshakes at h
    repeat' split at h
    all_goals first
      | cases h
      | skip
    rename_i q0 hq0
    obtain ⟨q, sent, h1, h2, h3⟩ := ih _ h
    by_cases hpo : output = p
    · subst hpo
      have hlt : output < hb.length := by
        by_contra hge
        rw [List.getElem?_eq_none (by omega)] at hq0
        cases hq0
      rw [List.getElem?_set_self hlt] at h1
      cases h1
      refine ⟨q0, x :: sent, hq0, by rw [h2]; simp, ?_⟩
      intro y hy
      rcases List.mem_cons.1 hy with rfl | hy
      · exact List.mem_cons_self _ _
      · exact List.mem_cons_of_mem _ (h3 y hy)
    · rw [List.getElem?_set_ne hpo] at h1
      exact ⟨q, sent, h1, h2, fun y hy => List.mem_cons_of_mem _ (h3 y hy)⟩

theorem outputQueuing_spec (s s' : RouterState) (h : _OutputQueuing s = some s')
    (hq : ∀ e ∈ s.out_queue_handshakes, CarriesField e.2) (p : Nat) (q' : List Handshake)
    (hp : s'.handshake_buffer[p]? = some q') :
    ∃ q sent, s.handshake_buffer[p]? = some q ∧ q' = q ++ sent ∧
      ∀ x ∈ sent, CarriesField x := by
  unfold _OutputQueuing at h
  repeat' split at h
  all_goals cases h
  rename_i hb hhb
  obtain ⟨q, sent, h1, h2, h3⟩ := queueHandshakes_spec _ _ _ hhb p q' hp
  exact ⟨q, sent, h1, h2, fun x hx => hq _ (h3 x hx)⟩

theorem rflovStep_queue (g : Globals) (now : Int) (s s' : RouterState)
    (h : _RFlovStep g now s = some s') :
    s'.out_queue_handshakes = s.out_queue_handshakes ∧
      s'.handshake_buffer = s.handshake_buffer := by
  unfold _RFlovStep at h
  repeat' split at h
  all_goals first
    | (cases h; done)
    | (cases h; exact ⟨rfl, rfl⟩)

/-- C20 (amended). In a cycle that starts with an empty handshake queue,
PowerStateEvaluate followed by _InternalStep (with _HandshakeResponse) appends
to each handshake buffer only handshakes that carry a power state in new_state
or drain_done, and no wakeup; both fields may be set on the same handshake.
The pipeline stages, which are an argument here, are taken not to write the
handshake queue or the handshake buffers. -/
theorem queued_handshake_fields (pipeline : RouterState → Option RouterState) (g : Globals)
    (now : Int) (s s1 s2 : RouterState)
    (hpipe : ∀ a b, pipeline a = some b →
      b.out_queue_handshakes = a.out_queue_handshakes ∧
        b.handshake_buffer = a.handshake_buffer)
    (hempty : s.out_queue_handshakes = [])
    (h1 : PowerStateEvaluate g s = some s1)
    (h2 : _InternalStep pipeline g now s1 = some s2)
    (p : Nat) (q' : List Handshake) (hp : s2.handshake_buffer[p]? = some q') :
    ∃ q sent, s.handshake_buffer[p]? = some q ∧ q' = q ++ sent ∧
      ∀ x ∈ sent, CarriesField x := by
  have hs : ∀ e ∈ s.out_queue_handshakes, StateOnly e.2 := by
    rw [hempty]; intro e he; cases he
  obtain ⟨hq1, hb1⟩ := pse_queue g s s1 h1 hs
  have hc1 : ∀ e ∈ s1.out_queue_handshakes, CarriesField e.2 :=
    fun e he => stateOnly_carries _ (hq1 e he)
  unfold _InternalStep at h2
  split at h2
  · split at h2
    · cases h2
    · rename_i sa hsa
      split at h2
      · cases h2
      · rename_i sb hsb
        split at h2
        · cases h2
        · cases h2
          obtain ⟨e1, e2⟩ := rflovStep_queue g now s1 sa hsa
          have := outputQueuing_spec sa s2 hsb (by rw [e1]; exact hc1) p q' hp
          rwa [e2, hb1] at this
  · split at h2
    · split at h2
      · cases h2
      · rename_i sa hsa
        split at h2
        · cases h2
        · rename_i sb hsb
          split at h2
          · cases h2
          · cases h2
            obtain ⟨e1, e2⟩ := handshakeResponse_queue now s1 sa hsa hc1
            have := outputQueuing_spec sa s2 hsb e1 p q' hp
            rwa [e2, hb1] at this
    · split at h2
      · cases h2
      · rename_i sa hsa
        split at h2
        · cases h2
        · rename_i sb hsb
          split at h2
          · cases h2
          · rename_i sc hsc
            split at h2
            · cases h2
            · cases h2
              obtain ⟨p1, p2⟩ := hpipe s1 sa hsa
              obtain ⟨e1, e2⟩ := handshakeResponse_queue now sa sb hsb (by rw [p1]; exact hc1)
              have := outputQueuing_spec _ s2 hsc e1 p q' hp
              rw [show ({ sb with active := sb.active || !sb.route_vcs.isEmpty } :
                RouterState).handshake_buffer = sb.handshake_buffer from rfl, e2, p2, hb1] at this
              exact this

theorem noPipeline_keeps (a b : RouterState) (h : noPipeline a = some b) :
    b.out_queue_handshakes = a.out_queue_handshakes ∧
      b.handshake_buffer = a.handshake_buffer := by
  cases h

/-- Witness of C20: router 5 starts its drain; the four announcements reach
the handshake buffers. -/
theorem queued_handshake_fields_witness :
    router5.out_queue_handshakes = [] ∧
    PowerStateEvaluate mesh4 router5 = some router5Draining ∧
    _InternalStep noPipeline mesh4 0 router5Draining = some router5Announced ∧
    router5Announced.handshake_buffer[0]? =
      some [{ Handshake.New with new_state := some ePowerState.draining, id := 5, hid := 1 }] ∧
    ∃ q sent, router5.handshake_buffer[0]? = some q ∧
      [{ Handshake.New with new_state := some ePowerState.draining, id := 5, hid := 1 }] =
        q ++ sent ∧
      ∀ x ∈ sent, CarriesField x :=
  ⟨rfl, by rfl, by rfl, by rfl,
    queued_handshake_fields noPipeline mesh4 0 router5 router5Draining router5Announced
      noPipeline_keeps rfl (by rfl) (by rfl) 0 _ (by rfl)⟩

/-- Counterexample to C20 as stated: router 5 is draining when router 1 on
port 3 starts to drain as well. PowerStateEvaluate reverts router 5 and queues
the announcement of power_on on every port; in the same cycle
_HandshakeResponse marks the handshake queued for port 3 as drain_done. The
handshake handed to _OutputQueuing for port 3 carries both fields. -/
theorem queued_handshake_fields_counterexample :
    router5Rival.out_queue_handshakes = [] ∧
    PowerStateEvaluate mesh4 router5Rival = some router5Reverting ∧
    _HandshakeResponse 0 router5Reverting =
      some { router5Reverting with
        out_queue_handshakes :=
          [(0, { Handshake.New with new_state := some ePowerState.power_on, id := 5, hid := 2 }),
           (1, { Handshake.New with new_state := some ePowerState.power_on, id := 5, hid := 2 }),
           (2, { Handshake.New with new_state := some ePowerState.power_on, id := 5, hid := 2 }),
           (3, revertAndAck)]
        drain_done_sent := [false, false, false, true] } ∧
    _InternalStep noPipeline mesh4 0 router5Reverting = some router5RevertSent ∧
    router5RevertSent.handshake_buffer[3]? = some [revertAndAck] ∧
    revertAndAck.new_state = some ePowerState.power_on ∧
    revertAndAck.drain_done = true ∧ ¬ ExactlyOneField revertAndAck :=
  ⟨rfl, by rfl, by rfl, by rfl, by rfl, rfl, rfl, by decide⟩

theorem evalPowerOn_clock (g : Globals) (e s : RouterState) (h : evalPowerOn g e = some s) :
    s.drain_threshold = e.drain_threshold ∧
      (s.power_state = e.power_state ∨ s.drain_timer = 0) := by
  unfold evalPowerOn at h
  simp only [] at h
  repeat' split at h
  all_goals first
    | (cases h; done)
    | (cases h; exact ⟨rfl, Or.inl rfl⟩)
    | (cases h; exact ⟨rfl, Or.inr rfl⟩)

theorem evalDraining_clock (g : Globals) (e s : RouterState) (h : evalDraining g e = some s)
    (hs : s.power_state = ePowerState.draining) :
    s.drain_timer = e.drain_timer + 1 ∧ s.drain_timer ≤ s.drain_threshold ∧
      s.drain_threshold = e.drain_threshold := by
  unfold evalDraining at h
  simp only [] at h
  repeat' split at h
  all_goals first
    | (cases h; done)
    | (cases h; cases hs)
    | (cases h
       rename_i hgt
       exact ⟨rfl, not_lt.1 hgt, rfl⟩)

theorem pse_clock_enter (g : Globals) (e s : RouterState)
    (h : PowerStateEvaluate g e = some s) (he : e.power_state = ePowerState.power_on)
    (hs : s.power_state = ePowerState.draining) :
    s.drain_timer = 0 ∧ s.drain_threshold = e.drain_threshold := by
  rw [pse_power_on g e he] at h
  obtain ⟨h1, h2⟩ := evalPowerOn_clock g e s h
  refine ⟨?_, h1⟩
  rcases h2 with h2 | h2
  · rw [he, hs] at h2; cases h2
  · exact h2

theorem pse_clock_stay (g : Globals) (e s : RouterState)
    (h : PowerStateEvaluate g e = some s) (he : e.power_state = ePowerState.draining)
    (hs : s.power_state = ePowerState.draining) :
    s.drain_timer = e.drain_timer + 1 ∧ s.drain_timer ≤ s.drain_threshold ∧
      s.drain_threshold = e.drain_threshold := by
  unfold PowerStateEvaluate at h
  split at h
  · cases h
  · split at h
    · cases h
    · rw [he] at h
      exact evalDraining_clock g e s h hs

theorem drainRun_head (g : Globals) (c : RouterState × RouterState)
    (l : List (RouterState × RouterState)) (h : DrainRun g (c :: l)) :
    PowerStateEvaluate g c.1 = some c.2 := by
  cases l with
  | nil => exact h
  | cons d rest => exact h.1

theorem drainRun_timer (g : Globals) (mid : List (RouterState × RouterState))
    (last c0 : RouterState × RouterState)
    (h0 : c0.2.power_state = ePowerState.draining)
    (hrun : DrainRun g (c0 :: (mid ++ [last])))
    (hmid : ∀ c ∈ mid, c.2.power_state = ePowerState.draining) :
    (mid = [] ∨ c0.2.drain_timer + (mid.length : Int) ≤ c0.2.drain_threshold) ∧
      PowerStateEvaluate g last.1 = some last.2 ∧
      last.1.power_state = ePowerState.draining ∧
      last.1.drain_timer = c0.2.drain_timer + (mid.length : Int) := by
  induction mid generalizing c0 with
  | nil =>
    obtain ⟨-, ⟨hps, htimer, -⟩, hlast⟩ := hrun
    exact ⟨Or.inl rfl, hlast, hps.trans h0, by simpa using htimer⟩
  | cons d rest ih =>
    obtain ⟨-, ⟨hps, htimer, hth⟩, hrest⟩ := hrun
    have hd := hmid d (List.mem_cons_self _ _)
    have hcall := drainRun_head g d _ hrest
    obtain ⟨k1, k2, k3⟩ := pse_clock_stay g d.1 d.2 hcall (hps.trans h0) hd
    obtain ⟨hb, hl1, hl2, hl3⟩ :=
      ih d hd hrest (fun c hc => hmid c (List.mem_cons_of_mem _ hc))
    simp only [List.length_cons, Nat.cast_add, Nat.cast_one]
    refine ⟨Or.inr ?_, hl1, hl2, by omega⟩
    rcases hb with h | h
    · subst h
      simp only [List.length_nil, Nat.cast_zero]
      omega
    · omega

theorem evalDraining_off (g : Globals) (e s : RouterState) (h : evalDraining g e = some s)
    (he : e.power_state = ePowerState.draining) (hs : s.power_state = ePowerState.power_off) :
    s.drain_time_q = e.drain_time_q ++ [e.drain_timer + 1] := by
  unfold evalDraining at h
  simp only [] at h
  repeat' split at h
  all_goals first
    | (cases h; done)
    | (cases h; cases hs; done)
    | (cases h; rfl)
    | (cases h
       rw [he] at hs
       cases hs)

theorem pse_clock_off (g : Globals) (e s : RouterState)
    (h : PowerStateEvaluate g e = some s) (he : e.power_state = ePowerState.draining)
    (hs : s.power_state = ePowerState.power_off) :
    s.drain_time_q = e.drain_time_q ++ [e.drain_timer + 1] := by
  unfold PowerStateEvaluate at h
  split at h
  · cases h
  · split at h
    · cases h
    · rw [he] at h
      exact evalDraining_off g e s h he hs

/-- C11 (amended). In a run with one call of PowerStateEvaluate per cycle,
between which the rest of the router leaves _power_state, _drain_timer and
_drain_threshold alone: when the call of cycle T1 moves the router from
power_on to draining, the calls of the cycles after it leave it draining, and
the call of cycle T2 moves it to power_off, then T2 <= T1 + drain_threshold +
1, for a drain_threshold that is not negative, and T2 - T1 is the drain time
that the last call records. (The run lists the cycles T1 to T2; the list mid
holds the cycles strictly between them, so T2 - T1 is its length plus one.) -/
theorem drain_to_off_bound (g : Globals) (e0 s0 : RouterState)
    (mid : List (RouterState × RouterState)) (ek sk : RouterState)
    (hrun : DrainRun g ((e0, s0) :: (mid ++ [(ek, sk)])))
    (h0 : e0.power_state = ePowerState.power_on)
    (h1 : s0.power_state = ePowerState.draining)
    (hmid : ∀ c ∈ mid, c.2.power_state = ePowerState.draining)
    (hk : sk.power_state = ePowerState.power_off)
    (hth : 0 ≤ e0.drain_threshold) :
    (mid.length : Int) + 1 ≤ e0.drain_threshold + 1 ∧
      sk.drain_time_q = ek.drain_time_q ++ [(mid.length : Int) + 1] := by
  have hcall := drainRun_head g (e0, s0) _ hrun
  obtain ⟨ht, hthr⟩ := pse_clock_enter g e0 s0 hcall h0 h1
  obtain ⟨hb, hl1, hl2, hl3⟩ := drainRun_timer g mid (ek, sk) (e0, s0) h1 hrun hmid
  simp only [ht, hthr, zero_add] at hb hl3
  refine ⟨?_, ?_⟩
  · rcases hb with h | h
    · subst h; simpa using hth
    · omega
  · rw [pse_clock_off g ek sk hl1 hl2 hk, hl3]

theorem drainRun5 :
    DrainRun mesh4 ((router5, router5Draining) ::
      (drainRun5Mid ++ [(router5Drain2Acked, router5Off3)])) :=
  ⟨by rfl, by decide, by rfl, by decide, by rfl, by decide, by rfl⟩

theorem drainRun5Mid_draining :
    ∀ c ∈ drainRun5Mid, c.2.power_state = ePowerState.draining := by
  intro c hc
  simp only [drainRun5Mid, List.mem_cons, List.mem_singleton, List.not_mem_nil, or_false] at hc
  rcases hc with rfl | rfl <;> rfl

/-- Witness of C11: router 5 with drain_threshold 2 starts its drain, waits
two cycles and is turned off by the call of the third cycle. -/
theorem drain_to_off_bound_witness :
    DrainRun mesh4 ((router5, router5Draining) ::
      (drainRun5Mid ++ [(router5Drain2Acked, router5Off3)])) ∧
    router5.power_state = ePowerState.power_on ∧
    router5Draining.power_state = ePowerState.draining ∧
    (∀ c ∈ drainRun5Mid, c.2.power_state = ePowerState.draining) ∧
    router5Off3.power_state = ePowerState.power_off ∧
    0 ≤ router5.drain_threshold ∧
    ((drainRun5Mid.length : Int) + 1 ≤ router5.drain_threshold + 1 ∧
      router5Off3.drain_time_q =
        router5Drain2Acked.drain_time_q ++ [(drainRun5Mid.length : Int) + 1]) :=
  ⟨drainRun5, rfl, rfl, drainRun5Mid_draining, rfl, by decide,
    drain_to_off_bound mesh4 router5 router5Draining drainRun5Mid router5Drain2Acked
      router5Off3 drainRun5 rfl rfl drainRun5Mid_draining rfl (by decide)⟩

/-- Counterexample to C11 as stated: router 5 has drain_threshold 2. The call
of cycle T1 starts its drain, the calls of the cycles T1 + 1 and T1 + 2 leave
it draining (the timer counts 1 and 2, neither above the threshold), the
acknowledgements arrive, and the call of cycle T1 + 3 turns it off: T2 = T1 +
3 is later than T1 + drain_threshold. -/
theorem drain_to_off_bound_counterexample :
    router5.power_state = ePowerState.power_on ∧ router5.drain_threshold = 2 ∧
    PowerStateEvaluate mesh4 router5 = some router5Draining ∧
    router5Draining.power_state = ePowerState.draining ∧
    SameDrainClock router5Draining router5Asking ∧
    PowerStateEvaluate mesh4 router5Asking = some router5Drain1 ∧
    router5Drain1.power_state = ePowerState.draining ∧
    PowerStateEvaluate mesh4 router5Drain1 = some router5Drain2 ∧
    router5Drain2.power_state = ePowerState.draining ∧
    SameDrainClock router5Drain2 router5Drain2Acked ∧
    PowerStateEvaluate mesh4 router5Drain2Acked = some router5Off3 ∧
    router5Off3.power_state = ePowerState.power_off ∧
    router5Off3.drain_time_q = [3] ∧
    ¬ ((drainRun5Mid.length : Int) + 1 ≤ router5.drain_threshold) :=
  ⟨rfl, rfl, by rfl, rfl, by decide, by rfl, rfl, by rfl, rfl, by decide, by rfl, rfl, rfl,
    by decide⟩

/-! ## The stored request id, repeated evaluation and the credit snapshot -/

theorem noteDrainDone_resp (s s1 : RouterState) (p : Nat) (h : Handshake)
    (hev : noteDrainDone s p h = some s1) :
    s1.resp_hids = (if h.drain_done = false then s.resp_hids.set p h.hid else s.resp_hids) ∧
    (h.drain_done = false → p < s.resp_hids.length) := by
  unfold noteDrainDone at hev
  cases hdd : h.drain_done with
  | true =>
    simp only [hdd, if_true] at hev
    repeat' split at hev
    all_goals first
      | (cases hev; done)
      | (cases hev; simp)
  | false =>
    by_cases hlt : p < s.resp_hids.length
    · simp only [hdd, Bool.false_eq_true, if_false, vecSet, if_pos hlt, Option.some.injEq] at hev
      subst hev
      exact ⟨by simp, fun _ => hlt⟩
    · simp [hdd, vecSet, hlt] at hev

theorem noteNeighborState_total (s : RouterState) (p : Nat) (h : Handshake)
    (hst : h.new_state ≠ some ePowerState.power_off)
    (hns : p < s.neighbor_states.length) (hdds : p < s.drain_done_sent.length)
    (hnb : p < s.next_buf.length) :
    ∃ s1, noteNeighborState s p h = some s1 ∧ s1.resp_hids = s.resp_hids := by
  cases hn : h.new_state with
  | none =>
    refine ⟨s, ?_, rfl⟩
    unfold noteNeighborState
    simp [hn]
  | some st =>
    cases st with
    | power_on => exact noteNeighborState_on_total s p h hn hns hdds hnb
    | power_off => exact absurd hn hst
    | draining =>
      unfold noteNeighborState
      simp [hn, vecSet, hns, hdds]
    | wakeup =>
      unfold noteNeighborState
      simp [hn, vecSet, hns, hdds]

theorem evalPowerOn_twice_demand (g : Globals) (s s1 : RouterState)
    (hrs : s.router_state = true) (h1 : evalPowerOn g s = some s1) :
    evalPowerOn g s1 = some s1 := by
  unfold evalPowerOn at h1
  by_cases hw : s.wakeup_signal = true <;> by_cases hreq : s.outstanding_requests = 0 <;>
    simp [hw, hreq, hrs] at h1 <;> subst h1 <;>
    simp [evalPowerOn, hw, hreq, hrs]

theorem evalPowerOn_twice_blocked (g : Globals) (s s1 : RouterState) (hK : g.gK ≠ 0)
    (hns : s.neighbor_states.length = 4) (hrs : s.router_state = false)
    (hreq : s.outstanding_requests = 0) (hblk : DrainBlocked g s)
    (h1 : evalPowerOn g s = some s1) :
    evalPowerOn g s1 = some s1 := by
  obtain ⟨nd, noff, hscan, hscaniff⟩ := scanPowerOn_spec g s.id s.neighbor_states hK
    [0, 1, 2, 3] (by intro p hp; rw [hns]; simp at hp; omega)
  rw [← drainBlocked_iff] at hscaniff
  have hnn : (!nd && !noff) = false := by
    rcases hscaniff.mpr hblk with h | h <;> simp [h]
  unfold evalPowerOn at h1
  by_cases hw : s.wakeup_signal = true
  · simp [hw, hreq, hrs] at h1
    subst h1
    simp [evalPowerOn, hreq, hrs, hscan, hnn]
  · simp [hw, hreq, hrs, hscan, hnn] at h1
    subst h1
    simp [evalPowerOn, hw, hreq, hrs, hscan, hnn]

/-- For a router in power_on that has traffic demand
(router_state set), or whose drain is blocked by a neighbor while it has no
outstanding request, calling PowerStateEvaluate twice in succession yields the
same router state as calling it once: the second call returns the state it
was given. -/
theorem evalPowerOn_twice (g : Globals) (s s1 : RouterState) (hK : g.gK ≠ 0)
    (hns : s.neighbor_states.length = 4)
    (hps : s.power_state = ePowerState.power_on)
    (hc : s.router_state = true ∨ (DrainBlocked g s ∧ s.outstanding_requests = 0))
    (h1 : PowerStateEvaluate g s = some s1) :
    s1.power_state = ePowerState.power_on ∧ PowerStateEvaluate g s1 = some s1 := by
  rw [pse_power_on g s hps] at h1
  have hps1 : s1.power_state = ePowerState.power_on := by
    rcases evalPowerOn_edge g s s1 h1 with h | h
    · rw [h, hps]
    · exfalso
      unfold evalPowerOn at h1
      rcases hc with hrs | ⟨hblk, hreq⟩
      · by_cases hw : s.wakeup_signal = true <;>
          by_cases hreq : s.outstanding_requests = 0 <;>
          simp [hw, hreq, hrs] at h1 <;> subst h1 <;> simp [hps] at h
      · obtain ⟨nd, noff, hscan, hscaniff⟩ := scanPowerOn_spec g s.id s.neighbor_states hK
          [0, 1, 2, 3] (by intro p hp; rw [hns]; simp at hp; omega)
        rw [← drainBlocked_iff] at hscaniff
        have hnn : (!nd && !noff) = false := by
          rcases hscaniff.mpr hblk with h | h <;> simp [h]
        by_cases hw : s.wakeup_signal = true <;> by_cases hrs : s.router_state = true <;>
          simp [hw, hreq, hrs, hscan, hnn] at h1 <;> subst h1 <;> simp [hps] at h
  refine ⟨hps1, ?_⟩
  rw [pse_power_on g s1 hps1]
  rcases hc with hrs | ⟨hblk, hreq⟩
  · exact evalPowerOn_twice_demand g s s1 hrs h1
  · by_cases hrs : s.router_state = true
    · exact evalPowerOn_twice_demand g s s1 hrs h1
    · exact evalPowerOn_twice_blocked g s s1 hK hns (by simpa using hrs) hreq hblk h1

/-- Counterexample to C30 as stated: router 5 is draining. The first call
counts the drain timer to 1, the second call, made on the state the first one
returned, counts it to 2: two calls do not yield the state of one call. -/
theorem evaluate_twice_power_on_counterexample :
    PowerStateEvaluate mesh4 router5Asking = some router5Drain1 ∧
    PowerStateEvaluate mesh4 router5Drain1 = some router5Drain2 ∧
    router5Drain1.drain_timer = 1 ∧ router5Drain2.drain_timer = 2 ∧
    router5Drain2 ≠ router5Drain1 :=
  ⟨by rfl, by rfl, rfl, rfl,
    fun h => absurd (congrArg RouterState.drain_timer h) (by decide)⟩

theorem counterAt_set (cc : List (List Int)) (i vc : Nat) (row : List Int) (c : Int)
    (hrow : cc[i]? = some row) (hvc : vc < row.length) (j v : Nat) :
    counterAt (cc.set i (row.set vc c)) j v =
      if j = i ∧ v = vc then some c else counterAt cc j v := by
  have hi : i < cc.length := by
    by_contra hge
    rw [List.getElem?_eq_none (by omega)] at hrow
    cases hrow
  unfold counterAt
  by_cases hj : j = i
  · subst hj
    rw [List.getElem?_set_self hi, hrow]
    by_cases hv : v = vc
    · subst hv
      simp [List.getElem?_set_self hvc]
    · have hv' : ¬ vc = v := fun e => hv e.symm
      simp [List.getElem?_set_ne hv', hv]
  · have hj' : ¬ i = j := fun e => hj e.symm
    rw [List.getElem?_set_ne hj']
    simp [hj]

theorem snapshotVCs_spec (dest_buf : BufferState) (i : Nat) (l : List Nat)
    (cc cc1 : List (List Int)) (h : snapshotVCs dest_buf i l cc = some cc1) (j v : Nat) :
    counterAt cc1 j v =
      if j = i ∧ v ∈ l then dest_buf.avail[v]? else counterAt cc j v := by
  induction l generalizing cc with
  | nil =>
    unfold snapshotVCs at h
    cases h
    simp
  | cons vc rest ih =>
    unfold snapshotVCs at h
    unfold BufferState.AvailableFor at h
    cases hav : dest_buf.avail[vc]? with
    | none => simp [hav] at h
    | some c =>
      simp only [hav] at h
      split at h
      · cases h
      · cases hrow : cc[i]? with
        | none => simp [hrow] at h
        | some row =>
          simp only [hrow, vecSet] at h
          by_cases hvc : vc < row.length
          · simp only [if_pos hvc] at h
            rw [ih _ h, counterAt_set cc i vc row c hrow hvc]
            by_cases hj : j = i
            · by_cases hr : v ∈ rest
              · simp [hj, hr]
              · by_cases hv : v = vc
                · subst hv; simp [hj, hr, hav]
                · simp [hj, hr, hv]
            · simp [hj]
          · simp [hvc] at h

theorem snapshot_spec (g : Globals) (id : Int) (next_buf : List BufferState) (vcs : Nat)
    (hK : g.gK ≠ 0) (ports : List Nat) (cc cc1 : List (List Int))
    (h : snapshot g id next_buf vcs ports cc = some cc1) (p v : Nat) :
    counterAt cc1 p v =
      if p ∈ ports ∧ isOppBoundary g id p = false ∧ v < vcs then
        (next_buf[p]?).bind (fun b => b.avail[v]?)
      else counterAt cc p v := by
  induction ports generalizing cc with
  | nil =>
    unfold snapshot at h
    cases h
    simp
  | cons i rest ih =>
    unfold snapshot at h
    rw [oppBoundary_eq g id i hK] at h
    cases hb : isOppBoundary g id i with
    | true =>
      simp only [hb] at h
      rw [ih _ h]
      by_cases hpi : p = i
      · subst hpi
        simp [hb]
      · simp [hpi]
    | false =>
      simp only [hb] at h
      cases hnb : next_buf[i]? with
      | none => simp [hnb] at h
      | some dest_buf =>
        simp only [hnb] at h
        cases hs : snapshotVCs dest_buf i (List.range vcs) cc with
        | none => simp [hs] at h
        | some cc2 =>
          simp only [hs] at h
          rw [ih _ h, snapshotVCs_spec dest_buf i _ cc cc2 hs]
          by_cases hpi : p = i
          · subst hpi
            by_cases hr : p ∈ rest
            · by_cases hv : v < vcs <;> simp [hr, hb, hv, hnb]
            · by_cases hv : v < vcs <;> simp [hr, hb, hv, hnb]
          · simp [hpi]

theorem evalDraining_snapshot (g : Globals) (s s' : RouterState)
    (h : evalDraining g s = some s') (he : s.power_state = ePowerState.draining)
    (hs : s'.power_state = ePowerState.power_off) :
    snapshot g s.id s.next_buf s.vcs [0, 1, 2, 3] s.credit_counter = some s'.credit_counter ∧
      s'.next_buf = s.next_buf := by
  unfold evalDraining at h
  simp only [] at h
  repeat' split at h
  all_goals first
    | (cases h; done)
    | (cases h; cases hs; done)
    | (cases h
       have hsn := ‹snapshot _ _ _ _ _ _ = some _›
       exact ⟨hsn, rfl⟩)
    | (cases h
       rw [he] at hs
       cases hs)

theorem isOppBoundary_opposite (g : Globals) (id : Int) (p : Nat) (hp : p < 4) :
    isOppBoundary g id p = isBoundary g id (opposite p) := by
  interval_cases p <;> simp [isOppBoundary, isBoundary, opposite]

/-- C25 (amended). When PowerStateEvaluate moves a router from draining to
power_off, then afterwards, for every output port p in 0..3 whose opposite
port is not a fabric boundary of the router and every VC v, credit_counter[p][v]
equals AvailableFor(v) of the downstream buffer state of port p, which the
call leaves as it was; for a port p whose opposite port is a boundary,
credit_counter[p][v] keeps the value it had. -/
theorem credit_snapshot (g : Globals) (s s' : RouterState) (hK : g.gK ≠ 0)
    (hps : s.power_state = ePowerState.draining)
    (h : PowerStateEvaluate g s = some s')
    (hoff : s'.power_state = ePowerState.power_off) :
    s'.next_buf = s.next_buf ∧
    ∀ p < 4, ∀ v < s.vcs,
      (isBoundary g s.id (opposite p) = false →
        counterAt s'.credit_counter p v = availableAt s' p v) ∧
      (isBoundary g s.id (opposite p) = true →
        counterAt s'.credit_counter p v = counterAt s.credit_counter p v) := by
  unfold PowerStateEvaluate at h
  split at h
  · cases h
  · split at h
    · cases h
    · rw [hps] at h
      obtain ⟨hsnap, hnb⟩ := evalDraining_snapshot g s s' h hps hoff
      refine ⟨hnb, fun p hp v hv => ?_⟩
      have hspec := snapshot_spec g s.id s.next_buf s.vcs hK [0, 1, 2, 3] _ _ hsnap p v
      have hmem : p ∈ [0, 1, 2, 3] := by interval_cases p <;> decide
      rw [isOppBoundary_opposite g s.id p hp] at hspec
      constructor
      · intro hb
        rw [hspec, if_pos ⟨hmem, hb, hv⟩]
        unfold availableAt BufferState.AvailableFor
        rw [hnb]
      · intro hb
        rw [hspec, if_neg]
        rintro ⟨-, hb', -⟩
        rw [hb] at hb'
        cases hb'

/-- Witness of C25: the inner router 5 completes its drain; all four ports
are snapshot. -/
theorem credit_snapshot_witness :
    router5Drained.power_state = ePowerState.draining ∧
    PowerStateEvaluate mesh4 router5Drained = some router5Off ∧
    router5Off.power_state = ePowerState.power_off ∧
    (router5Off.next_buf = router5Drained.next_buf ∧
    ∀ p < 4, ∀ v < router5Drained.vcs,
      (isBoundary mesh4 router5Drained.id (opposite p) = false →
        counterAt router5Off.credit_counter p v = availableAt router5Off p v) ∧
      (isBoundary mesh4 router5Drained.id (opposite p) = true →
        counterAt router5Off.credit_counter p v =
          counterAt router5Drained.credit_counter p v)) :=
  ⟨rfl, by rfl, rfl,
    credit_snapshot mesh4 router5Drained router5Off (by decide) rfl (by rfl) rfl⟩

/-- Counterexample to C25 as stated: router 4 on the west edge completes its
drain. Its port 1 is a boundary, so output port 0 is left out of the
snapshot: credit_counter[0][0] is still 0 while AvailableFor(0) of the
downstream state of port 0 is 4. -/
theorem credit_snapshot_counterexample :
    router4Drained.power_state = ePowerState.draining ∧
    PowerStateEvaluate mesh4 router4Drained = some router4Off ∧
    router4Off.power_state = ePowerState.power_off ∧
    counterAt router4Off.credit_counter 0 0 = some 0 ∧
    availableAt router4Off 0 0 = some 4 :=
  ⟨rfl, by rfl, rfl, by decide, by decide⟩

/-! ## The fly-over step: flits, relayed credits and replayed credits -/

theorem opposite_lt (p : Nat) (hp : p < 4) : opposite p < 4 := by
  interval_cases p <;> decide

theorem opposite_xor (p : Nat) (hp : p < 4) : opposite p = p ^^^ 1 := by
  interval_cases p <;> decide

theorem flovFlits_buffers (inputs vcs : Nat) (flits : List (Nat × Flit))
    (nb nb' : List BufferState) (ob ob' : List (List Flit))
    (h : flovFlits inputs vcs flits nb ob = some (nb', ob')) (o : Nat) :
    ob'[o]? = (ob[o]?).map (fun q => q ++ flownTo flits o) := by
  induction flits generalizing nb ob with
  | nil =>
    unfold flovFlits at h
    cases h
    cases ob'[o]? <;> simp [flownTo]
  | cons e rest ih =>
    obtain ⟨input, f⟩ := e
    unfold flovFlits at h
    simp only [] at h
    split at h
    · cases h
    · split at h
      · cases h
      · split at h
        · cases h
        · cases hn : nb[opposite input]? with
          | none => simp [hn] at h
          | some dest_buf =>
            cases hq : ob[opposite input]? with
            | none => simp [hn, hq] at h
            | some q =>
              simp only [hn, hq] at h
              rw [ih _ _ h]
              have hlt : opposite input < ob.length := by
                by_contra hge
                rw [List.getElem?_eq_none (by omega)] at hq
                cases hq
              by_cases ho : opposite input = o
              · subst ho
                rw [List.getElem?_set_self hlt, hq]
                simp [flownTo, List.filter]
              · rw [List.getElem?_set_ne ho]
                cases ob[o]? <;> simp [flownTo, List.filter, ho]

theorem flovFlits_total (inputs vcs : Nat) (flits : List (Nat × Flit))
    (hf : ∀ e ∈ flits, e.1 < 4 ∧ 0 ≤ e.2.vc ∧ e.2.vc < (vcs : Int))
    (nb : List BufferState) (ob : List (List Flit))
    (hnb : 4 ≤ nb.length) (hob : 4 ≤ ob.length) :
    ∃ nb' ob', flovFlits inputs vcs flits nb ob = some (nb', ob') ∧
      nb'.length = nb.length := by
  induction flits generalizing nb ob with
  | nil => exact ⟨nb, ob, rfl, rfl⟩
  | cons e rest ih =>
    obtain ⟨input, f⟩ := e
    obtain ⟨h1, h2, h3⟩ := hf (input, f) (List.mem_cons_self _ _)
    have ho := opposite_lt input h1
    have hn : opposite input < nb.length := by omega
    have hb : opposite input < ob.length := by omega
    obtain ⟨nb', ob', hr, hlen⟩ := ih (fun x hx => hf x (List.mem_cons_of_mem _ hx))
      (nb.set (opposite input)
        ((if f.head then
            nb[opposite input].call
              (BufCall.TakeBuffer f.vc ((vcs : Int) * (inputs : Int)))
          else nb[opposite input]).call (BufCall.SendingFlit f)))
      (ob.set (opposite input) (ob[opposite input] ++
        [{ f with flov_hops := f.flov_hops + 1 }]))
      (by simpa using hnb) (by simpa using hob)
    refine ⟨nb', ob', ?_, by simpa using hlen⟩
    unfold flovFlits
    simp only [h1, h2, h3, ho, and_self, not_true_eq_false, if_false,
      List.getElem?_eq_getElem hn, List.getElem?_eq_getElem hb]
    exact hr

theorem mem_setInsert (x v : Int) (s : List Int) : v ∈ setInsert x s ↔ v = x ∨ v ∈ s := by
  induction s with
  | nil => simp [setInsert]
  | cons y s ih =>
    unfold setInsert
    split
    · simp
    · split
      · rename_i hxy
        subst hxy
        simp
      · simp only [List.mem_cons, ih]
        tauto

theorem relayVCs_spec (vcs : Nat) (l acc : List Int)
    (hl : ∀ v ∈ l, 0 ≤ v ∧ v < (vcs : Int)) : relayVCs vcs l acc = some (insertAll l acc) := by
  induction l generalizing acc with
  | nil => rfl
  | cons v rest ih =>
    have hv := hl v (List.mem_cons_self _ _)
    unfold relayVCs
    rw [if_neg (not_not.2 hv), ih _ (fun x hx => hl x (List.mem_cons_of_mem _ hx))]
    rfl

theorem relayVCs_range (vcs : Nat) (l acc r : List Int) (h : relayVCs vcs l acc = some r) :
    ∀ v ∈ l, 0 ≤ v ∧ v < (vcs : Int) := by
  induction l generalizing acc with
  | nil => intro v hv; cases hv
  | cons x rest ih =>
    unfold relayVCs at h
    split at h
    · cases h
    · rename_i hx
      intro v hv
      rcases List.mem_cons.1 hv with rfl | hv
      · exact not_not.1 hx
      · exact ih _ h v hv

theorem mem_insertAll (l acc : List Int) (v : Int) :
    v ∈ insertAll l acc ↔ v ∈ l ∨ v ∈ acc := by
  induction l generalizing acc with
  | nil => simp [insertAll]
  | cons x rest ih =>
    have : insertAll (x :: rest) acc = insertAll rest (setInsert x acc) := rfl
    rw [this, ih, mem_setInsert]
    simp only [List.mem_cons]
    tauto

theorem isOppBoundary_of_ge (g : Globals) (id : Int) (p : Nat) (hp : ¬ p < 4) :
    isOppBoundary g id p = false := by
  have h0 : p ≠ 0 := by omega
  have h1 : p ≠ 1 := by omega
  have h2 : p ≠ 2 := by omega
  have h3 : p ≠ 3 := by omega
  simp [isOppBoundary, h0, h1, h2, h3]

theorem pendingVCs_insert (oqc : List (Nat × Credit)) (inp q : Nat) :
    pendingVCs (mapInsert inp Credit.New oqc) q = pendingVCs oqc q := by
  unfold pendingVCs
  rw [mapFind_insert]
  by_cases hq : q = inp
  · subst hq
    rw [if_pos rfl]
    cases mapFind q oqc <;> rfl
  · rw [if_neg hq]

theorem pendingVCs_update (oqc : List (Nat × Credit)) (inp q : Nat) (x : Int) :
    pendingVCs (mapUpdate inp (fun c1 => { vc := setInsert x c1.vc })
      (mapInsert inp Credit.New oqc)) q =
      if q = inp then setInsert x (pendingVCs oqc inp) else pendingVCs oqc q := by
  unfold pendingVCs
  rw [mapFind_update, mapFind_insert]
  by_cases hq : q = inp
  · subst hq
    simp only [if_true]
    cases mapFind q oqc <;> rfl
  · simp only [if_neg hq]
    rw [mapFind_insert, if_neg hq]

theorem positiveAt_set (cc : List (List Int)) (i vc : Nat) (row : List Int) (c : Int)
    (hrow : cc[i]? = some row) (hvc : vc < row.length) (v : Nat) (hv : v ≠ vc) :
    positiveAt (cc.set i (row.set vc c)) i v = positiveAt cc i v := by
  unfold positiveAt
  rw [counterAt_set cc i vc row c hrow hvc, if_neg (fun h => hv h.2)]

theorem counterAt_row (cc : List (List Int)) (p v : Nat) (row : List Int)
    (h : cc[p]? = some row) : counterAt cc p v = row[v]? := by
  unfold counterAt
  rw [h]
  rfl

theorem replayVCs_spec (inp out n m : Nat) (l : List Nat) (hl : ∀ vc ∈ l, vc < m)
    (hnd : l.Nodup) (hinp : inp < 4) (hout : out < n) (cc : List (List Int))
    (hcc : RowsSized cc n m) (oqc : List (Nat × Credit)) :
    ∃ cc' oqc', replayVCs inp out l cc oqc = some (cc', oqc') ∧ RowsSized cc' n m ∧
      (∀ p v, counterAt cc' p v =
        if p = out ∧ v ∈ l ∧ positiveAt cc out v = true ∧ (v : Int) ∉ pendingVCs oqc inp then
          (counterAt cc p v).map (fun k => k - 1)
        else counterAt cc p v) ∧
      (∀ x, x ∈ pendingVCs oqc' inp ↔
        x ∈ pendingVCs oqc inp ∨ ∃ v ∈ l, (v : Int) = x ∧ positiveAt cc out v = true) ∧
      (∀ q, q ≠ inp → pendingVCs oqc' q = pendingVCs oqc q) := by
  induction l generalizing cc oqc with
  | nil =>
    exact ⟨cc, oqc, rfl, hcc, by simp, by simp, fun _ _ => rfl⟩
  | cons vc rest ih =>
    have hvc : vc < m := hl vc (List.mem_cons_self _ _)
    have hrest : ∀ v ∈ rest, v < m := fun v hv => hl v (List.mem_cons_of_mem _ hv)
    obtain ⟨hvr, hndr⟩ := List.nodup_cons.1 hnd
    have hol : out < cc.length := by rw [hcc.1]; exact hout
    have hrow : cc[out]? = some cc[out] := List.getElem?_eq_getElem hol
    have hrl : cc[out].length = m := hcc.2 _ (List.getElem_mem hol)
    have hvl : vc < cc[out].length := by rw [hrl]; exact hvc
    have hk : cc[out][vc]? = some cc[out][vc] := List.getElem?_eq_getElem hvl
    have hcnt : counterAt cc out vc = some cc[out][vc] := by
      rw [counterAt_row cc out vc _ hrow, hk]
    by_cases hpos : cc[out][vc] > 0
    · have hposb : positiveAt cc out vc = true := by
        unfold positiveAt; rw [hcnt]; simpa using hpos
      by_cases hpres : (vc : Int) ∈ pendingVCs oqc inp
      · -- already pending: nothing is decremented
        obtain ⟨cc', oqc', hr, hsz, hc, hp, hq⟩ :=
          ih hrest hndr cc hcc (mapInsert inp Credit.New oqc)
        refine ⟨cc', oqc', ?_, hsz, ?_, ?_, ?_⟩
        · unfold replayVCs
          have hf : mapFind inp (mapInsert inp Credit.New oqc) =
              some ((mapFind inp oqc).getD Credit.New) := by
            rw [mapFind_insert, if_pos rfl]
          have hmem : (vc : Int) ∈ ((mapFind inp oqc).getD Credit.New).vc := by
            unfold pendingVCs at hpres
            cases hm : mapFind inp oqc with
            | none => rw [hm] at hpres; cases hpres
            | some c => rw [hm] at hpres; exact hpres
          simp only [hrow, hk, hpos, if_true, hinp, not_true_eq_false, if_false, hf, hmem]
          exact hr
        · intro p v
          rw [hc p v, pendingVCs_insert]
          by_cases hv : v = vc
          · subst hv
            simp [hvr, hpres]
          · simp [hv]
        · intro x
          rw [hp x, pendingVCs_insert]
          constructor
          · rintro (h | ⟨v, hv, h1, h2⟩)
            · exact Or.inl h
            · exact Or.inr ⟨v, List.mem_cons_of_mem _ hv, h1, h2⟩
          · rintro (h | ⟨v, hv, h1, h2⟩)
            · exact Or.inl h
            · rcases List.mem_cons.1 hv with rfl | hv
              · exact Or.inl (h1 ▸ hpres)
              · exact Or.inr ⟨v, hv, h1, h2⟩
        · intro q hqn
          rw [hq q hqn, pendingVCs_insert]
      · -- replayed: the counter goes down by one and the VC is pending
        obtain ⟨cc', oqc', hr, hsz, hc, hp, hq⟩ :=
          ih hrest hndr (cc.set out (cc[out].set vc (cc[out][vc] - 1)))
            (rowsSized_set cc n m out _ hcc (by simp [hrl]))
            (mapUpdate inp (fun c1 => { vc := setInsert (vc : Int) c1.vc })
              (mapInsert inp Credit.New oqc))
        refine ⟨cc', oqc', ?_, hsz, ?_, ?_, ?_⟩
        · unfold replayVCs
          have hf : mapFind inp (mapInsert inp Credit.New oqc) =
              some ((mapFind inp oqc).getD Credit.New) := by
            rw [mapFind_insert, if_pos rfl]
          have hmem : (vc : Int) ∉ ((mapFind inp oqc).getD Credit.New).vc := by
            unfold pendingVCs at hpres
            cases hm : mapFind inp oqc with
            | none => simp [Credit.New]
            | some c => rw [hm] at hpres; exact hpres
          simp only [hrow, hk, hpos, if_true, hinp, not_true_eq_false, if_false, hf, hmem]
          exact hr
        · intro p v
          rw [hc p v, counterAt_set cc out vc _ _ hrow hvl, pendingVCs_update, if_pos rfl]
          simp only [mem_setInsert]
          by_cases hv : v = vc
          · subst hv
            by_cases hpo : p = out
            · subst hpo
              simp [hvr, hposb, hpres, hcnt]
            · simp [hvr, hpo]
          · have hcast : ¬ (v : Int) = (vc : Int) := by
              intro h; exact hv (by exact_mod_cast h)
            by_cases hpo : p = out
            · subst hpo
              simp only [positiveAt_set cc p vc _ _ hrow hvl v hv]
              simp [hv, hcast]
            · simp [hpo]
        · intro x
          rw [hp x, pendingVCs_update, if_pos rfl, mem_setInsert]
          constructor
          · rintro ((h | h) | ⟨v, hv, h1, h2⟩)
            · exact Or.inr ⟨vc, List.mem_cons_self _ _, h.symm, hposb⟩
            · exact Or.inl h
            · have hne : v ≠ vc := fun e => hvr (e ▸ hv)
              rw [positiveAt_set cc out vc _ _ hrow hvl v hne] at h2
              exact Or.inr ⟨v, List.mem_cons_of_mem _ hv, h1, h2⟩
          · rintro (h | ⟨v, hv, h1, h2⟩)
            · exact Or.inl (Or.inr h)
            · rcases List.mem_cons.1 hv with rfl | hv
              · exact Or.inl (Or.inl h1.symm)
              · have hne : v ≠ vc := fun e => hvr (e ▸ hv)
                refine Or.inr ⟨v, hv, h1, ?_⟩
                rw [positiveAt_set cc out vc _ _ hrow hvl v hne]
                exact h2
        · intro q hqn
          rw [hq q hqn, pendingVCs_update, if_neg hqn]
    · -- the counter is not positive
      have hposb : positiveAt cc out vc = false := by
        unfold positiveAt; rw [hcnt]; simpa using hpos
      obtain ⟨cc', oqc', hr, hsz, hc, hp, hq⟩ := ih hrest hndr cc hcc oqc
      refine ⟨cc', oqc', ?_, hsz, ?_, ?_, hq⟩
      · unfold replayVCs
        simp only [hrow, hk, hpos, if_false]
        exact hr
      · intro p v
        rw [hc p v]
        by_cases hv : v = vc
        · subst hv
          simp [hvr, hposb]
        · simp [hv]
      · intro x
        rw [hp x]
        constructor
        · rintro (h | ⟨v, hv, h1, h2⟩)
          · exact Or.inl h
          · exact Or.inr ⟨v, List.mem_cons_of_mem _ hv, h1, h2⟩
        · rintro (h | ⟨v, hv, h1, h2⟩)
          · exact Or.inl h
          · rcases List.mem_cons.1 hv with rfl | hv
            · rw [hposb] at h2; cases h2
            · exact Or.inr ⟨v, hv, h1, h2⟩

theorem opposite_opposite (p : Nat) (hp : p < 4) : opposite (opposite p) = p := by
  interval_cases p <;> decide

theorem positiveAt_congr (cc cc1 : List (List Int)) (p v : Nat)
    (h : counterAt cc1 p v = counterAt cc p v) : positiveAt cc1 p v = positiveAt cc p v := by
  unfold positiveAt
  rw [h]

theorem replay_spec (n m : Nat) (h4 : 4 ≤ n) (l : List Nat) (hl : ∀ inp ∈ l, inp < 4)
    (hnd : l.Nodup) (cc : List (List Int)) (hcc : RowsSized cc n m)
    (oqc : List (Nat × Credit)) :
    ∃ cc' oqc', replay m l cc oqc = some (cc', oqc') ∧ RowsSized cc' n m ∧
      (∀ p v, counterAt cc' p v =
        if opposite p ∈ l ∧ p < 4 ∧ v < m ∧ positiveAt cc p v = true ∧
            (v : Int) ∉ pendingVCs oqc (opposite p) then
          (counterAt cc p v).map (fun k => k - 1)
        else counterAt cc p v) ∧
      (∀ q x, x ∈ pendingVCs oqc' q ↔
        x ∈ pendingVCs oqc q ∨
          (q ∈ l ∧ ∃ v < m, (v : Int) = x ∧ positiveAt cc (opposite q) v = true)) := by
  induction l generalizing cc oqc with
  | nil => exact ⟨cc, oqc, rfl, hcc, by simp, by simp⟩
  | cons inp rest ih =>
    have hinp : inp < 4 := hl inp (List.mem_cons_self _ _)
    obtain ⟨hir, hndr⟩ := List.nodup_cons.1 hnd
    have hopp := opposite_lt inp hinp
    obtain ⟨cc1, oqc1, hr1, hsz1, hc1, hp1, hq1⟩ :=
      replayVCs_spec inp (opposite inp) n m (List.range m)
        (fun v hv => List.mem_range.1 hv) (List.nodup_range m) hinp (by omega) cc hcc oqc
    obtain ⟨cc', oqc', hr, hsz, hc, hp⟩ :=
      ih (fun x hx => hl x (List.mem_cons_of_mem _ hx)) hndr cc1 hsz1 oqc1
    refine ⟨cc', oqc', ?_, hsz, ?_, ?_⟩
    · unfold replay
      rw [hr1]
      exact hr
    · intro p v
      rw [hc p v]
      by_cases hp4 : p < 4
      · by_cases hpo : p = opposite inp
        · subst hpo
          have hoo := opposite_opposite inp hinp
          rw [hoo]
          rw [if_neg (fun h => hir h.1), hc1 (opposite inp) v]
          simp [List.mem_range, hopp]
        · have hne : opposite p ≠ inp := by
            intro e
            apply hpo
            rw [← e, opposite_opposite p hp4]
          have hsame : counterAt cc1 p v = counterAt cc p v := by
            rw [hc1 p v, if_neg (fun h => hpo h.1)]
          rw [hsame, positiveAt_congr cc cc1 p v hsame, hq1 _ hne]
          simp [hne]
      · have hsame : counterAt cc1 p v = counterAt cc p v := by
          rw [hc1 p v, if_neg]
          rintro ⟨h, -⟩
          exact hp4 (h ▸ hopp)
        rw [hsame, if_neg (fun h => hp4 h.2.1), if_neg (fun h => hp4 h.2.1)]
    · intro q x
      rw [hp q x]
      by_cases hqi : q = inp
      · subst hqi
        rw [hp1 x]
        simp only [List.mem_range, hir, false_and, or_false, List.mem_cons, true_or, true_and]
      · rw [hq1 q hqi]
        by_cases hq4 : q < 4
        · have hpos : ∀ v, positiveAt cc1 (opposite q) v = positiveAt cc (opposite q) v := by
            intro v
            apply positiveAt_congr
            rw [hc1, if_neg]
            rintro ⟨h, -⟩
            apply hqi
            rw [← opposite_opposite q hq4, h, opposite_opposite inp hinp]
          simp only [hpos, List.mem_cons, hqi, false_or]
        · have hnr : q ∉ rest := fun h => hq4 (hl q (List.mem_cons_of_mem _ h))
          simp [hnr, hqi]

theorem flovCredits_total (g : Globals) (now id : Int) (outputs vcs : Nat) (hK : g.gK ≠ 0)
    (items : List CreditItem)
    (hitems : ∀ item ∈ items, item.output < outputs ∧
      ∀ v ∈ item.credit.vc, 0 ≤ v ∧ v < (vcs : Int))
    (nb : List BufferState) (hnb : nb.length = outputs) (oqc : List (Nat × Credit)) :
    ∃ r, flovCredits g now id outputs vcs items nb oqc = some r := by
  induction items generalizing nb oqc with
  | nil => exact ⟨_, rfl⟩
  | cons item rest ih =>
    obtain ⟨hout, hvc⟩ := hitems item (List.mem_cons_self _ _)
    have hrest := fun x hx => hitems x (List.mem_cons_of_mem _ hx)
    have hlt : item.output < nb.length := by rw [hnb]; exact hout
    unfold flovCredits
    by_cases hdue : now < item.time
    · rw [if_pos hdue]
      exact ⟨_, rfl⟩
    · simp only [if_neg hdue, hout, not_true_eq_false, if_false,
        List.getElem?_eq_getElem hlt, oppBoundary_eq g id _ hK]
      by_cases hc : item.output < 4 ∧ isOppBoundary g id item.output = false
      · have hin := opposite_lt _ hc.1
        have hfind : mapFind (opposite item.output)
            (mapInsert (opposite item.output) Credit.New oqc) =
            some ((mapFind (opposite item.output) oqc).getD Credit.New) := by
          rw [mapFind_insert, if_pos rfl]
        simp only [if_pos hc, hin, not_true_eq_false, if_false, hfind,
          relayVCs_spec vcs _ _ hvc]
        exact ih hrest _ (by simpa using hnb) _
      · simp only [if_neg hc]
        exact ih hrest _ (by simpa using hnb) _

theorem rflovStep_parts (g : Globals) (now : Int) (s s' : RouterState)
    (h : _RFlovStep g now s = some s') :
    ∃ nb ob pc nb1 oqc cc oqc1,
      flovFlits s.inputs s.vcs s.in_queue_flits s.next_buf s.output_buffer = some (nb, ob) ∧
      flovCredits g now s.id s.outputs s.vcs s.proc_credits nb s.out_queue_credits =
        some (pc, nb1, oqc) ∧
      replay s.vcs [0, 1, 2, 3] s.credit_counter oqc = some (cc, oqc1) ∧
      s'.output_buffer = ob ∧ s'.in_queue_flits = [] ∧ s'.next_buf = nb1 ∧
      s'.proc_credits = pc ∧ s'.credit_counter = cc ∧ s'.out_queue_credits = oqc1 ∧
      (s.power_state = ePowerState.power_off ∨ s.power_state = ePowerState.wakeup) := by
  unfold _RFlovStep at h
  split at h
  · cases h
  · rename_i hps
    repeat' split at h
    all_goals cases h
    rename_i nb ob hf _ pc nb1 oqc hcr _ cc oqc1 hrp
    exact ⟨nb, ob, pc, nb1, oqc, cc, oqc1, hf, hcr, hrp, rfl, rfl, rfl, rfl, rfl, rfl,
      not_not.1 hps⟩

theorem rflovStep_total (g : Globals) (now : Int) (s : RouterState) (hwf : FlovReady g s) :
    ∃ s', _RFlovStep g now s = some s' := by
  obtain ⟨hps, h1, h2, h3, h4, h5, hfirst, ⟨hfl, hnb4, hob4⟩, hK, ho4, hnb, hcr, hcc⟩ := hwf
  obtain ⟨nb, ob, hf, hlen⟩ := flovFlits_total s.inputs s.vcs s.in_queue_flits hfl s.next_buf
    s.output_buffer hnb4 hob4
  obtain ⟨⟨pc, nb1, oqc⟩, hc⟩ := flovCredits_total g now s.id s.outputs s.vcs hK s.proc_credits
    hcr nb (by rw [hlen, hnb]) s.out_queue_credits
  obtain ⟨cc, oqc1, hr, -, -, -⟩ := replay_spec s.outputs s.vcs ho4 [0, 1, 2, 3]
    (by decide) (by decide) s.credit_counter hcc oqc
  have hfirst' : ¬ (s.power_state = ePowerState.power_off ∧ s.off_timer = 1 ∧
      s.in_queue_flits.isEmpty = false) := by
    rintro ⟨a, b, c⟩
    apply hfirst
    refine ⟨a, b, ?_⟩
    intro e
    rw [e] at c
    cases c
  unfold _RFlovStep
  rw [if_neg (not_not.2 hps)]
  simp only [h1, h2, h3, h4, h5, List.isEmpty_nil, Bool.true_eq_false, if_false, if_neg hfirst',
    hf, hc, hr]
  exact ⟨_, rfl⟩

theorem flownTo_cons (e : Nat × Flit) (rest : List (Nat × Flit)) (o : Nat) :
    flownTo (e :: rest) o =
      (if opposite e.1 = o then [{ e.2 with flov_hops := e.2.flov_hops + 1 }] else []) ++
        flownTo rest o := by
  unfold flownTo
  by_cases h : opposite e.1 = o <;> simp [List.filter, h]

theorem flownTo_count (flits : List (Nat × Flit)) (hf : ∀ e ∈ flits, e.1 < 4) :
    (flownTo flits 0).length + (flownTo flits 1).length + (flownTo flits 2).length +
      (flownTo flits 3).length = flits.length := by
  induction flits with
  | nil => rfl
  | cons e rest ih =>
    have he := hf e (List.mem_cons_self _ _)
    have ih' := ih (fun x hx => hf x (List.mem_cons_of_mem _ hx))
    simp only [flownTo_cons, List.length_append, List.length_cons]
    obtain ⟨p, f⟩ := e
    simp only at he
    interval_cases p <;> simp [opposite] <;> omega

theorem flownTo_mem (flits : List (Nat × Flit)) (o : Nat) (f' : Flit)
    (h : f' ∈ flownTo flits o) :
    ∃ e ∈ flits, opposite e.1 = o ∧ f' = { e.2 with flov_hops := e.2.flov_hops + 1 } := by
  unfold flownTo at h
  obtain ⟨e, he, rfl⟩ := List.mem_map.1 h
  obtain ⟨h1, h2⟩ := List.mem_filter.1 he
  exact ⟨e, h1, by simpa using h2, rfl⟩

/-- C22. For a router in power_off or wakeup in a state that passes the
assertions of the call, _RFlovStep returns, leaves `_in_queue_flits` empty,
and appends to each output buffer o, in order, exactly the waiting flits whose
input port p has p XOR 1 = o: each of them once, with flov_hops one more and
every other field (its vc among them) as it arrived. The four output buffers
take as many flits as were waiting, so none is dropped or duplicated. -/
theorem fly_over_relay (g : Globals) (now : Int) (s : RouterState) (hwf : FlovReady g s) :
    ∃ s', _RFlovStep g now s = some s' ∧ s'.in_queue_flits = [] ∧
      (∀ o, s'.output_buffer[o]? =
        (s.output_buffer[o]?).map (fun q => q ++ flownTo s.in_queue_flits o)) ∧
      (∀ o, ∀ f' ∈ flownTo s.in_queue_flits o,
        ∃ e ∈ s.in_queue_flits, e.1 < 4 ∧ o = e.1 ^^^ 1 ∧ f'.vc = e.2.vc ∧
          f'.flov_hops = e.2.flov_hops + 1 ∧
          f' = { e.2 with flov_hops := e.2.flov_hops + 1 }) ∧
      (flownTo s.in_queue_flits 0).length + (flownTo s.in_queue_flits 1).length +
        (flownTo s.in_queue_flits 2).length + (flownTo s.in_queue_flits 3).length =
        s.in_queue_flits.length := by
  obtain ⟨s', hs'⟩ := rflovStep_total g now s hwf
  obtain ⟨nb, ob, pc, nb1, oqc, cc, oqc1, hf, -, -, hob, hin, -⟩ := rflovStep_parts g now s s' hs'
  have hfl := hwf.2.2.2.2.2.2.2.1.1
  refine ⟨s', hs', hin, ?_, ?_, flownTo_count _ (fun e he => (hfl e he).1)⟩
  · intro o
    rw [hob]
    exact flovFlits_buffers _ _ _ _ _ _ _ hf o
  · intro o f' hf'
    obtain ⟨e, he, ho, rfl⟩ := flownTo_mem _ o _ hf'
    have h4 := (hfl e he).1
    exact ⟨e, he, h4, by rw [← ho, opposite_xor e.1 h4], rfl, rfl, rfl⟩

/-- Witness of C22: router 5 is off and the flit from router 4 waits at input
port 1; the fly-over puts it into output buffer 0. -/
theorem fly_over_relay_witness :
    FlovReady mesh4 router5FlyOver ∧
    ∃ s', _RFlovStep mesh4 100 router5FlyOver = some s' ∧ s'.in_queue_flits = [] ∧
      s'.output_buffer[0]? = some [{ flit46 with flov_hops := 1 }] :=
  ⟨by decide,
    (fly_over_relay mesh4 100 router5FlyOver (by decide)).elim
      fun s' h => ⟨s', h.1, h.2.1, h.2.2.1 0⟩⟩

/-- C24 (amended). In a call of _RFlovStep on a state that passes its
assertions, for every output port out in 0..3 and every VC v with
credit_counter[out][v] > 0 at the start of the replay loop: after the call v
is in the credit pending for input port opposite(out); if v was not yet in
that credit when the replay loop started, credit_counter[out][v] is
decremented by exactly one; if v was already there (put there by the credit
loop of the same call), the counter keeps its value. A counter that is not
positive keeps its value. The credits pending at the start of the replay loop
are those the credit loop returns. -/
theorem credit_replay (g : Globals) (now : Int) (s : RouterState) (hwf : FlovReady g s) :
    ∃ s' nb ob pc nb1 oqc,
      _RFlovStep g now s = some s' ∧
      flovFlits s.inputs s.vcs s.in_queue_flits s.next_buf s.output_buffer = some (nb, ob) ∧
      flovCredits g now s.id s.outputs s.vcs s.proc_credits nb s.out_queue_credits =
        some (pc, nb1, oqc) ∧
      ∀ out < 4, ∀ v < s.vcs,
        (positiveAt s.credit_counter out v = true →
          (v : Int) ∈ pendingVCs s'.out_queue_credits (opposite out) ∧
          ((v : Int) ∉ pendingVCs oqc (opposite out) →
            counterAt s'.credit_counter out v =
              (counterAt s.credit_counter out v).map (fun k => k - 1)) ∧
          ((v : Int) ∈ pendingVCs oqc (opposite out) →
            counterAt s'.credit_counter out v = counterAt s.credit_counter out v)) ∧
        (positiveAt s.credit_counter out v = false →
          counterAt s'.credit_counter out v = counterAt s.credit_counter out v) := by
  obtain ⟨s', hs'⟩ := rflovStep_total g now s hwf
  obtain ⟨nb, ob, pc, nb1, oqc, cc, oqc1, hf, hc, hr, -, -, -, -, hcc', hoq', -⟩ :=
    rflovStep_parts g now s s' hs'
  have ho4 := hwf.2.2.2.2.2.2.2.2.2.1
  have hcc := hwf.2.2.2.2.2.2.2.2.2.2.2.2
  obtain ⟨cc2, oqc2, hr2, -, hcs, hps⟩ := replay_spec s.outputs s.vcs ho4 [0, 1, 2, 3]
    (by decide) (by decide) s.credit_counter hcc oqc
  rw [hr] at hr2
  simp only [Option.some.injEq, Prod.mk.injEq] at hr2
  obtain ⟨rfl, rfl⟩ := hr2
  refine ⟨s', nb, ob, pc, nb1, oqc, hs', hf, hc, ?_⟩
  intro out hout v hv
  have hmem : opposite out ∈ [0, 1, 2, 3] := by
    interval_cases out <;> decide
  have hoo := opposite_opposite out hout
  rw [hcc', hoq']
  constructor
  · intro hpos
    refine ⟨?_, ?_, ?_⟩
    · rw [hps]
      exact Or.inr ⟨hmem, v, hv, rfl, by rw [hoo]; exact hpos⟩
    · intro hnp
      rw [hcs, if_pos ⟨hmem, hout, hv, hpos, hnp⟩]
    · intro hp
      rw [hcs, if_neg (fun h => h.2.2.2.2 hp)]
  · intro hpos
    rw [hcs, if_neg]
    rintro ⟨-, -, -, h, -⟩
    rw [hpos] at h
    cases h

/-- Witness of C24: router 5 is off and owes one credit of VC 0 of output
port 0; the call replays it to input port 1 and the counter goes to 0. -/
theorem credit_replay_witness :
    FlovReady mesh4 router5Owing ∧
    ∃ s', _RFlovStep mesh4 0 router5Owing = some s' ∧
      (0 : Int) ∈ pendingVCs s'.out_queue_credits 1 ∧
      counterAt s'.credit_counter 0 0 = some 0 :=
  ⟨by decide,
    (credit_replay mesh4 0 router5Owing (by decide)).elim
      fun s' h => h.elim fun nb h => h.elim fun ob h => h.elim fun pc h => h.elim
        fun nb1 h => h.elim fun oqc h =>
          have hc : flovCredits mesh4 0 router5Owing.id router5Owing.outputs router5Owing.vcs
              router5Owing.proc_credits nb router5Owing.out_queue_credits =
              some (pc, nb1, oqc) := h.2.2.1
          have hq : oqc = [] := by
            have e : flovCredits mesh4 0 router5Owing.id router5Owing.outputs
                router5Owing.vcs router5Owing.proc_credits nb
                router5Owing.out_queue_credits = some ([], nb, []) := rfl
            rw [e] at hc
            simp only [Option.some.injEq, Prod.mk.injEq] at hc
            exact hc.2.2.symm
          have hall := (h.2.2.2 0 (by decide) 0 (by decide)).1 (by decide)
          ⟨s', h.1, hall.1, hall.2.1 (by rw [hq]; decide)⟩⟩

/-- Counterexample to C24 as stated: router 5 is off with
credit_counter[0][0] = 1, and a credit for VC 0 of output 0 is due in the same
cycle. The credit loop relays that credit to input port 1, so VC 0 is already
in the pending credit when the replay loop comes to it, and
credit_counter[0][0] is not decremented. -/
theorem credit_replay_counterexample :
    positiveAt router5Replaying.credit_counter 0 0 = true ∧
    counterAt router5Replaying.credit_counter 0 0 = some 1 ∧
    _RFlovStep mesh4 0 router5Replaying = some router5Replayed ∧
    counterAt router5Replayed.credit_counter 0 0 = some 1 ∧
    pendingVCs router5Replayed.out_queue_credits 1 = [0] :=
  ⟨by decide, by decide, by rfl, by decide, by decide⟩

/-! ## The retarget checks and the timeout of the allocation stages -/

theorem backToRoute_iff (g : Globals) (s : RouterState) (p : Nat) (b : Bool)
    (h : backToRoute g s p = some b) : b = true ↔ Ineligible g s p := by
  unfold backToRoute at h
  unfold Ineligible
  cases hs : s.output_sinks[p]? with
  | none => simp [hs] at h
  | some o =>
    cases o with
    | none =>
      simp only [hs, Option.some.injEq] at h
      subst h
      simp
    | some router =>
      simp only [hs] at h
      by_cases hmc : router ≥ g.gNodes - g.gK
      · simp only [if_pos hmc, Option.some.injEq] at h
        subst h
        simp only [Bool.false_eq_true, Option.some.injEq, false_iff, not_exists, not_and]
        intro r hr hlt
        subst hr
        omega
      · simp only [if_neg hmc] at h
        cases hn : s.neighbor_states[p]? with
        | none => simp [hn] at h
        | some st =>
          simp only [hn, Option.some.injEq] at h
          subst h
          simp only [decide_eq_true_eq, Option.some.injEq]
          constructor
          · intro hst
            exact ⟨router, rfl, by omega, hst⟩
          · rintro ⟨_, -, -, hst⟩
            exact hst

theorem backToRoute_total (g : Globals) (s : RouterState) (p : Nat)
    (hs : p < s.output_sinks.length)
    (hn : p < s.neighbor_states.length ∨ s.output_sinks[p]? = some none) :
    ∃ b, backToRoute g s p = some b := by
  unfold backToRoute
  rw [List.getElem?_eq_getElem hs]
  cases ho : s.output_sinks[p] with
  | none => exact ⟨_, rfl⟩
  | some router =>
    simp only []
    by_cases hmc : router ≥ g.gNodes - g.gK
    · rw [if_pos hmc]; exact ⟨_, rfl⟩
    · rw [if_neg hmc]
      rcases hn with hn | hn
      · rw [List.getElem?_eq_getElem hn]; exact ⟨_, rfl⟩
      · rw [List.getElem?_eq_getElem hs, ho] at hn
        cases hn

theorem getState_set (l : List Buffer) (i j : Nat) (b : Buffer) (v x : VC)
    (hb : l[i]? = some b) (hv : b[j]? = some v) :
    Option.bind (List.set l i (List.set b j x))[i]? (fun b1 => (b1[j]?).map VC.state) =
      some x.state := by
  have hi : i < l.length := by
    by_contra hge
    rw [List.getElem?_eq_none (by omega)] at hb
    cases hb
  have hj : j < b.length := by
    by_contra hge
    rw [List.getElem?_eq_none (by omega)] at hv
    cases hv
  rw [List.getElem?_set_self hi]
  simp [List.getElem?_set_self hj]

theorem ne_append_singleton {α : Type} (l : List α) (x : α) : l ≠ l ++ [x] := by
  intro h
  have := congrArg List.length h
  simp at this

theorem getState_of (s : RouterState) (input vc : Nat) (cur_buf : Buffer) (v : VC)
    (hb : s.buf[input]? = some cur_buf) (hv : cur_buf[vc]? = some v) :
    GetState s input vc = some v.state := by
  unfold GetState
  rw [hb]
  simp [hv]

theorem cdiv_eq_some (a b r : Int) (h : cdiv a b = some r) : b ≠ 0 ∧ r = Int.tdiv a b := by
  unfold cdiv at h
  split at h
  · cases h
  · rename_i hb
    cases h
    exact ⟨hb, rfl⟩

theorem vcGrantBranch_retarget (g : Globals) (cfg : AllocConfig) (s s' : RouterState)
    (input vc : Nat) (oav : Int) (h : vcGrantBranch g cfg input vc oav s = some s') :
    Retargeted s s' input vc ↔ Ineligible g s (Int.tdiv oav s.vcs).toNat := by
  unfold vcGrantBranch at h
  split at h
  · cases h
  · split at h
    · rename_i mo mv hd hm
      obtain ⟨-, rfl⟩ := cdiv_eq_some _ _ _ hd
      split at h
      · cases h
      · split at h
        · cases h
        · cases hb : s.buf[input]? with
          | none => simp [hb] at h
          | some cur_buf =>
            cases hv : cur_buf[vc]? with
            | none => simp [hb, hv] at h
            | some v =>
              simp only [hb, hv] at h
              cases hbt : backToRoute g s (Int.tdiv oav s.vcs).toNat with
              | none => simp [hbt] at h
              | some b =>
                have hiff := backToRoute_iff g s _ b hbt
                cases b with
                | false =>
                  simp only [hbt] at h
                  cases hnb : s.next_buf[(Int.tdiv oav s.vcs).toNat]? with
                  | none => simp [hnb] at h
                  | some dest_buf =>
                    simp only [hnb] at h
                    split at h
                    · cases h
                    · simp only [Option.some.injEq] at h
                      subst h
                      constructor
                      · rintro ⟨h1, -⟩
                        unfold GetState at h1
                        simp only [getState_set s.buf input vc cur_buf v _ hb hv] at h1
                        cases h1
                      · intro hin
                        exact absurd (hiff.2 hin) (by decide)
                | true =>
                  simp only [hbt, Option.some.injEq] at h
                  subst h
                  constructor
                  · intro _
                    exact hiff.1 rfl
                  · intro _
                    refine ⟨?_, rfl⟩
                    unfold GetState
                    simp only [getState_set s.buf input vc cur_buf v _ hb hv]
    · cases h

theorem swAllocTimeout_stay (now : Int) (f : Flit) (input vc : Nat) (cur_buf : Buffer)
    (v : VC) (s s' : RouterState) (hne : now - f.rtime ≠ 300)
    (h : swAllocTimeout now f input vc cur_buf v s = some s') :
    s' = { s with
      sw_alloc_vcs :=
        List.tail (s.sw_alloc_vcs ++
          [({ time := -1, input := input, vc := vc, output := -1 } : AllocItem)]) } := by
  unfold swAllocTimeout at h
  rw [if_neg (fun hc => hne hc.1)] at h
  cases h
  rfl

theorem swNoGrantBranch_retarget (g : Globals) (cfg : AllocConfig) (s s' : RouterState)
    (now : Int) (f : Flit) (input vc : Nat) (cur_buf : Buffer) (v : VC)
    (hb : s.buf[input]? = some cur_buf) (hv : cur_buf[vc]? = some v)
    (hh : f.head = true) (hact : v.state = eVCState.active) (hne : now - f.rtime ≠ 300)
    (h : swNoGrantBranch g cfg now f input vc s = some s') :
    Retargeted s s' input vc ↔ Ineligible g s v.output_port.toNat := by
  unfold swNoGrantBranch at h
  have hnv : ¬ v.state = eVCState.vc_alloc := by rw [hact]; decide
  have hhf : ¬ f.head = false := by rw [hh]; decide
  have hna : ¬ v.state ≠ eVCState.active := not_not.2 hact
  simp only [hb, hv] at h
  rw [if_neg hhf, if_neg hnv, if_neg hna] at h
  split at h
  · cases h
  · split at h
    · cases h
    · cases hbt : backToRoute g s v.output_port.toNat with
      | none => simp [hbt] at h
      | some b =>
        have hiff := backToRoute_iff g s _ b hbt
        cases b with
        | false =>
          simp only [hbt] at h
          have hs' := swAllocTimeout_stay now f input vc cur_buf v s s' hne h
          subst hs'
          constructor
          · rintro ⟨-, h2⟩
            exact absurd h2 (ne_append_singleton _ _)
          · intro hin
            exact absurd (hiff.2 hin) (by decide)
        | true =>
          simp only [hbt] at h
          constructor
          · intro _
            exact hiff.1 rfl
          · intro _
            split at h
            · cases h
            · simp only [Option.some.injEq] at h
              subst h
              refine ⟨?_, rfl⟩
              unfold GetState
              simp only [getState_set s.buf input vc cur_buf v _ hb hv]

theorem scanRouteSet_sticky (g : Globals) (s : RouterState) (l kept : List SetElement)
    (r : List SetElement) (h : scanRouteSet g s l true kept = some r) : r = kept := by
  induction l generalizing kept with
  | nil =>
    unfold scanRouteSet at h
    cases h
    rfl
  | cons e rest ih =>
    unfold scanRouteSet at h
    split at h
    · cases h
    · split at h
      · cases h
      · simp only [Bool.true_or, if_true] at h
        exact ih kept h

theorem scanRouteSet_prefix (g : Globals) (s : RouterState) (l kept r : List SetElement)
    (h : scanRouteSet g s l false kept = some r) :
    ∃ pre dropped, l = pre ++ dropped ∧ r = kept ++ pre ∧
      (∀ e ∈ pre, backToRoute g s e.output_port.toNat = some false) ∧
      ∀ e, dropped.head? = some e → backToRoute g s e.output_port.toNat = some true := by
  induction l generalizing kept with
  | nil =>
    unfold scanRouteSet at h
    cases h
    exact ⟨[], [], rfl, by simp, by simp, by simp⟩
  | cons e rest ih =>
    unfold scanRouteSet at h
    split at h
    · cases h
    · cases hbt : backToRoute g s e.output_port.toNat with
      | none => simp only [hbt] at h; cases h
      | some blocked =>
        cases blocked with
        | true =>
          simp only [hbt, Bool.or_true, if_true] at h
          have hr := scanRouteSet_sticky g s rest kept r h
          refine ⟨[], e :: rest, rfl, by simp [hr], by simp, ?_⟩
          intro e' he'
          simp only [List.head?_cons, Option.some.injEq] at he'
          subst he'
          exact hbt
        | false =>
          simp only [hbt, Bool.or_false, Bool.false_eq_true, if_false] at h
          obtain ⟨pre, dropped, hl, hr, hpre, hd⟩ := ih (kept ++ [e]) h
          refine ⟨e :: pre, dropped, by simp [hl], by simp [hr], ?_, hd⟩
          intro e' he'
          rcases List.mem_cons.1 he' with rfl | hm
          · exact hbt
          · exact hpre e' hm

theorem scanRouteSet_first (g : Globals) (s : RouterState) (e : SetElement)
    (rest r : List SetElement) (h : scanRouteSet g s (e :: rest) false [] = some r)
    (hb : backToRoute g s e.output_port.toNat = some true) : r = [] := by
  unfold scanRouteSet at h
  split at h
  · cases h
  · simp only [hb, Bool.false_or, if_true] at h
    exact scanRouteSet_sticky g s rest [] r h

theorem eraseFirst_noEntry (input vc : Nat) (l : List AllocItem) (h : NoEntry input vc l) :
    eraseFirst input vc l = l := by
  induction l with
  | nil => rfl
  | cons item rest ih =>
    unfold eraseFirst
    rw [if_neg (h item (List.mem_cons_self _ _)),
      ih (fun x hx => h x (List.mem_cons_of_mem _ hx))]

theorem vcNoGrantBranch_timeout (g : Globals) (cfg : AllocConfig) (now : Int) (f : Flit)
    (input vc : Nat) (s : RouterState) (cur_buf : Buffer) (v : VC) (setlist : List SetElement)
    (hb : s.buf[input]? = some cur_buf) (hv : cur_buf[vc]? = some v)
    (hcfg : cfg.vc_allocator = true)
    (hscan : scanRouteSet g s v.route_set false [] = some setlist) (hkeep : setlist ≠ [])
    (hinv : cfg.speculative = false → NoEntry input vc s.sw_alloc_vcs) :
    ∃ s', vcNoGrantBranch g cfg now f input vc s = some s' ∧
      (now - f.rtime = 300 →
        Retargeted s s' input vc ∧ s'.vc_alloc_vcs = s.vc_alloc_vcs.tail ∧
        s'.sw_alloc_vcs = eraseFirst input vc s.sw_alloc_vcs) ∧
      (now - f.rtime ≠ 300 →
        s'.buf = s.buf ∧ s'.route_vcs = s.route_vcs ∧
        s'.vc_alloc_vcs = requeued input vc s.vc_alloc_vcs ∧
        s'.sw_alloc_vcs = s.sw_alloc_vcs) := by
  have hne : ¬ setlist.isEmpty = true := by
    rw [List.isEmpty_iff]; exact hkeep
  have hc : ¬ cfg.vc_allocator = false := by rw [hcfg]; decide
  unfold vcNoGrantBranch
  simp only [if_neg hc, hb, hv, hscan, if_neg hne]
  by_cases ht : now - f.rtime = 300
  · rw [if_pos ht]
    refine ⟨_, rfl, fun _ => ⟨⟨?_, rfl⟩, rfl, ?_⟩, fun h => absurd ht h⟩
    · unfold GetState
      simp only [getState_set s.buf input vc cur_buf v _ hb hv]
    · by_cases hsp : cfg.speculative = true
      · simp only [if_pos hsp]
      · simp only [if_neg hsp]
        rw [eraseFirst_noEntry input vc _ (hinv (by simpa using hsp))]
  · rw [if_neg ht]
    exact ⟨_, rfl, fun h => absurd h ht, fun _ => ⟨rfl, rfl, rfl, rfl⟩⟩

theorem swAllocTimeout_spec (now : Int) (f : Flit) (input vc : Nat) (cur_buf : Buffer)
    (v : VC) (s : RouterState)
    (hb : s.buf[input]? = some cur_buf) (hv : cur_buf[vc]? = some v) (hh : f.head = true)
    (hin : input < s.inputs) (hvc : vc < s.vcs)
    (hcase : (v.state = eVCState.vc_alloc ∧ v.output_port = -1 ∧ v.output_vc = -1) ∨
      (v.state = eVCState.active ∧ (0 ≤ v.output_port ∧ v.output_port < (s.outputs : Int)) ∧
        (0 ≤ v.output_vc ∧ v.output_vc < (s.vcs : Int)) ∧
        v.output_port.toNat < s.next_buf.length))
    (hinv : v.state = eVCState.active → NoEntry input vc s.vc_alloc_vcs) :
    ∃ s', swAllocTimeout now f input vc cur_buf v s = some s' ∧
      (now - f.rtime = 300 →
        Retargeted s s' input vc ∧ s'.sw_alloc_vcs = s.sw_alloc_vcs.tail ∧
        s'.vc_alloc_vcs = eraseFirst input vc s.vc_alloc_vcs) ∧
      (now - f.rtime ≠ 300 →
        s'.buf = s.buf ∧ s'.route_vcs = s.route_vcs ∧
        s'.sw_alloc_vcs = requeued input vc s.sw_alloc_vcs ∧
        s'.vc_alloc_vcs = s.vc_alloc_vcs) := by
  unfold swAllocTimeout
  by_cases ht : now - f.rtime = 300
  · rw [if_pos ⟨ht, hh⟩, if_neg (not_not.2 hin), if_neg (not_not.2 hvc)]
    rcases hcase with ⟨hst, hp, hq⟩ | ⟨hst, hp, hq, hnb⟩
    · have hna : ¬ v.state = eVCState.active := by rw [hst]; decide
      rw [if_neg hna, if_neg (not_not.2 hst), if_neg (not_not.2 hp), if_neg (not_not.2 hq)]
      refine ⟨_, rfl, fun _ => ⟨⟨?_, rfl⟩, rfl, rfl⟩, fun h => absurd ht h⟩
      unfold GetState
      simp only [getState_set s.buf input vc cur_buf v _ hb hv]
    · rw [if_pos hst, if_neg (not_not.2 hp), if_neg (not_not.2 hq),
        List.getElem?_eq_getElem hnb]
      refine ⟨_, rfl, fun _ => ⟨⟨?_, rfl⟩, rfl, ?_⟩, fun h => absurd ht h⟩
      · unfold GetState
        simp only [getState_set s.buf input vc cur_buf v _ hb hv]
      · exact (eraseFirst_noEntry input vc _ (hinv hst)).symm
  · rw [if_neg (fun hc => ht hc.1)]
    exact ⟨_, rfl, fun h => absurd h ht, fun _ => ⟨rfl, rfl, rfl, rfl⟩⟩

theorem swNoGrantBranch_timeout (g : Globals) (cfg : AllocConfig) (now : Int) (f : Flit)
    (input vc : Nat) (s : RouterState) (cur_buf : Buffer) (v : VC)
    (hb : s.buf[input]? = some cur_buf) (hv : cur_buf[vc]? = some v) (hh : f.head = true)
    (hin : input < s.inputs) (hvc : vc < s.vcs)
    (hcase : (v.state = eVCState.vc_alloc ∧ cfg.speculative = true ∧ v.output_port = -1 ∧
        v.output_vc = -1 ∧
        ∃ setlist, scanRouteSet g s v.route_set false [] = some setlist ∧ setlist ≠ []) ∨
      (v.state = eVCState.active ∧ (0 ≤ v.output_port ∧ v.output_port < (s.outputs : Int)) ∧
        (0 ≤ v.output_vc ∧ v.output_vc < (s.vcs : Int)) ∧
        v.output_port.toNat < s.next_buf.length ∧
        backToRoute g s v.output_port.toNat = some false))
    (hinv : v.state = eVCState.active → NoEntry input vc s.vc_alloc_vcs) :
    ∃ s', swNoGrantBranch g cfg now f input vc s = some s' ∧
      (now - f.rtime = 300 →
        Retargeted s s' input vc ∧ s'.sw_alloc_vcs = s.sw_alloc_vcs.tail ∧
        s'.vc_alloc_vcs = eraseFirst input vc s.vc_alloc_vcs) ∧
      (now - f.rtime ≠ 300 →
        s'.buf = s.buf ∧ s'.route_vcs = s.route_vcs ∧
        s'.sw_alloc_vcs = requeued input vc s.sw_alloc_vcs ∧
        s'.vc_alloc_vcs = s.vc_alloc_vcs) := by
  have hhf : ¬ f.head = false := by rw [hh]; decide
  unfold swNoGrantBranch
  simp only [hb, hv]
  rw [if_neg hhf]
  rcases hcase with ⟨hst, hsp, hp, hq, setlist, hscan, hkeep⟩ | ⟨hst, hp, hq, hnb, hbt⟩
  · have hne : ¬ setlist.isEmpty = true := by
      rw [List.isEmpty_iff]; exact hkeep
    have hsp' : ¬ cfg.speculative = false := by rw [hsp]; decide
    rw [if_pos hst, if_neg hsp', if_neg (not_not.2 hp), if_neg (not_not.2 hq)]
    simp only [hscan, if_neg hne]
    exact swAllocTimeout_spec now f input vc cur_buf v s hb hv hh hin hvc
      (Or.inl ⟨hst, hp, hq⟩) hinv
  · have hnv : ¬ v.state = eVCState.vc_alloc := by rw [hst]; decide
    rw [if_neg hnv, if_neg (not_not.2 hst), if_neg (not_not.2 hp), if_neg (not_not.2 hq)]
    simp only [hbt]
    exact swAllocTimeout_spec now f input vc cur_buf v s hb hv hh hin hvc
      (Or.inr ⟨hst, hp, hq, hnb⟩) hinv

theorem vcNoGrantBranch_late (g : Globals) (cfg : AllocConfig) (now : Int) (f : Flit)
    (input vc : Nat) (s : RouterState) (cur_buf : Buffer) (v : VC)
    (hb : s.buf[input]? = some cur_buf) (hv : cur_buf[vc]? = some v)
    (hcfg : cfg.vc_allocator = true) (hk : KeptInVA g s v) (ht : now - f.rtime ≠ 300) :
    vcNoGrantBranch g cfg now f input vc s =
      some { s with vc_alloc_vcs := requeued input vc s.vc_alloc_vcs } := by
  obtain ⟨setlist, hscan, hkeep⟩ := hk
  have hne : ¬ setlist.isEmpty = true := by
    rw [List.isEmpty_iff]; exact hkeep
  have hc : ¬ cfg.vc_allocator = false := by rw [hcfg]; decide
  unfold vcNoGrantBranch
  simp only [if_neg hc, hb, hv, hscan, if_neg hne]
  rw [if_neg ht]
  rfl

theorem swAllocTimeout_late (now : Int) (f : Flit) (input vc : Nat) (cur_buf : Buffer)
    (v : VC) (s : RouterState) (ht : now - f.rtime ≠ 300) :
    swAllocTimeout now f input vc cur_buf v s =
      some { s with sw_alloc_vcs := requeued input vc s.sw_alloc_vcs } := by
  unfold swAllocTimeout
  rw [if_neg (fun hc => ht hc.1)]
  rfl

theorem swNoGrantBranch_late (g : Globals) (cfg : AllocConfig) (now : Int) (f : Flit)
    (input vc : Nat) (s : RouterState) (cur_buf : Buffer) (v : VC)
    (hb : s.buf[input]? = some cur_buf) (hv : cur_buf[vc]? = some v) (hh : f.head = true)
    (hk : KeptInSA g cfg s v) (ht : now - f.rtime ≠ 300) :
    swNoGrantBranch g cfg now f input vc s =
      some { s with sw_alloc_vcs := requeued input vc s.sw_alloc_vcs } := by
  have hhf : ¬ f.head = false := by rw [hh]; decide
  unfold swNoGrantBranch
  simp only [hb, hv]
  rw [if_neg hhf]
  rcases hk with ⟨hst, hsp, hp, hq, setlist, hscan, hkeep⟩ | ⟨hst, hp, hq, _, hbt⟩
  · have hne : ¬ setlist.isEmpty = true := by
      rw [List.isEmpty_iff]; exact hkeep
    have hsp' : ¬ cfg.speculative = false := by rw [hsp]; decide
    rw [if_pos hst, if_neg hsp', if_neg (not_not.2 hp), if_neg (not_not.2 hq)]
    simp only [hscan, if_neg hne]
    exact swAllocTimeout_late now f input vc cur_buf v s ht
  · have hnv : ¬ v.state = eVCState.vc_alloc := by rw [hst]; decide
    rw [if_neg hnv, if_neg (not_not.2 hst), if_neg (not_not.2 hp), if_neg (not_not.2 hq)]
    simp only [hbt]
    exact swAllocTimeout_late now f input vc cur_buf v s ht

/-! ## Two neighbors draining at once -/

theorem neighborRevert_spec (g : Globals) (s : RouterState) (hK : g.gK ≠ 0)
    (hns : s.neighbor_states.length = 4) :
    ∃ b, neighborRevert g s = some b ∧ (b = true ↔ AdversarialNeighbor g s) := by
  obtain ⟨nd, noff, hscan, hiff⟩ := scanDraining_spec g s.id s.neighbor_states hK [0, 1, 2, 3]
    (by intro p hp; rw [hns]; revert hp; simp; omega)
  refine ⟨nd || noff, ?_, ?_⟩
  · unfold neighborRevert
    rw [hscan]
    rfl
  · rw [adversarial_iff, ← hiff, Bool.or_eq_true]

theorem neighborRevert_seen (g : Globals) (x : RouterState) (e : Nat) (hK : g.gK ≠ 0)
    (he : e < 4) (hl : x.neighbor_states.length = 4)
    (hx : x.neighbor_states[e]? = some ePowerState.draining) :
    ∃ r, neighborRevert g x = some r ∧
      ((e = 1 ∨ e = 3) → r = true) ∧
      ((e = 0 ∨ e = 2) → r = true →
        ∃ q < 4, q ≠ e ∧ x.neighbor_states[q]? ≠ some ePowerState.power_on) ∧
      ((e = 0 ∨ e = 2) →
        (∀ q < 4, q ≠ e → x.neighbor_states[q]? = some ePowerState.power_on) → r = false) := by
  obtain ⟨r, hr, hiff⟩ := neighborRevert_spec g x hK hl
  have hother : (e = 0 ∨ e = 2) → r = true →
      ∃ q < 4, q ≠ e ∧ x.neighbor_states[q]? ≠ some ePowerState.power_on := by
    intro hev hrt
    have hadv := hiff.1 hrt
    unfold AdversarialNeighbor at hadv
    rcases hadv with h | h | ⟨q, hq, h⟩ | ⟨_, h⟩ | ⟨_, h⟩
    · exact ⟨1, by omega, by omega, by rw [h]; simp⟩
    · exact ⟨3, by omega, by omega, by rw [h]; simp⟩
    · refine ⟨q, hq, ?_, by rw [h]; simp⟩
      intro hqe
      rw [hqe, hx] at h
      cases h
    · exact ⟨1, by omega, by omega, by rw [h]; simp⟩
    · exact ⟨3, by omega, by omega, by rw [h]; simp⟩
  refine ⟨r, hr, ?_, hother, ?_⟩
  · intro hodd
    apply hiff.2
    unfold AdversarialNeighbor
    rcases hodd with h | h
    · subst h; exact Or.inl hx
    · subst h; exact Or.inr (Or.inl hx)
  · intro hev hon
    cases hrv : r with
    | false => rfl
    | true =>
      obtain ⟨q, hq, hne, hnon⟩ := hother hev hrv
      exact absurd (hon q hq hne) hnon

theorem pse_neighborRevert (g : Globals) (s s' : RouterState)
    (hr : neighborRevert g s = some true) (hps : s.power_state = ePowerState.draining)
    (h : PowerStateEvaluate g s = some s') : s'.power_state = ePowerState.power_on := by
  unfold neighborRevert at hr
  cases hscan : scanDraining g s.id s.neighbor_states [0, 1, 2, 3] with
  | none => rw [hscan] at hr; cases hr
  | some r =>
    obtain ⟨nd, noff⟩ := r
    rw [hscan] at hr
    simp only [Option.map_some', Option.some.injEq] at hr
    unfold PowerStateEvaluate at h
    rw [hps] at h
    split at h
    · cases h
    · split at h
      · cases h
      · simp only at h
        unfold evalDraining at h
        simp only [hscan, hr] at h
        repeat' split at h
        all_goals first
          | (cases h; done)
          | (cases h; rfl)
          | (exfalso; simp_all)

/-- C38. Two routers record each other as draining, the first seeing the
second on port p and the second seeing the first on port p XOR 1. The neighbor
scan of case draining returns for both. The router that sees the other on
port 1 or 3 meets the revert condition, whatever its other neighbors are. The
router that sees the other on port 0 or 2 meets it only on account of another
neighbor (one that is not recorded as power_on); so when the other neighbors of
both are recorded as power_on, exactly one of the two meets the condition.
With the condition met, a call of PowerStateEvaluate on the draining router
that returns leaves it in power_on. -/
theorem mutual_drain_tie_break (g : Globals) (a b : RouterState) (p : Nat) (hK : g.gK ≠ 0)
    (hp : p < 4) (hla : a.neighbor_states.length = 4) (hlb : b.neighbor_states.length = 4)
    (ha : a.neighbor_states[p]? = some ePowerState.draining)
    (hb : b.neighbor_states[p ^^^ 1]? = some ePowerState.draining) :
    ∃ ra rb, neighborRevert g a = some ra ∧ neighborRevert g b = some rb ∧
      ((p = 1 ∨ p = 3) → ra = true) ∧ ((p = 0 ∨ p = 2) → rb = true) ∧
      ((p = 0 ∨ p = 2) → ra = true →
        ∃ q < 4, q ≠ p ∧ a.neighbor_states[q]? ≠ some ePowerState.power_on) ∧
      ((p = 1 ∨ p = 3) → rb = true →
        ∃ q < 4, q ≠ p ^^^ 1 ∧ b.neighbor_states[q]? ≠ some ePowerState.power_on) ∧
      ((∀ q < 4, q ≠ p → a.neighbor_states[q]? = some ePowerState.power_on) →
        (∀ q < 4, q ≠ p ^^^ 1 → b.neighbor_states[q]? = some ePowerState.power_on) →
        (ra = true ∧ rb = false) ∨ (ra = false ∧ rb = true)) ∧
      (∀ a', ra = true → a.power_state = ePowerState.draining →
        PowerStateEvaluate g a = some a' → a'.power_state = ePowerState.power_on) ∧
      (∀ b', rb = true → b.power_state = ePowerState.draining →
        PowerStateEvaluate g b = some b' → b'.power_state = ePowerState.power_on) := by
  have hx : p ^^^ 1 < 4 := by interval_cases p <;> decide
  have hodd : (p = 0 ∨ p = 2) → (p ^^^ 1 = 1 ∨ p ^^^ 1 = 3) := by
    rintro (h | h) <;> subst h <;> decide
  have hev : (p = 1 ∨ p = 3) → (p ^^^ 1 = 0 ∨ p ^^^ 1 = 2) := by
    rintro (h | h) <;> subst h <;> decide
  have hpar : (p = 0 ∨ p = 2) ∨ (p = 1 ∨ p = 3) := by omega
  obtain ⟨ra, hra, ha1, ha2, ha3⟩ := neighborRevert_seen g a p hK hp hla ha
  obtain ⟨rb, hrb, hb1, hb2, hb3⟩ := neighborRevert_seen g b (p ^^^ 1) hK hx hlb hb
  refine ⟨ra, rb, hra, hrb, ha1, fun h => hb1 (hodd h), ha2, fun h => hb2 (hev h), ?_, ?_, ?_⟩
  · intro hoa hob
    rcases hpar with h | h
    · exact Or.inr ⟨ha3 h hoa, hb1 (hodd h)⟩
    · exact Or.inl ⟨ha1 h, hb3 (hev h) hob⟩
  · intro a' hrt hps h
    exact pse_neighborRevert g a a' (hrt ▸ hra) hps h
  · intro b' hrt hps h
    exact pse_neighborRevert g b b' (hrt ▸ hrb) hps h

/-- Witness of C38 on routers 5 and 1 of the 4x4 mesh, which see each other on
ports 3 and 2: router 5 meets the revert condition and goes back to power_on,
router 1 does not meet it. -/
theorem mutual_drain_tie_break_witness :
    (∃ ra rb, neighborRevert mesh4 router5Rival = some ra ∧
      neighborRevert mesh4 router1Rival = some rb ∧
      ((ra = true ∧ rb = false) ∨ (ra = false ∧ rb = true))) ∧
    neighborRevert mesh4 router5Rival = some true ∧
    neighborRevert mesh4 router1Rival = some false ∧
    PowerStateEvaluate mesh4 router5Rival = some router5Reverting :=
  ⟨(mutual_drain_tie_break mesh4 router5Rival router1Rival 3 (by decide) (by decide)
      (by decide) (by decide) (by decide) (by decide)).elim fun ra h =>
      h.elim fun rb h => ⟨ra, rb, h.1, h.2.1, h.2.2.2.2.2.2.1 (by decide) (by decide)⟩,
    by decide, by decide, by rfl⟩

/-! ## Request ids and the size of the drain tags -/

theorem announceOn_hids (id : Int) (st : ePowerState) (out : Nat) (hids hids' : List Int)
    (oq oq' : List (Nat × Handshake)) (h : announceOn id st out hids oq = some (hids', oq'))
    (p : Nat) :
    hids'.length = hids.length ∧
    (p = out → ∃ r hs, hids[p]? = some r ∧ hids'[p]? = some (r + 1) ∧
      mapFind p oq' = some hs ∧ hs.hid = r + 1 ∧ hs.new_state.isSome = true) ∧
    (p ≠ out → hids'[p]? = hids[p]? ∧ mapFind p oq' = mapFind p oq) := by
  unfold announceOn at h
  cases hr : hids[out]? with
  | none => simp only [hr] at h; cases h
  | some r =>
    simp only [hr, Option.some.injEq, Prod.mk.injEq] at h
    obtain ⟨h1, h2⟩ := h
    subst h1 h2
    have hlt : out < hids.length := by
      rcases List.getElem?_eq_some_iff.1 hr with ⟨hl, _⟩
      exact hl
    refine ⟨by simp, ?_, ?_⟩
    · intro hp
      subst hp
      have hm : mapFind p (mapUpdate p
          (fun h => { h with new_state := some st, id := id, hid := r + 1 })
          (mapInsert p Handshake.New oq)) =
          some { (mapFind p oq).getD Handshake.New with
            new_state := some st, id := id, hid := r + 1 } := by
        rw [mapFind_update, if_pos rfl, mapFind_insert, if_pos rfl]
        rfl
      exact ⟨r, _, hr, by simp [hlt], hm, rfl, rfl⟩
    · intro hp
      refine ⟨?_, ?_⟩
      · rw [List.getElem?_set_ne (Ne.symm hp)]
      · rw [mapFind_update, if_neg hp, mapFind_insert, if_neg hp]

theorem announce_frame (g : Globals) (id : Int) (st : ePowerState) (skipEdge tagEdge : Bool)
    (ports : List Nat) (tags : List Bool) (hids : List Int) (oq : List (Nat × Handshake))
    (tags' : List Bool) (hids' : List Int) (oq' : List (Nat × Handshake))
    (h : announce g id st skipEdge tagEdge ports tags hids oq = some (tags', hids', oq'))
    (p : Nat) (hp : p ∉ ports) :
    hids'[p]? = hids[p]? ∧ mapFind p oq' = mapFind p oq := by
  induction ports generalizing tags hids oq with
  | nil =>
    unfold announce at h
    cases h
    exact ⟨rfl, rfl⟩
  | cons out rest ih =>
    have hp1 : p ∉ rest := fun hm => hp (List.mem_cons_of_mem _ hm)
    have hne : p ≠ out := fun he => hp (he ▸ List.mem_cons_self _ _)
    unfold announce at h
    repeat' split at h
    all_goals first
      | cases h
      | exact ih _ _ _ h hp1
      | (rename_i hon
         obtain ⟨g1, g2⟩ := ih _ _ _ h hp1
         obtain ⟨h1, h2⟩ := (announceOn_hids _ _ _ _ _ _ _ hon p).2.2 hne
         exact ⟨g1.trans h1, g2.trans h2⟩)

theorem announce_hids (g : Globals) (id : Int) (st : ePowerState) (skipEdge tagEdge : Bool)
    (ports : List Nat) (hnd : ports.Nodup) (tags : List Bool) (hids : List Int)
    (oq : List (Nat × Handshake))
    (tags' : List Bool) (hids' : List Int) (oq' : List (Nat × Handshake))
    (h : announce g id st skipEdge tagEdge ports tags hids oq = some (tags', hids', oq'))
    (p : Nat) :
    hids'.length = hids.length ∧ HidStep hids hids' oq oq' p := by
  induction ports generalizing tags hids oq with
  | nil =>
    unfold announce at h
    cases h
    exact ⟨rfl, Or.inr ⟨rfl, rfl⟩⟩
  | cons out rest ih =>
    have hnd1 := (List.nodup_cons.1 hnd).2
    have hout := (List.nodup_cons.1 hnd).1
    unfold announce at h
    repeat' split at h
    all_goals first
      | cases h
      | exact ih hnd1 _ _ _ h
      | (rename_i hon
         obtain ⟨hlen, hstep⟩ := ih hnd1 _ _ _ h
         obtain ⟨hlen1, hself, hother⟩ := announceOn_hids _ _ _ _ _ _ _ hon p
         refine ⟨hlen.trans hlen1, ?_⟩
         by_cases hp : p = out
         · obtain ⟨r, hs, h1, h2, h3, h4, h5⟩ := hself hp
           obtain ⟨g1, g2⟩ := announce_frame _ _ _ _ _ _ _ _ _ _ _ _ h p (hp ▸ hout)
           exact Or.inl ⟨r, hs, h1, g1.trans h2, g2.trans h3, h4, h5⟩
         · obtain ⟨h1, h2⟩ := hother hp
           rcases hstep with ⟨r', hs', g1, g2, g3, g4, g5⟩ | ⟨g1, g2⟩
           · exact Or.inl ⟨r', hs', h1 ▸ g1, g2, g3, g4, g5⟩
           · exact Or.inr ⟨g1.trans h1, g2.trans h2⟩)

theorem isEmpty_not_false {α : Type} (l : List α) (h : ¬ l.isEmpty = false) : l = [] := by
  cases l with
  | nil => rfl
  | cons a rest => simp at h

theorem evalPowerOn_hids (g : Globals) (s s' : RouterState) (h : evalPowerOn g s = some s')
    (p : Nat) :
    s'.req_hids.length = s.req_hids.length ∧
    HidStep s.req_hids s'.req_hids s.out_queue_handshakes s'.out_queue_handshakes p ∧
    ((s'.req_hids = s.req_hids ∧ s'.out_queue_handshakes = s.out_queue_handshakes) ∨
      s.out_queue_handshakes = []) := by
  unfold evalPowerOn at h
  simp only [] at h
  repeat' split at h
  all_goals first
    | (cases h; done)
    | (cases h; exact ⟨rfl, Or.inr ⟨rfl, rfl⟩, Or.inl ⟨rfl, rfl⟩⟩)
    | (cases h
       have hann := ‹announce _ _ _ _ _ _ _ _ _ = some _›
       have hann' := announce_hids _ _ _ _ _ _ (by decide) _ _ _ _ _ _ hann p
       exact ⟨hann'.1, hann'.2, Or.inr (isEmpty_not_false _ ‹_›)⟩)

theorem evalDraining_hids (g : Globals) (s s' : RouterState) (h : evalDraining g s = some s')
    (p : Nat) :
    s'.req_hids.length = s.req_hids.length ∧
    HidStep s.req_hids s'.req_hids s.out_queue_handshakes s'.out_queue_handshakes p ∧
    ((s'.req_hids = s.req_hids ∧ s'.out_queue_handshakes = s.out_queue_handshakes) ∨
      s.out_queue_handshakes = []) := by
  unfold evalDraining at h
  simp only [] at h
  repeat' split at h
  all_goals first
    | (cases h; done)
    | (cases h; exact ⟨rfl, Or.inr ⟨rfl, rfl⟩, Or.inl ⟨rfl, rfl⟩⟩)
    | (cases h
       have hann := ‹announce _ _ _ _ _ _ _ _ _ = some _›
       have hann' := announce_hids _ _ _ _ _ _ (by decide) _ _ _ _ _ _ hann p
       exact ⟨hann'.1, hann'.2, Or.inr (isEmpty_not_false _ ‹_›)⟩)

theorem evalPowerOff_hids (g : Globals) (s s' : RouterState) (h : evalPowerOff g s = some s')
    (p : Nat) :
    s'.req_hids.length = s.req_hids.length ∧
    HidStep s.req_hids s'.req_hids s.out_queue_handshakes s'.out_queue_handshakes p ∧
    ((s'.req_hids = s.req_hids ∧ s'.out_queue_handshakes = s.out_queue_handshakes) ∨
      s.out_queue_handshakes = []) := by
  unfold evalPowerOff at h
  simp only [] at h
  repeat' split at h
  all_goals first
    | (cases h; done)
    | (cases h; exact ⟨rfl, Or.inr ⟨rfl, rfl⟩, Or.inl ⟨rfl, rfl⟩⟩)
    | (cases h
       have hann := ‹announce _ _ _ _ _ _ _ _ _ = some _›
       have hann' := announce_hids _ _ _ _ _ _ (by decide) _ _ _ _ _ _ hann p
       exact ⟨hann'.1, hann'.2, Or.inr (isEmpty_not_false _ ‹_›)⟩)

theorem evalWakeup_hids (g : Globals) (s s' : RouterState) (h : evalWakeup g s = some s')
    (p : Nat) :
    s'.req_hids.length = s.req_hids.length ∧
    HidStep s.req_hids s'.req_hids s.out_queue_handshakes s'.out_queue_handshakes p ∧
    ((s'.req_hids = s.req_hids ∧ s'.out_queue_handshakes = s.out_queue_handshakes) ∨
      s.out_queue_handshakes = []) := by
  unfold evalWakeup at h
  simp only [] at h
  repeat' split at h
  all_goals first
    | (cases h; done)
    | (cases h; exact ⟨rfl, Or.inr ⟨rfl, rfl⟩, Or.inl ⟨rfl, rfl⟩⟩)
    | (cases h
       have hann := ‹announce _ _ _ _ _ _ _ _ _ = some _›
       have hann' := announce_hids _ _ _ _ _ _ (by decide) _ _ _ _ _ _ hann p
       exact ⟨hann'.1, hann'.2, Or.inr (isEmpty_not_false _ ‹_›)⟩)

theorem pse_hids (g : Globals) (s s' : RouterState) (h : PowerStateEvaluate g s = some s')
    (p : Nat) :
    s'.req_hids.length = s.req_hids.length ∧
    HidStep s.req_hids s'.req_hids s.out_queue_handshakes s'.out_queue_handshakes p ∧
    ((s'.req_hids = s.req_hids ∧ s'.out_queue_handshakes = s.out_queue_handshakes) ∨
      s.out_queue_handshakes = []) := by
  unfold PowerStateEvaluate at h
  split at h
  · cases h
  · split at h
    · cases h
    · split at h
      · exact evalPowerOn_hids g s s' h p
      · exact evalDraining_hids g s s' h p
      · exact evalPowerOff_hids g s s' h p
      · exact evalWakeup_hids g s s' h p

/-- C32. A call of PowerStateEvaluate that returns keeps the length of
req_hids and, for every port p, does one of two things: it queues on p (where
nothing was queued) a handshake that carries a state, increases req_hids[p] by
exactly one and gives the handshake the new value as its hid; or it leaves
req_hids[p] and the queue entry of p as they were. So req_hids[p] never
decreases, and grows by one with each request queued on the port. -/
theorem req_hids_monotone (g : Globals) (s s' : RouterState)
    (h : PowerStateEvaluate g s = some s') (p : Nat) :
    s'.req_hids.length = s.req_hids.length ∧
    ((∃ r hs, s.req_hids[p]? = some r ∧ s'.req_hids[p]? = some (r + 1) ∧
        mapFind p s.out_queue_handshakes = none ∧
        mapFind p s'.out_queue_handshakes = some hs ∧ hs.hid = r + 1 ∧
        hs.new_state.isSome = true) ∨
      (s'.req_hids[p]? = s.req_hids[p]? ∧
        mapFind p s'.out_queue_handshakes = mapFind p s.out_queue_handshakes)) ∧
    (∀ r r', s.req_hids[p]? = some r → s'.req_hids[p]? = some r' → r ≤ r' ∧ r' ≤ r + 1) := by
  obtain ⟨hlen, hstep, hq⟩ := pse_hids g s s' h p
  refine ⟨hlen, ?_, ?_⟩
  · rcases hstep with ⟨r, hs, h1, h2, h3, h4, h5⟩ | hsame
    · rcases hq with ⟨e1, e2⟩ | hempty
      · exact Or.inr ⟨by rw [e1], by rw [e2]⟩
      · exact Or.inl ⟨r, hs, h1, h2, by rw [hempty]; rfl, h3, h4, h5⟩
    · exact Or.inr hsame
  · intro r r' hr hr'
    rcases hstep with ⟨r0, hs, h1, h2, _⟩ | ⟨hsame, _⟩
    · rw [hr] at h1
      rw [hr'] at h2
      cases h1
      cases h2
      omega
    · rw [hsame, hr] at hr'
      cases hr'
      omega

/-- Witness of C32: router 5 starts its drain; the request id of every port
goes from 0 to 1 and the handshake queued on port 0 carries hid 1. -/
theorem req_hids_monotone_witness :
    PowerStateEvaluate mesh4 router5 = some router5Draining ∧
    router5.req_hids = [0, 0, 0, 0] ∧ router5Draining.req_hids = [1, 1, 1, 1] ∧
    ((∃ r hs, router5.req_hids[0]? = some r ∧ router5Draining.req_hids[0]? = some (r + 1) ∧
        mapFind 0 router5.out_queue_handshakes = none ∧
        mapFind 0 router5Draining.out_queue_handshakes = some hs ∧ hs.hid = r + 1 ∧
        hs.new_state.isSome = true) ∨
      (router5Draining.req_hids[0]? = router5.req_hids[0]? ∧
        mapFind 0 router5Draining.out_queue_handshakes =
          mapFind 0 router5.out_queue_handshakes)) :=
  ⟨by rfl, by rfl, by rfl,
    (req_hids_monotone mesh4 router5 router5Draining (by rfl) 0).2.1⟩

theorem announce_tags_length (g : Globals) (id : Int) (st : ePowerState)
    (skipEdge tagEdge : Bool) (ports : List Nat) (tags : List Bool) (hids : List Int)
    (oq : List (Nat × Handshake))
    (tags' : List Bool) (hids' : List Int) (oq' : List (Nat × Handshake))
    (h : announce g id st skipEdge tagEdge ports tags hids oq = some (tags', hids', oq')) :
    tags'.length = tags.length := by
  induction ports generalizing tags hids oq with
  | nil =>
    unfold announce at h
    cases h
    rfl
  | cons out rest ih =>
    unfold announce at h
    repeat' split at h
    all_goals first
      | cases h
      | exact ih _ _ _ h
      | (rename_i hset
         unfold vecSet at hset
         split at hset
         · cases hset
           rw [ih _ _ _ h, List.length_set]
         · cases hset)

theorem evalDraining_tags_length (g : Globals) (s s' : RouterState)
    (h : evalDraining g s = some s') (hl : s.drain_tags.length = 4) :
    (s.wakeup_signal = false → neighborRevert g s = some true →
      s'.drain_tags.length = s.inputs - 1) ∧
    (¬ (s.wakeup_signal = false ∧ neighborRevert g s = some true) →
      s'.drain_tags.length = 4) := by
  unfold evalDraining at h
  split at h
  · cases h
  · simp only at h
    cases hscan : scanDraining g s.id s.neighbor_states [0, 1, 2, 3] with
    | none => simp only [hscan] at h; cases h
    | some r =>
      obtain ⟨nd, noff⟩ := r
      have hrev : neighborRevert g s = some (nd || noff) := by
        unfold neighborRevert
        rw [hscan]
        rfl
      simp only [hscan] at h
      rw [hrev]
      repeat' split at h
      all_goals first
        | (cases h; done)
        | (cases h
           have hann := ‹announce _ _ _ _ _ _ _ _ _ = some _›
           have hlen := announce_tags_length _ _ _ _ _ _ _ _ _ _ _ _ hann
           simp_all)
        | (cases h; simp_all)

theorem evalPowerOn_tags_length (g : Globals) (s s' : RouterState)
    (h : evalPowerOn g s = some s') : s'.drain_tags.length = 4 := by
  unfold evalPowerOn at h
  simp only [] at h
  repeat' split at h
  all_goals first
    | (cases h; done)
    | (cases h; rfl)
    | (cases h
       have hann := ‹announce _ _ _ _ _ _ _ _ _ = some _›
       have hlen := announce_tags_length _ _ _ _ _ _ _ _ _ _ _ _ hann
       simp_all)

theorem evalPowerOff_tags_length (g : Globals) (s s' : RouterState)
    (h : evalPowerOff g s = some s') : s'.drain_tags.length = 4 := by
  unfold evalPowerOff at h
  simp only [] at h
  repeat' split at h
  all_goals first
    | (cases h; done)
    | (cases h; rfl)
    | (cases h
       have hann := ‹announce _ _ _ _ _ _ _ _ _ = some _›
       have hlen := announce_tags_length _ _ _ _ _ _ _ _ _ _ _ _ hann
       simp_all)

theorem evalWakeup_tags_length (g : Globals) (s s' : RouterState)
    (h : evalWakeup g s = some s') (hl : s.drain_tags.length = 4) :
    s'.drain_tags.length = 4 := by
  unfold evalWakeup at h
  simp only [] at h
  repeat' split at h
  all_goals first
    | (cases h; done)
    | (cases h; exact hl)
    | (cases h
       have hann := ‹announce _ _ _ _ _ _ _ _ _ = some _›
       have hlen := announce_tags_length _ _ _ _ _ _ _ _ _ _ _ _ hann
       simp_all)

/-- C36 (divergence). After a call of PowerStateEvaluate that returns, made
on a router with four drain tags, drain_tags has four elements on every path
but one: the revert of a draining router on account of a neighbor (no wakeup
signal, revert condition met) sizes it to `_inputs - 1`. That is four for a
router with five inputs and another number for any other router. -/
theorem drain_tags_size (g : Globals) (s s' : RouterState)
    (h : PowerStateEvaluate g s = some s') (hl : s.drain_tags.length = 4) :
    (s.power_state = ePowerState.draining → s.wakeup_signal = false →
      neighborRevert g s = some true →
      s'.power_state = ePowerState.power_on ∧ s'.drain_tags.length = s.inputs - 1) ∧
    (¬ (s.power_state = ePowerState.draining ∧ s.wakeup_signal = false ∧
        neighborRevert g s = some true) → s'.drain_tags.length = 4) ∧
    (s.inputs = 5 → s'.drain_tags.length = 4) := by
  have key : (s.power_state = ePowerState.draining → s.wakeup_signal = false →
      neighborRevert g s = some true → s'.drain_tags.length = s.inputs - 1) ∧
    (¬ (s.power_state = ePowerState.draining ∧ s.wakeup_signal = false ∧
        neighborRevert g s = some true) → s'.drain_tags.length = 4) := by
    have h0 := h
    unfold PowerStateEvaluate at h
    split at h
    · cases h
    · split at h
      · cases h
      · split at h
        · rename_i hps
          exact ⟨fun hd => absurd (hps.symm.trans hd) (by decide),
            fun _ => evalPowerOn_tags_length g s s' h⟩
        · obtain ⟨h1, h2⟩ := evalDraining_tags_length g s s' h hl
          exact ⟨fun _ hw hr => h1 hw hr, fun hn => h2 (fun hc => hn ⟨‹_›, hc.1, hc.2⟩)⟩
        · rename_i hps
          exact ⟨fun hd => absurd (hps.symm.trans hd) (by decide),
            fun _ => evalPowerOff_tags_length g s s' h⟩
        · rename_i hps
          exact ⟨fun hd => absurd (hps.symm.trans hd) (by decide),
            fun _ => evalWakeup_tags_length g s s' h hl⟩
  refine ⟨fun hd hw hr => ⟨pse_neighborRevert g s s' hr hd h, key.1 hd hw hr⟩, key.2, ?_⟩
  intro h5
  by_cases hc : s.power_state = ePowerState.draining ∧ s.wakeup_signal = false ∧
      neighborRevert g s = some true
  · rw [key.1 hc.1 hc.2.1 hc.2.2, h5]
  · exact key.2 hc

/-- Failing input of C36: a router with six inputs, draining, whose neighbor
on port 3 is recorded as draining. The call of PowerStateEvaluate takes it
back to power_on and leaves five drain tags. -/
theorem drain_tags_size_witness :
    router5Wide.inputs = 6 ∧ router5Wide.drain_tags.length = 4 ∧
    PowerStateEvaluate mesh4 router5Wide = some router5WideReverted ∧
    router5WideReverted.power_state = ePowerState.power_on ∧
    router5WideReverted.drain_tags.length = router5Wide.inputs - 1 ∧
    router5WideReverted.drain_tags.length = 5 :=
  have h := (drain_tags_size mesh4 router5Wide router5WideReverted (by rfl) (by rfl)).1
    (by rfl) (by rfl) (by decide)
  ⟨by rfl, by rfl, by rfl, h.1, h.2, by rfl⟩

/-! ## Buffers taken by the fly-over step, and the credit counters -/

theorem takenOn_eq (s : RouterState) (p : Nat) : takenOn s p = takenIn s.next_buf p := rfl

theorem takenIn_set (nb : List BufferState) (i : Nat) (b d : BufferState)
    (hb : nb[i]? = some b) (o : Nat) :
    takenIn (nb.set i d) o = if o = i then takenIn [d] 0 else takenIn nb o := by
  have hlt : i < nb.length := (List.getElem?_eq_some_iff.1 hb).1
  unfold takenIn
  by_cases ho : o = i
  · subst ho
    simp [hlt]
  · rw [if_neg ho, List.getElem?_set_ne (Ne.symm ho)]

theorem takenIn_one (nb : List BufferState) (i : Nat) (b : BufferState)
    (hb : nb[i]? = some b) : takenIn nb i = takenIn [b] 0 := by
  unfold takenIn
  simp [hb]

theorem takenIn_call (b : BufferState) (c : BufCall) :
    takenIn [b.call c] 0 = takenIn [b] 0 ++ takenIn [{ avail := [], calls := [c] }] 0 := by
  unfold takenIn BufferState.call
  simp

theorem flovFlits_taken (inputs vcs : Nat) (flits : List (Nat × Flit))
    (nb nb' : List BufferState) (ob ob' : List (List Flit))
    (h : flovFlits inputs vcs flits nb ob = some (nb', ob')) (o : Nat) :
    takenIn nb' o = takenIn nb o ++ flovTakes inputs vcs flits o := by
  induction flits generalizing nb ob with
  | nil =>
    unfold flovFlits at h
    cases h
    simp [flovTakes]
  | cons e rest ih =>
    obtain ⟨input, f⟩ := e
    unfold flovFlits at h
    split at h
    · cases h
    · split at h
      · cases h
      · simp only at h
        split at h
        · cases h
        · cases hn : nb[opposite input]? with
          | none => simp only [hn] at h; cases h
          | some dest_buf =>
            simp only [hn] at h
            cases hq : ob[opposite input]? with
            | none => simp only [hq] at h; cases h
            | some q =>
              simp only [hq] at h
              rw [ih _ _ h, takenIn_set nb _ dest_buf _ hn]
              by_cases ho : o = opposite input
              · subst ho
                rw [if_pos rfl, takenIn_call, takenIn_one nb _ dest_buf hn]
                cases hh : f.head with
                | true =>
                  simp only [if_true]
                  rw [takenIn_call]
                  simp [flovTakes, takenIn, hh, List.filter_cons]
                | false =>
                  simp [flovTakes, takenIn, hh, List.filter_cons]
              · rw [if_neg ho]
                have hne : ¬ opposite input = o := fun hc => ho hc.symm
                simp [flovTakes, List.filter_cons, hne]

theorem flovCredits_taken (g : Globals) (now id : Int) (outputs vcs : Nat)
    (items pc : List CreditItem) (nb nb1 : List BufferState) (oqc oqc1 : List (Nat × Credit))
    (h : flovCredits g now id outputs vcs items nb oqc = some (pc, nb1, oqc1)) (o : Nat) :
    takenIn nb1 o = takenIn nb o := by
  induction items generalizing nb oqc with
  | nil =>
    unfold flovCredits at h
    cases h
    rfl
  | cons item rest ih =>
    unfold flovCredits at h
    split at h
    · cases h
      rfl
    · split at h
      · cases h
      · cases hn : nb[item.output]? with
        | none => simp only [hn] at h; cases h
        | some dest_buf =>
          simp only [hn] at h
          have hset : takenIn (nb.set item.output
              (dest_buf.call (BufCall.ProcessCredit item.credit))) o = takenIn nb o := by
            rw [takenIn_set nb _ dest_buf _ hn]
            by_cases ho : o = item.output
            · subst ho
              rw [if_pos rfl, takenIn_call, takenIn_one nb _ dest_buf hn]
              simp [takenIn]
            · rw [if_neg ho]
          repeat' split at h
          all_goals first
            | cases h
            | (rw [ih _ _ h]; exact hset)

theorem mem_takenIn_call (b : BufferState) (c0 c : BufCall)
    (h : c ∈ takenIn [b.call c0] 0) :
    c ∈ takenIn [b] 0 ∨ (c = c0 ∧ ∃ v t, c0 = BufCall.TakeBuffer v t) := by
  rw [takenIn_call, List.mem_append] at h
  rcases h with h | h
  · exact Or.inl h
  · right
    unfold takenIn at h
    cases c0 <;> simp at h
    exact ⟨h, _, _, rfl⟩

theorem mem_takenIn_set (nb : List BufferState) (i : Nat) (b d : BufferState)
    (hb : nb[i]? = some b) (o : Nat) (c : BufCall) (h : c ∈ takenIn (nb.set i d) o) :
    c ∈ takenIn nb o ∨ (o = i ∧ c ∈ takenIn [d] 0) := by
  rw [takenIn_set nb i b d hb] at h
  by_cases ho : o = i
  · rw [if_pos ho] at h
    exact Or.inr ⟨ho, h⟩
  · rw [if_neg ho] at h
    exact Or.inl h

theorem mem_takenIn_set_call (nb : List BufferState) (i : Nat) (b : BufferState)
    (hb : nb[i]? = some b) (c0 : BufCall) (o : Nat) (c : BufCall)
    (h : c ∈ takenIn (nb.set i (b.call c0)) o) :
    c ∈ takenIn nb o ∨ (c = c0 ∧ ∃ v t, c0 = BufCall.TakeBuffer v t) := by
  rcases mem_takenIn_set nb i b _ hb o c h with h1 | ⟨ho, h1⟩
  · exact Or.inl h1
  · rcases mem_takenIn_call b c0 c h1 with h2 | h2
    · left
      rw [ho, takenIn_one nb i b hb]
      exact h2
    · exact Or.inr h2

theorem vcGrantBranch_taken (g : Globals) (cfg : AllocConfig) (input vc : Nat) (oav : Int)
    (x x1 : RouterState) (h : vcGrantBranch g cfg input vc oav x = some x1) (o : Nat)
    (c : BufCall) (hc : c ∈ takenOn x1 o) :
    c ∈ takenOn x o ∨
      c = BufCall.TakeBuffer (Int.tmod oav x.vcs) ((input : Int) * (x.vcs : Int) + (vc : Int)) := by
  rw [takenOn_eq] at hc ⊢
  unfold vcGrantBranch at h
  split at h
  · cases h
  · cases hd : cdiv oav (x.vcs : Int) with
    | none => simp only [hd] at h; cases h
    | some mo =>
      cases hm : cmod oav (x.vcs : Int) with
      | none => simp only [hd, hm] at h; cases h
      | some mv =>
        have hmv : mv = Int.tmod oav x.vcs := by
          unfold cmod at hm
          split at hm
          · cases hm
          · cases hm; rfl
        simp only [hd, hm] at h
        repeat' split at h
        all_goals first
          | (cases h; done)
          | (cases h; exact Or.inl hc)
          | (cases h
             have hnb := ‹x.next_buf[_]? = some _›
             rcases mem_takenIn_set_call _ _ _ hnb _ o c hc with h1 | ⟨h1, _⟩
             · exact Or.inl h1
             · exact Or.inr (hmv ▸ h1))


/-- C39. On a state that passes the assertions of the call, _RFlovStep
returns, and every entry of credit_counter that was not negative is still not
negative, has decreased by one at most, and has decreased only for an output
port out in 0..3 and a VC that was not in the credit pending for input port
opposite(out) when the replay loop started and is in it after the call: the
decrement goes with the insertion of the VC by the replay loop. The credits
pending at the start of the replay loop are those the credit loop returns. -/
theorem credit_counter_bounds (g : Globals) (now : Int) (s : RouterState)
    (hwf : FlovReady g s) :
    ∃ s' nb ob pc nb1 oqc,
      _RFlovStep g now s = some s' ∧
      flovFlits s.inputs s.vcs s.in_queue_flits s.next_buf s.output_buffer = some (nb, ob) ∧
      flovCredits g now s.id s.outputs s.vcs s.proc_credits nb s.out_queue_credits =
        some (pc, nb1, oqc) ∧
      ∀ p v k, counterAt s.credit_counter p v = some k → 0 ≤ k →
        ∃ k', counterAt s'.credit_counter p v = some k' ∧ 0 ≤ k' ∧ k - 1 ≤ k' ∧ k' ≤ k ∧
          (k' ≠ k → k' = k - 1 ∧ p < 4 ∧ v < s.vcs ∧
            (v : Int) ∉ pendingVCs oqc (opposite p) ∧
            (v : Int) ∈ pendingVCs s'.out_queue_credits (opposite p)) := by
  obtain ⟨s', hs'⟩ := rflovStep_total g now s hwf
  obtain ⟨nb, ob, pc, nb1, oqc, cc, oqc1, hf, hc, hr, -, -, -, -, hcc', hoq', -⟩ :=
    rflovStep_parts g now s s' hs'
  have ho4 := hwf.2.2.2.2.2.2.2.2.2.1
  have hcc := hwf.2.2.2.2.2.2.2.2.2.2.2.2
  obtain ⟨cc2, oqc2, hr2, -, hcs, hps⟩ := replay_spec s.outputs s.vcs ho4 [0, 1, 2, 3]
    (by decide) (by decide) s.credit_counter hcc oqc
  rw [hr] at hr2
  simp only [Option.some.injEq, Prod.mk.injEq] at hr2
  obtain ⟨rfl, rfl⟩ := hr2
  refine ⟨s', nb, ob, pc, nb1, oqc, hs', hf, hc, ?_⟩
  intro p v k hk hnn
  rw [hcc', hoq', hcs]
  by_cases hcond : opposite p ∈ [0, 1, 2, 3] ∧ p < 4 ∧ v < s.vcs ∧
      positiveAt s.credit_counter p v = true ∧ (v : Int) ∉ pendingVCs oqc (opposite p)
  · rw [if_pos hcond, hk]
    obtain ⟨hmem, hp4, hv, hpos, hnp⟩ := hcond
    have hk0 : 0 < k := by
      unfold positiveAt at hpos
      rw [hk] at hpos
      simpa using hpos
    refine ⟨k - 1, rfl, by omega, by omega, by omega, fun _ => ⟨rfl, hp4, hv, hnp, ?_⟩⟩
    rw [hps]
    exact Or.inr ⟨hmem, v, hv, rfl, by rw [opposite_opposite p hp4]; exact hpos⟩
  · rw [if_neg hcond]
    exact ⟨k, hk, hnn, by omega, by omega, fun h => absurd rfl h⟩

/-- Witness of C39: router 5 is off and owes one credit of VC 0 of output
port 0; after the call no counter is negative. -/
theorem credit_counter_bounds_witness :
    FlovReady mesh4 router5Owing ∧ counterAt router5Owing.credit_counter 0 0 = some 1 ∧
    ∃ s', _RFlovStep mesh4 0 router5Owing = some s' ∧
      ∃ k', counterAt s'.credit_counter 0 0 = some k' ∧ 0 ≤ k' ∧ k' ≤ 1 :=
  ⟨by decide, by decide,
    (credit_counter_bounds mesh4 0 router5Owing (by decide)).elim fun s' h =>
      h.elim fun nb h => h.elim fun ob h => h.elim fun pc h => h.elim fun nb1 h =>
        h.elim fun oqc h =>
          (h.2.2.2 0 0 1 (by decide) (by decide)).elim fun k' hk =>
            ⟨s', h.1, k', hk.1, hk.2.1, hk.2.2.2.1⟩⟩

theorem counterAt_replicate (n m p v : Nat) (k : Int)
    (h : counterAt (List.replicate n (List.replicate m 0)) p v = some k) : k = 0 := by
  unfold counterAt at h
  rw [List.getElem?_replicate] at h
  split at h
  · simp only [Option.some_bind, List.getElem?_replicate] at h
    split at h
    · cases h; rfl
    · cases h
  · cases h

theorem replayVCs_back (inp out : Nat) (l : List Nat) (cc cc' : List (List Int))
    (oqc oqc' : List (Nat × Credit))
    (h : replayVCs inp out l cc oqc = some (cc', oqc')) (p v : Nat) (k : Int)
    (hk : counterAt cc' p v = some k) :
    ∃ k0, counterAt cc p v = some k0 ∧ k ≤ k0 ∧ (k0 ≤ 0 → k = k0) := by
  induction l generalizing cc oqc with
  | nil =>
    unfold replayVCs at h
    cases h
    exact ⟨k, hk, le_refl _, fun _ => rfl⟩
  | cons vc rest ih =>
    unfold replayVCs at h
    cases hrow : cc[out]? with
    | none => simp only [hrow] at h; cases h
    | some row =>
      cases hn : row[vc]? with
      | none => simp only [hrow, hn] at h; cases h
      | some n =>
        simp only [hrow, hn] at h
        have hvc : vc < row.length := (List.getElem?_eq_some_iff.1 hn).1
        repeat' split at h
        all_goals first
          | cases h
          | exact ih _ _ h
          | (obtain ⟨k1, hk1, hle, hz⟩ := ih _ _ h
             rw [counterAt_set cc out vc row (n - 1) hrow hvc] at hk1
             split at hk1
             · rename_i hpv
               obtain ⟨rfl, rfl⟩ := hpv
               cases hk1
               refine ⟨n, ?_, by omega, fun h0 => ?_⟩
               · rw [counterAt_row cc p v row hrow]
                 exact hn
               · omega
             · exact ⟨k1, hk1, hle, hz⟩)

theorem replay_back (m : Nat) (l : List Nat) (cc cc' : List (List Int))
    (oqc oqc' : List (Nat × Credit))
    (h : replay m l cc oqc = some (cc', oqc')) (p v : Nat) (k : Int)
    (hk : counterAt cc' p v = some k) :
    ∃ k0, counterAt cc p v = some k0 ∧ k ≤ k0 ∧ (k0 ≤ 0 → k = k0) := by
  induction l generalizing cc oqc with
  | nil =>
    unfold replay at h
    cases h
    exact ⟨k, hk, le_refl _, fun _ => rfl⟩
  | cons inp rest ih =>
    unfold replay at h
    cases hr : replayVCs inp (opposite inp) (List.range m) cc oqc with
    | none => simp only [hr] at h; cases h
    | some r =>
      obtain ⟨cc1, oqc1⟩ := r
      simp only [hr] at h
      obtain ⟨k1, hk1, hle1, hz1⟩ := ih _ _ h
      obtain ⟨k0, hk0, hle0, hz0⟩ := replayVCs_back inp (opposite inp) _ cc cc1 oqc oqc1 hr p v k1 hk1
      refine ⟨k0, hk0, by omega, fun h0 => ?_⟩
      have := hz0 h0
      have := hz1 (by omega)
      omega

theorem replayVCs_idle (inp out : Nat) (l : List Nat) (cc cc' : List (List Int))
    (oqc oqc' : List (Nat × Credit))
    (h : replayVCs inp out l cc oqc = some (cc', oqc'))
    (hz : ∀ v k, counterAt cc out v = some k → k ≤ 0) : cc' = cc ∧ oqc' = oqc := by
  induction l generalizing oqc with
  | nil =>
    unfold replayVCs at h
    cases h
    exact ⟨rfl, rfl⟩
  | cons vc rest ih =>
    unfold replayVCs at h
    cases hrow : cc[out]? with
    | none => simp only [hrow] at h; cases h
    | some row =>
      cases hn : row[vc]? with
      | none => simp only [hrow, hn] at h; cases h
      | some n =>
        simp only [hrow, hn] at h
        have hle : n ≤ 0 := hz vc n (by rw [counterAt_row cc out vc row hrow]; exact hn)
        rw [if_neg (by omega)] at h
        exact ih _ h

theorem replayVCs_other (inp out : Nat) (l : List Nat) (cc cc' : List (List Int))
    (oqc oqc' : List (Nat × Credit))
    (h : replayVCs inp out l cc oqc = some (cc', oqc')) (q : Nat) (hq : q ≠ inp) :
    mapFind q oqc' = mapFind q oqc := by
  induction l generalizing cc oqc with
  | nil =>
    unfold replayVCs at h
    cases h
    rfl
  | cons vc rest ih =>
    unfold replayVCs at h
    cases hrow : cc[out]? with
    | none => simp only [hrow] at h; cases h
    | some row =>
      cases hn : row[vc]? with
      | none => simp only [hrow, hn] at h; cases h
      | some n =>
        simp only [hrow, hn] at h
        repeat' split at h
        all_goals first
          | cases h
          | exact ih _ _ h
          | (rw [ih _ _ h, mapFind_insert, if_neg hq])
          | (rw [ih _ _ h, mapFind_update, if_neg hq, mapFind_insert, if_neg hq])

theorem replay_boundary (m : Nat) (l : List Nat) (cc cc' : List (List Int))
    (oqc oqc' : List (Nat × Credit))
    (h : replay m l cc oqc = some (cc', oqc')) (q : Nat)
    (hz : ∀ v k, counterAt cc (opposite q) v = some k → k ≤ 0) :
    mapFind q oqc' = mapFind q oqc := by
  induction l generalizing cc oqc with
  | nil =>
    unfold replay at h
    cases h
    rfl
  | cons inp rest ih =>
    unfold replay at h
    cases hr : replayVCs inp (opposite inp) (List.range m) cc oqc with
    | none => simp only [hr] at h; cases h
    | some r =>
      obtain ⟨cc1, oqc1⟩ := r
      simp only [hr] at h
      have hz1 : ∀ v k, counterAt cc1 (opposite q) v = some k → k ≤ 0 := by
        intro v k hk
        obtain ⟨k0, hk0, hle, -⟩ :=
          replayVCs_back inp (opposite inp) _ cc cc1 oqc oqc1 hr (opposite q) v k hk
        have := hz v k0 hk0
        omega
      rw [ih _ _ h hz1]
      by_cases hq : q = inp
      · subst hq
        rw [(replayVCs_idle q (opposite q) _ cc cc1 oqc oqc1 hr hz).2]
      · exact replayVCs_other inp (opposite inp) _ cc cc1 oqc oqc1 hr q hq

theorem flovCredits_boundary (g : Globals) (now id : Int) (outputs vcs : Nat)
    (items pc : List CreditItem) (nb nb1 : List BufferState) (oqc oqc1 : List (Nat × Credit))
    (h : flovCredits g now id outputs vcs items nb oqc = some (pc, nb1, oqc1)) (q : Nat)
    (hq : isBoundary g id q = true) : mapFind q oqc1 = mapFind q oqc := by
  induction items generalizing nb oqc with
  | nil =>
    unfold flovCredits at h
    cases h
    rfl
  | cons item rest ih =>
    unfold flovCredits at h
    split at h
    · cases h
      rfl
    · split at h
      · cases h
      · cases hn : nb[item.output]? with
        | none => simp only [hn] at h; cases h
        | some dest_buf =>
          cases he : oppBoundary g id item.output with
          | none => simp only [hn, he] at h; cases h
          | some edge =>
            simp only [hn, he] at h
            split at h
            · rename_i hcond
              have hne : q ≠ opposite item.output := by
                intro hc
                have hK : g.gK ≠ 0 := by
                  intro h0
                  unfold oppBoundary cmod cdiv at he
                  have := hcond.1
                  interval_cases item.output <;> simp [h0] at he
                rw [oppBoundary_eq g id _ hK, isOppBoundary_opposite g id _ hcond.1,
                  ← hc, hq, hcond.2] at he
                cases he
              repeat' split at h
              all_goals first
                | cases h
                | (rw [ih _ _ h, mapFind_update, if_neg hne, mapFind_insert, if_neg hne])
            · exact ih _ _ h

theorem evalDraining_counter (g : Globals) (s s' : RouterState)
    (h : evalDraining g s = some s') :
    s'.credit_counter = s.credit_counter ∨
      snapshot g s.id s.next_buf s.vcs [0, 1, 2, 3] s.credit_counter =
        some s'.credit_counter := by
  unfold evalDraining at h
  simp only [] at h
  repeat' split at h
  all_goals first
    | (cases h; done)
    | (cases h; exact Or.inl rfl)
    | (cases h; exact Or.inr ‹_›)

theorem pse_counter (g : Globals) (s s' : RouterState)
    (h : PowerStateEvaluate g s = some s') :
    s'.id = s.id ∧
    (s'.credit_counter = s.credit_counter ∨
      snapshot g s.id s.next_buf s.vcs [0, 1, 2, 3] s.credit_counter =
        some s'.credit_counter) := by
  refine ⟨(pse_tags g s s' h).1, ?_⟩
  unfold PowerStateEvaluate at h
  split at h
  · cases h
  · split at h
    · cases h
    · split at h
      · left
        unfold evalPowerOn at h
        simp only [] at h
        repeat' split at h
        all_goals first
          | (cases h; done)
          | (cases h; rfl)
      · exact evalDraining_counter g s s' h
      · left
        unfold evalPowerOff at h
        simp only [] at h
        repeat' split at h
        all_goals first
          | (cases h; done)
          | (cases h; rfl)
      · left
        unfold evalWakeup at h
        simp only [] at h
        repeat' split at h
        all_goals first
          | (cases h; done)
          | (cases h; rfl)

theorem rflovStep_id (g : Globals) (now : Int) (s s' : RouterState)
    (h : _RFlovStep g now s = some s') : s'.id = s.id ∧ s'.vcs = s.vcs := by
  unfold _RFlovStep at h
  repeat' split at h
  all_goals first
    | (cases h; done)
    | (cases h; exact ⟨rfl, rfl⟩)

theorem counterReachable_zero (g : Globals) (hK : g.gK ≠ 0) (s : RouterState)
    (hr : CounterReachable g s) : ZeroTowardsEdge g s := by
  induction hr with
  | init s h =>
    intro i _ _ v k hk
    rw [h] at hk
    exact counterAt_replicate _ _ _ _ _ hk
  | evaluate s s' _ h ih =>
    obtain ⟨hid, hcc⟩ := pse_counter g s s' h
    intro i hi hb v k hk
    rw [hid] at hb
    rcases hcc with hcc | hcc
    · rw [hcc] at hk
      exact ih i hi hb v k hk
    · rw [snapshot_spec g s.id s.next_buf s.vcs hK [0, 1, 2, 3] _ _ hcc i v,
        if_neg (by
          rw [isOppBoundary_opposite g s.id i hi, hb]
          simp)] at hk
      exact ih i hi hb v k hk
  | flyover s s' now _ h ih =>
    obtain ⟨hid, -⟩ := rflovStep_id g now s s' h
    obtain ⟨nb, ob, pc, nb1, oqc, cc, oqc1, -, -, hrep, -, -, -, -, hcc', -⟩ :=
      rflovStep_parts g now s s' h
    intro i hi hb v k hk
    rw [hid] at hb
    rw [hcc'] at hk
    obtain ⟨k0, hk0, -, hz⟩ := replay_back s.vcs _ s.credit_counter cc oqc oqc1 hrep i v k hk
    have h0 := ih i hi hb v k0 hk0
    rw [hz (by omega), h0]
  | other s s' _ h1 h2 ih =>
    intro i hi hb v k hk
    rw [h2] at hb
    rw [h1] at hk
    exact ih i hi hb v k hk

/-- C40. In every state that a router reaches from its construction by calls
of PowerStateEvaluate and `_RFlovStep` and by the members that do not write
the counters, credit_counter[i][v] is 0 for every port i in 0..3 whose
opposite port is a fabric boundary of the router and for every VC v. Hence a
call of `_RFlovStep` on such a state leaves what is pending in
`_out_queue_credits` for a boundary input port as it was: neither the replay
loop nor the credit loop makes a credit for it. -/
theorem no_credit_towards_boundary (g : Globals) (hK : g.gK ≠ 0) (s : RouterState)
    (hr : CounterReachable g s) :
    (∀ i < 4, isBoundary g s.id (opposite i) = true →
      ∀ v k, counterAt s.credit_counter i v = some k → k = 0) ∧
    (∀ now s' q, q < 4 → isBoundary g s.id q = true → _RFlovStep g now s = some s' →
      mapFind q s'.out_queue_credits = mapFind q s.out_queue_credits ∧
      ∀ v k, counterAt s'.credit_counter (opposite q) v = some k → k = 0) := by
  have hz := counterReachable_zero g hK s hr
  refine ⟨hz, ?_⟩
  intro now s' q hq hb h
  obtain ⟨nb, ob, pc, nb1, oqc, cc, oqc1, -, hcred, hrep, -, -, -, -, hcc', hoq'⟩ :=
    rflovStep_parts g now s s' h
  have hoq := hoq'.1
  have hz' := counterReachable_zero g hK s' (CounterReachable.flyover s s' now hr h)
  have hid := (rflovStep_id g now s s' h).1
  have hop := opposite_opposite q hq
  refine ⟨?_, ?_⟩
  · rw [hoq, replay_boundary s.vcs _ s.credit_counter cc oqc oqc1 hrep q (by
      intro v k hk
      have := hz (opposite q) (opposite_lt q hq) (by rw [hop]; exact hb) v k hk
      omega)]
    exact flovCredits_boundary g now s.id s.outputs s.vcs _ pc nb nb1 _ oqc hcred q hb
  · intro v k hk
    exact hz' (opposite q) (opposite_lt q hq) (by rw [hop, hid]; exact hb) v k hk

/-- Witness of C40: router 4 on the west edge, after the call of
PowerStateEvaluate that completed its drain. Its port 1 is a boundary, and the
counters of output port 0 are zero although the downstream state of port 0 has
four credits available. -/
theorem no_credit_towards_boundary_witness :
    isBoundary mesh4 router4Off.id (opposite 0) = true ∧
    availableAt router4Off 0 0 = some 4 ∧
    counterAt router4Off.credit_counter 0 0 = some 0 ∧
    ∀ v k, counterAt router4Off.credit_counter 0 v = some k → k = 0 :=
  ⟨by decide, by decide, by decide,
    (no_credit_towards_boundary mesh4 (by decide) router4Off
      (CounterReachable.evaluate router4Drained router4Off
        (CounterReachable.init router4Drained (by rfl)) (by rfl))).1 0 (by decide)
      (by decide)⟩

/-! ## Buffers returned and route sets recomputed at a retarget -/

theorem vcGrantBranch_next_buf (g : Globals) (cfg : AllocConfig) (s s' : RouterState)
    (input vc : Nat) (oav : Int) (h : vcGrantBranch g cfg input vc oav s = some s')
    (hr : s'.route_vcs = s.route_vcs ++ [{ time := -1, input := input, vc := vc }]) :
    s'.next_buf = s.next_buf := by
  unfold vcGrantBranch at h
  split at h
  · cases h
  · cases hd : cdiv oav (s.vcs : Int) with
    | none => simp only [hd] at h; cases h
    | some mo =>
      cases hm : cmod oav (s.vcs : Int) with
      | none => simp only [hd, hm] at h; cases h
      | some mv =>
        simp only [hd, hm] at h
        repeat' split at h
        all_goals first
          | (cases h; done)
          | (cases h; rfl)
          | (cases h; exact absurd hr (ne_append_singleton _ _))

theorem vcNoGrantBranch_next_buf (g : Globals) (cfg : AllocConfig) (now : Int) (f : Flit)
    (s s' : RouterState) (input vc : Nat)
    (h : vcNoGrantBranch g cfg now f input vc s = some s') : s'.next_buf = s.next_buf := by
  unfold vcNoGrantBranch at h
  repeat' split at h
  all_goals first
    | (cases h; done)
    | (cases h; rfl)

theorem swAllocTimeout_next_buf (now : Int) (f : Flit) (input vc : Nat) (cur_buf : Buffer)
    (v : VC) (s s' : RouterState) (h : swAllocTimeout now f input vc cur_buf v s = some s') :
    (s'.route_vcs = s.route_vcs ∧ s'.next_buf = s.next_buf) ∨
    (s'.route_vcs = s.route_vcs ++ [{ time := -1, input := input, vc := vc }] ∧
      ((v.state = eVCState.vc_alloc ∧ s'.next_buf = s.next_buf) ∨
        (v.state = eVCState.active ∧ ReturnedBuffer s s' v))) := by
  unfold swAllocTimeout at h
  repeat' split at h
  all_goals first
    | (cases h; done)
    | (cases h; exact Or.inl ⟨rfl, rfl⟩)
    | (cases h; exact Or.inr ⟨rfl, Or.inr ⟨‹_›, _, ‹_›, rfl⟩⟩)
    | (cases h
       rename_i hst _ _
       exact Or.inr ⟨rfl, Or.inl ⟨not_not.1 hst, rfl⟩⟩)

theorem swNoGrantBranch_next_buf (g : Globals) (cfg : AllocConfig) (s s' : RouterState)
    (now : Int) (f : Flit) (input vc : Nat) (cur_buf : Buffer) (v : VC)
    (hb : s.buf[input]? = some cur_buf) (hv : cur_buf[vc]? = some v)
    (h : swNoGrantBranch g cfg now f input vc s = some s') :
    (s'.route_vcs = s.route_vcs ∧ s'.next_buf = s.next_buf) ∨
    (s'.route_vcs = s.route_vcs ++ [{ time := -1, input := input, vc := vc }] ∧
      ((v.state = eVCState.vc_alloc ∧ s'.next_buf = s.next_buf) ∨
        (v.state = eVCState.active ∧ ReturnedBuffer s s' v))) := by
  unfold swNoGrantBranch at h
  simp only [hb, hv] at h
  split at h
  · exact swAllocTimeout_next_buf now f input vc cur_buf v s s' h
  · split at h
    · rename_i hst
      repeat' split at h
      all_goals first
        | (cases h; done)
        | exact swAllocTimeout_next_buf now f input vc cur_buf v s s' h
        | (cases h; exact Or.inr ⟨rfl, Or.inl ⟨hst, rfl⟩⟩)
    · split at h
      · cases h
      · rename_i hact
        have hact1 : v.state = eVCState.active := not_not.1 hact
        repeat' split at h
        all_goals first
          | (cases h; done)
          | exact swAllocTimeout_next_buf now f input vc cur_buf v s s' h
          | (cases h; exact Or.inr ⟨rfl, Or.inr ⟨hact1, _, ‹_›, rfl⟩⟩)

theorem eraseSkipping_noEntry (input vc : Nat) (l : List AllocItem)
    (h : NoEntry input vc l) : eraseSkipping input vc l = l := by
  induction l with
  | nil => rfl
  | cons item rest ih =>
    unfold eraseSkipping
    rw [if_neg (h item (List.mem_cons_self _ _)),
      ih (fun x hx => h x (List.mem_cons_of_mem _ hx))]

theorem noEntry_of_countP (input vc : Nat) (l : List AllocItem)
    (h : l.countP (fun e => decide (e.input = input ∧ e.vc = vc)) = 0) :
    NoEntry input vc l := by
  intro item hi hc
  rw [List.countP_eq_zero] at h
  exact absurd (h item hi) (by simpa using hc)

theorem eraseSkipping_atMostOne (input vc : Nat) (l : List AllocItem)
    (h : AtMostOneEntry input vc l) :
    eraseSkipping input vc l =
      l.filter (fun e => !decide (e.input = input ∧ e.vc = vc)) ∧
    NoEntry input vc (eraseSkipping input vc l) := by
  have hfilter : eraseSkipping input vc l =
      l.filter (fun e => !decide (e.input = input ∧ e.vc = vc)) := by
    induction l with
    | nil => rfl
    | cons item rest ih =>
      unfold AtMostOneEntry at h
      by_cases hm : item.input = input ∧ item.vc = vc
      · rw [List.countP_cons_of_pos _ _ (by simpa using hm)] at h
        have hno := noEntry_of_countP input vc rest (by omega)
        have hrest : rest.filter (fun e => !decide (e.input = input ∧ e.vc = vc)) = rest := by
          rw [List.filter_eq_self]
          intro e he
          simp only [Bool.not_eq_true', decide_eq_false_iff_not]
          exact hno e he
        rw [List.filter_cons_of_neg (by simpa using hm), hrest]
        unfold eraseSkipping
        rw [if_pos hm]
        cases rest with
        | nil => rfl
        | cons next rest1 =>
          simp only
          rw [eraseSkipping_noEntry input vc rest1
            (fun x hx => hno x (List.mem_cons_of_mem _ hx))]
      · rw [List.countP_cons_of_neg _ _ (by simpa using hm)] at h
        rw [List.filter_cons_of_pos (by
          simp only [Bool.not_eq_true', decide_eq_false_iff_not]
          exact hm)]
        unfold eraseSkipping
        rw [if_neg hm, ih h]
  refine ⟨hfilter, ?_⟩
  rw [hfilter]
  intro item hi
  rw [List.mem_filter] at hi
  have h2 := hi.2
  simp only [Bool.not_eq_true', decide_eq_false_iff_not] at h2
  exact h2

theorem backToRoute_of_ineligible (g : Globals) (s : RouterState) (p : Nat)
    (h : Ineligible g s p) : backToRoute g s p = some true := by
  obtain ⟨router, hsink, hlt, hst⟩ := h
  unfold backToRoute
  rw [hsink]
  simp only
  rw [if_neg (by omega)]
  rcases hst with h1 | h1 <;> rw [h1] <;> rfl

theorem vcGrantBranch_back (g : Globals) (cfg : AllocConfig) (input vc : Nat) (oav : Int)
    (s : RouterState) (cur_buf : Buffer) (v : VC)
    (hb : s.buf[input]? = some cur_buf) (hv : cur_buf[vc]? = some v)
    (hcfg : cfg.vc_allocator = true) (hoav : 0 ≤ oav) (hvcs : s.vcs ≠ 0)
    (hout : Int.tdiv oav s.vcs < (s.outputs : Int))
    (hin : Ineligible g s (Int.tdiv oav s.vcs).toNat) :
    vcGrantBranch g cfg input vc oav s = some { s with
      buf := s.buf.set input
        (cur_buf.set vc { v with route_set := [], state := eVCState.routing })
      route_vcs := s.route_vcs ++ [{ time := -1, input := input, vc := vc }]
      sw_alloc_vcs :=
        if cfg.speculative = true then eraseSkipping input vc s.sw_alloc_vcs
        else s.sw_alloc_vcs
      vc_alloc_vcs := s.vc_alloc_vcs.tail } := by
  have hpos : (0 : Int) < (s.vcs : Int) := by omega
  have hne : ((s.vcs : Nat) : Int) ≠ 0 := by omega
  have h1 : 0 ≤ Int.tdiv oav s.vcs := Int.tdiv_nonneg hoav (by omega)
  have h2 : 0 ≤ Int.tmod oav s.vcs := Int.tmod_nonneg _ hoav
  have h3 : Int.tmod oav s.vcs < (s.vcs : Int) := Int.tmod_lt_of_pos _ hpos
  have hc : ¬ cfg.vc_allocator = false := by rw [hcfg]; decide
  unfold vcGrantBranch cdiv cmod
  simp only [if_neg hc, if_neg hne, hb, hv, backToRoute_of_ineligible g s _ hin]
  rw [if_neg (not_not.2 ⟨h1, hout⟩), if_neg (not_not.2 ⟨h2, h3⟩)]

theorem getRouteSet_set (l : List Buffer) (i j : Nat) (b : Buffer) (v x : VC)
    (hb : l[i]? = some b) (hv : b[j]? = some v) :
    Option.bind (List.set l i (List.set b j x))[i]? (fun b1 => (b1[j]?).map VC.route_set) =
      some x.route_set := by
  have hi : i < l.length := (List.getElem?_eq_some_iff.1 hb).1
  have hj : j < b.length := (List.getElem?_eq_some_iff.1 hv).1
  rw [List.getElem?_set_self hi]
  simp [List.getElem?_set_self hj]

/-! ## A full power cycle of a neighbor -/

theorem noteNeighborState_gate (s s1 : RouterState) (p : Nat) (h : Handshake)
    (st : ePowerState) (hst : h.new_state = some st)
    (hg : st = ePowerState.draining ∨ st = ePowerState.wakeup)
    (hev : noteNeighborState s p h = some s1) :
    s1.drain_done_sent = s.drain_done_sent.set p false ∧ p < s.drain_done_sent.length ∧
    s1.neighbor_states = s.neighbor_states.set p st ∧ p < s.neighbor_states.length ∧
    s1.next_buf = s.next_buf := by
  unfold noteNeighborState at hev
  rcases hg with rfl | rfl
  all_goals
    simp only [hst, Option.some.injEq, reduceCtorEq, if_false] at hev
    repeat' split at hev
    all_goals first
      | (cases hev; done)
      | (cases hev
         have hs := ‹vecSet s.drain_done_sent p false = some _›
         have hn := ‹vecSet s.neighbor_states p _ = some _›
         unfold vecSet at hs hn
         split at hs
         · split at hn
           · cases hs
             cases hn
             exact ⟨rfl, ‹_›, rfl, ‹_›, rfl⟩
           · cases hn
         · cases hs)

theorem respondOn_frame (now : Int) (s s' : RouterState) (p : Nat)
    (h : respondOn now s p = some s') :
    s'.drain_tags = s.drain_tags ∧ s'.power_state = s.power_state ∧
    s'.neighbor_states = s.neighbor_states ∧ s'.next_buf = s.next_buf := by
  unfold respondOn at h
  repeat' split at h
  all_goals first
    | (cases h; done)
    | (cases h; exact ⟨rfl, rfl, rfl, rfl⟩)

theorem handshakeResponse_frame (now : Int) (s s' : RouterState)
    (h : _HandshakeResponse now s = some s') :
    s'.drain_tags = s.drain_tags ∧ s'.power_state = s.power_state ∧
    s'.neighbor_states = s.neighbor_states ∧ s'.next_buf = s.next_buf := by
  have loop : ∀ (l : List Nat) (a b : RouterState), respondLoop now l a = some b →
      b.drain_tags = a.drain_tags ∧ b.power_state = a.power_state ∧
      b.neighbor_states = a.neighbor_states ∧ b.next_buf = a.next_buf := by
    intro l
    induction l with
    | nil =>
      intro a b hl
      unfold respondLoop at hl
      cases hl
      exact ⟨rfl, rfl, rfl, rfl⟩
    | cons q rest ih =>
      intro a b hl
      unfold respondLoop at hl
      cases hq : respondOn now a q with
      | none => simp only [hq] at hl; cases hl
      | some a1 =>
        simp only [hq] at hl
        obtain ⟨h1, h2, h3, h4⟩ := respondOn_frame now a a1 q hq
        obtain ⟨g1, g2, g3, g4⟩ := ih a1 b hl
        exact ⟨g1.trans h1, g2.trans h2, g3.trans h3, g4.trans h4⟩
  unfold _HandshakeResponse at h
  split at h
  · cases h
  · exact loop _ s s' h

theorem handshakeEvaluateOne_on (s s' : RouterState) (p : Nat) (h : Handshake)
    (hps : s.power_state = ePowerState.power_on)
    (hev : handshakeEvaluateOne s p h = some s') :
    s'.drain_tags = s.drain_tags ∧ s'.power_state = ePowerState.power_on := by
  obtain ⟨-, h1, -, -, h2, -⟩ := handshakeEvaluateOne_tags s s' p h hev
  have hno : ¬ AckMatches s p h := by
    rintro ⟨-, -, hc | hc⟩ <;> rw [hps] at hc <;> cases hc
  rw [if_neg hno] at h2
  exact ⟨h2, h1.trans hps⟩

theorem handshakeEvaluateOne_parts (s s' : RouterState) (p : Nat) (h : Handshake)
    (hev : handshakeEvaluateOne s p h = some s') :
    ∃ s1, noteNeighborState s p h = some s1 ∧ noteDrainDone s1 p h = some s' ∧ p < 4 := by
  unfold handshakeEvaluateOne at hev
  split at hev
  · cases hev
  · cases hn : noteNeighborState s p h with
    | none => simp only [hn] at hev; cases hev
    | some s1 =>
      simp only [hn] at hev
      exact ⟨s1, rfl, hev, by omega⟩

theorem vecSet_length {α : Type} (l l' : List α) (i : Nat) (x : α)
    (h : vecSet l i x = some l') : l'.length = l.length := by
  unfold vecSet at h
  split at h
  · cases h
    simp
  · cases h

theorem noteNeighborState_sizes (s s1 : RouterState) (p : Nat) (h : Handshake)
    (hev : noteNeighborState s p h = some s1) :
    s1.inputs = s.inputs ∧ s1.outputs = s.outputs ∧ s1.vcs = s.vcs ∧ s1.buf = s.buf ∧
    s1.crossbar_flits = s.crossbar_flits ∧ s1.output_buffer = s.output_buffer ∧
    s1.output_speedup = s.output_speedup ∧ s1.output_sinks = s.output_sinks ∧
    s1.neighbor_states.length = s.neighbor_states.length ∧
    s1.drain_done_sent.length = s.drain_done_sent.length ∧
    s1.next_buf.length = s.next_buf.length := by
  unfold noteNeighborState at hev
  repeat' split at hev
  all_goals first
    | (cases hev; done)
    | (cases hev
       refine ⟨rfl, rfl, rfl, rfl, rfl, rfl, rfl, rfl, ?_, ?_, ?_⟩ <;>
         first
           | rfl
           | exact vecSet_length _ _ _ _ (by assumption)
           | simp only [List.length_set])

theorem noteDrainDone_sizes (s s1 : RouterState) (p : Nat) (h : Handshake)
    (hev : noteDrainDone s p h = some s1) :
    s1.inputs = s.inputs ∧ s1.outputs = s.outputs ∧ s1.vcs = s.vcs ∧ s1.buf = s.buf ∧
    s1.crossbar_flits = s.crossbar_flits ∧ s1.output_buffer = s.output_buffer ∧
    s1.output_speedup = s.output_speedup ∧ s1.output_sinks = s.output_sinks ∧
    s1.resp_hids.length = s.resp_hids.length := by
  unfold noteDrainDone at hev
  repeat' split at hev
  all_goals first
    | (cases hev; done)
    | (cases hev
       refine ⟨rfl, rfl, rfl, rfl, rfl, rfl, rfl, rfl, ?_⟩
       first
         | rfl
         | exact vecSet_length _ _ _ _ (by assumption))

theorem handshakeEvaluateOne_sized (now : Int) (s s' : RouterState) (p : Nat) (h : Handshake)
    (hev : handshakeEvaluateOne s p h = some s') :
    (ResponseSized now s → ResponseSized now s') ∧
    s'.next_buf.length = s.next_buf.length ∧
    s'.resp_hids.length = s.resp_hids.length ∧
    (∀ q, ClearTowards s q → ClearTowards s' q) := by
  obtain ⟨s1, hn, hd, -⟩ := handshakeEvaluateOne_parts s s' p h hev
  obtain ⟨a1, a2, a3, a4, a5, a6, a7, a8, a9, a10, a11⟩ := noteNeighborState_sizes s s1 p h hn
  obtain ⟨b1, b2, b3, b4, b5, b6, b7, b8, b9⟩ := noteDrainDone_sizes s1 s' p h hd
  obtain ⟨-, -, -, c1, c2, c3, -⟩ := noteDrainDone_frame s1 s' p h hd
  obtain ⟨-, -, -, -, d1, -⟩ := noteNeighborState_frame s s1 p h hn
  refine ⟨?_, ?_, ?_, ?_⟩
  · intro hwf
    unfold ResponseSized at hwf ⊢
    rw [b1, a1, b2, a2, b3, a3, b4, a4, b5, a5, b6, a6, b7, a7, b8, a8, b9, d1, c1, a9, c2, a10]
    exact hwf
  · rw [c3, a11]
  · rw [b9, d1]
  · intro q hq
    unfold ClearTowards RoutedTo CrossbarTo GetOutputPort GetState at hq ⊢
    rw [b1, a1, b3, a3, b4, a4, b5, a5, b6, a6, b7, a7]
    exact hq

theorem handshakeEvaluateOne_total (s : RouterState) (p : Nat) (h : Handshake) (hp : p < 4)
    (hn : ∃ s1, noteNeighborState s p h = some s1 ∧ s1.resp_hids = s.resp_hids)
    (hdd : h.drain_done = false) (hrh : p < s.resp_hids.length) :
    ∃ s', handshakeEvaluateOne s p h = some s' := by
  obtain ⟨s1, hs1, hr1⟩ := hn
  obtain ⟨s', hs'⟩ := noteDrainDone_echo_total s1 p h hdd (by rw [hr1]; exact hrh)
  refine ⟨s', ?_⟩
  unfold handshakeEvaluateOne
  rw [if_neg (not_not.2 hp)]
  simp only [hs1]
  exact hs'

theorem handshakeEvaluateOne_ports (s s' : RouterState) (p : Nat) (h : Handshake)
    (hev : handshakeEvaluateOne s p h = some s') :
    ∃ s1, noteNeighborState s p h = some s1 ∧ s'.neighbor_states = s1.neighbor_states ∧
      s'.drain_done_sent = s1.drain_done_sent ∧ s'.next_buf = s1.next_buf := by
  obtain ⟨s1, hn, hd, -⟩ := handshakeEvaluateOne_parts s s' p h hev
  obtain ⟨-, -, -, c1, c2, c3, -⟩ := noteDrainDone_frame s1 s' p h hd
  exact ⟨s1, hn, c1, c2, c3⟩

theorem neighborCycle_result (now1 now2 : Int) (p : Nat) (hdr hoff hwk hon : Handshake)
    (s s6 : RouterState) (hps : s.power_state = ePowerState.power_on)
    (hk3 : hwk.new_state = some ePowerState.wakeup)
    (hk4 : hon.new_state = some ePowerState.power_on)
    (h : neighborCycle now1 now2 p hdr hoff hwk hon s = some s6) :
    s6.drain_done_sent[p]? = some false ∧
    s6.neighbor_states[p]? = some ePowerState.power_on ∧
    s6.drain_tags = s.drain_tags ∧ s6.power_state = ePowerState.power_on := by
  unfold neighborCycle at h
  simp only [Option.bind_eq_some] at h
  obtain ⟨s1, h1, s2, h2, s3, h3, s4, h4, s5, h5, h6⟩ := h
  obtain ⟨t1, q1⟩ := handshakeEvaluateOne_on s s1 p hdr hps h1
  obtain ⟨t2, q2, -, -⟩ := handshakeResponse_frame now1 s1 s2 h2
  obtain ⟨t3, q3⟩ := handshakeEvaluateOne_on s2 s3 p hoff (q2.trans q1) h3
  obtain ⟨t4, q4⟩ := handshakeEvaluateOne_on s3 s4 p hwk q3 h4
  obtain ⟨t5, q5, n5, -⟩ := handshakeResponse_frame now2 s4 s5 h5
  obtain ⟨t6, q6⟩ := handshakeEvaluateOne_on s5 s6 p hon (q5.trans q4) h6
  obtain ⟨u4, hu4, n4, -, -⟩ := handshakeEvaluateOne_ports s3 s4 p hwk h4
  obtain ⟨-, -, g3, g4, -⟩ := noteNeighborState_gate s3 u4 p hwk _ hk3 (Or.inr rfl) hu4
  have hw5 : s5.neighbor_states[p]? = some ePowerState.wakeup := by
    rw [n5, n4, g3, List.getElem?_set_self g4]
  obtain ⟨u6, hu6, n6, d6, -⟩ := handshakeEvaluateOne_ports s5 s6 p hon h6
  obtain ⟨e1, e2, e3, -⟩ := (noteNeighborState_on s5 u6 p hon hk4 hu6).1 hw5
  have hlt : p < s5.neighbor_states.length := (List.getElem?_eq_some_iff.1 hw5).1
  refine ⟨?_, ?_, ?_, q6⟩
  · rw [d6, e1, List.getElem?_set_self e2]
  · rw [n6, e3, List.getElem?_set_self hlt]
  · rw [t6, t5, t4, t3, t2, t1]

theorem clearTowards_congr (s s' : RouterState) (p : Nat) (h : SameButResponses s s')
    (hc : ClearTowards s p) : ClearTowards s' p := by
  obtain ⟨-, e2, e3, e4, e5, e6, e7, -⟩ := sameButResponses_fields s s' h
  unfold ClearTowards RoutedTo CrossbarTo GetOutputPort GetState at hc ⊢
  rw [e2, e3, e4, e5, e6, e7]
  exact hc

theorem handshakeResponse_total (now : Int) (s : RouterState)
    (hps : s.power_state = ePowerState.power_on) (hwf : ResponseSized now s) :
    ∃ s', _HandshakeResponse now s = some s' ∧ SameButResponses s s' ∧
      s'.drain_done_sent.length = s.drain_done_sent.length ∧
      ∀ p < 4, ResponseDue s p → s'.drain_done_sent[p]? = some true := by
  obtain ⟨s', hs', hsame, hlen, hall⟩ :=
    respondLoop_spec now [0, 1, 2, 3] (by decide) (by decide) s hwf
  refine ⟨s', ?_, hsame, hlen, ?_⟩
  · unfold _HandshakeResponse
    rw [if_neg (not_not.2 (Or.inl hps))]
    exact hs'
  · intro p hp hdue
    have hm : p ∈ [0, 1, 2, 3] := by
      have : p = 0 ∨ p = 1 ∨ p = 2 ∨ p = 3 := by omega
      rcases this with rfl | rfl | rfl | rfl <;> decide
    exact ((hall p).1 ⟨hm, hdue⟩).1

theorem neighborCycle_total (now1 now2 : Int) (p : Nat) (hdr hoff hwk hon : Handshake)
    (s : RouterState) (hps : s.power_state = ePowerState.power_on)
    (hk1 : hdr.new_state = some ePowerState.draining)
    (hk2 : hoff.new_state = some ePowerState.power_off)
    (hk3 : hwk.new_state = some ePowerState.wakeup)
    (hk4 : hon.new_state = some ePowerState.power_on)
    (hd1 : hdr.drain_done = false) (hd2 : hoff.drain_done = false)
    (hd3 : hwk.drain_done = false) (hd4 : hon.drain_done = false)
    (hp : p < 4) (hw1 : ResponseSized now1 s) (hw2 : ResponseSized now2 s)
    (hnb : p < s.next_buf.length) (hc : ClearTowards s p) :
    ∃ s6, neighborCycle now1 now2 p hdr hoff hwk hon s = some s6 := by
  have hns : s.neighbor_states.length = 4 := hw1.2.2.2.2.1
  have hdds : s.drain_done_sent.length = 4 := hw1.2.2.2.2.2.1
  have hrh : s.resp_hids.length = 4 := hw1.2.2.2.2.2.2.1
  -- draining
  obtain ⟨s1, h1⟩ := handshakeEvaluateOne_total s p hdr hp
    (noteNeighborState_total s p hdr (by rw [hk1]; decide) (by omega) (by omega) hnb)
    hd1 (by omega)
  obtain ⟨-, q1⟩ := handshakeEvaluateOne_on s s1 p hdr hps h1
  obtain ⟨w11, nb1, rh1, c1⟩ := handshakeEvaluateOne_sized now1 s s1 p hdr h1
  obtain ⟨w12, -, -, -⟩ := handshakeEvaluateOne_sized now2 s s1 p hdr h1
  obtain ⟨u1, hu1, n1, d1, -⟩ := handshakeEvaluateOne_ports s s1 p hdr h1
  obtain ⟨g1, g2, g3, g4, -⟩ := noteNeighborState_gate s u1 p hdr _ hk1 (Or.inl rfl) hu1
  have hdue : ResponseDue s1 p := by
    have hc1 := c1 p hc
    refine ⟨Or.inl ?_, ?_, hc1.1, hc1.2.1, hc1.2.2⟩
    · rw [n1, g3, List.getElem?_set_self g4]
    · rw [d1, g1, List.getElem?_set_self g2]
  -- first response
  obtain ⟨s2, h2, same2, len2, resp2⟩ := handshakeResponse_total now1 s1 q1 (w11 hw1)
  obtain ⟨-, q2, n2, nb2⟩ := handshakeResponse_frame now1 s1 s2 h2
  have w21 := responseSized_congr now1 s1 s2 same2 len2 (w11 hw1)
  have w22 := responseSized_congr now2 s1 s2 same2 len2 (w12 hw2)
  have c2 := clearTowards_congr s1 s2 p same2 (c1 p hc)
  -- power_off
  obtain ⟨s3, h3⟩ := handshakeEvaluateOne_total s2 p hoff hp
    (noteNeighborState_off_total s2 p hoff hk2
      (by rw [n2, n1, g3, List.getElem?_set_self g4]) (resp2 p hp hdue)
      (by rw [nb2, nb1]; exact hnb))
    hd2 (by rw [w21.2.2.2.2.2.2.1]; exact hp)
  obtain ⟨-, q3⟩ := handshakeEvaluateOne_on s2 s3 p hoff (q2.trans q1) h3
  obtain ⟨w31, nb3, rh3, c3⟩ := handshakeEvaluateOne_sized now1 s2 s3 p hoff h3
  obtain ⟨w32, -, -, -⟩ := handshakeEvaluateOne_sized now2 s2 s3 p hoff h3
  have w3 := w32 w22
  -- wakeup
  obtain ⟨s4, h4⟩ := handshakeEvaluateOne_total s3 p hwk hp
    (noteNeighborState_total s3 p hwk (by rw [hk3]; decide)
      (by rw [w3.2.2.2.2.1]; exact hp) (by rw [w3.2.2.2.2.2.1]; exact hp)
      (by rw [nb3, nb2, nb1]; exact hnb))
    hd3 (by rw [w3.2.2.2.2.2.2.1]; exact hp)
  obtain ⟨-, q4⟩ := handshakeEvaluateOne_on s3 s4 p hwk q3 h4
  obtain ⟨w42, nb4, -, -⟩ := handshakeEvaluateOne_sized now2 s3 s4 p hwk h4
  have w4 := w42 w3
  -- second response
  obtain ⟨s5, h5, same5, len5, -⟩ := handshakeResponse_total now2 s4 q4 w4
  obtain ⟨-, q5, -, nb5⟩ := handshakeResponse_frame now2 s4 s5 h5
  have w5 := responseSized_congr now2 s4 s5 same5 len5 w4
  -- power_on
  obtain ⟨s6, h6⟩ := handshakeEvaluateOne_total s5 p hon hp
    (noteNeighborState_on_total s5 p hon hk4
      (by rw [w5.2.2.2.2.1]; exact hp) (by rw [w5.2.2.2.2.2.1]; exact hp)
      (by rw [nb5, nb4, nb3, nb2, nb1]; exact hnb))
    hd4 (by rw [w5.2.2.2.2.2.2.1]; exact hp)
  refine ⟨s6, ?_⟩
  unfold neighborCycle
  simp only [h1, h2, h3, h4, h5, Option.some_bind]
  exact h6

/-- C31. A router in power_on that processes from port `p` the handshake
draining, answers through `_HandshakeResponse`, processes power_off, then
wakeup, answers again, and processes power_on, completes the sequence when
nothing of it is on its way to output `p`, stays in power_on, and ends with
drain_done_sent[p] = false, neighbor_states[p] = power_on and the drain tags it
started with. -/
theorem handshake_cycle_restores (now1 now2 : Int) (p : Nat) (hdr hoff hwk hon : Handshake)
    (s : RouterState) (hps : s.power_state = ePowerState.power_on)
    (hk1 : hdr.new_state = some ePowerState.draining)
    (hk2 : hoff.new_state = some ePowerState.power_off)
    (hk3 : hwk.new_state = some ePowerState.wakeup)
    (hk4 : hon.new_state = some ePowerState.power_on)
    (hd1 : hdr.drain_done = false) (hd2 : hoff.drain_done = false)
    (hd3 : hwk.drain_done = false) (hd4 : hon.drain_done = false)
    (hp : p < 4) (hw1 : ResponseSized now1 s) (hw2 : ResponseSized now2 s)
    (hnb : p < s.next_buf.length) (hc : ClearTowards s p) :
    ∃ s6, neighborCycle now1 now2 p hdr hoff hwk hon s = some s6 ∧
      s6.drain_done_sent[p]? = some false ∧
      s6.neighbor_states[p]? = some ePowerState.power_on ∧
      s6.drain_tags = s.drain_tags ∧ s6.power_state = ePowerState.power_on := by
  obtain ⟨s6, h6⟩ := neighborCycle_total now1 now2 p hdr hoff hwk hon s hps hk1 hk2 hk3 hk4
    hd1 hd2 hd3 hd4 hp hw1 hw2 hnb hc
  exact ⟨s6, h6, neighborCycle_result now1 now2 p hdr hoff hwk hon s s6 hps hk3 hk4 h6⟩

theorem handshake_cycle_restores_witness :
    router5.drain_done_sent[0]? = some false ∧
    router5.neighbor_states[0]? = some ePowerState.power_on ∧
    neighborCycle 0 0 0 drainFrom6 offFrom6 wakeFrom6 onFrom6 router5 = some router5AfterCycle ∧
    ∃ s6, neighborCycle 0 0 0 drainFrom6 offFrom6 wakeFrom6 onFrom6 router5 = some s6 ∧
      s6.drain_done_sent[0]? = some false ∧
      s6.neighbor_states[0]? = some ePowerState.power_on ∧
      s6.drain_tags = router5.drain_tags ∧ s6.power_state = ePowerState.power_on :=
  ⟨by rfl, by rfl, by rfl,
    handshake_cycle_restores 0 0 0 drainFrom6 offFrom6 wakeFrom6 onFrom6 router5 (by rfl)
      (by rfl) (by rfl) (by rfl) (by rfl) (by rfl) (by rfl) (by rfl) (by rfl) (by decide)
      (by decide) (by decide) (by decide) (by decide)⟩

/-! ## Statements on the bottom row, repeated evaluation, the boundary ports and the members `_HandshakeEvaluate` and `_RFlovStep` -/

theorem evalDraining_moves (g : Globals) (s s' : RouterState)
    (h : evalDraining g s = some s') :
    s'.power_state ≠ ePowerState.draining ∨ s'.drain_timer = s.drain_timer + 1 := by
  unfold evalDraining at h
  simp only [] at h
  repeat' split at h
  all_goals first
    | (cases h; done)
    | (cases h; simp [recordDrainTime])

theorem evalPowerOff_moves (g : Globals) (s s' : RouterState)
    (h : evalPowerOff g s = some s') :
    s'.total_power_off_cycles = s.total_power_off_cycles + 1 := by
  unfold evalPowerOff at h
  simp only [] at h
  repeat' split at h
  all_goals first
    | (cases h; done)
    | (cases h; rfl)

theorem evalWakeup_moves (g : Globals) (s s' : RouterState)
    (h : evalWakeup g s = some s') :
    s'.power_state ≠ ePowerState.wakeup ∨ s'.wakeup_timer = s.wakeup_timer + 1 := by
  unfold evalWakeup at h
  simp only [] at h
  repeat' split at h
  all_goals first
    | (cases h; done)
    | (cases h; simp)

theorem pse_moves_unless_on (g : Globals) (s s' : RouterState)
    (hps : s.power_state ≠ ePowerState.power_on) (h : PowerStateEvaluate g s = some s') :
    s' ≠ s := by
  intro heq
  subst heq
  unfold PowerStateEvaluate at h
  split at h
  · cases h
  · split at h
    · cases h
    · split at h
      · rename_i hp; exact hps hp
      · rename_i hp
        rcases evalDraining_moves g s' s' h with h1 | h1
        · exact h1 hp
        · omega
      · have := evalPowerOff_moves g s' s' h
        omega
      · rename_i hp
        rcases evalWakeup_moves g s' s' h with h1 | h1
        · exact h1 hp
        · omega

theorem bottom_row_next_call (g : Globals) (s s' : RouterState)
    (hrow : s.id ≥ g.gNodes - g.gK) (h : PowerStateEvaluate g s = some s')
    (hd : s'.power_state ≠ ePowerState.power_on) : PowerStateEvaluate g s' = none := by
  have hid : s'.id = s.id := by
    by_cases hps : s.power_state = ePowerState.power_on
    · rw [pse_power_on g s hps] at h
      exact evalPowerOn_id g s s' h
    · unfold PowerStateEvaluate at h
      simp [hrow, hps] at h
  unfold PowerStateEvaluate
  simp [hid, hrow, hd]

theorem evalPowerOn_neighbors (g : Globals) (s s' : RouterState)
    (h : evalPowerOn g s = some s') : s'.neighbor_states = s.neighbor_states := by
  unfold evalPowerOn at h
  simp only [] at h
  repeat' split at h
  all_goals first
    | (cases h; done)
    | (cases h; rfl)

theorem evalDraining_neighbors (g : Globals) (s s' : RouterState)
    (h : evalDraining g s = some s') : s'.neighbor_states = s.neighbor_states := by
  unfold evalDraining at h
  simp only [] at h
  repeat' split at h
  all_goals first
    | (cases h; done)
    | (cases h; simp [recordDrainTime])

theorem evalPowerOff_neighbors (g : Globals) (s s' : RouterState)
    (h : evalPowerOff g s = some s') : s'.neighbor_states = s.neighbor_states := by
  unfold evalPowerOff at h
  simp only [] at h
  repeat' split at h
  all_goals first
    | (cases h; done)
    | (cases h; rfl)

theorem evalWakeup_neighbors (g : Globals) (s s' : RouterState)
    (h : evalWakeup g s = some s') : s'.neighbor_states = s.neighbor_states := by
  unfold evalWakeup at h
  simp only [] at h
  repeat' split at h
  all_goals first
    | (cases h; done)
    | (cases h; rfl)

theorem pse_neighbors (g : Globals) (s s' : RouterState)
    (h : PowerStateEvaluate g s = some s') : s'.neighbor_states = s.neighbor_states := by
  unfold PowerStateEvaluate at h
  split at h
  · cases h
  · split at h
    · cases h
    · split at h
      · exact evalPowerOn_neighbors g s s' h
      · exact evalDraining_neighbors g s s' h
      · exact evalPowerOff_neighbors g s s' h
      · exact evalWakeup_neighbors g s s' h

theorem boundaryQuiet_evaluate (g : Globals) (s s' : RouterState)
    (h : PowerStateEvaluate g s = some s') (hq : BoundaryQuiet g s) : BoundaryQuiet g s' := by
  intro p hp hb
  rw [pse_neighbors g s s' h]
  rw [(pse_tags g s s' h).1] at hb
  exact hq p hp hb

theorem noteNeighborState_draining (s s1 : RouterState) (p : Nat) (h : Handshake)
    (hev : noteNeighborState s p h = some s1) (q : Nat)
    (hd : s1.neighbor_states[q]? = some ePowerState.draining) :
    s.neighbor_states[q]? = some ePowerState.draining ∨
      (q = p ∧ h.new_state = some ePowerState.draining) := by
  by_cases hqp : q = p
  · subst hqp
    by_cases hn : h.new_state = some ePowerState.draining
    · exact Or.inr ⟨rfl, hn⟩
    · left
      unfold noteNeighborState at hev
      repeat' split at hev
      all_goals first
        | (cases hev; done)
        | (cases hev; exact hd)
        | (cases hev
           simp only [List.getElem?_set] at hd
           split at hd <;> simp_all)
        | (exfalso; simp_all; done)
        | (have hs := ‹vecSet s.neighbor_states _ _ = some _›
           unfold vecSet at hs
           split at hs
           · cases hs; cases hev
             simp only [List.getElem?_set] at hd
             split at hd <;> simp_all
           · cases hs)
  · left
    unfold noteNeighborState at hev
    repeat' split at hev
    all_goals first
      | (cases hev; done)
      | (cases hev; exact hd)
      | (cases hev
         rw [List.getElem?_set_ne (Ne.symm hqp)] at hd
         exact hd)
      | (have hs := ‹vecSet s.neighbor_states _ _ = some _›
         unfold vecSet at hs
         split at hs
         · cases hs; cases hev
           rw [List.getElem?_set_ne (Ne.symm hqp)] at hd
           exact hd
         · cases hs)

theorem boundaryQuiet_handshake (g : Globals) (s s' : RouterState) (p : Nat) (h : Handshake)
    (hev : handshakeEvaluateOne s p h = some s')
    (hsent : h.new_state = some ePowerState.draining → isBoundary g s.id p = false)
    (hq : BoundaryQuiet g s) : BoundaryQuiet g s' := by
  obtain ⟨s1, hn, hd, -⟩ := handshakeEvaluateOne_parts s s' p h hev
  obtain ⟨-, -, hid2, hns2, -⟩ := noteDrainDone_frame s1 s' p h hd
  obtain ⟨-, -, -, hid1, -⟩ := noteNeighborState_frame s s1 p h hn
  intro q hq4 hb hdr
  rw [hns2] at hdr
  rw [hid2, hid1] at hb
  rcases noteNeighborState_draining s s1 p h hn q hdr with h1 | ⟨rfl, h1⟩
  · exact hq q hq4 hb h1
  · rw [hsent h1] at hb
    cases hb

theorem drainBlocked_iff_inner (g : Globals) (s : RouterState) (hq : BoundaryQuiet g s) :
    DrainBlocked g s ↔ InnerNeighborGated g s := by
  constructor
  · rintro ⟨p, hp, h | ⟨hb, h⟩⟩
    · refine ⟨p, hp, ?_, Or.inl h⟩
      by_contra hb
      exact hq p hp (by simpa using hb) h
    · exact ⟨p, hp, hb, Or.inr h⟩
  · rintro ⟨p, hp, hb, h | h | h⟩
    · exact ⟨p, hp, Or.inl h⟩
    · exact ⟨p, hp, Or.inr ⟨hb, Or.inl h⟩⟩
    · exact ⟨p, hp, Or.inr ⟨hb, Or.inr h⟩⟩

theorem handshakeEvaluateOne_resp (s s' : RouterState) (p : Nat) (h : Handshake)
    (hev : handshakeEvaluateOne s p h = some s') :
    s'.resp_hids = (if h.drain_done = false then s.resp_hids.set p h.hid else s.resp_hids) ∧
    (h.drain_done = false → p < s.resp_hids.length) := by
  obtain ⟨s1, hn, hd, -⟩ := handshakeEvaluateOne_parts s s' p h hev
  obtain ⟨-, -, -, -, hr, -⟩ := noteNeighborState_frame s s1 p h hn
  obtain ⟨h1, h2⟩ := noteDrainDone_resp s1 s' p h hd
  rw [hr] at h1 h2
  exact ⟨h1, h2⟩

theorem tagsAfter_congr (s t : RouterState) (hp : t.power_state = s.power_state)
    (hr : t.req_hids = s.req_hids) (l : List (Nat × Handshake)) (tags : List Bool) :
    tagsAfter t l tags = tagsAfter s l tags := by
  induction l generalizing tags with
  | nil => rfl
  | cons e rest ih =>
    obtain ⟨p, h⟩ := e
    unfold tagsAfter
    have : AckMatches t p h ↔ AckMatches s p h := by
      unfold AckMatches
      rw [hp, hr]
    simp only [this]
    exact ih _

theorem handshakeEvaluateLoop_spec (l : List (Nat × Handshake)) (s s' : RouterState)
    (h : handshakeEvaluateLoop l s = some s') :
    s'.power_state = s.power_state ∧ s'.req_hids = s.req_hids ∧
    s'.drain_tags = tagsAfter s l s.drain_tags ∧
    s'.resp_hids = hidsAfter l s.resp_hids ∧
    s'.proc_handshakes = (if l = [] then s.proc_handshakes else []) ∧
    (∀ p, s'.drain_tags[p]? = some true ↔
      s.drain_tags[p]? = some true ∨ ∃ hs, (p, hs) ∈ l ∧ AckMatches s p hs) := by
  induction l generalizing s with
  | nil =>
    unfold handshakeEvaluateLoop at h
    cases h
    exact ⟨rfl, rfl, rfl, rfl, rfl, fun p => by simp⟩
  | cons e rest ih =>
    obtain ⟨p0, h0⟩ := e
    unfold handshakeEvaluateLoop at h
    cases h1 : handshakeEvaluateOne s p0 h0 with
    | none => simp only [h1] at h; cases h
    | some s1 =>
      simp only [h1] at h
      obtain ⟨-, a1, -, a2, a3, a4⟩ := handshakeEvaluateOne_tags s s1 p0 h0 h1
      obtain ⟨b1, -⟩ := handshakeEvaluateOne_resp s s1 p0 h0 h1
      have key : ∀ s2 : RouterState, s2.power_state = s1.power_state →
          s2.req_hids = s1.req_hids → s2.drain_tags = s1.drain_tags →
          s2.resp_hids = s1.resp_hids → handshakeEvaluateLoop rest s2 = some s' →
          s'.power_state = s.power_state ∧ s'.req_hids = s.req_hids ∧
          s'.drain_tags = tagsAfter s ((p0, h0) :: rest) s.drain_tags ∧
          s'.resp_hids = hidsAfter ((p0, h0) :: rest) s.resp_hids ∧
          (rest ≠ [] → s'.proc_handshakes = []) ∧
          (∀ p, s'.drain_tags[p]? = some true ↔
            s.drain_tags[p]? = some true ∨
              ∃ hs, (p, hs) ∈ (p0, h0) :: rest ∧ AckMatches s p hs) := by
        intro s2 e1 e2 e3 e4 h2
        obtain ⟨c1, c2, c3, c4, c5, c6⟩ := ih s2 h2
        have hack : ∀ p hs, AckMatches s2 p hs ↔ AckMatches s p hs := by
          intro p hs
          unfold AckMatches
          rw [e1, e2, a1, a2]
        refine ⟨c1.trans (e1.trans a1), c2.trans (e2.trans a2), ?_, ?_, ?_, ?_⟩
        · rw [c3, tagsAfter_congr s s2 (e1.trans a1) (e2.trans a2), e3, a3]
          rfl
        · rw [c4, e4, b1]
          rfl
        · intro hr
          rw [c5, if_neg hr]
        · intro p
          rw [c6 p, e3, a3]
          simp only [hack, List.mem_cons, Prod.mk.injEq]
          by_cases hm : AckMatches s p0 h0
          · rw [if_pos hm]
            have hlt := a4 hm
            by_cases hpp : p = p0
            · subst hpp
              simp only [List.getElem?_set_self hlt, true_or, true_iff]
              exact Or.inr ⟨h0, Or.inl (by simp), hm⟩
            · rw [List.getElem?_set_ne (Ne.symm hpp)]
              constructor
              · rintro (h2 | ⟨hs, h2, h3⟩)
                · exact Or.inl h2
                · exact Or.inr ⟨hs, Or.inr h2, h3⟩
              · rintro (h2 | ⟨hs, (⟨h2, -⟩ | h2), h3⟩)
                · exact Or.inl h2
                · exact absurd h2 hpp
                · exact Or.inr ⟨hs, h2, h3⟩
          · rw [if_neg hm]
            constructor
            · rintro (h2 | ⟨hs, h2, h3⟩)
              · exact Or.inl h2
              · exact Or.inr ⟨hs, Or.inr h2, h3⟩
            · rintro (h2 | ⟨hs, (⟨h2, h4⟩ | h2), h3⟩)
              · exact Or.inl h2
              · subst h2 h4
                exact absurd h3 hm
              · exact Or.inr ⟨hs, h2, h3⟩
      obtain ⟨k1, k2, k3, k4, k5, k6⟩ := key { s1 with proc_handshakes := rest } rfl rfl rfl rfl h
      refine ⟨k1, k2, k3, k4, ?_, k6⟩
      rw [if_neg (List.cons_ne_nil _ _)]
      by_cases hr : rest = []
      · subst hr
        unfold handshakeEvaluateLoop at h
        cases h
        rfl
      · exact k5 hr

theorem tagsAfter_none (s : RouterState) (l : List (Nat × Handshake)) (tags : List Bool)
    (h : ∀ e ∈ l, ¬ AckMatches s e.1 e.2) : tagsAfter s l tags = tags := by
  induction l generalizing tags with
  | nil => rfl
  | cons e rest ih =>
    obtain ⟨p, hs⟩ := e
    unfold tagsAfter
    rw [if_neg (h (p, hs) (List.mem_cons_self _ _))]
    exact ih _ (fun x hx => h x (List.mem_cons_of_mem _ hx))

theorem relayedOn_cons (g : Globals) (id : Int) (item : CreditItem) (rest : List CreditItem)
    (q : Nat) (x : Int) :
    RelayedOn g id (item :: rest) q x ↔
      (q < 4 ∧ isBoundary g id q = false ∧ item.output = opposite q ∧ x ∈ item.credit.vc) ∨
        RelayedOn g id rest q x := by
  unfold RelayedOn
  simp only [List.mem_cons, exists_eq_or_imp]
  tauto

theorem creditCalls_cons (item : CreditItem) (rest : List CreditItem) (o : Nat) :
    creditCalls (item :: rest) o =
      (if item.output = o then [BufCall.ProcessCredit item.credit] else []) ++
        creditCalls rest o := by
  unfold creditCalls
  by_cases h : item.output = o
  · simp [List.filter_cons, h]
  · simp [List.filter_cons, h]

theorem flovCredits_spec (g : Globals) (now id : Int) (outputs vcs : Nat) (hK : g.gK ≠ 0)
    (items : List CreditItem)
    (hitems : ∀ item ∈ items, item.output < outputs ∧
      ∀ v ∈ item.credit.vc, 0 ≤ v ∧ v < (vcs : Int))
    (nb : List BufferState) (hnb : nb.length = outputs) (oqc : List (Nat × Credit)) :
    ∃ nb1 oqc1,
      flovCredits g now id outputs vcs items nb oqc = some (laterCredits now items, nb1, oqc1) ∧
      nb1.length = nb.length ∧
      (∀ o, nb1[o]? = (nb[o]?).map
        (fun b : BufferState => { b with calls := b.calls ++ creditCalls (dueCredits now items) o })) ∧
      (∀ q x, x ∈ pendingVCs oqc1 q ↔
        x ∈ pendingVCs oqc q ∨ RelayedOn g id (dueCredits now items) q x) ∧
      (∀ q, (∀ item ∈ dueCredits now items,
          ¬ (q < 4 ∧ isBoundary g id q = false ∧ item.output = opposite q)) →
        mapFind q oqc1 = mapFind q oqc) := by
  induction items generalizing nb oqc with
  | nil =>
    refine ⟨nb, oqc, rfl, rfl, fun o => ?_, fun q x => ?_, fun _ _ => rfl⟩
    · cases nb[o]? <;> simp [dueCredits, creditCalls]
    · simp [dueCredits, RelayedOn]
  | cons item rest ih =>
    obtain ⟨hout, hvc⟩ := hitems item (List.mem_cons_self _ _)
    have hrest := fun x hx => hitems x (List.mem_cons_of_mem _ hx)
    have hlt : item.output < nb.length := by rw [hnb]; exact hout
    by_cases hdue : now < item.time
    · have hd : dueCredits now (item :: rest) = [] := by
        simp [dueCredits, List.takeWhile_cons, hdue]
      have hl : laterCredits now (item :: rest) = item :: rest := by
        simp [laterCredits, List.dropWhile_cons, hdue]
      refine ⟨nb, oqc, ?_, rfl, fun o => ?_, fun q x => ?_, fun _ _ => rfl⟩
      · unfold flovCredits
        rw [if_pos hdue, hl]
      · rw [hd]
        cases nb[o]? <;> simp [creditCalls]
      · rw [hd]
        simp [RelayedOn]
    · have hd : dueCredits now (item :: rest) = item :: dueCredits now rest := by
        simp [dueCredits, List.takeWhile_cons, hdue]
      have hl : laterCredits now (item :: rest) = laterCredits now rest := by
        simp [laterCredits, List.dropWhile_cons, hdue]
      have hget : nb[item.output]? = some nb[item.output] := List.getElem?_eq_getElem hlt
      obtain ⟨nbs, hnbs⟩ : ∃ nbs, nbs = nb.set item.output
          (nb[item.output].call (BufCall.ProcessCredit item.credit)) := ⟨_, rfl⟩
      have hnbs_len : nbs.length = outputs := by rw [hnbs, List.length_set, hnb]
      have hnbs_get : ∀ o, nbs[o]? = (nb[o]?).map (fun b : BufferState =>
          { b with calls := b.calls ++
            (if item.output = o then [BufCall.ProcessCredit item.credit] else []) }) := by
        intro o
        rw [hnbs]
        by_cases ho : item.output = o
        · subst ho
          rw [List.getElem?_set_self hlt, hget]
          simp [BufferState.call]
        · rw [List.getElem?_set_ne ho, if_neg ho]
          cases nb[o]? <;> simp
      by_cases hc : item.output < 4 ∧ isBoundary g id (opposite item.output) = false
      · obtain ⟨h4, hb⟩ := hc
        have hob : isOppBoundary g id item.output = false := by
          rw [isOppBoundary_opposite g id _ h4]; exact hb
        have hin := opposite_lt _ h4
        obtain ⟨c0, hc0⟩ : ∃ c0, c0 = (mapFind (opposite item.output) oqc).getD Credit.New :=
          ⟨_, rfl⟩
        have hfind : mapFind (opposite item.output)
            (mapInsert (opposite item.output) Credit.New oqc) = some c0 := by
          rw [mapFind_insert, if_pos rfl, hc0]
        have hpend : c0.vc = pendingVCs oqc (opposite item.output) := by
          rw [hc0]
          unfold pendingVCs
          cases mapFind (opposite item.output) oqc <;> rfl
        obtain ⟨oqs, hoqs⟩ : ∃ oqs, oqs = mapUpdate (opposite item.output)
            (fun _ => ({ vc := insertAll item.credit.vc c0.vc } : Credit))
            (mapInsert (opposite item.output) Credit.New oqc) := ⟨_, rfl⟩
        have hoqs_find : ∀ q, mapFind q oqs =
            if q = opposite item.output then
              some ({ vc := insertAll item.credit.vc c0.vc } : Credit)
            else mapFind q oqc := by
          intro q
          rw [hoqs, mapFind_update]
          by_cases hq : q = opposite item.output
          · rw [if_pos hq, if_pos hq, hfind]
            rfl
          · rw [if_neg hq, if_neg hq, mapFind_insert, if_neg hq]
        obtain ⟨nb1, oqc1, hrun, hlen, hcalls, hpen, hsame⟩ := ih hrest nbs hnbs_len oqs
        refine ⟨nb1, oqc1, ?_, ?_, ?_, ?_, ?_⟩
        · unfold flovCredits
          simp only [if_neg hdue, hout, not_true_eq_false, if_false, hget,
            oppBoundary_eq g id _ hK, hob, h4, and_self, if_true, hin, hfind,
            relayVCs_spec vcs _ _ hvc]
          rw [hl, ← hnbs, ← hoqs]
          exact hrun
        · rw [hlen, hnbs, List.length_set]
        · intro o
          rw [hcalls o, hnbs_get o, hd, creditCalls_cons]
          cases nb[o]? <;> simp
        · intro q x
          rw [hpen q x, hd, relayedOn_cons]
          have hp : x ∈ pendingVCs oqs q ↔ x ∈ pendingVCs oqc q ∨
              (q = opposite item.output ∧ x ∈ item.credit.vc) := by
            unfold pendingVCs
            rw [hoqs_find q]
            by_cases hq : q = opposite item.output
            · rw [if_pos hq]
              simp only [mem_insertAll, hpend]
              unfold pendingVCs
              rw [hq]
              tauto
            · rw [if_neg hq]
              tauto
          rw [hp]
          constructor
          · rintro ((h1 | ⟨h1, h2⟩) | h1)
            · exact Or.inl h1
            · refine Or.inr (Or.inl ⟨by rw [h1]; exact hin, by rw [h1]; exact hb, ?_, h2⟩)
              rw [h1, opposite_opposite _ h4]
            · exact Or.inr (Or.inr h1)
          · rintro (h1 | ⟨h1, -, h2, h3⟩ | h1)
            · exact Or.inl (Or.inl h1)
            · refine Or.inl (Or.inr ⟨?_, h3⟩)
              rw [h2, opposite_opposite _ h1]
            · exact Or.inr h1
        · intro q hq
          rw [hd] at hq
          rw [hsame q (fun it hit => hq it (List.mem_cons_of_mem _ hit)), hoqs_find q]
          have hne : q ≠ opposite item.output := by
            intro he
            apply hq item (List.mem_cons_self _ _)
            refine ⟨by rw [he]; exact hin, by rw [he]; exact hb, ?_⟩
            rw [he, opposite_opposite _ h4]
          rw [if_neg hne]
      · have hc' : ¬ (item.output < 4 ∧ isOppBoundary g id item.output = false) := by
          intro ⟨h4, hob⟩
          exact hc ⟨h4, by rw [← isOppBoundary_opposite g id _ h4]; exact hob⟩
        obtain ⟨nb1, oqc1, hrun, hlen, hcalls, hpen, hsame⟩ := ih hrest nbs hnbs_len oqc
        have hnot : ∀ q x, ¬ (q < 4 ∧ isBoundary g id q = false ∧
            item.output = opposite q ∧ x ∈ item.credit.vc) := by
          rintro q x ⟨h1, h2, h3, -⟩
          apply hc
          rw [h3]
          exact ⟨opposite_lt _ h1, by rw [opposite_opposite _ h1]; exact h2⟩
        refine ⟨nb1, oqc1, ?_, ?_, ?_, ?_, ?_⟩
        · unfold flovCredits
          simp only [if_neg hdue, hout, not_true_eq_false, if_false, hget,
            oppBoundary_eq g id _ hK, if_neg hc']
          rw [hl, ← hnbs]
          exact hrun
        · rw [hlen, hnbs, List.length_set]
        · intro o
          rw [hcalls o, hnbs_get o, hd, creditCalls_cons]
          cases nb[o]? <;> simp
        · intro q x
          rw [hpen q x, hd, relayedOn_cons]
          constructor
          · rintro (h1 | h1)
            · exact Or.inl h1
            · exact Or.inr (Or.inr h1)
          · rintro (h1 | h1 | h1)
            · exact Or.inl h1
            · exact absurd h1 (hnot q x)
            · exact Or.inr h1
        · intro q hq
          rw [hd] at hq
          exact hsame q (fun it hit => hq it (List.mem_cons_of_mem _ hit))

/-- C5 (divergence). For a router of the bottom row (id >= N - K):
PowerStateEvaluate aborts on its first assertion if the router is not in
power_on; if it is in power_on and router_state is true or wakeup_signal is
asserted, the call returns and leaves it in power_on, whatever the neighbor
states; a call that returns leaves it in power_on unless router_state and
wakeup_signal are both false, the one case in which the router is moved to
draining, because the power_on case does not test the id; and after a call
that has moved it out of power_on the next call aborts on the bottom-row
assertion. -/
theorem bottom_row_stays_on (g : Globals) (s : RouterState)
    (hrow : s.id ≥ g.gNodes - g.gK) :
    (s.power_state ≠ ePowerState.power_on → PowerStateEvaluate g s = none) ∧
    (s.power_state = ePowerState.power_on →
      (s.router_state = true ∨ s.wakeup_signal = true) →
      ∃ s', PowerStateEvaluate g s = some s' ∧ s'.power_state = ePowerState.power_on) ∧
    (∀ s', PowerStateEvaluate g s = some s' →
      s.power_state = ePowerState.power_on ∧
      (s'.power_state = ePowerState.power_on ∨
        (s'.power_state = ePowerState.draining ∧ s.router_state = false ∧
          s.wakeup_signal = false))) ∧
    (∀ s', PowerStateEvaluate g s = some s' → s'.power_state ≠ ePowerState.power_on →
      PowerStateEvaluate g s' = none) :=
  ⟨(bottom_row_cases g s hrow).1, (bottom_row_cases g s hrow).2.1,
    (bottom_row_cases g s hrow).2.2, fun s' h hd => bottom_row_next_call g s s' hrow h hd⟩

/-- C5 (failing input). Router 13 of the 4x4 mesh is on the bottom row and
powered on; with router_state and wakeup_signal false and all neighbors on,
PowerStateEvaluate moves it to draining, and the next call aborts on the
bottom-row assertion. -/
theorem bottom_row_stays_on_witness :
    router13.id ≥ mesh4.gNodes - mesh4.gK ∧
    router13.power_state = ePowerState.power_on ∧
    router13.router_state = false ∧ router13.wakeup_signal = false ∧
    ∃ s', PowerStateEvaluate mesh4 router13 = some s' ∧
      s'.power_state = ePowerState.draining ∧ PowerStateEvaluate mesh4 s' = none := by
  have hd : Option.map RouterState.power_state (PowerStateEvaluate mesh4 router13) =
      some ePowerState.draining := by decide
  refine ⟨by decide, rfl, rfl, rfl, ?_⟩
  cases h : PowerStateEvaluate mesh4 router13 with
  | none => rw [h] at hd; cases hd
  | some s' =>
    rw [h] at hd
    have hps : s'.power_state = ePowerState.draining := Option.some.inj hd
    exact ⟨s', rfl, hps,
      (bottom_row_stays_on mesh4 router13 (by decide)).2.2.2 s' h (by rw [hps]; decide)⟩

/-- C30 (amended). For a router in power_on that has traffic demand
(router_state set), or whose drain is blocked by a neighbor while it has no
outstanding request, calling PowerStateEvaluate twice in succession yields the
same router state as calling it once: the second call returns the state it
was given. This does not hold for every starting state: a call made on a
router that is draining, off or waking up never returns the state it was
given (it advances drain_timer, the power-off cycle count or wakeup_timer, or
leaves the power state), so whenever the first call leaves the router outside
power_on the second call changes the state. -/
theorem evaluate_twice_power_on (g : Globals) (hK : g.gK ≠ 0) :
    (∀ s s1 : RouterState, s.neighbor_states.length = 4 →
      s.power_state = ePowerState.power_on →
      (s.router_state = true ∨ (DrainBlocked g s ∧ s.outstanding_requests = 0)) →
      PowerStateEvaluate g s = some s1 →
      s1.power_state = ePowerState.power_on ∧ PowerStateEvaluate g s1 = some s1) ∧
    (∀ s1 s2 : RouterState, s1.power_state ≠ ePowerState.power_on →
      PowerStateEvaluate g s1 = some s2 → s2 ≠ s1) :=
  ⟨fun s s1 hns hps hc h1 => evalPowerOn_twice g s s1 hK hns hps hc h1,
    fun s1 s2 hps h => pse_moves_unless_on g s1 s2 hps h⟩

/-- Witness of C30: router 5 with a request outstanding and traffic demand,
for which both calls return the state they are given; and router 5 draining,
for which the second call counts the drain timer from 1 to 2. -/
theorem evaluate_twice_power_on_witness :
    (router5Busy.power_state = ePowerState.power_on ∧
      (router5Busy.router_state = true ∨
        (DrainBlocked mesh4 router5Busy ∧ router5Busy.outstanding_requests = 0)) ∧
      PowerStateEvaluate mesh4 router5Busy = some router5Busy ∧
      (router5Busy.power_state = ePowerState.power_on ∧
        PowerStateEvaluate mesh4 router5Busy = some router5Busy)) ∧
    (router5Drain1.power_state ≠ ePowerState.power_on ∧
      PowerStateEvaluate mesh4 router5Drain1 = some router5Drain2 ∧
      router5Drain2 ≠ router5Drain1) :=
  ⟨⟨rfl, Or.inl rfl, by rfl,
      (evaluate_twice_power_on mesh4 (by decide)).1 router5Busy router5Busy (by decide) rfl
        (Or.inl rfl) (by rfl)⟩,
    ⟨by decide, by rfl,
      (evaluate_twice_power_on mesh4 (by decide)).2 router5Drain1 router5Drain2 (by decide)
        (by rfl)⟩⟩

/-- C6. A powered-on router with no outstanding request is moved to draining
by PowerStateEvaluate if and only if wakeup_signal is false, router_state is
false, and no neighbor on a port that is not a boundary is recorded as
draining, off or waking up. This holds in every state in which no boundary
port records a draining neighbor (`BoundaryQuiet`; no router announces
draining on a boundary port, so no such record arises, and the call keeps it
so); the only-if direction holds in every state. In every state the router is
moved to draining exactly under the condition of the source, which looks for
a draining neighbor on all four ports and for an off or waking neighbor on
the ports that are no boundary. When wakeup_signal is asserted the router
stays in power_on, the signal is cleared and idle_timer is reset; whenever
the router stays in power_on no handshake is queued. -/
theorem power_on_drain_iff (g : Globals) (s : RouterState) (hK : g.gK ≠ 0)
    (hns : s.neighbor_states.length = 4) (hrh : s.req_hids.length = 4)
    (hps : s.power_state = ePowerState.power_on) (hreq : s.outstanding_requests = 0)
    (hq : s.out_queue_handshakes = []) :
    ∃ s', PowerStateEvaluate g s = some s' ∧
      (BoundaryQuiet g s →
        (s'.power_state = ePowerState.draining ↔
          s.wakeup_signal = false ∧ s.router_state = false ∧ ¬ InnerNeighborGated g s)) ∧
      (s'.power_state = ePowerState.draining →
        s.wakeup_signal = false ∧ s.router_state = false ∧ ¬ InnerNeighborGated g s) ∧
      (s'.power_state = ePowerState.draining ↔
        s.wakeup_signal = false ∧ s.router_state = false ∧ ¬ DrainBlocked g s) ∧
      (s.wakeup_signal = true →
        s'.power_state = ePowerState.power_on ∧ s'.wakeup_signal = false ∧
        s'.idle_timer = 0) ∧
      (s'.power_state = ePowerState.power_on → s'.out_queue_handshakes = []) ∧
      (BoundaryQuiet g s → BoundaryQuiet g s') := by
  obtain ⟨r0, r1, r2, r3, hr, heval⟩ := evalPowerOn_eval g s hK hns hrh hreq hq
  have hquiet' : ∀ s', PowerStateEvaluate g s = some s' → BoundaryQuiet g s →
      BoundaryQuiet g s' :=
    fun s' h hquiet => boundaryQuiet_evaluate g s s' h hquiet
  have hinner : InnerNeighborGated g s → DrainBlocked g s := by
    rintro ⟨p, hp, hb, h | h | h⟩
    · exact ⟨p, hp, Or.inl h⟩
    · exact ⟨p, hp, Or.inr ⟨hb, Or.inl h⟩⟩
    · exact ⟨p, hp, Or.inr ⟨hb, Or.inr h⟩⟩
  rw [pse_power_on g s hps, heval] at hquiet' ⊢
  refine ⟨_, rfl, ?_⟩
  have hlast := hquiet' _ rfl
  refine ⟨fun hquiet => ?_, ?_, ?_, ?_, ?_, hlast⟩
  · rw [← drainBlocked_iff_inner g s hquiet]
    by_cases hw : s.wakeup_signal = true
    · simp [hw, hps, hq]
    · rw [if_neg hw]
      have hws : s.wakeup_signal = false := by simpa using hw
      by_cases hrs : s.router_state = false
      · rw [if_pos hrs]
        by_cases hblk : DrainBlocked g s
        · rw [if_pos hblk]
          simp [hws, hps, hq, hblk]
        · rw [if_neg hblk]
          simp [hws, hrs, hblk]
      · rw [if_neg hrs]
        simp [hws, hps, hq, hrs]
  · by_cases hw : s.wakeup_signal = true
    · simp [hw, hps, hq]
    · rw [if_neg hw]
      have hws : s.wakeup_signal = false := by simpa using hw
      by_cases hrs : s.router_state = false
      · rw [if_pos hrs]
        by_cases hblk : DrainBlocked g s
        · rw [if_pos hblk]
          simp [hws, hps, hq, hblk]
        · rw [if_neg hblk]
          intro _
          exact ⟨hws, hrs, fun hi => hblk (hinner hi)⟩
      · rw [if_neg hrs]
        simp [hws, hps, hq, hrs]
  all_goals
    by_cases hw : s.wakeup_signal = true
    · simp [hw, hps, hq]
    · rw [if_neg hw]
      have hws : s.wakeup_signal = false := by simpa using hw
      by_cases hrs : s.router_state = false
      · rw [if_pos hrs]
        by_cases hblk : DrainBlocked g s
        · rw [if_pos hblk]
          simp [hws, hps, hq, hblk]
        · rw [if_neg hblk]
          simp [hws, hrs, hblk]
      · rw [if_neg hrs]
        simp [hws, hps, hq, hrs]

/-- Witness of C6: router 5, idle and powered on, with every neighbor on. -/
theorem power_on_drain_iff_witness :
    BoundaryQuiet mesh4 router5 ∧
    ∃ s', PowerStateEvaluate mesh4 router5 = some s' ∧
      (s'.power_state = ePowerState.draining ↔
        router5.wakeup_signal = false ∧ router5.router_state = false ∧
          ¬ InnerNeighborGated mesh4 router5) ∧
      (s'.power_state = ePowerState.draining ↔
        router5.wakeup_signal = false ∧ router5.router_state = false ∧
          ¬ DrainBlocked mesh4 router5) ∧
      (router5.wakeup_signal = true →
        s'.power_state = ePowerState.power_on ∧ s'.wakeup_signal = false ∧
        s'.idle_timer = 0) ∧
      (s'.power_state = ePowerState.power_on → s'.out_queue_handshakes = []) ∧
      BoundaryQuiet mesh4 s' :=
  have hq : BoundaryQuiet mesh4 router5 := by decide
  ⟨hq, (power_on_drain_iff mesh4 router5 (by decide) (by decide) (by decide) (by decide)
    (by decide) (by decide)).elim fun s' h =>
      ⟨s', h.1, h.2.1 hq, h.2.2.2.1, h.2.2.2.2.1, h.2.2.2.2.2.1, h.2.2.2.2.2.2 hq⟩⟩

/-- C14. `_HandshakeEvaluate` empties `_proc_handshakes` and, for every
handshake received on a port p, sets drain_tags[p] to true if and only if the
handshake carries drain_done, its hid equals req_hids[p] and the router is
draining or waking up: the tags after the call are those before it with the
tags of these handshakes set, so a tag is true afterwards exactly if it was
true before or such a handshake was received on its port. A drain_done with
another hid, and any handshake received in power_on, leaves every tag as it
was. -/
theorem drain_tag_set_iff (s s' : RouterState) (hev : _HandshakeEvaluate s = some s') :
    s'.proc_handshakes = [] ∧
    s'.drain_tags = tagsAfter s s.proc_handshakes s.drain_tags ∧
    (∀ p, s'.drain_tags[p]? = some true ↔
      s.drain_tags[p]? = some true ∨ ∃ h, (p, h) ∈ s.proc_handshakes ∧ AckMatches s p h) ∧
    (∀ p h, s.proc_handshakes = [(p, h)] →
      s'.drain_tags = (if AckMatches s p h then s.drain_tags.set p true else s.drain_tags) ∧
      (AckMatches s p h → s'.drain_tags[p]? = some true) ∧
      (h.drain_done = true → s.req_hids[p]? ≠ some h.hid → s'.drain_tags = s.drain_tags)) ∧
    ((∀ e ∈ s.proc_handshakes, e.2.drain_done = true → s.req_hids[e.1]? ≠ some e.2.hid) →
      s'.drain_tags = s.drain_tags) ∧
    (s.power_state = ePowerState.power_on → s'.drain_tags = s.drain_tags) := by
  unfold _HandshakeEvaluate at hev
  obtain ⟨-, -, h3, -, h5, h6⟩ := handshakeEvaluateLoop_spec _ s s' hev
  have hstale : (∀ e ∈ s.proc_handshakes, ¬ AckMatches s e.1 e.2) →
      s'.drain_tags = s.drain_tags := fun hn => by
    rw [h3, tagsAfter_none s _ _ hn]
  refine ⟨?_, h3, h6, ?_, ?_, ?_⟩
  · rw [h5]
    by_cases hl : s.proc_handshakes = []
    · rw [if_pos hl, hl]
    · rw [if_neg hl]
  · intro p h hl
    have heq : s'.drain_tags =
        (if AckMatches s p h then s.drain_tags.set p true else s.drain_tags) := by
      rw [h3, hl]
      rfl
    refine ⟨heq, fun hm => (h6 p).2 (Or.inr ⟨h, by rw [hl]; exact List.mem_singleton.2 rfl, hm⟩),
      fun _ hne => ?_⟩
    rw [heq, if_neg (fun hm => hne hm.2.1)]
  · intro hn
    exact hstale (fun e he hm => hn e he hm.1 hm.2.1)
  · intro hon
    apply hstale
    rintro e - ⟨-, -, h3 | h3⟩ <;> rw [hon] at h3 <;> exact absurd h3 (by decide)

/-- Witness of C14: at the draining router 5 a stale drain-done and then the
drain-done of router 6 that answers request 1 are processed; the tag of port 0
is set, by the second handshake. -/
theorem drain_tag_set_iff_witness :
    _HandshakeEvaluate router5AckWaiting = some router5Acked ∧
    ¬ AckMatches router5AckWaiting 0 staleAckFrom6 ∧ AckMatches router5AckWaiting 0 ackFrom6 ∧
    router5Acked.proc_handshakes = [] ∧
    router5Acked.drain_tags = [true, false, false, false] ∧
    (router5Acked.drain_tags[0]? = some true ↔
      router5AckWaiting.drain_tags[0]? = some true ∨
        ∃ h, (0, h) ∈ router5AckWaiting.proc_handshakes ∧ AckMatches router5AckWaiting 0 h) :=
  have h := drain_tag_set_iff router5AckWaiting router5Acked (by rfl)
  ⟨by rfl, by decide, by decide, h.1, h.2.1.trans (by decide), h.2.2.1 0⟩

/-- C21 (amended). `_HandshakeEvaluate` stores the hid of a handshake received
on port p into resp_hids[p] if and only if the handshake does not carry
drain_done: the response ids after the call are those before it with the hid
of every handshake without drain_done stored for its port, in the order of
arrival. A handshake with drain_done leaves resp_hids as it was; when its hid
differs from req_hids[p], or the router is in power_on, it leaves the drain
tags as they were too, and otherwise it sets drain_tags[p]. With vectors of
four ports the call returns for a handshake that carries neither drain_done
nor power_off. -/
theorem resp_hid_stored_iff (s : RouterState) :
    (∀ s', _HandshakeEvaluate s = some s' →
      s'.resp_hids = hidsAfter s.proc_handshakes s.resp_hids ∧
      ∀ p h, s.proc_handshakes = [(p, h)] →
        s'.resp_hids =
          (if h.drain_done = false then s.resp_hids.set p h.hid else s.resp_hids) ∧
        (h.drain_done = false → s'.resp_hids[p]? = some h.hid) ∧
        (h.drain_done = true → s'.resp_hids = s.resp_hids) ∧
        (h.drain_done = true → ¬ AckMatches s p h → s'.drain_tags = s.drain_tags) ∧
        (AckMatches s p h → s'.drain_tags[p]? = some true)) ∧
    (∀ p h, s.proc_handshakes = [(p, h)] →
      p < 4 → p < s.neighbor_states.length → p < s.drain_done_sent.length →
      p < s.next_buf.length → p < s.resp_hids.length →
      h.new_state ≠ some ePowerState.power_off → h.drain_done = false →
      ∃ s', _HandshakeEvaluate s = some s') := by
  constructor
  · intro s' hev
    unfold _HandshakeEvaluate at hev
    obtain ⟨-, -, h3, h4, -, h6⟩ := handshakeEvaluateLoop_spec _ s s' hev
    refine ⟨h4, fun p h hl => ?_⟩
    have heq : s'.resp_hids =
        (if h.drain_done = false then s.resp_hids.set p h.hid else s.resp_hids) := by
      rw [h4, hl]
      rfl
    have hone : handshakeEvaluateOne s p h ≠ none := by
      intro hn
      rw [hl] at hev
      unfold handshakeEvaluateLoop at hev
      simp only [hn] at hev
      cases hev
    refine ⟨heq, ?_, ?_, ?_, ?_⟩
    · intro hdd
      cases h1 : handshakeEvaluateOne s p h with
      | none => exact absurd h1 hone
      | some s1 =>
        have hlt := (handshakeEvaluateOne_resp s s1 p h h1).2 hdd
        rw [heq, if_pos hdd, List.getElem?_set_self hlt]
    · intro hdd
      rw [heq, if_neg (by simp [hdd])]
    · intro _ hm
      rw [h3, hl]
      exact tagsAfter_none s _ _ (fun e he => by
        rw [List.mem_singleton.1 he]; exact hm)
    · intro hm
      exact (h6 p).2 (Or.inr ⟨h, by rw [hl]; exact List.mem_singleton.2 rfl, hm⟩)
  · intro p h hl hp hns hdds hnb hrh hst hdd
    obtain ⟨s1, hs1, hr⟩ := noteNeighborState_total s p h hst hns hdds hnb
    obtain ⟨s', hs'⟩ := noteDrainDone_echo_total s1 p h hdd (by rw [hr]; exact hrh)
    have hone : handshakeEvaluateOne s p h = some s' := by
      unfold handshakeEvaluateOne
      rw [if_neg (not_not.2 hp), hs1]
      exact hs'
    refine ⟨{ s' with proc_handshakes := [] }, ?_⟩
    unfold _HandshakeEvaluate
    rw [hl]
    unfold handshakeEvaluateLoop
    simp only [hone]
    rfl

/-- Witness of C21: the announcement of router 6 that it drains reaches
router 5; its request id 1 is stored for the echo. -/
theorem resp_hid_stored_iff_witness :
    ∃ s', _HandshakeEvaluate router5Hearing = some s' ∧
      s'.resp_hids = [1, 0, 0, 0] :=
  have hret := (resp_hid_stored_iff router5Hearing).2 0 drainFrom6 rfl (by decide)
    (by decide) (by decide) (by decide) (by decide) (by decide) rfl
  hret.elim fun s' hs' =>
    ⟨s', hs', (((resp_hid_stored_iff router5Hearing).1 s' hs').2 0 drainFrom6 rfl).1⟩

/-- Counterexample to C21 as stated: router 5 is draining with request id 1
on port 0 and receives a drain-done with hid 7. The handshake does not match
(its hid differs from req_hids[0]), and its hid is not stored: the call
empties `_proc_handshakes` and leaves everything else as it was, with
resp_hids[0] = 0. -/
theorem resp_hid_stored_iff_counterexample :
    router5StaleWaiting.proc_handshakes = [(0, staleAckFrom6)] ∧
    staleAckFrom6.drain_done = true ∧ staleAckFrom6.hid = 7 ∧
    router5StaleWaiting.req_hids[0]? = some 1 ∧
    ¬ AckMatches router5StaleWaiting 0 staleAckFrom6 ∧
    _HandshakeEvaluate router5StaleWaiting = some router5Asking ∧
    router5Asking.resp_hids[0]? = some 0 :=
  ⟨rfl, rfl, rfl, by decide, by decide, by rfl, by decide⟩

/-- C23. On a state that passes the assertions of the call, `_RFlovStep`
returns; it takes from `_proc_credits` the credits that are due, up to the
first one that is not, and leaves the rest. Each credit taken for output port
o is applied to the downstream state of port o (`ProcessCredit`, after the
calls of the flit loop, in the order of the list). Every VC of a credit taken
for output o is added to the credit pending for input port o XOR 1 if and only
if that port is one of the four mesh ports and no fabric boundary of the
router: after the call a VC is pending for input port q exactly if it was
pending before, or it was relayed in this way, or the replay loop inserted it.
For a boundary port q no upstream credit is created by the relay: with no
counter to replay, what is pending for q is as it was. -/
theorem credit_relay (g : Globals) (now : Int) (s : RouterState) (hwf : FlovReady g s) :
    ∃ s' nb ob, _RFlovStep g now s = some s' ∧
      flovFlits s.inputs s.vcs s.in_queue_flits s.next_buf s.output_buffer = some (nb, ob) ∧
      s'.proc_credits = laterCredits now s.proc_credits ∧
      (∀ o, s'.next_buf[o]? = (nb[o]?).map (fun b : BufferState =>
        { b with calls := b.calls ++ creditCalls (dueCredits now s.proc_credits) o })) ∧
      (∀ q x, x ∈ pendingVCs s'.out_queue_credits q ↔
        x ∈ pendingVCs s.out_queue_credits q ∨
        RelayedOn g s.id (dueCredits now s.proc_credits) q x ∨
        (q < 4 ∧ ∃ v < s.vcs, (v : Int) = x ∧
          positiveAt s.credit_counter (opposite q) v = true)) ∧
      (∀ q, q < 4 → isBoundary g s.id q = true →
        (∀ v k, counterAt s.credit_counter (opposite q) v = some k → k ≤ 0) →
        mapFind q s'.out_queue_credits = mapFind q s.out_queue_credits) := by
  obtain ⟨s', hs'⟩ := rflovStep_total g now s hwf
  obtain ⟨nb', ob', pc, nb1', oqc', cc', oqc1', e1, e2, e3, -, -, f3, f4, -, f6, -⟩ :=
    rflovStep_parts g now s s' hs'
  obtain ⟨-, -, -, -, -, -, -, ⟨hfl, hnb4, hob4⟩, hK, ho4, hnb, hcr, hcc⟩ := hwf
  obtain ⟨nb, ob, hf, hlen⟩ := flovFlits_total s.inputs s.vcs s.in_queue_flits hfl s.next_buf
    s.output_buffer hnb4 hob4
  obtain ⟨nb1, oqc, hc, -, hcalls, hpen, hsame⟩ := flovCredits_spec g now s.id s.outputs s.vcs
    hK s.proc_credits hcr nb (by rw [hlen, hnb]) s.out_queue_credits
  obtain ⟨cc, oqc1, hr, -, -, hrp⟩ := replay_spec s.outputs s.vcs ho4 [0, 1, 2, 3]
    (by decide) (by decide) s.credit_counter hcc oqc
  rw [hf] at e1
  obtain ⟨i1, i2⟩ := Prod.mk.inj (Option.some.inj e1)
  subst i1 i2
  rw [hc] at e2
  obtain ⟨i3, i4⟩ := Prod.mk.inj (Option.some.inj e2)
  obtain ⟨i5, i6⟩ := Prod.mk.inj i4
  subst i3 i5 i6
  rw [hr] at e3
  obtain ⟨i7, i8⟩ := Prod.mk.inj (Option.some.inj e3)
  subst i7 i8
  refine ⟨s', nb, ob, hs', hf, f4, fun o => by rw [f3]; exact hcalls o, ?_, ?_⟩
  · intro q x
    rw [f6, hrp q x, hpen q x]
    have h4' : q ∈ [0, 1, 2, 3] ↔ q < 4 := by
      simp only [List.mem_cons, List.mem_singleton, List.not_mem_nil, or_false]
      omega
    rw [h4']
    tauto
  · intro q hq hb hz
    rw [f6, replay_boundary s.vcs _ _ _ _ _ hr q hz]
    exact hsame q (fun item _ hrel => by rw [hb] at hrel; cases hrel.2.1)

/-- Witness of C23: router 5, off, takes the credit for VC 0 of output 0 that
is due; the credit is applied to the downstream state of port 0 and VC 0 is
pending for input port 1 afterwards. -/
theorem credit_relay_witness :
    FlovReady mesh4 router5Replaying ∧
    _RFlovStep mesh4 0 router5Replaying = some router5Replayed ∧
    dueCredits 0 router5Replaying.proc_credits = [creditFor0] ∧
    RelayedOn mesh4 5 [creditFor0] 1 0 ∧
    ∃ s' nb ob, _RFlovStep mesh4 0 router5Replaying = some s' ∧
      flovFlits router5Replaying.inputs router5Replaying.vcs router5Replaying.in_queue_flits
        router5Replaying.next_buf router5Replaying.output_buffer = some (nb, ob) ∧
      s'.proc_credits = [] ∧
      ((0 : Int) ∈ pendingVCs s'.out_queue_credits 1 ↔
        (0 : Int) ∈ pendingVCs router5Replaying.out_queue_credits 1 ∨
        RelayedOn mesh4 router5Replaying.id (dueCredits 0 router5Replaying.proc_credits) 1 0 ∨
        (1 < 4 ∧ ∃ v < router5Replaying.vcs, (v : Int) = 0 ∧
          positiveAt router5Replaying.credit_counter (opposite 1) v = true)) :=
  ⟨by decide, by rfl, by decide, ⟨by decide, by decide, creditFor0, by decide, by decide,
      by decide⟩,
    (credit_relay mesh4 0 router5Replaying (by decide)).elim fun s' h1 =>
      h1.elim fun nb h2 => h2.elim fun ob h =>
        ⟨s', nb, ob, h.1, h.2.1, h.2.2.1.trans (by decide), h.2.2.2.2.1 1 0⟩⟩

theorem onRoute_nil (i w : Nat) : onRoute i w [] = 0 := rfl

theorem onList_nil (i w : Nat) : onList i w [] = 0 := rfl

theorem onRoute_cons (i w : Nat) (e : RouteItem) (l : List RouteItem) :
    onRoute i w (e :: l) = onRoute i w l + (if e.input = i ∧ e.vc = w then 1 else 0) := by
  unfold onRoute
  simp only [List.map_cons, List.count_cons, beq_iff_eq, Prod.mk.injEq]

theorem onList_cons (i w : Nat) (e : AllocItem) (l : List AllocItem) :
    onList i w (e :: l) = onList i w l + (if e.input = i ∧ e.vc = w then 1 else 0) := by
  unfold onList
  simp only [List.map_cons, List.count_cons, beq_iff_eq, Prod.mk.injEq]

theorem onRoute_append_one (i w : Nat) (e : RouteItem) (l : List RouteItem) :
    onRoute i w (l ++ [e]) = onRoute i w l + (if e.input = i ∧ e.vc = w then 1 else 0) := by
  unfold onRoute
  simp only [List.map_append, List.map_cons, List.map_nil, List.count_append, List.count_cons,
    List.count_nil, beq_iff_eq, Prod.mk.injEq, Nat.zero_add]

theorem onList_append_one (i w : Nat) (e : AllocItem) (l : List AllocItem) :
    onList i w (l ++ [e]) = onList i w l + (if e.input = i ∧ e.vc = w then 1 else 0) := by
  unfold onList
  simp only [List.map_append, List.map_cons, List.map_nil, List.count_append, List.count_cons,
    List.count_nil, beq_iff_eq, Prod.mk.injEq, Nat.zero_add]

theorem onList_eraseFirst (i w i0 v0 : Nat) (l : List AllocItem) :
    onList i w (eraseFirst i0 v0 l) =
      onList i w l - (if i0 = i ∧ v0 = w then 1 else 0) := by
  induction l with
  | nil => simp [eraseFirst, onList_nil]
  | cons e rest ih =>
    unfold eraseFirst
    split
    · rename_i hk
      rw [onList_cons, hk.1, hk.2]
      split <;> omega
    · rename_i hk
      rw [onList_cons, onList_cons, ih]
      by_cases h0 : i0 = i ∧ v0 = w
      · have : ¬ (e.input = i ∧ e.vc = w) := by
          rintro ⟨h1, h2⟩
          exact hk ⟨h1.trans h0.1.symm, h2.trans h0.2.symm⟩
        rw [if_pos h0, if_neg this]
        omega
      · rw [if_neg h0]
        omega

theorem onList_eraseSkipping_other (i w i0 v0 : Nat) (hne : ¬ (i0 = i ∧ v0 = w)) :
    ∀ l : List AllocItem, onList i w (eraseSkipping i0 v0 l) = onList i w l
  | [] => by simp [eraseSkipping]
  | [e] => by
    unfold eraseSkipping
    split
    · rename_i hk
      have : ¬ (e.input = i ∧ e.vc = w) := by
        rintro ⟨h1, h2⟩
        exact hne ⟨hk.1.symm.trans h1, hk.2.symm.trans h2⟩
      simp [onList_cons, onList_nil, this]
    · simp [eraseSkipping]
  | e :: next :: rest => by
    unfold eraseSkipping
    split
    · rename_i hk
      have : ¬ (e.input = i ∧ e.vc = w) := by
        rintro ⟨h1, h2⟩
        exact hne ⟨hk.1.symm.trans h1, hk.2.symm.trans h2⟩
      simp only [onList_cons, onList_eraseSkipping_other i w i0 v0 hne rest, if_neg this]
      omega
    · simp only [onList_cons, onList_eraseSkipping_other i w i0 v0 hne (next :: rest)]

theorem onList_eraseSkipping_same (i0 v0 : Nat) :
    ∀ l : List AllocItem, onList i0 v0 l ≤ 1 → onList i0 v0 (eraseSkipping i0 v0 l) = 0
  | [], _ => by simp [eraseSkipping, onList_nil]
  | [e], h => by
    unfold eraseSkipping
    split
    · rfl
    · rename_i hk
      simp [eraseSkipping, onList_cons, onList_nil, hk]
  | e :: next :: rest, h => by
    unfold eraseSkipping
    split
    · rename_i hk
      simp only [onList_cons, if_pos hk] at h
      have hn : ¬ (next.input = i0 ∧ next.vc = v0) := by
        intro hc
        rw [if_pos hc] at h
        omega
      rw [if_neg hn] at h
      simp only [onList_cons, if_neg hn]
      have := onList_eraseSkipping_same i0 v0 rest (by omega)
      omega
    · rename_i hk
      simp only [onList_cons, if_neg hk] at h ⊢
      have := onList_eraseSkipping_same i0 v0 (next :: rest) (by simpa [onList_cons] using h)
      omega

theorem onRoute_tail (i w : Nat) (l : List RouteItem) (e : RouteItem) (rest : List RouteItem)
    (hl : l = e :: rest) :
    onRoute i w l.tail = onRoute i w l - (if e.input = i ∧ e.vc = w then 1 else 0) := by
  subst hl
  rw [List.tail_cons, onRoute_cons]
  split <;> omega

theorem onList_tail (i w : Nat) (l : List AllocItem) (e : AllocItem) (rest : List AllocItem)
    (hl : l = e :: rest) :
    onList i w l.tail = onList i w l - (if e.input = i ∧ e.vc = w then 1 else 0) := by
  subst hl
  rw [List.tail_cons, onList_cons]
  split <;> omega

theorem onList_requeue (i w : Nat) (l : List AllocItem) (e n : AllocItem)
    (rest : List AllocItem) (hl : l = e :: rest) (hk : n.input = e.input ∧ n.vc = e.vc) :
    onList i w (List.tail (l ++ [n])) = onList i w l := by
  subst hl
  rw [List.cons_append, List.tail_cons, onList_append_one, onList_cons, hk.1, hk.2]

theorem onRoute_front (l : List RouteItem) (e : RouteItem) (rest : List RouteItem)
    (hl : l = e :: rest) : 1 ≤ onRoute e.input e.vc l := by
  subst hl
  rw [onRoute_cons]
  simp

theorem onList_front (l : List AllocItem) (e : AllocItem) (rest : List AllocItem)
    (hl : l = e :: rest) : 1 ≤ onList e.input e.vc l := by
  subst hl
  rw [onList_cons]
  simp
theorem vcAt_set_same (buf : List Buffer) (i0 v0 : Nat) (cur_buf : Buffer) (v v' : VC)
    (hb : buf[i0]? = some cur_buf) (hv : cur_buf[v0]? = some v) :
    ((buf.set i0 (cur_buf.set v0 v'))[i0]?).bind (fun b => b[v0]?) = some v' := by
  have h1 : i0 < buf.length := (List.getElem?_eq_some_iff.1 hb).1
  have h2 : v0 < cur_buf.length := (List.getElem?_eq_some_iff.1 hv).1
  simp [List.getElem?_set, h1, h2]

theorem vcAt_set_other (buf : List Buffer) (i0 v0 i w : Nat) (cur_buf : Buffer) (v' : VC)
    (hb : buf[i0]? = some cur_buf) (hne : ¬ (i0 = i ∧ v0 = w)) :
    ((buf.set i0 (cur_buf.set v0 v'))[i]?).bind (fun b => b[w]?) =
      (buf[i]?).bind (fun b => b[w]?) := by
  by_cases hi : i0 = i
  · subst hi
    have hw : ¬ v0 = w := fun hc => hne ⟨rfl, hc⟩
    have h1 : i0 < buf.length := (List.getElem?_eq_some_iff.1 hb).1
    simp [List.getElem?_set, h1, hb, hw]
  · simp [List.getElem?_set, hi]

theorem getVC_eq (s : RouterState) (i0 v0 : Nat) (cur_buf : Buffer) (v : VC)
    (hb : s.buf[i0]? = some cur_buf) (hv : cur_buf[v0]? = some v) :
    getVC s i0 v0 = some v := by
  unfold getVC
  simp [hb, hv]

theorem pipeTracked_step (cfg : AllocConfig) (s s' : RouterState) (i0 v0 : Nat) (v' : VC)
    (hin : i0 < s.inputs) (hvc : v0 < s.vcs)
    (hi : s'.inputs = s.inputs) (hvcs : s'.vcs = s.vcs)
    (hget0 : getVC s' i0 v0 = some v')
    (hget : ∀ i w, ¬ (i0 = i ∧ v0 = w) → getVC s' i w = getVC s i w)
    (hR : ∀ i w, ¬ (i0 = i ∧ v0 = w) → onRoute i w s'.route_vcs = onRoute i w s.route_vcs)
    (hV : ∀ i w, ¬ (i0 = i ∧ v0 = w) →
      onList i w s'.vc_alloc_vcs = onList i w s.vc_alloc_vcs)
    (hS : ∀ i w, ¬ (i0 = i ∧ v0 = w) →
      onList i w s'.sw_alloc_vcs = onList i w s.sw_alloc_vcs)
    (hH : ∀ i w, ¬ (i0 = i ∧ v0 = w) → onList i w s'.sw_hold_vcs = onList i w s.sw_hold_vcs)
    (hk : VCTracked cfg v' (onRoute i0 v0 s'.route_vcs) (onList i0 v0 s'.vc_alloc_vcs)
      (onList i0 v0 s'.sw_alloc_vcs) (onList i0 v0 s'.sw_hold_vcs))
    (hinv : PipeTracked cfg s) : PipeTracked cfg s' := by
  intro i w
  by_cases hne : i0 = i ∧ v0 = w
  · obtain ⟨rfl, rfl⟩ := hne
    exact Or.inr ⟨hi ▸ hin, hvcs ▸ hvc, v', hget0, hk⟩
  · have := hinv i w
    unfold KeyTracked at this ⊢
    rw [hR i w hne, hV i w hne, hS i w hne, hH i w hne, hget i w hne, hi, hvcs]
    exact this

theorem keyTracked_vc (cfg : AllocConfig) (s : RouterState) (i0 v0 : Nat) (v : VC)
    (hg : getVC s i0 v0 = some v) (hk : KeyTracked cfg s i0 v0) :
    VCTracked cfg v (onRoute i0 v0 s.route_vcs) (onList i0 v0 s.vc_alloc_vcs)
      (onList i0 v0 s.sw_alloc_vcs) (onList i0 v0 s.sw_hold_vcs) ∨
    (onRoute i0 v0 s.route_vcs = 0 ∧ onList i0 v0 s.vc_alloc_vcs = 0 ∧
      onList i0 v0 s.sw_alloc_vcs = 0 ∧ onList i0 v0 s.sw_hold_vcs = 0) := by
  rcases hk with h | ⟨-, -, v2, h2, h3⟩
  · exact Or.inr h
  · rw [hg] at h2
    cases h2
    exact Or.inl h3
theorem vcAllocGrant_eq (g : Globals) (cfg : AllocConfig) (now time : Int) (input vc : Nat)
    (oav : Int) (s : RouterState) (cur_buf : Buffer) (v : VC) (f : Flit) (rest : List Flit)
    (hcfg : cfg.vc_allocator = true) (hnow : now = time) (hin : input < s.inputs)
    (hvc : vc < s.vcs) (hoav : 0 ≤ oav)
    (hb : s.buf[input]? = some cur_buf) (hv : cur_buf[vc]? = some v)
    (hf : v.flits = f :: rest) (hst : v.state = eVCState.vc_alloc) (hfv : f.vc = (vc : Int))
    (hh : f.head = true) :
    vcAllocGrant g cfg now time input vc oav s = vcGrantBranch g cfg input vc oav s := by
  unfold vcAllocGrant
  have h1 : ¬ oav = -1 := by omega
  have h2 : ¬ oav < 0 := by omega
  simp [hcfg, hnow, hin, hvc, h1, h2, hb, hv, hf, hst, hfv, hh]

theorem vcAllocGrant_inv (g : Globals) (cfg : AllocConfig) (now time : Int) (input vc : Nat)
    (oav : Int) (s s' : RouterState)
    (h : vcAllocGrant g cfg now time input vc oav s = some s') :
    ∃ cur_buf v f rest, cfg.vc_allocator = true ∧ now = time ∧ input < s.inputs ∧
      vc < s.vcs ∧ 0 ≤ oav ∧ s.buf[input]? = some cur_buf ∧ cur_buf[vc]? = some v ∧
      v.flits = f :: rest ∧ v.state = eVCState.vc_alloc ∧ f.vc = (vc : Int) ∧
      f.head = true ∧ vcGrantBranch g cfg input vc oav s = some s' := by
  unfold vcAllocGrant at h
  repeat' split at h
  all_goals first
    | exact absurd h.symm (Option.some_ne_none _)
    | (refine ⟨_, _, _, _, ?_, ?_, ?_, ?_, ?_, ‹_›, ‹_›, ‹_›, ?_, ?_, ?_, h⟩ <;>
        first | omega | tauto | simp_all)

theorem vcAllocNoGrant_eq (g : Globals) (cfg : AllocConfig) (now time : Int) (input vc : Nat)
    (oav : Int) (s : RouterState) (cur_buf : Buffer) (v : VC) (f : Flit) (rest : List Flit)
    (hcfg : cfg.vc_allocator = true) (hnow : now = time) (hin : input < s.inputs)
    (hvc : vc < s.vcs) (hoav : oav < -1)
    (hb : s.buf[input]? = some cur_buf) (hv : cur_buf[vc]? = some v)
    (hf : v.flits = f :: rest) (hst : v.state = eVCState.vc_alloc) (hfv : f.vc = (vc : Int))
    (hh : f.head = true) :
    vcAllocNoGrant g cfg now time input vc oav s = vcNoGrantBranch g cfg now f input vc s := by
  unfold vcAllocNoGrant
  have h1 : ¬ oav = -1 := by omega
  have h2 : ¬ 0 ≤ oav := by omega
  simp [hcfg, hnow, hin, hvc, h1, h2, hb, hv, hf, hst, hfv, hh]

theorem vcAllocNoGrant_inv (g : Globals) (cfg : AllocConfig) (now time : Int) (input vc : Nat)
    (oav : Int) (s s' : RouterState)
    (h : vcAllocNoGrant g cfg now time input vc oav s = some s') :
    ∃ cur_buf v f rest, cfg.vc_allocator = true ∧ now = time ∧ input < s.inputs ∧
      vc < s.vcs ∧ oav < -1 ∧ s.buf[input]? = some cur_buf ∧ cur_buf[vc]? = some v ∧
      v.flits = f :: rest ∧ v.state = eVCState.vc_alloc ∧ f.vc = (vc : Int) ∧
      f.head = true ∧ vcNoGrantBranch g cfg now f input vc s = some s' := by
  unfold vcAllocNoGrant at h
  repeat' split at h
  all_goals first
    | exact absurd h.symm (Option.some_ne_none _)
    | (refine ⟨_, _, _, _, ?_, ?_, ?_, ?_, ?_, ‹_›, ‹_›, ‹_›, ?_, ?_, ?_, h⟩ <;>
        first | omega | tauto | simp_all)

theorem swAllocNoGrant_eq (g : Globals) (cfg : AllocConfig) (now time : Int) (input vc : Nat)
    (eo : Int) (s : RouterState) (cur_buf : Buffer) (v : VC) (f : Flit) (rest : List Flit)
    (hnow : now = time) (hin : input < s.inputs) (hvc : vc < s.vcs) (heo : eo < 0)
    (hb : s.buf[input]? = some cur_buf) (hv : cur_buf[vc]? = some v)
    (hf : v.flits = f :: rest)
    (hst : v.state = eVCState.active ∨ (cfg.speculative = true ∧ v.state = eVCState.vc_alloc))
    (hfv : f.vc = (vc : Int)) :
    swAllocNoGrant g cfg now time input vc eo s = swNoGrantBranch g cfg now f input vc s := by
  unfold swAllocNoGrant
  have h2 : ¬ 0 ≤ eo := by omega
  simp [hnow, hin, hvc, h2, hb, hv, hf, hst, hfv]

theorem swAllocNoGrant_inv (g : Globals) (cfg : AllocConfig) (now time : Int) (input vc : Nat)
    (eo : Int) (s s' : RouterState)
    (h : swAllocNoGrant g cfg now time input vc eo s = some s') :
    ∃ cur_buf v f rest, now = time ∧ input < s.inputs ∧ vc < s.vcs ∧ eo < 0 ∧
      s.buf[input]? = some cur_buf ∧ cur_buf[vc]? = some v ∧ v.flits = f :: rest ∧
      (v.state = eVCState.active ∨ (cfg.speculative = true ∧ v.state = eVCState.vc_alloc)) ∧
      f.vc = (vc : Int) ∧ swNoGrantBranch g cfg now f input vc s = some s' := by
  unfold swAllocNoGrant at h
  repeat' split at h
  all_goals first
    | exact absurd h.symm (Option.some_ne_none _)
    | (refine ⟨_, _, _, _, ?_, ?_, ?_, ?_, ‹_›, ‹_›, ‹_›, ?_, ?_, h⟩ <;>
        first | omega | tauto)

theorem swAllocGrant_eq (g : Globals) (cfg : AllocConfig) (now time : Int) (input vc : Nat)
    (eo : Int) (s : RouterState) (cur_buf : Buffer) (v : VC) (f : Flit) (rest : List Flit)
    (hnow : now = time) (hin : input < s.inputs) (hvc : vc < s.vcs) (heo : 0 ≤ eo)
    (hb : s.buf[input]? = some cur_buf) (hv : cur_buf[vc]? = some v)
    (hf : v.flits = f :: rest)
    (hst : v.state = eVCState.active ∨ (cfg.speculative = true ∧ v.state = eVCState.vc_alloc))
    (hfv : f.vc = (vc : Int)) :
    swAllocGrant g cfg now time input vc eo s =
      swGrantBranch g cfg input vc eo cur_buf v f rest s := by
  unfold swAllocGrant
  have h2 : ¬ eo < 0 := by omega
  simp [hnow, hin, hvc, h2, hb, hv, hf, hst, hfv]

theorem swAllocGrant_inv (g : Globals) (cfg : AllocConfig) (now time : Int) (input vc : Nat)
    (eo : Int) (s s' : RouterState)
    (h : swAllocGrant g cfg now time input vc eo s = some s') :
    ∃ cur_buf v f rest, now = time ∧ input < s.inputs ∧ vc < s.vcs ∧ 0 ≤ eo ∧
      s.buf[input]? = some cur_buf ∧ cur_buf[vc]? = some v ∧ v.flits = f :: rest ∧
      (v.state = eVCState.active ∨ (cfg.speculative = true ∧ v.state = eVCState.vc_alloc)) ∧
      f.vc = (vc : Int) ∧ swGrantBranch g cfg input vc eo cur_buf v f rest s = some s' := by
  unfold swAllocGrant at h
  repeat' split at h
  all_goals first
    | exact absurd h.symm (Option.some_ne_none _)
    | (refine ⟨_, _, _, _, ?_, ?_, ?_, ?_, ‹_›, ‹_›, ‹_›, ?_, ?_, h⟩ <;>
        first | omega | tauto)
theorem tracked_of_pos (cfg : AllocConfig) (s : RouterState) (i0 v0 : Nat) (v : VC)
    (hinv : PipeTracked cfg s) (hg : getVC s i0 v0 = some v)
    (hpos : 0 < onRoute i0 v0 s.route_vcs + onList i0 v0 s.vc_alloc_vcs +
      onList i0 v0 s.sw_alloc_vcs + onList i0 v0 s.sw_hold_vcs) :
    VCTracked cfg v (onRoute i0 v0 s.route_vcs) (onList i0 v0 s.vc_alloc_vcs)
      (onList i0 v0 s.sw_alloc_vcs) (onList i0 v0 s.sw_hold_vcs) := by
  rcases keyTracked_vc cfg s i0 v0 v hg (hinv i0 v0) with h | h
  · exact h
  · omega

theorem vcNoGrantBranch_tracked (g : Globals) (cfg : AllocConfig) (now : Int) (f : Flit)
    (input vc : Nat) (s s' : RouterState) (cur_buf : Buffer) (v : VC)
    (e : AllocItem) (rest : List AllocItem)
    (hl : s.vc_alloc_vcs = e :: rest) (he : e.input = input ∧ e.vc = vc)
    (hin : input < s.inputs) (hvc : vc < s.vcs)
    (hb : s.buf[input]? = some cur_buf) (hv : cur_buf[vc]? = some v)
    (hst : v.state = eVCState.vc_alloc)
    (h : vcNoGrantBranch g cfg now f input vc s = some s')
    (hinv : PipeTracked cfg s) : PipeTracked cfg s' := by
  have hg := getVC_eq s input vc cur_buf v hb hv
  have hfr := onList_front s.vc_alloc_vcs e rest hl
  rw [he.1, he.2] at hfr
  have ht := tracked_of_pos cfg s input vc v hinv hg (by omega)
  obtain ⟨h1, h2, h3, h4, h5, h6, h7⟩ := ht.2.2.1 hst
  have hrq : ∀ i w, onList i w (List.tail (s.vc_alloc_vcs ++
      [({ time := -1, input := input, vc := vc, output := -1 } : AllocItem)])) =
      onList i w s.vc_alloc_vcs := fun i w =>
    onList_requeue i w _ e _ rest hl ⟨he.1.symm, he.2.symm⟩
  unfold vcNoGrantBranch at h
  simp only [hb, hv] at h
  cases hsp : cfg.speculative
  all_goals
    simp only [hsp, Bool.false_eq_true, if_false, if_true, imp_false, not_true_eq_false,
      false_implies, true_implies] at h h5
    repeat' split at h
  all_goals first
    | exact absurd h.symm (Option.some_ne_none _)
    | (cases h
       refine pipeTracked_step cfg s _ input vc _ hin hvc rfl rfl
         (vcAt_set_same s.buf input vc cur_buf v _ hb hv)
         (fun i w hne => vcAt_set_other s.buf input vc i w cur_buf _ hb hne) ?_ ?_ ?_ ?_ ?_ hinv
       all_goals first
         | (intro i w hne
            simp only [onRoute_append_one, onList_append_one, onList_tail _ _ _ _ _ hl, hrq,
              onList_eraseFirst, onList_eraseSkipping_other _ _ _ _ hne, he.1, he.2, if_neg hne,
              Nat.add_zero, Nat.sub_zero])
         | (simp only [VCTracked, reduceCtorEq, false_implies, true_implies, true_and, and_true,
              onRoute_append_one, onList_append_one, onList_tail _ _ _ _ _ hl, hrq,
              onList_eraseFirst, onList_eraseSkipping_same _ _ _ h3, he.1, he.2, and_self,
              if_true]
            omega))
    | (cases h
       refine pipeTracked_step cfg s _ input vc v hin hvc rfl rfl hg
         (fun i w hne => rfl) ?_ ?_ ?_ ?_ ?_ hinv
       all_goals first
         | (intro i w hne
            simp only [onRoute_append_one, onList_append_one, onList_tail _ _ _ _ _ hl, hrq,
              onList_eraseFirst, onList_eraseSkipping_other _ _ _ _ hne, he.1, he.2, if_neg hne,
              Nat.add_zero, Nat.sub_zero])
         | (simp only [hrq]
            exact ht))
theorem vcGrantBranch_tracked (g : Globals) (cfg : AllocConfig)
    (input vc : Nat) (oav : Int) (s s' : RouterState) (cur_buf : Buffer) (v : VC)
    (f : Flit) (waiting : List Flit) (e : AllocItem) (rest : List AllocItem)
    (hl : s.vc_alloc_vcs = e :: rest) (he : e.input = input ∧ e.vc = vc)
    (hin : input < s.inputs) (hvc : vc < s.vcs)
    (hb : s.buf[input]? = some cur_buf) (hv : cur_buf[vc]? = some v)
    (hst : v.state = eVCState.vc_alloc) (hf : v.flits = f :: waiting)
    (h : vcGrantBranch g cfg input vc oav s = some s')
    (hinv : PipeTracked cfg s) : PipeTracked cfg s' := by
  have hg := getVC_eq s input vc cur_buf v hb hv
  have hfr := onList_front s.vc_alloc_vcs e rest hl
  rw [he.1, he.2] at hfr
  have ht := tracked_of_pos cfg s input vc v hinv hg (by omega)
  obtain ⟨h1, h2, h3, h4, h5, h6, h7⟩ := ht.2.2.1 hst
  unfold vcGrantBranch at h
  simp only [hb, hv] at h
  cases hsp : cfg.speculative
  all_goals
    simp only [hsp, Bool.false_eq_true, Bool.true_eq_false, if_false, if_true] at h
    repeat' split at h
  all_goals first
    | exact absurd h.symm (Option.some_ne_none _)
    | (cases h
       refine pipeTracked_step cfg s _ input vc _ hin hvc rfl rfl
         (vcAt_set_same s.buf input vc cur_buf v _ hb hv)
         (fun i w hne => vcAt_set_other s.buf input vc i w cur_buf _ hb hne) ?_ ?_ ?_ ?_ ?_ hinv
       all_goals first
         | (intro i w hne
            simp only [onRoute_append_one, onList_append_one, onList_tail _ _ _ _ _ hl,
              onList_eraseFirst, onList_eraseSkipping_other _ _ _ _ hne, he.1, he.2, if_neg hne,
              Nat.add_zero, Nat.sub_zero])
         | (simp only [VCTracked, reduceCtorEq, false_implies, true_implies, true_and, and_true,
              onRoute_append_one, onList_append_one, onList_tail _ _ _ _ _ hl,
              onList_eraseFirst, onList_eraseSkipping_same _ _ _ h3, he.1, he.2, and_self,
              if_true, hf]
            first | omega | (have h5a := h5 hsp; omega)))

theorem pipeTracked_same (cfg : AllocConfig) (s s' : RouterState)
    (hi : s'.inputs = s.inputs) (hvcs : s'.vcs = s.vcs) (hbuf : s'.buf = s.buf)
    (hR : ∀ i w, onRoute i w s'.route_vcs = onRoute i w s.route_vcs)
    (hV : ∀ i w, onList i w s'.vc_alloc_vcs = onList i w s.vc_alloc_vcs)
    (hS : ∀ i w, onList i w s'.sw_alloc_vcs = onList i w s.sw_alloc_vcs)
    (hH : ∀ i w, onList i w s'.sw_hold_vcs = onList i w s.sw_hold_vcs)
    (hinv : PipeTracked cfg s) : PipeTracked cfg s' := by
  intro i w
  have := hinv i w
  unfold KeyTracked at this ⊢
  unfold getVC at this ⊢
  rw [hR i w, hV i w, hS i w, hH i w, hbuf, hi, hvcs]
  exact this

theorem swAllocTimeout_tracked (cfg : AllocConfig) (now : Int) (f : Flit)
    (input vc : Nat) (s s' : RouterState) (cur_buf : Buffer) (v : VC)
    (e : AllocItem) (rest : List AllocItem)
    (hl : s.sw_alloc_vcs = e :: rest) (he : e.input = input ∧ e.vc = vc)
    (hin : input < s.inputs) (hvc : vc < s.vcs)
    (hb : s.buf[input]? = some cur_buf) (hv : cur_buf[vc]? = some v)
    (h : swAllocTimeout now f input vc cur_buf v s = some s')
    (hinv : PipeTracked cfg s) : PipeTracked cfg s' := by
  have hg := getVC_eq s input vc cur_buf v hb hv
  have hfr := onList_front s.sw_alloc_vcs e rest hl
  rw [he.1, he.2] at hfr
  have ht := tracked_of_pos cfg s input vc v hinv hg (by omega)
  have hrq : ∀ i w, onList i w (List.tail (s.sw_alloc_vcs ++
      [({ time := -1, input := input, vc := vc, output := -1 } : AllocItem)])) =
      onList i w s.sw_alloc_vcs := fun i w =>
    onList_requeue i w _ e _ rest hl ⟨he.1.symm, he.2.symm⟩
  unfold swAllocTimeout at h
  cases hst : v.state
  all_goals
    simp only [hst, reduceCtorEq, if_false, if_true, not_true_eq_false, not_false_eq_true,
      ne_eq] at h
    repeat' split at h
  all_goals first
    | exact absurd h.symm (Option.some_ne_none _)
    | (cases h
       exact pipeTracked_same cfg s _ rfl rfl rfl (fun _ _ => rfl)
         (fun _ _ => rfl) (fun i w => hrq i w) (fun _ _ => rfl) hinv)
    | (cases h
       have hX := ht.2.2.1 hst
       obtain ⟨h1, h2, h3, h4, h5, h6, h7⟩ := hX
       refine pipeTracked_step cfg s _ input vc _ hin hvc rfl rfl
         (vcAt_set_same s.buf input vc cur_buf v _ hb hv)
         (fun i w hne => vcAt_set_other s.buf input vc i w cur_buf _ hb hne)
         ?_ ?_ ?_ ?_ ?_ hinv
       all_goals first
         | (intro i w hne
            simp only [onRoute_append_one, onList_append_one, onList_tail _ _ _ _ _ hl,
              onList_eraseFirst, he.1, he.2, if_neg hne, Nat.add_zero, Nat.sub_zero])
         | (simp only [VCTracked, reduceCtorEq, false_implies, true_implies, true_and,
              and_true, onRoute_append_one, onList_append_one,
              onList_tail _ _ _ _ _ hl, onList_eraseFirst, he.1, he.2, and_self,
              if_true]
            omega))
    | (cases h
       have hX := ht.2.2.2 hst
       obtain ⟨h1, h2, h3, h4⟩ := hX
       refine pipeTracked_step cfg s _ input vc _ hin hvc rfl rfl
         (vcAt_set_same s.buf input vc cur_buf v _ hb hv)
         (fun i w hne => vcAt_set_other s.buf input vc i w cur_buf _ hb hne)
         ?_ ?_ ?_ ?_ ?_ hinv
       all_goals first
         | (intro i w hne
            simp only [onRoute_append_one, onList_append_one, onList_tail _ _ _ _ _ hl,
              onList_eraseFirst, he.1, he.2, if_neg hne, Nat.add_zero, Nat.sub_zero])
         | (simp only [VCTracked, reduceCtorEq, false_implies, true_implies, true_and,
              and_true, onRoute_append_one, onList_append_one,
              onList_tail _ _ _ _ _ hl, onList_eraseFirst, he.1, he.2, and_self,
              if_true]
            omega))
theorem swNoGrantBranch_tracked (g : Globals) (cfg : AllocConfig) (now : Int) (f : Flit)
    (input vc : Nat) (s s' : RouterState) (cur_buf : Buffer) (v : VC)
    (e : AllocItem) (rest : List AllocItem)
    (hl : s.sw_alloc_vcs = e :: rest) (he : e.input = input ∧ e.vc = vc)
    (hin : input < s.inputs) (hvc : vc < s.vcs)
    (hb : s.buf[input]? = some cur_buf) (hv : cur_buf[vc]? = some v)
    (h : swNoGrantBranch g cfg now f input vc s = some s')
    (hinv : PipeTracked cfg s) : PipeTracked cfg s' := by
  have hg := getVC_eq s input vc cur_buf v hb hv
  have hfr := onList_front s.sw_alloc_vcs e rest hl
  rw [he.1, he.2] at hfr
  have ht := tracked_of_pos cfg s input vc v hinv hg (by omega)
  unfold swNoGrantBranch at h
  simp only [hb, hv] at h
  cases hst : v.state
  all_goals
    simp only [hst, reduceCtorEq, if_false, if_true, not_true_eq_false, not_false_eq_true,
      ne_eq] at h
    repeat' split at h
  all_goals first
    | exact absurd h.symm (Option.some_ne_none _)
    | exact swAllocTimeout_tracked cfg now f input vc s s' cur_buf v e rest hl he hin hvc hb hv
        h hinv
    | (cases h
       have hX := ht.2.2.1 hst
       obtain ⟨h1, h2, h3, h4, h5, h6, h7⟩ := hX
       refine pipeTracked_step cfg s _ input vc _ hin hvc rfl rfl
         (vcAt_set_same s.buf input vc cur_buf v _ hb hv)
         (fun i w hne => vcAt_set_other s.buf input vc i w cur_buf _ hb hne) ?_ ?_ ?_ ?_ ?_ hinv
       all_goals first
         | (intro i w hne
            simp only [onRoute_append_one, onList_append_one, onList_tail _ _ _ _ _ hl,
              onList_eraseFirst, he.1, he.2, if_neg hne, Nat.add_zero, Nat.sub_zero])
         | (simp only [VCTracked, reduceCtorEq, false_implies, true_implies, true_and, and_true,
              onRoute_append_one, onList_append_one, onList_tail _ _ _ _ _ hl,
              onList_eraseFirst, he.1, he.2, and_self, if_true]
            omega))
    | (cases h
       have hX := ht.2.2.2 hst
       obtain ⟨h1, h2, h3, h4⟩ := hX
       refine pipeTracked_step cfg s _ input vc _ hin hvc rfl rfl
         (vcAt_set_same s.buf input vc cur_buf v _ hb hv)
         (fun i w hne => vcAt_set_other s.buf input vc i w cur_buf _ hb hne) ?_ ?_ ?_ ?_ ?_ hinv
       all_goals first
         | (intro i w hne
            simp only [onRoute_append_one, onList_append_one, onList_tail _ _ _ _ _ hl,
              onList_eraseFirst, he.1, he.2, if_neg hne, Nat.add_zero, Nat.sub_zero])
         | (simp only [VCTracked, reduceCtorEq, false_implies, true_implies, true_and, and_true,
              onRoute_append_one, onList_append_one, onList_tail _ _ _ _ _ hl,
              onList_eraseFirst, he.1, he.2, and_self, if_true]
            omega))
theorem swAllocSend_tracked (cfg : AllocConfig) (input vc : Nat) (ei eo : Int) (output : Nat)
    (cur_buf : Buffer) (v0 v : VC) (f : Flit) (waiting : List Flit) (dest_buf : BufferState)
    (match_vc : Int) (rr : List Int) (s s' : RouterState)
    (e : AllocItem) (rest : List AllocItem)
    (hl : s.sw_alloc_vcs = e :: rest) (he : e.input = input ∧ e.vc = vc)
    (hin : input < s.inputs) (hvc : vc < s.vcs)
    (hb : s.buf[input]? = some cur_buf) (hv : cur_buf[vc]? = some v0)
    (hst : v.state = eVCState.active)
    (h1 : onRoute input vc s.route_vcs = 0) (h2 : onList input vc s.vc_alloc_vcs = 0)
    (h3 : onList input vc s.sw_alloc_vcs ≤ 1) (h4 : onList input vc s.sw_hold_vcs = 0)
    (h : swAllocSend cfg input vc ei eo output cur_buf v f waiting dest_buf match_vc rr s =
      some s')
    (hinv : PipeTracked cfg s) : PipeTracked cfg s' := by
  have hfr := onList_front s.sw_alloc_vcs e rest hl
  rw [he.1, he.2] at hfr
  have hrq : ∀ i w, onList i w (List.tail (s.sw_alloc_vcs ++
      [({ time := -1, input := input, vc := vc, output := -1 } : AllocItem)])) =
      onList i w s.sw_alloc_vcs := fun i w =>
    onList_requeue i w _ e _ rest hl ⟨he.1.symm, he.2.symm⟩
  unfold swAllocSend at h
  cases htl : f.tail <;> cases hsp : cfg.speculative <;> cases hva : cfg.vc_allocator
  all_goals
    simp only [htl, hsp, hva, Bool.false_eq_true, Bool.true_eq_false, if_false, if_true] at h
    repeat' split at h
  all_goals first
    | exact absurd h.symm (Option.some_ne_none _)
    | (cases h
       refine pipeTracked_step cfg s _ input vc _ hin hvc rfl rfl
         (vcAt_set_same s.buf input vc cur_buf v0 _ hb hv)
         (fun i w hne => vcAt_set_other s.buf input vc i w cur_buf _ hb hne) ?_ ?_ ?_ ?_ ?_ hinv
       all_goals first
         | (intro i w hne
            simp only [onRoute_append_one, onList_append_one, onList_tail _ _ _ _ _ hl, hrq,
              he.1, he.2, if_neg hne, Nat.add_zero, Nat.sub_zero])
         | (simp only [VCTracked, hst, hsp, hva, reduceCtorEq, false_implies, true_implies,
              true_and, and_true, onRoute_append_one, onList_append_one,
              onList_tail _ _ _ _ _ hl, hrq, he.1, he.2, and_self, if_true,
              Bool.false_eq_true, Bool.true_eq_false, implies_true]
            omega))
theorem swGrantBranch_cases (g : Globals) (cfg : AllocConfig)
    (input vc : Nat) (eo : Int) (s s' : RouterState) (cur_buf : Buffer) (v : VC)
    (f : Flit) (waiting : List Flit)
    (h : swGrantBranch g cfg input vc eo cur_buf v f waiting s = some s') :
    ∃ lane out dest_buf, cmod (vc : Int) cfg.input_speedup = some lane ∧
      cdiv eo s.output_speedup = some out ∧ 0 ≤ out ∧ out < (s.outputs : Int) ∧
      s.next_buf[out.toNat]? = some dest_buf ∧
      ((cfg.vc_allocator = false ∧ v.state = eVCState.vc_alloc ∧
        ∃ m, piggybackVC cfg s f out dest_buf v.route_set = some m ∧
          swAllocSend cfg input vc ((input : Int) * cfg.input_speedup + lane) eo out.toNat
            cur_buf { v with state := eVCState.active, output_port := out, output_vc := m.1 }
            f waiting
            (dest_buf.call (BufCall.TakeBuffer m.1 ((input : Int) * (s.vcs : Int) + (vc : Int))))
            m.1 m.2 s = some s') ∨
       (¬ (cfg.vc_allocator = false ∧ v.state = eVCState.vc_alloc) ∧ v.output_port = out ∧
        ((f.head = true ∧ backToRoute g s out.toNat = some true ∧
            v.state = eVCState.vc_alloc ∧ cfg.speculative = true ∧
            s' = { s with
              vc_alloc_vcs := eraseFirst input vc s.vc_alloc_vcs
              buf := s.buf.set input
                (cur_buf.set vc { v with route_set := [], state := eVCState.routing })
              route_vcs := s.route_vcs ++ [{ time := -1, input := input, vc := vc }]
              sw_alloc_vcs := s.sw_alloc_vcs.tail }) ∨
         (f.head = true ∧ backToRoute g s out.toNat = some true ∧
            v.state ≠ eVCState.vc_alloc ∧
            s' = { s with
              next_buf := s.next_buf.set out.toNat
                (dest_buf.call (BufCall.ReturnBuffer v.output_vc))
              buf := s.buf.set input
                (cur_buf.set vc { v with route_set := [], state := eVCState.routing })
              route_vcs := s.route_vcs ++ [{ time := -1, input := input, vc := vc }]
              sw_alloc_vcs := s.sw_alloc_vcs.tail }) ∨
         ((f.head = true → backToRoute g s out.toNat = some false) ∧
            swAllocSend cfg input vc ((input : Int) * cfg.input_speedup + lane) eo out.toNat
              cur_buf v f waiting dest_buf v.output_vc s.vc_rr_offset s = some s')))) := by
  unfold swGrantBranch at h
  split at h
  · exact absurd h.symm (Option.some_ne_none _)
  · rename_i lane hlane
    dsimp only at h
    split at h
    · split at h
      · exact absurd h.symm (Option.some_ne_none _)
      · split at h
        · exact absurd h.symm (Option.some_ne_none _)
        · split at h
          · exact absurd h.symm (Option.some_ne_none _)
          · split at h
            · exact absurd h.symm (Option.some_ne_none _)
            · rename_i out hout
              split at h
              · exact absurd h.symm (Option.some_ne_none _)
              · rename_i hrange
                have hr : 0 ≤ out ∧ out < (s.outputs : Int) := by
                  by_contra hc
                  exact hrange hc
                split at h
                · exact absurd h.symm (Option.some_ne_none _)
                · rename_i dest_buf hdest
                  refine ⟨lane, out, dest_buf, hlane, hout, hr.1, hr.2, hdest, ?_⟩
                  split at h
                  · rename_i hpig
                    split at h
                    · exact absurd h.symm (Option.some_ne_none _)
                    · rename_i m hm
                      exact Or.inl ⟨hpig.1, hpig.2, m, hm, h⟩
                  · rename_i hpig
                    split at h
                    · exact absurd h.symm (Option.some_ne_none _)
                    · rename_i hport
                      have hp : v.output_port = out := by
                        by_contra hc
                        exact hport hc
                      refine Or.inr ⟨hpig, hp, ?_⟩
                      cases hhd : f.head
                      · simp only [hhd, Bool.false_eq_true, if_false] at h
                        exact Or.inr (Or.inr ⟨fun hc => absurd hc (by simp), h⟩)
                      · simp only [hhd, if_true] at h
                        split at h
                        · exact absurd h.symm (Option.some_ne_none _)
                        · rename_i hbt
                          split at h
                          · split at h
                            · exact absurd h.symm (Option.some_ne_none _)
                            · rename_i hst hsp
                              refine Or.inl ⟨rfl, hbt, hst, ?_, (Option.some.inj h).symm⟩
                              cases hs : cfg.speculative
                              · exact absurd hs hsp
                              · rfl
                          · rename_i hst
                            exact Or.inr (Or.inl ⟨rfl, hbt, hst, (Option.some.inj h).symm⟩)
                        · rename_i hbt
                          exact Or.inr (Or.inr ⟨fun _ => hbt, h⟩)
    · exact absurd h.symm (Option.some_ne_none _)
theorem swGrantBranch_tracked (g : Globals) (cfg : AllocConfig)
    (input vc : Nat) (eo : Int) (s s' : RouterState) (cur_buf : Buffer) (v : VC)
    (f : Flit) (waiting : List Flit) (e : AllocItem) (rest : List AllocItem)
    (hl : s.sw_alloc_vcs = e :: rest) (he : e.input = input ∧ e.vc = vc)
    (hin : input < s.inputs) (hvc : vc < s.vcs)
    (hb : s.buf[input]? = some cur_buf) (hv : cur_buf[vc]? = some v)
    (hst : v.state = eVCState.active ∨ v.state = eVCState.vc_alloc)
    (h : swGrantBranch g cfg input vc eo cur_buf v f waiting s = some s')
    (hinv : PipeTracked cfg s) : PipeTracked cfg s' := by
  have hg := getVC_eq s input vc cur_buf v hb hv
  have hfr := onList_front s.sw_alloc_vcs e rest hl
  rw [he.1, he.2] at hfr
  have ht := tracked_of_pos cfg s input vc v hinv hg (by omega)
  obtain ⟨lane, out, dest_buf, -, -, hout0, -, -, hc⟩ :=
    swGrantBranch_cases g cfg input vc eo s s' cur_buf v f waiting h
  rcases hc with ⟨hva, hvs, m, -, hsend⟩ | ⟨-, hport, hc⟩
  · obtain ⟨h1, h2, h3, h4, h5, h6, h7⟩ := ht.2.2.1 hvs
    exact swAllocSend_tracked cfg input vc _ _ _ cur_buf v _ f waiting _ _ _ s s' e rest hl he
      hin hvc hb hv rfl h1 (h6 hva) h3 h4 hsend hinv
  · have hact : v.state = eVCState.active := by
      rcases hst with h0 | h0
      · exact h0
      · have := (ht.2.2.1 h0).2.2.2.2.2.2
        omega
    obtain ⟨h1, h2, h3, h4⟩ := ht.2.2.2 hact
    rcases hc with ⟨-, -, hvs, -, -⟩ | ⟨-, -, -, hs'⟩ | ⟨-, hsend⟩
    · rw [hact] at hvs
      cases hvs
    · subst hs'
      refine pipeTracked_step cfg s _ input vc _ hin hvc rfl rfl
        (vcAt_set_same s.buf input vc cur_buf v _ hb hv)
        (fun i w hne => vcAt_set_other s.buf input vc i w cur_buf _ hb hne) ?_ ?_ ?_ ?_ ?_ hinv
      all_goals first
        | (intro i w hne
           simp only [onRoute_append_one, onList_append_one, onList_tail _ _ _ _ _ hl,
             he.1, he.2, if_neg hne, Nat.add_zero, Nat.sub_zero])
        | (simp only [VCTracked, reduceCtorEq, false_implies, true_implies, true_and, and_true,
             onRoute_append_one, onList_append_one, onList_tail _ _ _ _ _ hl,
             he.1, he.2, and_self, if_true]
           omega)
    · exact swAllocSend_tracked cfg input vc _ _ _ cur_buf v _ f waiting _ _ _ s s' e rest hl he
        hin hvc hb hv hact h1 h2 (by omega) (by omega) hsend hinv
theorem routeUpdate_inv (cfg : AllocConfig) (now time : Int) (input vc : Nat)
    (route_set : List SetElement) (s s' : RouterState)
    (h : routeUpdate cfg now time input vc route_set s = some s') :
    ∃ cur_buf v f waiting, now = time ∧ input < s.inputs ∧ vc < s.vcs ∧
      s.buf[input]? = some cur_buf ∧ cur_buf[vc]? = some v ∧ v.flits = f :: waiting ∧
      v.state = eVCState.routing ∧ f.vc = (vc : Int) ∧ f.head = true ∧
      routeDestCheck s f route_set = true ∧
      s' = { s with
        buf := s.buf.set input
          (cur_buf.set vc
            { v with
              route_set := route_set, output_port := -1, output_vc := -1
              state := eVCState.vc_alloc
              flits := { f with rtime := now } :: waiting })
        sw_alloc_vcs :=
          if cfg.speculative = true then
            s.sw_alloc_vcs ++ [{ time := -1, input := input, vc := vc, output := -1 }]
          else s.sw_alloc_vcs
        vc_alloc_vcs :=
          if cfg.vc_allocator = true then
            s.vc_alloc_vcs ++ [{ time := -1, input := input, vc := vc, output := -1 }]
          else s.vc_alloc_vcs
        route_vcs := s.route_vcs.tail } := by
  unfold routeUpdate at h
  split at h
  · exact absurd h.symm (Option.some_ne_none _)
  split at h
  · exact absurd h.symm (Option.some_ne_none _)
  · rename_i hnow
    split at h
    · exact absurd h.symm (Option.some_ne_none _)
    · rename_i hin
      split at h
      · exact absurd h.symm (Option.some_ne_none _)
      · rename_i hvc
        split at h
        · exact absurd h.symm (Option.some_ne_none _)
        · rename_i cur_buf hb
          split at h
          · exact absurd h.symm (Option.some_ne_none _)
          · rename_i v hv
            split at h
            · exact absurd h.symm (Option.some_ne_none _)
            · rename_i f waiting hf
              split at h
              · exact absurd h.symm (Option.some_ne_none _)
              · rename_i hst
                split at h
                · exact absurd h.symm (Option.some_ne_none _)
                · rename_i hfv
                  split at h
                  · exact absurd h.symm (Option.some_ne_none _)
                  · rename_i hh
                    split at h
                    · exact absurd h.symm (Option.some_ne_none _)
                    · rename_i hd
                      refine ⟨cur_buf, v, f, waiting, ?_, ?_, ?_, hb, hv, hf, ?_, ?_, ?_, ?_,
                        (Option.some.inj h).symm⟩
                      · by_contra hc
                        exact hnow hc
                      · by_contra hc
                        exact hin hc
                      · by_contra hc
                        exact hvc hc
                      · by_contra hc
                        exact hst hc
                      · by_contra hc
                        exact hfv hc
                      · cases hx : f.head
                        · exact absurd hx hh
                        · rfl
                      · cases hx : routeDestCheck s f route_set
                        · exact absurd hx hd
                        · rfl

theorem routeUpdate_tracked (cfg : AllocConfig) (now time : Int) (input vc : Nat)
    (route_set : List SetElement) (s s' : RouterState)
    (e : RouteItem) (rest : List RouteItem)
    (hl : s.route_vcs = e :: rest) (he : e.input = input ∧ e.vc = vc)
    (h : routeUpdate cfg now time input vc route_set s = some s')
    (hinv : PipeTracked cfg s) : PipeTracked cfg s' := by
  have hfr := onRoute_front s.route_vcs e rest hl
  rw [he.1, he.2] at hfr
  obtain ⟨cur_buf, v, f, waiting, -, hin, hvc, hb, hv, -, hst, -, -, -, hs'⟩ :=
    routeUpdate_inv cfg now time input vc route_set s s' h
  have hg := getVC_eq s input vc cur_buf v hb hv
  have ht := tracked_of_pos cfg s input vc v hinv hg (by omega)
  obtain ⟨h1, h2, h3, h4⟩ := ht.2.1 hst
  subst hs'
  refine pipeTracked_step cfg s _ input vc _ hin hvc rfl rfl
    (vcAt_set_same s.buf input vc cur_buf v _ hb hv)
    (fun i w hne => vcAt_set_other s.buf input vc i w cur_buf _ hb hne) ?_ ?_ ?_ ?_ ?_ hinv
  · intro i w hne
    simp only [onRoute_tail _ _ _ _ _ hl, he.1, he.2, if_neg hne, Nat.sub_zero]
  · intro i w hne
    dsimp only
    split
    · simp only [onList_append_one, if_neg hne, Nat.add_zero]
    · rfl
  · intro i w hne
    dsimp only
    split
    · simp only [onList_append_one, if_neg hne, Nat.add_zero]
    · rfl
  · intro i w hne
    rfl
  · cases hsp : cfg.speculative <;> cases hva : cfg.vc_allocator <;>
      simp only [VCTracked, reduceCtorEq, false_implies, true_implies, true_and, and_true,
        onList_append_one, onRoute_tail _ _ _ _ _ hl, he.1, he.2, and_self, if_true, if_false,
        Bool.false_eq_true, Bool.true_eq_false, hsp, hva] <;> omega
theorem pipeTracked_key (cfg : AllocConfig) (s s' : RouterState) (i0 v0 : Nat)
    (hi : s'.inputs = s.inputs) (hvcs : s'.vcs = s.vcs)
    (hget : ∀ i w, ¬ (i0 = i ∧ v0 = w) → getVC s' i w = getVC s i w)
    (hR : ∀ i w, ¬ (i0 = i ∧ v0 = w) → onRoute i w s'.route_vcs = onRoute i w s.route_vcs)
    (hV : ∀ i w, ¬ (i0 = i ∧ v0 = w) →
      onList i w s'.vc_alloc_vcs = onList i w s.vc_alloc_vcs)
    (hS : ∀ i w, ¬ (i0 = i ∧ v0 = w) →
      onList i w s'.sw_alloc_vcs = onList i w s.sw_alloc_vcs)
    (hH : ∀ i w, ¬ (i0 = i ∧ v0 = w) → onList i w s'.sw_hold_vcs = onList i w s.sw_hold_vcs)
    (hk : KeyTracked cfg s' i0 v0)
    (hinv : PipeTracked cfg s) : PipeTracked cfg s' := by
  intro i w
  by_cases hne : i0 = i ∧ v0 = w
  · obtain ⟨rfl, rfl⟩ := hne
    exact hk
  · have := hinv i w
    unfold KeyTracked at this ⊢
    rw [hR i w hne, hV i w hne, hS i w hne, hH i w hne, hget i w hne, hi, hvcs]
    exact this

theorem vcTracked_more (cfg : AllocConfig) (v v' : VC) (r va sa h : Nat)
    (ht : VCTracked cfg v r va sa h) (hs : v'.state = v.state)
    (hp : v'.output_port = v.output_port) (hf : v'.flits = [] → v.flits = []) :
    VCTracked cfg v' r va sa h := by
  unfold VCTracked at ht ⊢
  rw [hs, hp]
  exact ⟨ht.1, ht.2.1, ht.2.2.1, fun ha =>
    ⟨(ht.2.2.2 ha).1, (ht.2.2.2 ha).2.1, (ht.2.2.2 ha).2.2.1,
      fun hc => (ht.2.2.2 ha).2.2.2 (hf hc)⟩⟩

theorem inputQueuingFlit_tracked (cfg : AllocConfig) (now : Int) (input : Nat) (f : Flit)
    (s s' : RouterState)
    (h : inputQueuingFlit cfg now input f s = some s')
    (hinv : PipeTracked cfg s) : PipeTracked cfg s' := by
  unfold inputQueuingFlit at h
  split at h
  · exact absurd h.symm (Option.some_ne_none _)
  · rename_i hin0
    split at h
    · exact absurd h.symm (Option.some_ne_none _)
    · rename_i hvc0
      have hin : input < s.inputs := by omega
      have hvc : f.vc.toNat < s.vcs := by omega
      dsimp only at h
      split at h
      · exact absurd h.symm (Option.some_ne_none _)
      · rename_i cur_buf hb
        split at h
        · exact absurd h.symm (Option.some_ne_none _)
        · rename_i v hv
          have hg := getVC_eq s input f.vc.toNat cur_buf v hb hv
          have hk := keyTracked_vc cfg s input f.vc.toNat v hg (hinv input f.vc.toNat)
          split at h
          · rename_i hst
            have hz : onRoute input f.vc.toNat s.route_vcs = 0 ∧
                onList input f.vc.toNat s.vc_alloc_vcs = 0 ∧
                onList input f.vc.toNat s.sw_alloc_vcs = 0 ∧
                onList input f.vc.toNat s.sw_hold_vcs = 0 := by
              rcases hk with hk | hk
              · exact hk.1 hst
              · exact hk
            cases hsp : cfg.speculative <;> cases hva : cfg.vc_allocator
            all_goals
              simp only [hsp, hva, Bool.false_eq_true, if_false, if_true] at h
              repeat' split at h
            all_goals first
              | exact absurd h.symm (Option.some_ne_none _)
              | (cases h
                 refine pipeTracked_step cfg s _ input f.vc.toNat _ hin hvc rfl rfl
                   (vcAt_set_same s.buf input f.vc.toNat cur_buf v _ hb hv)
                   (fun i w hne => vcAt_set_other s.buf input f.vc.toNat i w cur_buf _ hb hne)
                   ?_ ?_ ?_ ?_ ?_ hinv
                 all_goals first
                   | (intro i w hne
                      simp only [onRoute_append_one, onList_append_one, if_neg hne,
                        Nat.add_zero])
                   | (simp only [VCTracked, hsp, hva, reduceCtorEq, false_implies, true_implies,
                        true_and, and_true, onRoute_append_one, onList_append_one, and_self,
                        if_true, Bool.false_eq_true, Bool.true_eq_false, implies_true]
                      omega))
          · split at h
            · rename_i hnid hact
              have hz : onRoute input f.vc.toNat s.route_vcs = 0 ∧
                  onList input f.vc.toNat s.vc_alloc_vcs = 0 ∧
                  onList input f.vc.toNat s.sw_alloc_vcs = 0 ∧
                  onList input f.vc.toNat s.sw_hold_vcs = 0 := by
                rcases hk with hk | hk
                · have := hk.2.2.2 hact.1
                  exact ⟨this.1, this.2.1, (this.2.2.2 hact.2).1, (this.2.2.2 hact.2).2⟩
                · exact hk
              have hst := hact.1
              repeat' split at h
              all_goals first
                | exact absurd h.symm (Option.some_ne_none _)
                | (cases h
                   refine pipeTracked_step cfg s _ input f.vc.toNat _ hin hvc rfl rfl
                     (vcAt_set_same s.buf input f.vc.toNat cur_buf v _ hb hv)
                     (fun i w hne => vcAt_set_other s.buf input f.vc.toNat i w cur_buf _ hb hne)
                     ?_ ?_ ?_ ?_ ?_ hinv
                   all_goals first
                     | (intro i w hne
                        simp only [onRoute_append_one, onList_append_one, if_neg hne,
                          Nat.add_zero])
                     | (simp only [VCTracked, hst, reduceCtorEq, false_implies, true_implies,
                          true_and, and_true, onRoute_append_one, onList_append_one, and_self,
                          if_true, List.append_eq_nil, List.cons_ne_nil, and_false]
                        omega))
            · cases h
              refine pipeTracked_key cfg s _ input f.vc.toNat rfl rfl
                (fun i w hne => vcAt_set_other s.buf input f.vc.toNat i w cur_buf _ hb hne)
                (fun _ _ _ => rfl) (fun _ _ _ => rfl) (fun _ _ _ => rfl) (fun _ _ _ => rfl) ?_
                hinv
              rcases hk with hk | hk
              · exact Or.inr ⟨hin, hvc, _,
                  vcAt_set_same s.buf input f.vc.toNat cur_buf v _ hb hv,
                  vcTracked_more cfg v _ _ _ _ _ hk rfl rfl (fun hc => by simp at hc)⟩
              · exact Or.inl hk
theorem swHoldSend_tracked (cfg : AllocConfig) (now : Int) (input vc : Nat) (ei eo : Int)
    (output : Nat) (cur_buf : Buffer) (v : VC) (f : Flit) (waiting : List Flit)
    (dest_buf : BufferState) (s s' : RouterState)
    (e : AllocItem) (rest : List AllocItem)
    (hl : s.sw_hold_vcs = e :: rest) (he : e.input = input ∧ e.vc = vc)
    (hin : input < s.inputs) (hvc : vc < s.vcs)
    (hb : s.buf[input]? = some cur_buf) (hv : cur_buf[vc]? = some v)
    (hst : v.state = eVCState.active)
    (h : swHoldSend cfg now input vc ei eo output cur_buf v f waiting dest_buf s = some s')
    (hinv : PipeTracked cfg s) : PipeTracked cfg s' := by
  have hg := getVC_eq s input vc cur_buf v hb hv
  have hfr := onList_front s.sw_hold_vcs e rest hl
  rw [he.1, he.2] at hfr
  have ht := tracked_of_pos cfg s input vc v hinv hg (by omega)
  obtain ⟨h1, h2, h3, h4⟩ := ht.2.2.2 hst
  have hrq : ∀ i w, onList i w (List.tail (s.sw_hold_vcs ++
      [({ time := -1, input := input, vc := vc, output := -1 } : AllocItem)])) =
      onList i w s.sw_hold_vcs := fun i w =>
    onList_requeue i w _ e _ rest hl ⟨he.1.symm, he.2.symm⟩
  unfold swHoldSend at h
  cases htl : f.tail <;> cases hsp : cfg.speculative <;> cases hva : cfg.vc_allocator
  all_goals
    simp only [htl, hsp, hva, Bool.false_eq_true, Bool.true_eq_false, if_false, if_true] at h
    repeat' split at h
  all_goals first
    | exact absurd h.symm (Option.some_ne_none _)
    | (cases h
       refine pipeTracked_step cfg s _ input vc _ hin hvc rfl rfl
         (vcAt_set_same s.buf input vc cur_buf v _ hb hv)
         (fun i w hne => vcAt_set_other s.buf input vc i w cur_buf _ hb hne) ?_ ?_ ?_ ?_ ?_ hinv
       all_goals first
         | (intro i w hne
            simp only [onRoute_append_one, onList_append_one, onList_tail _ _ _ _ _ hl, hrq,
              he.1, he.2, if_neg hne, Nat.add_zero, Nat.sub_zero])
         | (simp only [VCTracked, hst, hsp, hva, reduceCtorEq, false_implies, true_implies,
              true_and, and_true, onRoute_append_one, onList_append_one,
              onList_tail _ _ _ _ _ hl, hrq, he.1, he.2, and_self, if_true,
              Bool.false_eq_true, Bool.true_eq_false, implies_true]
            omega))

theorem swHoldGrant_tracked (cfg : AllocConfig) (now : Int) (input vc : Nat)
    (ei eo held_in : Int) (cur_buf : Buffer) (v : VC) (f : Flit) (waiting : List Flit)
    (s s' : RouterState) (e : AllocItem) (rest : List AllocItem)
    (hl : s.sw_hold_vcs = e :: rest) (he : e.input = input ∧ e.vc = vc)
    (hin : input < s.inputs) (hvc : vc < s.vcs)
    (hb : s.buf[input]? = some cur_buf) (hv : cur_buf[vc]? = some v)
    (hst : v.state = eVCState.active)
    (h : swHoldGrant cfg now input vc ei eo held_in cur_buf v f waiting s = some s')
    (hinv : PipeTracked cfg s) : PipeTracked cfg s' := by
  unfold swHoldGrant at h
  repeat' split at h
  all_goals first
    | exact absurd h.symm (Option.some_ne_none _)
    | exact swHoldSend_tracked cfg now input vc _ _ _ cur_buf v f waiting _ s s' e rest hl he
        hin hvc hb hv hst h hinv

theorem swHoldCancel_tracked (cfg : AllocConfig) (sf sr : Int) (input vc : Nat)
    (ei eo held_in : Int) (cur_buf : Buffer) (v : VC) (f : Flit) (waiting : List Flit)
    (s s' : RouterState) (e : AllocItem) (rest : List AllocItem)
    (hl : s.sw_hold_vcs = e :: rest) (he : e.input = input ∧ e.vc = vc)
    (hin : input < s.inputs) (hvc : vc < s.vcs)
    (hb : s.buf[input]? = some cur_buf) (hv : cur_buf[vc]? = some v)
    (hst : v.state = eVCState.active) (hf : v.flits = f :: waiting)
    (h : swHoldCancel sf sr input vc ei eo held_in s = some s')
    (hinv : PipeTracked cfg s) : PipeTracked cfg s' := by
  have hg := getVC_eq s input vc cur_buf v hb hv
  have hfr := onList_front s.sw_hold_vcs e rest hl
  rw [he.1, he.2] at hfr
  have ht := tracked_of_pos cfg s input vc v hinv hg (by omega)
  obtain ⟨h1, h2, h3, h4⟩ := ht.2.2.2 hst
  unfold swHoldCancel at h
  repeat' split at h
  all_goals first
    | exact absurd h.symm (Option.some_ne_none _)
    | (cases h
       refine pipeTracked_step cfg s _ input vc v hin hvc rfl rfl hg
         (fun i w hne => rfl) ?_ ?_ ?_ ?_ ?_ hinv
       all_goals first
         | (intro i w hne
            simp only [onRoute_append_one, onList_append_one, onList_tail _ _ _ _ _ hl,
              he.1, he.2, if_neg hne, Nat.add_zero, Nat.sub_zero])
         | (simp only [VCTracked, hst, hf, reduceCtorEq, false_implies, true_implies, true_and,
              and_true, onRoute_append_one, onList_append_one, onList_tail _ _ _ _ _ hl,
              he.1, he.2, and_self, if_true]
            omega))

theorem swHoldUpdate_tracked (cfg : AllocConfig) (sf sr now time : Int) (input vc : Nat)
    (eo : Int) (s s' : RouterState) (e : AllocItem) (rest : List AllocItem)
    (hl : s.sw_hold_vcs = e :: rest) (he : e.input = input ∧ e.vc = vc)
    (h : swHoldUpdate cfg sf sr now time input vc eo s = some s')
    (hinv : PipeTracked cfg s) : PipeTracked cfg s' := by
  unfold swHoldUpdate at h
  split at h
  · exact absurd h.symm (Option.some_ne_none _)
  · split at h
    · exact absurd h.symm (Option.some_ne_none _)
    · split at h
      · exact absurd h.symm (Option.some_ne_none _)
      · rename_i hin0
        split at h
        · exact absurd h.symm (Option.some_ne_none _)
        · rename_i hvc0
          have hin : input < s.inputs := by omega
          have hvc : vc < s.vcs := by omega
          split at h
          · exact absurd h.symm (Option.some_ne_none _)
          · split at h
            · exact absurd h.symm (Option.some_ne_none _)
            · rename_i cur_buf hb
              split at h
              · exact absurd h.symm (Option.some_ne_none _)
              · rename_i v hv
                split at h
                · exact absurd h.symm (Option.some_ne_none _)
                · rename_i f waiting hf
                  split at h
                  · exact absurd h.symm (Option.some_ne_none _)
                  · rename_i hst0
                    have hst : v.state = eVCState.active := by
                      by_contra hc
                      exact hst0 hc
                    split at h
                    · exact absurd h.symm (Option.some_ne_none _)
                    · split at h
                      · exact absurd h.symm (Option.some_ne_none _)
                      · dsimp only at h
                        split at h
                        · split at h
                          · exact absurd h.symm (Option.some_ne_none _)
                          · split at h
                            · exact absurd h.symm (Option.some_ne_none _)
                            · exact swHoldGrant_tracked cfg now input vc _ _ _ cur_buf v f
                                waiting s s' e rest hl he hin hvc hb hv hst h hinv
                            · exact swHoldCancel_tracked cfg sf sr input vc _ _ _ cur_buf v f
                                waiting s s' e rest hl he hin hvc hb hv hst hf h hinv
                        · exact absurd h.symm (Option.some_ne_none _)
theorem vcAllocUpdateBody_tracked (g : Globals) (cfg : AllocConfig) (now : Int)
    (s s' : RouterState) (h : vcAllocUpdateBody g cfg now s = some s')
    (hinv : PipeTracked cfg s) : PipeTracked cfg s' := by
  unfold vcAllocUpdateBody at h
  split at h
  · exact absurd h.symm (Option.some_ne_none _)
  · rename_i item rest hl
    split at h
    · exact absurd h.symm (Option.some_ne_none _)
    · split at h
      · obtain ⟨cur_buf, v, f, waiting, -, -, hin, hvc, -, hb, hv, hf, hst, -, -, hbr⟩ :=
          vcAllocGrant_inv g cfg now _ _ _ _ s s' h
        exact vcGrantBranch_tracked g cfg _ _ _ s s' cur_buf v f waiting item rest hl ⟨rfl, rfl⟩
          hin hvc hb hv hst hf hbr hinv
      · obtain ⟨cur_buf, v, f, waiting, -, -, hin, hvc, -, hb, hv, -, hst, -, -, hbr⟩ :=
          vcAllocNoGrant_inv g cfg now _ _ _ _ s s' h
        exact vcNoGrantBranch_tracked g cfg now f _ _ s s' cur_buf v item rest hl ⟨rfl, rfl⟩
          hin hvc hb hv hst hbr hinv

theorem swAllocUpdateBody_tracked (g : Globals) (cfg : AllocConfig) (now : Int)
    (s s' : RouterState) (h : swAllocUpdateBody g cfg now s = some s')
    (hinv : PipeTracked cfg s) : PipeTracked cfg s' := by
  unfold swAllocUpdateBody at h
  split at h
  · exact absurd h.symm (Option.some_ne_none _)
  · rename_i item rest hl
    split at h
    · exact absurd h.symm (Option.some_ne_none _)
    · split at h
      · obtain ⟨cur_buf, v, f, waiting, -, hin, hvc, -, hb, hv, -, hst, -, hbr⟩ :=
          swAllocGrant_inv g cfg now _ _ _ _ s s' h
        exact swGrantBranch_tracked g cfg _ _ _ s s' cur_buf v f waiting item rest hl
          ⟨rfl, rfl⟩ hin hvc hb hv (hst.imp id (fun hc => hc.2)) hbr hinv
      · obtain ⟨cur_buf, v, f, waiting, -, hin, hvc, -, hb, hv, -, -, -, hbr⟩ :=
          swAllocNoGrant_inv g cfg now _ _ _ _ s s' h
        exact swNoGrantBranch_tracked g cfg now f _ _ s s' cur_buf v item rest hl ⟨rfl, rfl⟩
          hin hvc hb hv hbr hinv

theorem routeUpdateBody_tracked (cfg : AllocConfig) (now : Int) (route_set : List SetElement)
    (s s' : RouterState) (h : routeUpdateBody cfg now route_set s = some s')
    (hinv : PipeTracked cfg s) : PipeTracked cfg s' := by
  unfold routeUpdateBody at h
  split at h
  · exact absurd h.symm (Option.some_ne_none _)
  · rename_i item rest hl
    split at h
    · exact absurd h.symm (Option.some_ne_none _)
    · exact routeUpdate_tracked cfg now _ _ _ route_set s s' item rest hl ⟨rfl, rfl⟩ h hinv

theorem swHoldUpdateBody_tracked (cfg : AllocConfig) (sf sr now : Int)
    (s s' : RouterState) (h : swHoldUpdateBody cfg sf sr now s = some s')
    (hinv : PipeTracked cfg s) : PipeTracked cfg s' := by
  unfold swHoldUpdateBody at h
  split at h
  · exact absurd h.symm (Option.some_ne_none _)
  · rename_i item rest hl
    split at h
    · exact absurd h.symm (Option.some_ne_none _)
    · exact swHoldUpdate_tracked cfg sf sr now _ _ _ _ s s' item rest hl ⟨rfl, rfl⟩ h hinv

theorem sameTracks_tracked (cfg : AllocConfig) (s s' : RouterState) (h : SameTracks s s')
    (hinv : PipeTracked cfg s) : PipeTracked cfg s' := by
  obtain ⟨h1, h2, h3, h4, h5, h6, h7⟩ := h
  intro i w
  have := hinv i w
  unfold KeyTracked getVC onRoute onList at this ⊢
  rw [h1, h2, h3, h4, h5, h6, h7]
  exact this

/-- The work-lists track the input VCs in every state of the router. -/
theorem pipeReachable_tracked (g : Globals) (cfg : AllocConfig) (s : RouterState)
    (hr : PipeReachable g cfg s) : PipeTracked cfg s := by
  induction hr with
  | init s h =>
    intro i w
    refine Or.inl ?_
    rw [h.1, h.2.1, h.2.2.1, h.2.2.2]
    exact ⟨rfl, rfl, rfl, rfl⟩
  | queue s s' now input f _ h ih => exact inputQueuingFlit_tracked cfg now input f s s' h ih
  | route s s' now rs _ h ih => exact routeUpdateBody_tracked cfg now rs s s' h ih
  | vcAlloc s s' now _ h ih => exact vcAllocUpdateBody_tracked g cfg now s s' h ih
  | swHold s s' sf sr now _ h ih => exact swHoldUpdateBody_tracked cfg sf sr now s s' h ih
  | swAlloc s s' now _ h ih => exact swAllocUpdateBody_tracked g cfg now s s' h ih
  | other s s' _ h ih => exact sameTracks_tracked cfg s s' h ih
theorem getState_of_getVC (s : RouterState) (i w : Nat) (v : VC) (h : getVC s i w = some v) :
    GetState s i w = some v.state := by
  unfold getVC at h
  unfold GetState
  cases hb : s.buf[i]? with
  | none => simp [hb] at h
  | some b =>
    simp only [hb, Option.some_bind] at h ⊢
    rw [h]
    rfl

theorem tracked_idle_free (cfg : AllocConfig) (s : RouterState) (i w : Nat)
    (hinv : PipeTracked cfg s) (hidle : AllInputVCsIdle s) :
    onRoute i w s.route_vcs = 0 ∧ onList i w s.vc_alloc_vcs = 0 ∧
      onList i w s.sw_alloc_vcs = 0 ∧ onList i w s.sw_hold_vcs = 0 := by
  rcases hinv i w with h | ⟨hi, hw, v, hg, ht⟩
  · exact h
  · have h1 := getState_of_getVC s i w v hg
    rw [hidle i hi w hw] at h1
    exact ht.1 (Option.some.inj h1).symm

theorem worklists_empty_of_tracked (cfg : AllocConfig) (s : RouterState)
    (hinv : PipeTracked cfg s) (hidle : AllInputVCsIdle s) :
    s.route_vcs = [] ∧ s.vc_alloc_vcs = [] ∧ s.sw_alloc_vcs = [] ∧ s.sw_hold_vcs = [] := by
  refine ⟨?_, ?_, ?_, ?_⟩
  · cases hl : s.route_vcs with
    | nil => rfl
    | cons e rest =>
      have h1 := onRoute_front s.route_vcs e rest hl
      have h2 := (tracked_idle_free cfg s e.input e.vc hinv hidle).1
      omega
  · cases hl : s.vc_alloc_vcs with
    | nil => rfl
    | cons e rest =>
      have h1 := onList_front s.vc_alloc_vcs e rest hl
      have h2 := (tracked_idle_free cfg s e.input e.vc hinv hidle).2.1
      omega
  · cases hl : s.sw_alloc_vcs with
    | nil => rfl
    | cons e rest =>
      have h1 := onList_front s.sw_alloc_vcs e rest hl
      have h2 := (tracked_idle_free cfg s e.input e.vc hinv hidle).2.2.1
      omega
  · cases hl : s.sw_hold_vcs with
    | nil => rfl
    | cons e rest =>
      have h1 := onList_front s.sw_hold_vcs e rest hl
      have h2 := (tracked_idle_free cfg s e.input e.vc hinv hidle).2.2.2
      omega

/-- C3. Whenever the router is off or waking up, every input VC is idle and
`_crossbar_flits`, `_route_vcs`, `_vc_alloc_vcs` and `_sw_alloc_vcs` are empty.
(1) This holds when power_off is entered, in every state that the pipeline
reaches from the construction of the router (`PipeReachable`): the drain test
has found every input VC idle and the crossbar empty, and the work-lists,
which hold entries of input VCs that are not idle only (`PipeTracked`, proved
of every reachable state over the stages that fill the lists), are then empty.
(2) Every PowerStateEvaluate on a gated router preserves it. (3)
`_InternalStep` on a gated router runs `_RFlovStep` and `_OutputQueuing` and
nothing else, leaves the input VCs, the crossbar, the work-lists and the power
state as they were, and so preserves it. -/
theorem gated_router_is_quiescent :
    (∀ (g : Globals) (cfg : AllocConfig) (s s' : RouterState),
      PipeReachable g cfg s → s.power_state = ePowerState.draining →
      PowerStateEvaluate g s = some s' → s'.power_state = ePowerState.power_off →
      Quiescent s' ∧ s'.sw_hold_vcs = []) ∧
    (∀ (g : Globals) (s s' : RouterState),
      Gated s → Quiescent s → PowerStateEvaluate g s = some s' → Quiescent s') ∧
    (∀ (pipeline : RouterState → Option RouterState) (g : Globals) (now : Int)
      (s s' : RouterState),
      Gated s → _InternalStep pipeline g now s = some s' →
      (∃ s1, _RFlovStep g now s = some s1 ∧ _OutputQueuing s1 = some s') ∧
      SamePipeline s s' ∧ s'.power_state = s.power_state ∧
      (Quiescent s → Quiescent s')) := by
  refine ⟨?_, ?_, ?_⟩
  · intro g cfg s s' hreach hps h hoff
    have hsame := pse_same g s s' h
    have hd : evalDraining g s = some s' := by
      unfold PowerStateEvaluate at h
      split at h
      · cases h
      · split at h
        · cases h
        · simpa [hps] using h
    obtain ⟨acc, hdd⟩ := evalDraining_off_drained g s s' hps hd hoff
    obtain ⟨hacc, hall⟩ := buffersDrained_true s _ _ hdd
    simp only [Bool.and_eq_true, List.isEmpty_iff] at hacc
    have hidle : AllInputVCsIdle s := fun i hi => (hall i (List.mem_range.mpr hi)).1
    obtain ⟨h1, h2, h3, h4⟩ :=
      worklists_empty_of_tracked cfg s (pipeReachable_tracked g cfg s hreach) hidle
    exact ⟨quiescent_of_same s s' hsame ⟨hidle, hacc.2, h1, h2, h3⟩,
      hsame.2.2.2.2.2.2.1.trans h4⟩
  · intro g s s' _ hq h
    exact quiescent_of_same s s' (pse_same g s s' h) hq
  · intro pipeline g now s s' hg h
    unfold _InternalStep at h
    unfold Gated at hg
    rw [if_pos hg] at h
    cases h1 : _RFlovStep g now s with
    | none => simp [h1] at h
    | some s1 =>
      simp only [h1] at h
      cases h2 : _OutputQueuing s1 with
      | none => simp [h2] at h
      | some s2 =>
        simp only [h2] at h
        split at h
        · cases h
        · cases h
          obtain ⟨hs1, hp1, -⟩ := rflovStep_same g now s s1 h1
          obtain ⟨hs2, hp2⟩ := outputQueuing_same s1 s' h2
          have hsame := samePipeline_trans s s1 s' hs1 hs2
          exact ⟨⟨s1, rfl, h2⟩, hsame, hp2.trans hp1, quiescent_of_same s s' hsame⟩

/-- Witness of C3: router 5, whose work-lists are empty as at its
construction, completes its drain, and then, off, relays a flit and is
evaluated once more. -/
theorem gated_router_is_quiescent_witness :
    (PipeReachable mesh4 separate router5Drained ∧
      router5Drained.power_state = ePowerState.draining ∧
      PowerStateEvaluate mesh4 router5Drained = some router5Off ∧
      router5Off.power_state = ePowerState.power_off ∧ Quiescent router5Off) ∧
    (Gated router5FlyOver ∧ Quiescent router5FlyOver ∧
      PowerStateEvaluate mesh4 router5FlyOver = some router5StillOff ∧
      Quiescent router5StillOff) ∧
    (_InternalStep noPipeline mesh4 100 router5FlyOver = some router5Relayed ∧
      SamePipeline router5FlyOver router5Relayed ∧ Quiescent router5Relayed) :=
  ⟨⟨PipeReachable.init _ ⟨rfl, rfl, rfl, rfl⟩, by decide, by rfl, by decide,
      (gated_router_is_quiescent.1 mesh4 separate router5Drained router5Off
        (PipeReachable.init _ ⟨rfl, rfl, rfl, rfl⟩) (by decide) (by rfl) (by decide)).1⟩,
    ⟨by decide, by decide, by rfl,
      gated_router_is_quiescent.2.1 mesh4 router5FlyOver router5StillOff (by decide)
        (by decide) (by rfl)⟩,
    ⟨by rfl,
      (gated_router_is_quiescent.2.2 noPipeline mesh4 100 router5FlyOver router5Relayed
        (by decide) (by rfl)).2.1,
      (gated_router_is_quiescent.2.2 noPipeline mesh4 100 router5FlyOver router5Relayed
        (by decide) (by rfl)).2.2.2 (by decide)⟩⟩
theorem noEntry_of_count (i w : Nat) (l : List AllocItem) (h : onList i w l = 0) :
    NoEntry i w l := by
  intro item hmem hk
  unfold onList at h
  have : (item.input, item.vc) ∈ l.map (fun e => (e.input, e.vc)) :=
    List.mem_map.2 ⟨item, hmem, rfl⟩
  rw [hk.1, hk.2] at this
  exact absurd (List.count_pos_iff.2 this) (by omega)

theorem atMostOne_of_count (i w : Nat) (l : List AllocItem) (h : onList i w l ≤ 1) :
    AtMostOneEntry i w l := by
  unfold AtMostOneEntry
  unfold onList at h
  rw [List.count, List.countP_map] at h
  have : (fun e : AllocItem => decide (e.input = i ∧ e.vc = w)) =
      ((fun x => x == (i, w)) ∘ fun e : AllocItem => (e.input, e.vc)) := by
    funext e
    rw [Bool.eq_iff_iff]
    simp [Function.comp]
  rw [this]
  exact h

theorem eraseFirst_atMostOne (input vc : Nat) (l : List AllocItem)
    (h : AtMostOneEntry input vc l) : NoEntry input vc (eraseFirst input vc l) := by
  induction l with
  | nil =>
    intro item hi
    cases hi
  | cons item rest ih =>
    unfold AtMostOneEntry at h
    unfold eraseFirst
    by_cases hm : item.input = input ∧ item.vc = vc
    · rw [if_pos hm]
      rw [List.countP_cons_of_pos _ _ (by simpa using hm)] at h
      exact noEntry_of_countP input vc rest (by omega)
    · rw [if_neg hm]
      rw [List.countP_cons_of_neg _ _ (by simpa using hm)] at h
      intro x hx
      rcases List.mem_cons.1 hx with rfl | hx
      · exact hm
      · exact ih h x hx

theorem tracked_counts (cfg : AllocConfig) (s : RouterState) (input vc : Nat)
    (cur_buf : Buffer) (v : VC) (hinv : PipeTracked cfg s)
    (hb : s.buf[input]? = some cur_buf) (hv : cur_buf[vc]? = some v) :
    (v.state = eVCState.vc_alloc →
      onList input vc s.sw_alloc_vcs ≤ 1 ∧ onList input vc s.vc_alloc_vcs ≤ 1 ∧
      (cfg.speculative = false → onList input vc s.sw_alloc_vcs = 0)) ∧
    (v.state = eVCState.active → onList input vc s.vc_alloc_vcs = 0) := by
  have hg := getVC_eq s input vc cur_buf v hb hv
  rcases keyTracked_vc cfg s input vc v hg (hinv input vc) with h | h
  · exact ⟨fun hst => ⟨(h.2.2.1 hst).2.2.1, (h.2.2.1 hst).2.1, (h.2.2.1 hst).2.2.2.2.1⟩,
      fun hst => (h.2.2.2 hst).2.1⟩
  · exact ⟨fun _ => ⟨h.2.2.1 ▸ Nat.zero_le 1, h.2.1 ▸ Nat.zero_le 1, fun _ => h.2.2.1⟩,
      fun _ => h.2.1⟩

/-- C28. A head flit processed without grant that gets past the retarget
check meets the same timeout in `_VCAllocUpdate` and in `_SWAllocUpdate`. In
every state that the pipeline reaches (`PipeReachable`), for an entry that
passes the assertions at the head of the loop body, the pass returns a state;
at `now - rtime = 300` the VC is in state routing, `(input, vc)` is appended
once to `_route_vcs`, the entry leaves the work-list of the stage without
re-entry and the first entry for `(input, vc)` on the work-list of the other
stage is erased, after which that list holds no entry for `(input, vc)`; at
any other time the input buffers (so the state of the VC) and `_route_vcs`
are unchanged and the entry goes to the back of the same work-list with time
-1. The code erases from the other work-list only where an entry can stand
(`_VCAllocUpdate` under speculation, `_SWAllocUpdate` for a VC in state
vc_alloc); in a reachable state none stands elsewhere, and one at most where
one can stand (`pipeReachable_tracked`). -/
theorem timeout_both_stages (g : Globals) (cfg : AllocConfig) (now time : Int)
    (input vc : Nat) (s : RouterState) (cur_buf : Buffer) (v : VC) (f : Flit)
    (waiting : List Flit) (hreach : PipeReachable g cfg s)
    (hnow : now = time) (hin : input < s.inputs) (hvc : vc < s.vcs)
    (hb : s.buf[input]? = some cur_buf) (hv : cur_buf[vc]? = some v)
    (hf : v.flits = f :: waiting) (hfv : f.vc = (vc : Int)) (hh : f.head = true) :
    (∀ oav, oav < -1 → cfg.vc_allocator = true → v.state = eVCState.vc_alloc →
      KeptInVA g s v →
      ∃ s', vcAllocNoGrant g cfg now time input vc oav s = some s' ∧
        TimeoutOutcome now f input vc s s' RouterState.vc_alloc_vcs
          RouterState.sw_alloc_vcs ∧
        (now - f.rtime = 300 → NoEntry input vc s'.sw_alloc_vcs)) ∧
    (∀ eo, eo < 0 → KeptInSA g cfg s v →
      ∃ s', swAllocNoGrant g cfg now time input vc eo s = some s' ∧
        TimeoutOutcome now f input vc s s' RouterState.sw_alloc_vcs
          RouterState.vc_alloc_vcs ∧
        (now - f.rtime = 300 → NoEntry input vc s'.vc_alloc_vcs)) := by
  have hinv := pipeReachable_tracked g cfg s hreach
  have hc := tracked_counts cfg s input vc cur_buf v hinv hb hv
  constructor
  · rintro oav hoav hcfg hst ⟨setlist, hscan, hkeep⟩
    rw [vcAllocNoGrant_eq g cfg now time input vc oav s cur_buf v f waiting hcfg hnow hin hvc
      hoav hb hv hf hst hfv hh]
    obtain ⟨s', hs', ho⟩ := vcNoGrantBranch_timeout g cfg now f input vc s cur_buf v setlist
      hb hv hcfg hscan hkeep (fun hsp => noEntry_of_count _ _ _ ((hc.1 hst).2.2 hsp))
    refine ⟨s', hs', ho, fun ht => ?_⟩
    have h2 : s'.sw_alloc_vcs = eraseFirst input vc s.sw_alloc_vcs := (ho.1 ht).2.2
    rw [h2]
    exact eraseFirst_atMostOne input vc _ (atMostOne_of_count _ _ _ (hc.1 hst).1)
  · intro eo heo hk
    have hst : v.state = eVCState.active ∨
        (cfg.speculative = true ∧ v.state = eVCState.vc_alloc) := by
      rcases hk with ⟨h1, h2, -⟩ | ⟨h1, -⟩
      · exact Or.inr ⟨h2, h1⟩
      · exact Or.inl h1
    rw [swAllocNoGrant_eq g cfg now time input vc eo s cur_buf v f waiting hnow hin hvc heo hb
      hv hf hst hfv]
    have hone : onList input vc s.vc_alloc_vcs ≤ 1 := by
      rcases hst with ha | ⟨-, ha⟩
      · rw [hc.2 ha]
        exact Nat.zero_le 1
      · exact (hc.1 ha).2.1
    obtain ⟨s', hs', ho⟩ := swNoGrantBranch_timeout g cfg now f input vc s cur_buf v hb hv hh
      hin hvc
      (by
        rcases hk with ⟨h1, h2, h3, h4, h5⟩ | h
        · exact Or.inl ⟨h1, h2, h3, h4, h5⟩
        · exact Or.inr h)
      (fun ha => noEntry_of_count _ _ _ (hc.2 ha))
    refine ⟨s', hs', ho, fun ht => ?_⟩
    have h2 : s'.vc_alloc_vcs = eraseFirst input vc s.vc_alloc_vcs := (ho.1 ht).2.2
    rw [h2]
    exact eraseFirst_atMostOne input vc _ (atMostOne_of_count _ _ _ hone)

/-- C29 (divergence). The timeout of `_VCAllocUpdate` and of `_SWAllocUpdate`
tests `now - rtime == 300`, not `>=`. Whenever more than 300 cycles have passed
since the rtime stamp of the head flit and the entry, which passes the
assertions at the head of the loop body, is processed without grant (past the
retarget check), the pass changes nothing but the work-list of its stage,
where the entry goes to the back with time -1: the input buffers are the same,
so the VC stays in state vc_alloc or active, and nothing is appended to
`_route_vcs`. As this holds at every later cycle, a VC whose entry was not
processed without grant at cycle rtime + 300 exactly is never returned to
routing by the timeout. -/
theorem timeout_missed_after_300 (g : Globals) (cfg : AllocConfig) (now time : Int)
    (input vc : Nat) (s : RouterState) (cur_buf : Buffer) (v : VC) (f : Flit)
    (waiting : List Flit)
    (hnow : now = time) (hin : input < s.inputs) (hvc : vc < s.vcs)
    (hb : s.buf[input]? = some cur_buf) (hv : cur_buf[vc]? = some v)
    (hf : v.flits = f :: waiting) (hfv : f.vc = (vc : Int)) (hh : f.head = true)
    (hlate : 300 < now - f.rtime) :
    GetState s input vc = some v.state ∧
    (∀ oav, oav < -1 → cfg.vc_allocator = true → v.state = eVCState.vc_alloc →
      KeptInVA g s v →
      vcAllocNoGrant g cfg now time input vc oav s =
        some { s with vc_alloc_vcs := requeued input vc s.vc_alloc_vcs }) ∧
    (∀ eo, eo < 0 → KeptInSA g cfg s v →
      swAllocNoGrant g cfg now time input vc eo s =
        some { s with sw_alloc_vcs := requeued input vc s.sw_alloc_vcs }) := by
  have ht : now - f.rtime ≠ 300 := by omega
  refine ⟨?_, ?_, ?_⟩
  · unfold GetState
    simp only [hb, Option.some_bind, hv, Option.map_some']
  · intro oav hoav hcfg hst hk
    rw [vcAllocNoGrant_eq g cfg now time input vc oav s cur_buf v f waiting hcfg hnow hin hvc
      hoav hb hv hf hst hfv hh]
    exact vcNoGrantBranch_late g cfg now f input vc s cur_buf v hb hv hcfg hk ht
  · intro eo heo hk
    have hst : v.state = eVCState.active ∨
        (cfg.speculative = true ∧ v.state = eVCState.vc_alloc) := by
      rcases hk with ⟨h1, h2, -⟩ | ⟨h1, -⟩
      · exact Or.inr ⟨h2, h1⟩
      · exact Or.inl h1
    rw [swAllocNoGrant_eq g cfg now time input vc eo s cur_buf v f waiting hnow hin hvc heo hb
      hv hf hst hfv]
    exact swNoGrantBranch_late g cfg now f input vc s cur_buf v hb hv hh hk ht
theorem vcAllocGrant_branch (g : Globals) (cfg : AllocConfig) (now time : Int)
    (input vc : Nat) (oav : Int) (s s' : RouterState) (cur_buf : Buffer) (v : VC)
    (hb : s.buf[input]? = some cur_buf) (hv : cur_buf[vc]? = some v)
    (h : vcAllocGrant g cfg now time input vc oav s = some s') :
    cfg.vc_allocator = true ∧ input < s.inputs ∧ vc < s.vcs ∧ 0 ≤ oav ∧
      v.state = eVCState.vc_alloc ∧ v.flits ≠ [] ∧
      vcGrantBranch g cfg input vc oav s = some s' := by
  obtain ⟨cb, v2, f, rest, h1, -, h3, h4, h5, h6, h7, h8, h9, -, -, h12⟩ :=
    vcAllocGrant_inv g cfg now time input vc oav s s' h
  rw [hb] at h6
  cases h6
  rw [hv] at h7
  cases h7
  exact ⟨h1, h3, h4, h5, h9, by rw [h8]; exact List.cons_ne_nil _ _, h12⟩

theorem vcAllocNoGrant_branch (g : Globals) (cfg : AllocConfig) (now time : Int)
    (input vc : Nat) (oav : Int) (s s' : RouterState) (cur_buf : Buffer) (v : VC) (f : Flit)
    (waiting : List Flit)
    (hb : s.buf[input]? = some cur_buf) (hv : cur_buf[vc]? = some v)
    (hf : v.flits = f :: waiting)
    (h : vcAllocNoGrant g cfg now time input vc oav s = some s') :
    cfg.vc_allocator = true ∧ input < s.inputs ∧ vc < s.vcs ∧ oav < -1 ∧
      v.state = eVCState.vc_alloc ∧ f.head = true ∧
      vcNoGrantBranch g cfg now f input vc s = some s' := by
  obtain ⟨cb, v2, f2, rest, h1, -, h3, h4, h5, h6, h7, h8, h9, -, h11, h12⟩ :=
    vcAllocNoGrant_inv g cfg now time input vc oav s s' h
  rw [hb] at h6
  cases h6
  rw [hv] at h7
  cases h7
  rw [hf] at h8
  cases h8
  exact ⟨h1, h3, h4, h5, h9, h11, h12⟩

theorem swAllocNoGrant_branch (g : Globals) (cfg : AllocConfig) (now time : Int)
    (input vc : Nat) (eo : Int) (s s' : RouterState) (cur_buf : Buffer) (v : VC) (f : Flit)
    (waiting : List Flit)
    (hb : s.buf[input]? = some cur_buf) (hv : cur_buf[vc]? = some v)
    (hf : v.flits = f :: waiting)
    (h : swAllocNoGrant g cfg now time input vc eo s = some s') :
    input < s.inputs ∧ vc < s.vcs ∧ eo < 0 ∧
      (v.state = eVCState.active ∨ (cfg.speculative = true ∧ v.state = eVCState.vc_alloc)) ∧
      swNoGrantBranch g cfg now f input vc s = some s' := by
  obtain ⟨cb, v2, f2, rest, -, h3, h4, h5, h6, h7, h8, h9, -, h12⟩ :=
    swAllocNoGrant_inv g cfg now time input vc eo s s' h
  rw [hb] at h6
  cases h6
  rw [hv] at h7
  cases h7
  rw [hf] at h8
  cases h8
  exact ⟨h3, h4, h5, h9, h12⟩

theorem swAllocGrant_branch (g : Globals) (cfg : AllocConfig) (now time : Int)
    (input vc : Nat) (eo : Int) (s s' : RouterState) (cur_buf : Buffer) (v : VC) (f : Flit)
    (waiting : List Flit)
    (hb : s.buf[input]? = some cur_buf) (hv : cur_buf[vc]? = some v)
    (hf : v.flits = f :: waiting)
    (h : swAllocGrant g cfg now time input vc eo s = some s') :
    input < s.inputs ∧ vc < s.vcs ∧ 0 ≤ eo ∧
      (v.state = eVCState.active ∨ (cfg.speculative = true ∧ v.state = eVCState.vc_alloc)) ∧
      swGrantBranch g cfg input vc eo cur_buf v f waiting s = some s' := by
  obtain ⟨cb, v2, f2, rest, -, h3, h4, h5, h6, h7, h8, h9, -, h12⟩ :=
    swAllocGrant_inv g cfg now time input vc eo s s' h
  rw [hb] at h6
  cases h6
  rw [hv] at h7
  cases h7
  rw [hf] at h8
  cases h8
  exact ⟨h3, h4, h5, h9, h12⟩

/-- C33. In every state that the pipeline reaches (`PipeReachable`), the pass
of `_VCAllocUpdate` for the entry `(input, vc)` at the front of
`_vc_alloc_vcs`, which passes the assertions at the head of the loop body and
is granted an output whose downstream is ineligible, returns, and afterwards
the route set of the input VC is empty, its state is routing, `(input, vc)` is
appended once to `_route_vcs`, the entry has left `_vc_alloc_vcs`, and no
downstream state has changed, so TakeBuffer is not called. Under speculation
the loop that erases from `_sw_alloc_vcs` skips the entry that follows an
erased one; a reachable state has one entry for `(input, vc)` at most on that
list (`pipeReachable_tracked`), so no entry for `(input, vc)` is left and the
other entries stay in place. Without speculation `_sw_alloc_vcs` is not
touched. -/
theorem va_grant_ineligible (g : Globals) (cfg : AllocConfig) (now time : Int)
    (input vc : Nat) (oav : Int) (s : RouterState) (cur_buf : Buffer) (v : VC) (f : Flit)
    (waiting : List Flit) (hreach : PipeReachable g cfg s)
    (hcfg : cfg.vc_allocator = true) (hnow : now = time) (hin : input < s.inputs)
    (hvc : vc < s.vcs)
    (hb : s.buf[input]? = some cur_buf) (hv : cur_buf[vc]? = some v)
    (hf : v.flits = f :: waiting) (hst : v.state = eVCState.vc_alloc)
    (hfv : f.vc = (vc : Int)) (hh : f.head = true)
    (hoav : 0 ≤ oav) (hout : Int.tdiv oav s.vcs < (s.outputs : Int))
    (hinel : Ineligible g s (Int.tdiv oav s.vcs).toNat) :
    ∃ s', vcAllocGrant g cfg now time input vc oav s = some s' ∧
      GetRouteSet s' input vc = some [] ∧
      GetState s' input vc = some eVCState.routing ∧
      s'.route_vcs = s.route_vcs ++ [{ time := -1, input := input, vc := vc }] ∧
      s'.vc_alloc_vcs = s.vc_alloc_vcs.tail ∧
      s'.next_buf = s.next_buf ∧ (∀ o, takenOn s' o = takenOn s o) ∧
      (cfg.speculative = true →
        NoEntry input vc s'.sw_alloc_vcs ∧
        s'.sw_alloc_vcs =
          s.sw_alloc_vcs.filter (fun e => !decide (e.input = input ∧ e.vc = vc))) ∧
      (cfg.speculative = false → s'.sw_alloc_vcs = s.sw_alloc_vcs) := by
  have hinv := pipeReachable_tracked g cfg s hreach
  have hc := tracked_counts cfg s input vc cur_buf v hinv hb hv
  have hvcs : s.vcs ≠ 0 := by omega
  rw [vcAllocGrant_eq g cfg now time input vc oav s cur_buf v f waiting hcfg hnow hin hvc hoav
    hb hv hf hst hfv hh]
  refine ⟨_, vcGrantBranch_back g cfg input vc oav s cur_buf v hb hv hcfg hoav hvcs hout
    hinel, ?_, ?_, rfl, rfl, rfl, fun _ => rfl, ?_, ?_⟩
  · unfold GetRouteSet
    simp only [getRouteSet_set s.buf input vc cur_buf v _ hb hv]
  · unfold GetState
    simp only [getState_set s.buf input vc cur_buf v _ hb hv]
  · intro hsp
    obtain ⟨h1, h2⟩ := eraseSkipping_atMostOne input vc s.sw_alloc_vcs
      (atMostOne_of_count _ _ _ (hc.1 hst).1)
    simp only [if_pos hsp]
    exact ⟨h2, h1⟩
  · intro hsp
    have : ¬ cfg.speculative = true := by rw [hsp]; decide
    simp only [if_neg this]

theorem swAllocSend_effect (cfg : AllocConfig) (input vc : Nat) (ei eo : Int) (output : Nat)
    (cur_buf : Buffer) (v : VC) (f : Flit) (waiting : List Flit) (dest_buf : BufferState)
    (match_vc : Int) (rr : List Int) (s s' : RouterState)
    (h : swAllocSend cfg input vc ei eo output cur_buf v f waiting dest_buf match_vc rr s =
      some s') :
    (0 ≤ match_vc ∧ match_vc < (s.vcs : Int)) ∧
    ∃ f1, sentFlit cfg s output f match_vc = some f1 ∧
      s'.crossbar_flits = s.crossbar_flits ++
        [({ time := -1, flit := f1, input := ei, expanded_output := eo } : CrossbarItem)] ∧
      s'.next_buf = s.next_buf.set output (dest_buf.call (BufCall.SendingFlit f1)) := by
  unfold swAllocSend at h
  split at h
  · exact absurd h.symm (Option.some_ne_none _)
  · rename_i hr
    have hr2 : 0 ≤ match_vc ∧ match_vc < (s.vcs : Int) := by
      by_contra hc
      exact hr hc
    split at h
    · exact absurd h.symm (Option.some_ne_none _)
    · rename_i f1 hf1
      dsimp only at h
      repeat' split at h
      all_goals first
        | exact absurd h.symm (Option.some_ne_none _)
        | (cases h
           exact ⟨hr2, f1, hf1, rfl, rfl⟩)

theorem swGrantBranch_effect (g : Globals) (cfg : AllocConfig)
    (input vc : Nat) (eo : Int) (s s' : RouterState) (cur_buf : Buffer) (v : VC)
    (f : Flit) (waiting : List Flit)
    (hb : s.buf[input]? = some cur_buf) (hv : cur_buf[vc]? = some v)
    (h : swGrantBranch g cfg input vc eo cur_buf v f waiting s = some s') :
    ∃ lane dest_buf, cmod (vc : Int) cfg.input_speedup = some lane ∧
      s.output_speedup ≠ 0 ∧ 0 ≤ Int.tdiv eo s.output_speedup ∧
      s.next_buf[(Int.tdiv eo s.output_speedup).toNat]? = some dest_buf ∧
      ((cfg.vc_allocator = false ∧ v.state = eVCState.vc_alloc ∧
        ∃ m f1, piggybackVC cfg s f (Int.tdiv eo s.output_speedup) dest_buf v.route_set =
            some m ∧
          s'.crossbar_flits = s.crossbar_flits ++
            [({ time := -1, flit := f1,
                input := (input : Int) * cfg.input_speedup + lane,
                expanded_output := eo } : CrossbarItem)] ∧
          s'.next_buf = s.next_buf.set (Int.tdiv eo s.output_speedup).toNat
            ((dest_buf.call
              (BufCall.TakeBuffer m.1 ((input : Int) * (s.vcs : Int) + (vc : Int)))).call
              (BufCall.SendingFlit f1))) ∨
       (¬ (cfg.vc_allocator = false ∧ v.state = eVCState.vc_alloc) ∧
        v.output_port = Int.tdiv eo s.output_speedup ∧
        (f.head = true →
          backToRoute g s (Int.tdiv eo s.output_speedup).toNat = some false) ∧
        ∃ f1, s'.crossbar_flits = s.crossbar_flits ++
          [({ time := -1, flit := f1,
              input := (input : Int) * cfg.input_speedup + lane,
              expanded_output := eo } : CrossbarItem)] ∧
        s'.next_buf = s.next_buf.set (Int.tdiv eo s.output_speedup).toNat
          (dest_buf.call (BufCall.SendingFlit f1))) ∨
       (¬ (cfg.vc_allocator = false ∧ v.state = eVCState.vc_alloc) ∧
        v.output_port = Int.tdiv eo s.output_speedup ∧ f.head = true ∧
        backToRoute g s (Int.tdiv eo s.output_speedup).toNat = some true ∧
        s'.crossbar_flits = s.crossbar_flits ∧ Retargeted s s' input vc ∧
        GetRouteSet s' input vc = some [] ∧
        s'.sw_alloc_vcs = s.sw_alloc_vcs.tail ∧
        ((v.state = eVCState.vc_alloc ∧ s'.next_buf = s.next_buf) ∨
          (v.state ≠ eVCState.vc_alloc ∧
            s'.next_buf = s.next_buf.set (Int.tdiv eo s.output_speedup).toNat
              (dest_buf.call (BufCall.ReturnBuffer v.output_vc)))))) := by
  obtain ⟨lane, out, dest_buf, hlane, hout, hout0, -, hdest, hc⟩ :=
    swGrantBranch_cases g cfg input vc eo s s' cur_buf v f waiting h
  obtain ⟨hos, rfl⟩ := cdiv_eq_some _ _ _ hout
  refine ⟨lane, dest_buf, hlane, hos, hout0, hdest, ?_⟩
  rcases hc with ⟨hva, hvs, m, hm, hsend⟩ | ⟨hnp, hport, hc⟩
  · obtain ⟨-, f1, -, h1, h2⟩ := swAllocSend_effect cfg input vc _ _ _ cur_buf _ f waiting _ _
      _ s s' hsend
    exact Or.inl ⟨hva, hvs, m, f1, hm, h1, h2⟩
  · rcases hc with ⟨hh, hbt, hvs, -, hs'⟩ | ⟨hh, hbt, hvs, hs'⟩ | ⟨hbt, hsend⟩
    · subst hs'
      refine Or.inr (Or.inr ⟨hnp, hport, hh, hbt, rfl, ⟨?_, rfl⟩, ?_, rfl, Or.inl ⟨hvs, rfl⟩⟩)
      · unfold GetState
        simp only [getState_set s.buf input vc cur_buf v _ hb hv]
      · unfold GetRouteSet
        simp only [getRouteSet_set s.buf input vc cur_buf v _ hb hv]
    · subst hs'
      refine Or.inr (Or.inr ⟨hnp, hport, hh, hbt, rfl, ⟨?_, rfl⟩, ?_, rfl, Or.inr ⟨hvs, rfl⟩⟩)
      · unfold GetState
        simp only [getState_set s.buf input vc cur_buf v _ hb hv]
      · unfold GetRouteSet
        simp only [getRouteSet_set s.buf input vc cur_buf v _ hb hv]
    · obtain ⟨-, f1, -, h1, h2⟩ := swAllocSend_effect cfg input vc _ _ _ cur_buf _ f waiting _
        _ _ s s' hsend
      exact Or.inr (Or.inl ⟨hnp, hport, hbt, f1, h1, h2⟩)
theorem swGrantBranch_taken (g : Globals) (cfg : AllocConfig)
    (input vc : Nat) (eo : Int) (x x1 : RouterState) (cur_buf : Buffer) (v : VC)
    (f : Flit) (waiting : List Flit)
    (hb : x.buf[input]? = some cur_buf) (hv : cur_buf[vc]? = some v)
    (h : swGrantBranch g cfg input vc eo cur_buf v f waiting x = some x1) (o : Nat)
    (c : BufCall) (hc : c ∈ takenOn x1 o) :
    c ∈ takenOn x o ∨
      ∃ dest_buf m, x.next_buf[(Int.tdiv eo x.output_speedup).toNat]? = some dest_buf ∧
        piggybackVC cfg x f (Int.tdiv eo x.output_speedup) dest_buf v.route_set = some m ∧
        c = BufCall.TakeBuffer m.1 ((input : Int) * (x.vcs : Int) + (vc : Int)) := by
  rw [takenOn_eq] at hc ⊢
  obtain ⟨lane, dest_buf, -, -, -, hnb, hcase⟩ :=
    swGrantBranch_effect g cfg input vc eo x x1 cur_buf v f waiting hb hv h
  rcases hcase with ⟨-, -, m, f1, hm, -, hx⟩ | ⟨-, -, -, f1, -, hx⟩ |
    ⟨-, -, -, -, -, -, -, -, ⟨-, hx⟩ | ⟨-, hx⟩⟩
  · rw [hx] at hc
    rcases mem_takenIn_set _ _ dest_buf _ hnb o c hc with h1 | ⟨ho, h1⟩
    · exact Or.inl h1
    · rcases mem_takenIn_call _ _ c h1 with h2 | ⟨-, v1, t1, h2⟩
      · rcases mem_takenIn_call _ _ c h2 with h3 | ⟨h3, -⟩
        · left
          rw [ho, takenIn_one _ _ dest_buf hnb]
          exact h3
        · exact Or.inr ⟨dest_buf, m, hnb, hm, h3⟩
      · cases h2
  · rw [hx] at hc
    rcases mem_takenIn_set_call _ _ dest_buf hnb _ o c hc with h1 | ⟨-, v1, t1, h2⟩
    · exact Or.inl h1
    · cases h2
  · rw [hx] at hc
    exact Or.inl hc
  · rw [hx] at hc
    rcases mem_takenIn_set_call _ _ dest_buf hnb _ o c hc with h1 | ⟨-, v1, t1, h2⟩
    · exact Or.inl h1
    · cases h2

/-- C34 (amended). When a head flit completes VC allocation with a match
(port, v) and the downstream of that port is ineligible (its neighbor is
observed as draining or waking up), the pass of `_VCAllocUpdate` for the
granted entry sends the VC back to routing without any call on a downstream
state: the buffer has not been taken yet, so neither TakeBuffer nor
ReturnBuffer is invoked. `ReturnBuffer(v)` is invoked on the downstream state
of the port when the neighbor is observed as draining at switch allocation,
for a head flit, the front flit of a VC that an earlier VC allocation has made
active: by the pass of `_SWAllocUpdate` for an entry without grant, and by
the pass for an entry granted the output of the VC. -/
theorem va_retarget_keeps_downstream (g : Globals) (cfg : AllocConfig) (s : RouterState)
    (input vc : Nat) (cur_buf : Buffer) (v : VC)
    (hb : s.buf[input]? = some cur_buf) (hv : cur_buf[vc]? = some v) :
    (∀ s' now time oav, vcAllocGrant g cfg now time input vc oav s = some s' →
      Ineligible g s (Int.tdiv oav s.vcs).toNat →
      Retargeted s s' input vc ∧ s'.next_buf = s.next_buf ∧
      ∀ o, returnedOn s' o = returnedOn s o) ∧
    (∀ s' now time eo f waiting, v.flits = f :: waiting → f.head = true →
      v.state = eVCState.active → now - f.rtime ≠ 300 →
      swAllocNoGrant g cfg now time input vc eo s = some s' →
      Ineligible g s v.output_port.toNat →
      Retargeted s s' input vc ∧ ReturnedBuffer s s' v) ∧
    (∀ s' now time eo f waiting, v.flits = f :: waiting → f.head = true →
      v.state = eVCState.active →
      swAllocGrant g cfg now time input vc eo s = some s' →
      Ineligible g s (Int.tdiv eo s.output_speedup).toNat →
      Retargeted s s' input vc ∧ ReturnedBuffer s s' v) := by
  refine ⟨?_, ?_, ?_⟩
  · intro s' now time oav h0 hin
    have h := (vcAllocGrant_branch g cfg now time input vc oav s s' cur_buf v hb hv
      h0).2.2.2.2.2.2
    have hr := (vcGrantBranch_retarget g cfg s s' input vc oav h).2 hin
    have hnb := vcGrantBranch_next_buf g cfg s s' input vc oav h hr.2
    refine ⟨hr, hnb, fun o => ?_⟩
    unfold returnedOn
    rw [hnb]
  · intro s' now time eo f waiting hf hh hact hne h0 hin
    have h := (swAllocNoGrant_branch g cfg now time input vc eo s s' cur_buf v f waiting hb hv
      hf h0).2.2.2.2
    have hr := (swNoGrantBranch_retarget g cfg s s' now f input vc cur_buf v hb hv hh hact
      hne h).2 hin
    rcases swNoGrantBranch_next_buf g cfg s s' now f input vc cur_buf v hb hv h with
      ⟨hsame, -⟩ | ⟨-, hc⟩
    · exact absurd (hsame ▸ hr.2) (ne_append_singleton _ _)
    · rcases hc with ⟨hst, -⟩ | ⟨-, hx⟩
      · rw [hact] at hst
        cases hst
      · exact ⟨hr, hx⟩
  · intro s' now time eo f waiting hf hh hact h0 hin
    have h := (swAllocGrant_branch g cfg now time input vc eo s s' cur_buf v f waiting hb hv
      hf h0).2.2.2.2
    have hbt := backToRoute_of_ineligible g s _ hin
    obtain ⟨lane, dest_buf, -, -, -, hdest, hc⟩ :=
      swGrantBranch_effect g cfg input vc eo s s' cur_buf v f waiting hb hv h
    rcases hc with ⟨-, hst, -⟩ | ⟨-, -, hno, -⟩ | ⟨-, hport, -, -, -, hr, -, -, hnb⟩
    · rw [hact] at hst
      cases hst
    · rw [hno hh] at hbt
      cases hbt
    · rcases hnb with ⟨hst, -⟩ | ⟨-, hx⟩
      · rw [hact] at hst
        cases hst
      · exact ⟨hr, dest_buf, by rw [hport]; exact hdest, by rw [hport]; exact hx⟩

/-- C26 (divergence). The test of the retarget checks yields true exactly
when the output has a sink router, the id of that router is below N - K, and
neighbor_states[port] is draining or wakeup; a neighbor recorded as power_on
or power_off, a sink router of the memory-controller row and a port without
sink router never make it true. The pass of _VCAllocUpdate for a granted
entry sends the input VC back to routing if and only if that test is true for
the granted output; the pass of _SWAllocUpdate for a granted entry (head flit
at the front, outside the piggyback branch) sends the input VC back to routing
with the flit still waiting, nothing handed to the crossbar, if and only if
the test is true for the granted output; and the pass of _SWAllocUpdate for
an entry without grant of an active VC (head flit, no timeout) sends it back
if and only if the test is true for the output of the VC. The scan of a route
set (entry without grant of _VCAllocUpdate, mis-speculation branch of
_SWAllocUpdate) is different: it keeps the candidates that come before the
first one for which the test is true, and drops that one and every candidate
after it, whatever the test says for them, so a candidate with an eligible
neighbor is treated as ineligible. -/
theorem retarget_check (g : Globals) (cfg : AllocConfig) (s : RouterState) (input vc : Nat)
    (cur_buf : Buffer) (v : VC)
    (hb : s.buf[input]? = some cur_buf) (hv : cur_buf[vc]? = some v) :
    (∀ p b, backToRoute g s p = some b → (b = true ↔ Ineligible g s p)) ∧
    (∀ p, (s.output_sinks[p]? = some none ∨
        (∃ router, s.output_sinks[p]? = some (some router) ∧ router ≥ g.gNodes - g.gK) ∨
        s.neighbor_states[p]? = some ePowerState.power_on ∨
        s.neighbor_states[p]? = some ePowerState.power_off) → ¬ Ineligible g s p) ∧
    (∀ s' now time output_and_vc,
      vcAllocGrant g cfg now time input vc output_and_vc s = some s' →
      (Retargeted s s' input vc ↔ Ineligible g s (Int.tdiv output_and_vc s.vcs).toNat)) ∧
    (∀ s' now time expanded_output f waiting, v.flits = f :: waiting → f.head = true →
      ¬ (cfg.vc_allocator = false ∧ v.state = eVCState.vc_alloc) →
      swAllocGrant g cfg now time input vc expanded_output s = some s' →
      ((Retargeted s s' input vc ∧ s'.crossbar_flits = s.crossbar_flits) ↔
        Ineligible g s (Int.tdiv expanded_output s.output_speedup).toNat)) ∧
    (∀ s' now time expanded_output f waiting, v.flits = f :: waiting → f.head = true →
      v.state = eVCState.active → now - f.rtime ≠ 300 →
      swAllocNoGrant g cfg now time input vc expanded_output s = some s' →
      (Retargeted s s' input vc ↔ Ineligible g s v.output_port.toNat)) ∧
    (∀ l r, scanRouteSet g s l false [] = some r →
      ∃ dropped, l = r ++ dropped ∧
        (∀ e ∈ r, ¬ Ineligible g s e.output_port.toNat) ∧
        ∀ e, dropped.head? = some e → Ineligible g s e.output_port.toNat) := by
  refine ⟨fun p b h => backToRoute_iff g s p b h, ?_, ?_, ?_, ?_, ?_⟩
  · intro p hcase
    rintro ⟨router, hsink, hlt, hst⟩
    rcases hcase with h | ⟨r, h, hge⟩ | h | h
    · rw [hsink] at h
      cases h
    · rw [hsink] at h
      simp only [Option.some.injEq] at h
      subst h
      omega
    · rw [h] at hst
      rcases hst with e | e <;> cases e
    · rw [h] at hst
      rcases hst with e | e <;> cases e
  · intro s' now time oav h
    exact vcGrantBranch_retarget g cfg s s' input vc oav
      (vcAllocGrant_branch g cfg now time input vc oav s s' cur_buf v hb hv h).2.2.2.2.2.2
  · intro s' now time eo f waiting hf hh hnp h
    have hbr := (swAllocGrant_branch g cfg now time input vc eo s s' cur_buf v f waiting hb hv
      hf h).2.2.2.2
    obtain ⟨lane, dest_buf, -, -, -, -, hcase⟩ :=
      swGrantBranch_effect g cfg input vc eo s s' cur_buf v f waiting hb hv hbr
    rcases hcase with ⟨h1, h2, -⟩ | ⟨-, -, hbt, f1, hx, -⟩ | ⟨-, -, -, hbt, hx, hr, -⟩
    · exact absurd ⟨h1, h2⟩ hnp
    · constructor
      · rintro ⟨-, h2⟩
        exact absurd (h2.symm.trans hx) (ne_append_singleton _ _)
      · intro hin
        exact absurd ((backToRoute_iff g s _ false (hbt hh)).2 hin) (by decide)
    · exact ⟨fun _ => (backToRoute_iff g s _ true hbt).1 rfl, fun _ => ⟨hr, hx⟩⟩
  · intro s' now time eo f waiting hf hh hact hne h
    exact swNoGrantBranch_retarget g cfg s s' now f input vc cur_buf v hb hv hh hact hne
      (swAllocNoGrant_branch g cfg now time input vc eo s s' cur_buf v f waiting hb hv hf
        h).2.2.2.2
  · intro l r h
    obtain ⟨pre, dropped, hl, hr, hpre, hd⟩ := scanRouteSet_prefix g s l [] r h
    rw [List.nil_append] at hr
    subst hr
    refine ⟨dropped, hl, fun e he hin => ?_, fun e he => ?_⟩
    · exact absurd ((backToRoute_iff g s _ false (hpre e he)).2 hin) (by decide)
    · exact (backToRoute_iff g s _ true (hd e he)).1 rfl

/-- C35. Every pass of VC allocation and of switch allocation that sends the
input VC `(input, vc)` back to route computation with its flit still waiting
(by a retarget check or by the timeout) reverses the TakeBuffer of the VC
exactly once: the passes of `_VCAllocUpdate`, where the VC is in state
vc_alloc and no buffer is taken yet, leave the downstream states untouched; a
pass of `_SWAllocUpdate` calls `ReturnBuffer(match_vc)` once on the downstream
state of the assigned output port, and makes no other call, if the VC was
active, and leaves the downstream states untouched if the VC was in state
vc_alloc. A pass of `_SWAllocUpdate` for a granted entry that hands the flit
to the crossbar (the retarget check is false) is no such pass; it changes
`_crossbar_flits`. -/
theorem return_buffer_once (g : Globals) (cfg : AllocConfig) (s : RouterState)
    (input vc : Nat) (cur_buf : Buffer) (v : VC) (f : Flit) (waiting : List Flit)
    (hb : s.buf[input]? = some cur_buf) (hv : cur_buf[vc]? = some v)
    (hf : v.flits = f :: waiting) :
    (∀ s' now time oav, vcAllocGrant g cfg now time input vc oav s = some s' →
      Retargeted s s' input vc → s'.next_buf = s.next_buf) ∧
    (∀ s' now time oav, vcAllocNoGrant g cfg now time input vc oav s = some s' →
      s'.next_buf = s.next_buf) ∧
    (∀ s' now time eo, swAllocGrant g cfg now time input vc eo s = some s' →
      (s'.crossbar_flits = s.crossbar_flits →
        Retargeted s s' input vc ∧ ReversesTake s s' input vc v) ∧
      (s'.crossbar_flits ≠ s.crossbar_flits →
        ∃ item, s'.crossbar_flits = s.crossbar_flits ++ [item])) ∧
    (∀ s' now time eo, swAllocNoGrant g cfg now time input vc eo s = some s' →
      ReversesTake s s' input vc v) := by
  refine ⟨?_, ?_, ?_, ?_⟩
  · intro s' now time oav h hr
    exact vcGrantBranch_next_buf g cfg s s' input vc oav
      (vcAllocGrant_branch g cfg now time input vc oav s s' cur_buf v hb hv h).2.2.2.2.2.2 hr.2
  · intro s' now time oav h
    exact vcNoGrantBranch_next_buf g cfg now f s s' input vc
      (vcAllocNoGrant_branch g cfg now time input vc oav s s' cur_buf v f waiting hb hv hf
        h).2.2.2.2.2.2
  · intro s' now time eo h
    have hbr := (swAllocGrant_branch g cfg now time input vc eo s s' cur_buf v f waiting hb hv
      hf h).2.2.2.2
    obtain ⟨lane, dest_buf, -, -, -, hnb, hcase⟩ :=
      swGrantBranch_effect g cfg input vc eo s s' cur_buf v f waiting hb hv hbr
    rcases hcase with ⟨-, -, m, f1, -, hx, -⟩ | ⟨-, -, -, f1, hx, -⟩ |
      ⟨-, hport, -, -, hx, hr, -, -, hc⟩
    · exact ⟨fun h2 => absurd (h2.symm.trans hx) (ne_append_singleton _ _), fun _ => ⟨_, hx⟩⟩
    · exact ⟨fun h2 => absurd (h2.symm.trans hx) (ne_append_singleton _ _), fun _ => ⟨_, hx⟩⟩
    · refine ⟨fun _ => ⟨hr, fun _ => ?_⟩, fun h2 => absurd hx h2⟩
      rcases hc with ⟨hst, hx2⟩ | ⟨hst, hx2⟩
      · exact ⟨fun ha => absurd (hst.symm.trans ha) (by decide), fun _ => hx2⟩
      · exact ⟨fun _ => ⟨dest_buf, hport ▸ hnb, hport ▸ hx2⟩, fun ha => absurd ha hst⟩
  · intro s' now time eo h hr
    have hbr := (swAllocNoGrant_branch g cfg now time input vc eo s s' cur_buf v f waiting hb
      hv hf h).2.2.2.2
    rcases swNoGrantBranch_next_buf g cfg s s' now f input vc cur_buf v hb hv hbr with
      ⟨hsame, -⟩ | ⟨-, hc⟩
    · exact absurd (hsame ▸ hr.2) (ne_append_singleton _ _)
    · rcases hc with ⟨hst, hx⟩ | ⟨hst, hx⟩
      · exact ⟨fun ha => absurd (hst.symm.trans ha) (by decide), fun _ => hx⟩
      · exact ⟨fun _ => hx, fun ha => absurd (hst.symm.trans ha) (by decide)⟩

/-- C37. On a state that passes the assertions of the call, _RFlovStep
returns, and the calls of TakeBuffer recorded on the downstream state of each
output o are those recorded before followed by one call for each head flit
relayed to o, in order, with the VC of the flit and the owner tag
`_vcs * _inputs`; a flit that is no head flit adds no call. The tag
`_vcs * _inputs` differs from every tag `input * _vcs + vc` with input below
`_inputs` and vc below `_vcs`, and these are the tags that VC allocation
(`_VCAllocUpdate`, and `_SWAllocUpdate` under piggyback VC allocation, where
the VC taken is the one its scan of the route set yields) passes to
TakeBuffer for the entry `(input, vc)`. -/
theorem fly_over_owner_tag (g : Globals) (now : Int) (s : RouterState)
    (hwf : FlovReady g s) :
    ∃ s', _RFlovStep g now s = some s' ∧
      (∀ o, takenOn s' o = takenOn s o ++ flovTakes s.inputs s.vcs s.in_queue_flits o) ∧
      (∀ o c, c ∈ flovTakes s.inputs s.vcs s.in_queue_flits o ↔
        ∃ e ∈ s.in_queue_flits, opposite e.1 = o ∧ e.2.head = true ∧
          c = BufCall.TakeBuffer e.2.vc ((s.vcs : Int) * (s.inputs : Int))) ∧
      (∀ input vc : Nat, input < s.inputs → vc < s.vcs →
        (input : Int) * (s.vcs : Int) + (vc : Int) ≠ (s.vcs : Int) * (s.inputs : Int)) ∧
      (∀ cfg t time input vc oav x x1 o c,
        vcAllocGrant g cfg t time input vc oav x = some x1 →
        c ∈ takenOn x1 o → (input < x.inputs ∧ vc < x.vcs) ∧ (c ∈ takenOn x o ∨
          c = BufCall.TakeBuffer (Int.tmod oav x.vcs)
            ((input : Int) * (x.vcs : Int) + (vc : Int)))) ∧
      (∀ cfg t time input vc eo x x1 cur_buf v f waiting o c,
        x.buf[input]? = some cur_buf → cur_buf[vc]? = some v → v.flits = f :: waiting →
        swAllocGrant g cfg t time input vc eo x = some x1 →
        c ∈ takenOn x1 o → (input < x.inputs ∧ vc < x.vcs) ∧ (c ∈ takenOn x o ∨
          ∃ dest_buf m,
            x.next_buf[(Int.tdiv eo x.output_speedup).toNat]? = some dest_buf ∧
            piggybackVC cfg x f (Int.tdiv eo x.output_speedup) dest_buf v.route_set =
              some m ∧
            c = BufCall.TakeBuffer m.1 ((input : Int) * (x.vcs : Int) + (vc : Int)))) := by
  obtain ⟨s', hs'⟩ := rflovStep_total g now s hwf
  obtain ⟨nb, ob, pc, nb1, oqc, cc, oqc1, hflits, hcred, -, -, -, hnb1, -⟩ :=
    rflovStep_parts g now s s' hs'
  refine ⟨s', hs', ?_, ?_, ?_, ?_, ?_⟩
  · intro o
    rw [takenOn_eq, takenOn_eq, hnb1,
      flovCredits_taken g now s.id s.outputs s.vcs _ pc nb nb1 _ oqc hcred o,
      flovFlits_taken s.inputs s.vcs _ _ nb _ ob hflits o]
  · intro o c
    unfold flovTakes
    simp only [List.mem_map, List.mem_filter, Bool.and_eq_true, decide_eq_true_eq]
    constructor
    · rintro ⟨e, ⟨he, ho, hh⟩, rfl⟩
      exact ⟨e, he, ho, hh, rfl⟩
    · rintro ⟨e, he, ho, hh, rfl⟩
      exact ⟨e, ⟨he, ho, hh⟩, rfl⟩
  · intro input vc hi hv
    have h1 : (input : Int) + 1 ≤ (s.inputs : Int) := by omega
    have h2 : (vc : Int) < (s.vcs : Int) := by omega
    have h3 : ((input : Int) + 1) * (s.vcs : Int) ≤ (s.inputs : Int) * (s.vcs : Int) :=
      Int.mul_le_mul_of_nonneg_right h1 (by omega)
    intro heq
    rw [Int.mul_comm (s.vcs : Int)] at heq
    rw [Int.add_mul] at h3
    omega
  · intro cfg t time input vc oav x x1 o c h hc
    obtain ⟨cb, v2, f2, rest, -, -, h3, h4, -, -, -, -, -, -, -, hbr⟩ :=
      vcAllocGrant_inv g cfg t time input vc oav x x1 h
    exact ⟨⟨h3, h4⟩, vcGrantBranch_taken g cfg input vc oav x x1 hbr o c hc⟩
  · intro cfg t time input vc eo x x1 cur_buf v f waiting o c hb hv hf h hc
    obtain ⟨h3, h4, -, -, hbr⟩ :=
      swAllocGrant_branch g cfg t time input vc eo x x1 cur_buf v f waiting hb hv hf h
    exact ⟨⟨h3, h4⟩, swGrantBranch_taken g cfg input vc eo x x1 cur_buf v f waiting hb hv hbr
      o c hc⟩
theorem router5Speculating_reachable : PipeReachable mesh4 speculating router5Speculating :=
  PipeReachable.other router5Routed46 _
    (PipeReachable.route { router5Arrived46 with route_vcs := [{ time := 0, input := 1, vc := 0 }] }
      _ 0 [candidate 0 0]
      (PipeReachable.other router5Arrived46 _
        (PipeReachable.queue router5 _ 0 1 flit46 (PipeReachable.init _ ⟨rfl, rfl, rfl, rfl⟩)
          (by rfl))
        ⟨rfl, rfl, rfl, rfl, rfl, rfl, rfl⟩)
      (by rfl))
    ⟨rfl, rfl, rfl, rfl, rfl, rfl, rfl⟩

theorem router5OnBothLists_reachable : PipeReachable mesh4 speculating router5OnBothLists :=
  PipeReachable.other router5Routed49 _
    (PipeReachable.route { router5Arrived49 with route_vcs := [{ time := 0, input := 1, vc := 0 }] }
      _ 0 [candidate 2 0]
      (PipeReachable.other router5Arrived49 _
        (PipeReachable.queue router5 _ 0 1 flit49 (PipeReachable.init _ ⟨rfl, rfl, rfl, rfl⟩)
          (by rfl))
        ⟨rfl, rfl, rfl, rfl, rfl, rfl, rfl⟩)
      (by rfl))
    ⟨rfl, rfl, rfl, rfl, rfl, rfl, rfl⟩

/-- Witness of C26, with its failing input: at router 5 the VC allocation of
output 0, towards the draining router 6, is turned into a return to routing,
and so is the switch allocation of output 0 to the active VC, whose flit
stays where it is; and the scan of the route set with the candidates output 0
and output 2 drops both, although the test is false for output 2, behind
which router 9 is on. -/
theorem retarget_check_witness :
    router5Allocating.buf[1]? = some
      [{ state := eVCState.vc_alloc, output_port := -1, output_vc := -1,
         route_set := [candidate 0 0], flits := [flit46] },
       { state := eVCState.idle, output_port := -1, output_vc := -1 }] ∧
    vcAllocUpdateBody mesh4 separate 5 router5Allocating = some router5Rerouted ∧
    swAllocUpdateBody mesh4 separate 7 router5Overtaken = some router5Released ∧
    vcAllocGrant mesh4 separate 5 5 1 0 0 router5Allocating = some router5Rerouted ∧
    (Retargeted router5Allocating router5Rerouted 1 0 ↔
      Ineligible mesh4 router5Allocating (Int.tdiv 0 router5Allocating.vcs).toNat) ∧
    Retargeted router5Allocating router5Rerouted 1 0 ∧
    swAllocGrant mesh4 separate 7 7 1 0 0 router5Overtaken = some router5Released ∧
    ((Retargeted router5Overtaken router5Released 1 0 ∧
        router5Released.crossbar_flits = router5Overtaken.crossbar_flits) ↔
      Ineligible mesh4 router5Overtaken (Int.tdiv 0 router5Overtaken.output_speedup).toNat) ∧
    router5TwoWays.neighbor_states[2]? = some ePowerState.power_on ∧
    ¬ Ineligible mesh4 router5TwoWays (candidate 2 0).output_port.toNat ∧
    scanRouteSet mesh4 router5TwoWays [candidate 0 1, candidate 2 0] false [] = some [] :=
  have h := retarget_check mesh4 separate router5Allocating 1 0 _ _ (by rfl) (by rfl)
  ⟨by rfl, by rfl, by rfl, by rfl, h.2.2.1 router5Rerouted 5 5 0 (by rfl),
    ⟨by decide, by rfl⟩, by rfl,
    (retarget_check mesh4 separate router5Overtaken 1 0 _ _ (by rfl) (by rfl)).2.2.2.1
      router5Released 7 7 0 flit46 [] (by rfl) (by rfl) (by decide) (by rfl),
    by decide,
    (retarget_check mesh4 separate router5TwoWays 1 0 _ _ (by rfl) (by rfl)).2.1 2
      (Or.inr (Or.inr (Or.inl (by decide)))),
    by decide⟩

/-- C27 (failing input). The head flit waits without grant in VC 0 of input
port 1 of router 5, with the candidates output 0 and output 2 in its route
set. Router 6 behind output 0 is draining; router 9 behind output 2 is on, so
the test of the retarget check is false for it. The pass of _VCAllocUpdate
for the entry without grant sets `delete_route` at the first candidate and
never resets it, erases both candidates from its copy of the route set, and
sends the VC back to routing with its route set cleared, although one
candidate is eligible. -/
theorem vc_alloc_retarget_sticky :
    GetState router5TwoWays 1 0 = some eVCState.vc_alloc ∧
    backToRoute mesh4 router5TwoWays 0 = some true ∧
    backToRoute mesh4 router5TwoWays 2 = some false ∧
    ¬ Ineligible mesh4 router5TwoWays 2 ∧
    scanRouteSet mesh4 router5TwoWays [candidate 0 1, candidate 2 0] false [] = some [] ∧
    vcAllocUpdateBody mesh4 separate 5 router5TwoWays = some router5TwoWaysBounced ∧
    vcAllocNoGrant mesh4 separate 5 5 1 0 (-2) router5TwoWays = some router5TwoWaysBounced ∧
    Retargeted router5TwoWays router5TwoWaysBounced 1 0 ∧
    GetRouteSet router5TwoWaysBounced 1 0 = some [] :=
  ⟨by decide, by decide, by decide,
    fun h => absurd ((backToRoute_iff mesh4 router5TwoWays 2 false (by decide)).2 h)
      (by decide),
    by decide, by rfl, by rfl, ⟨by decide, by rfl⟩, by decide⟩

/-- Witness of C28: under speculation the head flit for router 9 waits in VC
0 of input port 1 of router 5, with an entry at the front of both allocation
lists, without grant, 300 cycles after it was routed; the state is reached
from the construction of the router by `_InputQueuing` and `_RouteUpdate`. -/
theorem timeout_both_stages_witness :
    vcAllocUpdateBody mesh4 speculating 300 router5OnBothLists =
      vcAllocNoGrant mesh4 speculating 300 300 1 0 (-2) router5OnBothLists ∧
    swAllocUpdateBody mesh4 speculating 300 router5OnBothLists =
      swAllocNoGrant mesh4 speculating 300 300 1 0 (-2) router5OnBothLists ∧
    PipeReachable mesh4 speculating router5OnBothLists ∧
    (∃ s', vcAllocNoGrant mesh4 speculating 300 300 1 0 (-2) router5OnBothLists = some s' ∧
      TimeoutOutcome 300 flit49 1 0 router5OnBothLists s' RouterState.vc_alloc_vcs
        RouterState.sw_alloc_vcs ∧
      NoEntry 1 0 s'.sw_alloc_vcs) ∧
    (∃ s', swAllocNoGrant mesh4 speculating 300 300 1 0 (-2) router5OnBothLists = some s' ∧
      TimeoutOutcome 300 flit49 1 0 router5OnBothLists s' RouterState.sw_alloc_vcs
        RouterState.vc_alloc_vcs ∧
      NoEntry 1 0 s'.vc_alloc_vcs) :=
  have h := timeout_both_stages mesh4 speculating 300 300 1 0 router5OnBothLists
    [{ state := eVCState.vc_alloc, output_port := -1, output_vc := -1,
       route_set := [candidate 2 0], flits := [flit49] },
     { state := eVCState.idle, output_port := -1, output_vc := -1 }]
    { state := eVCState.vc_alloc, output_port := -1, output_vc := -1,
      route_set := [candidate 2 0], flits := [flit49] }
    flit49 [] router5OnBothLists_reachable (by rfl) (by decide) (by decide) (by rfl) (by rfl)
    (by rfl) (by rfl) (by rfl)
  ⟨by rfl, by rfl, router5OnBothLists_reachable,
    (h.1 (-2) (by decide) (by rfl) (by rfl) ⟨[candidate 2 0], by decide, by decide⟩).elim
      fun s' hs => ⟨s', hs.1, hs.2.1, hs.2.2 (by decide)⟩,
    (h.2 (-2) (by decide)
      (Or.inl ⟨by rfl, by rfl, by rfl, by rfl, [candidate 2 0], by decide, by decide⟩)).elim
      fun s' hs => ⟨s', hs.1, hs.2.1, hs.2.2 (by decide)⟩⟩

/-- Witness of C29: the entry of the active VC is processed without grant at
cycle 301, one cycle after the timeout was due, and the VC stays active. -/
theorem timeout_missed_after_300_witness :
    swAllocUpdateBody mesh4 separate 301 router5Stuck = some router5StillStuck ∧
    GetState router5Stuck 1 0 = some eVCState.active ∧
    swAllocNoGrant mesh4 separate 301 301 1 0 (-2) router5Stuck = some router5StillStuck ∧
    GetState router5StillStuck 1 0 = some eVCState.active ∧
    router5StillStuck.route_vcs = [] :=
  have h := timeout_missed_after_300 mesh4 separate 301 301 1 0 router5Stuck
    [{ state := eVCState.active, output_port := 2, output_vc := 0,
       route_set := [candidate 2 0], flits := [flit49] },
     { state := eVCState.idle, output_port := -1, output_vc := -1 }]
    { state := eVCState.active, output_port := 2, output_vc := 0,
      route_set := [candidate 2 0], flits := [flit49] }
    flit49 [] (by rfl) (by decide) (by decide) (by rfl) (by rfl) (by rfl) (by rfl) (by rfl)
    (by decide)
  ⟨by rfl, h.1,
    (h.2.2 (-2) (by decide)
      (Or.inr ⟨by rfl, by decide, by decide, by decide, by decide⟩)).trans (by rfl),
    by decide, by rfl⟩

/-- Witness of C33: under speculation the head flit in VC 0 of input port 1 of
router 5 is granted VC 0 of output 0, behind which router 6 is draining; the
state is reached from the construction of the router by `_InputQueuing` and
`_RouteUpdate`. -/
theorem va_grant_ineligible_witness :
    vcAllocUpdateBody mesh4 speculating 5 router5Speculating =
      vcAllocGrant mesh4 speculating 5 5 1 0 0 router5Speculating ∧
    PipeReachable mesh4 speculating router5Speculating ∧
    Ineligible mesh4 router5Speculating 0 ∧
    ∃ s', vcAllocGrant mesh4 speculating 5 5 1 0 0 router5Speculating = some s' ∧
      GetRouteSet s' 1 0 = some [] ∧ GetState s' 1 0 = some eVCState.routing ∧
      s'.route_vcs = [{ time := -1, input := 1, vc := 0 }] ∧ s'.vc_alloc_vcs = [] ∧
      s'.sw_alloc_vcs = [] ∧ takenOn s' 0 = [] :=
  have hin : Ineligible mesh4 router5Speculating 0 :=
    (backToRoute_iff mesh4 router5Speculating 0 true (by decide)).1 rfl
  ⟨by rfl, router5Speculating_reachable, hin,
    (va_grant_ineligible mesh4 speculating 5 5 1 0 0 router5Speculating _ _ flit46 []
      router5Speculating_reachable (by rfl) (by rfl) (by decide) (by decide) (by rfl) (by rfl)
      (by rfl) (by rfl) (by rfl) (by rfl) (by decide) (by decide) hin).elim
      fun s' h => ⟨s', h.1, h.2.1, h.2.2.1, h.2.2.2.1, h.2.2.2.2.1,
        (h.2.2.2.2.2.2.2.1 (by rfl)).2.trans (by decide),
        (h.2.2.2.2.2.2.1 0).trans (by decide)⟩⟩

/-- Witness of C34: the grant of output 0 to VC 0 of input port 1 of router 5,
with router 6 draining, is turned into a return to routing and leaves the
downstream states as they were; when the VC is active for output 0, the pass
of `_SWAllocUpdate` for the entry granted output 0 sends it back to routing
and returns the buffer. -/
theorem va_retarget_keeps_downstream_witness :
    vcAllocUpdateBody mesh4 separate 5 router5Allocating = some router5Rerouted ∧
    swAllocUpdateBody mesh4 separate 7 router5Overtaken = some router5Released ∧
    Ineligible mesh4 router5Allocating 0 ∧
    vcAllocGrant mesh4 separate 5 5 1 0 0 router5Allocating = some router5Rerouted ∧
    Retargeted router5Allocating router5Rerouted 1 0 ∧
    router5Rerouted.next_buf = router5Allocating.next_buf ∧
    swAllocGrant mesh4 separate 7 7 1 0 0 router5Overtaken = some router5Released ∧
    Retargeted router5Overtaken router5Released 1 0 ∧
    ReturnedBuffer router5Overtaken router5Released
      { state := eVCState.active, output_port := 0, output_vc := 0,
        route_set := [candidate 0 0], flits := [flit46] } :=
  have hin : Ineligible mesh4 router5Allocating 0 :=
    (backToRoute_iff mesh4 router5Allocating 0 true (by decide)).1 rfl
  have h := (va_retarget_keeps_downstream mesh4 separate router5Allocating 1 0 _ _ (by rfl)
    (by rfl)).1 router5Rerouted 5 5 0 (by rfl) hin
  have h3 := (va_retarget_keeps_downstream mesh4 separate router5Overtaken 1 0 _ _ (by rfl)
    (by rfl)).2.2 router5Released 7 7 0 flit46 [] (by rfl) (by rfl) (by rfl) (by rfl)
    ((backToRoute_iff mesh4 router5Overtaken 0 true (by decide)).1 rfl)
  ⟨by rfl, by rfl, hin, by rfl, h.1, h.2.1, by rfl, h3.1, h3.2⟩

/-- Counterexample to C34 as stated: the head flit in VC 0 of input port 1 of
router 5 completes VC allocation with the match (port 0, VC 0) while router 6
behind port 0 is recorded as draining. The VC returns to routing, and no call
of ReturnBuffer is recorded on the downstream state of port 0 (nor any other
call). -/
theorem va_retarget_keeps_downstream_counterexample :
    router5Allocating.neighbor_states[0]? = some ePowerState.draining ∧
    GetState router5Allocating 1 0 = some eVCState.vc_alloc ∧
    router5Allocating.vc_alloc_vcs = [{ time := 5, input := 1, vc := 0, output := 0 }] ∧
    vcAllocUpdateBody mesh4 separate 5 router5Allocating = some router5Rerouted ∧
    vcAllocGrant mesh4 separate 5 5 1 0 0 router5Allocating = some router5Rerouted ∧
    GetState router5Rerouted 1 0 = some eVCState.routing ∧
    returnedOn router5Rerouted 0 = [] ∧
    router5Rerouted.next_buf[0]? = some { avail := [4, 4], calls := [] } :=
  ⟨by decide, by decide, by rfl, by rfl, by rfl, by decide, by decide, by decide⟩

/-- Witness of C35: VC 0 of input port 1 of router 5 is active for output 0,
whose buffer VC allocation has taken, when router 6 behind output 0 is
draining. The pass of `_SWAllocUpdate` sends the VC back to routing and
returns the buffer once, for the entry without grant and for the entry granted
output 0 alike. -/
theorem return_buffer_once_witness :
    swAllocUpdateBody mesh4 separate 7 router5Committed = some router5Released ∧
    swAllocUpdateBody mesh4 separate 7 router5Overtaken = some router5Released ∧
    swAllocNoGrant mesh4 separate 7 7 1 0 (-2) router5Committed = some router5Released ∧
    Retargeted router5Committed router5Released 1 0 ∧
    ReturnedBuffer router5Committed router5Released
      { state := eVCState.active, output_port := 0, output_vc := 0,
        route_set := [candidate 0 0], flits := [flit46] } ∧
    swAllocGrant mesh4 separate 7 7 1 0 0 router5Overtaken = some router5Released ∧
    Retargeted router5Overtaken router5Released 1 0 ∧
    ReversesTake router5Overtaken router5Released 1 0
      { state := eVCState.active, output_port := 0, output_vc := 0,
        route_set := [candidate 0 0], flits := [flit46] } ∧
    takenOn router5Released 0 = [BufCall.TakeBuffer 0 2] ∧
    returnedOn router5Released 0 = [BufCall.ReturnBuffer 0] :=
  have h1 := (return_buffer_once mesh4 separate router5Overtaken 1 0 _ _ flit46 [] (by rfl)
    (by rfl) (by rfl)).2.2.1 router5Released 7 7 0 (by rfl)
  ⟨by rfl, by rfl, by rfl, ⟨by decide, by rfl⟩,
    ((return_buffer_once mesh4 separate router5Committed 1 0 _ _ flit46 [] (by rfl) (by rfl)
      (by rfl)).2.2.2 router5Released 7 7 (-2) (by rfl) ⟨by decide, by rfl⟩).1 (by rfl),
    by rfl, (h1.1 (by rfl)).1, (h1.1 (by rfl)).2, by decide, by decide⟩

/-- Witness of C37: router 5 is off and the head flit from router 4 waits at
input port 1; the fly-over records `TakeBuffer(0, 10)` on the downstream state
of port 0 (two VCs times five inputs) and no call on port 1. -/
theorem fly_over_owner_tag_witness :
    FlovReady mesh4 router5FlyOver ∧
    ∃ s', _RFlovStep mesh4 100 router5FlyOver = some s' ∧
      takenOn s' 0 = [BufCall.TakeBuffer 0 10] ∧ takenOn s' 1 = [] :=
  ⟨by decide,
    (fly_over_owner_tag mesh4 100 router5FlyOver (by decide)).elim
      fun s' h => ⟨s', h.1, (h.2.1 0).trans (by decide), (h.2.1 1).trans (by decide)⟩⟩

end RFLOV
